import Mathlib

/-!
# PriFi: client message handlers and relay round loop

A shallow embedding of `prifi-lib/client/client.go`, of `processMessageLoop`
in `relay/relayLogic.go` and of `ReadWithTimeOut` in `net/helpers.go`.

Conventions of the embedding

* Go `int` is `Int`; `int32` values are `Int` kept in range by `wrapInt32`;
  `uint64` values are `Nat` reduced modulo `2^64`; a byte is a `Nat` below 256.
* A Go slice that the code tests against `nil` is an `Option (List Nat)`.
* A handler is a function from the instance to an outcome `Run`, which is a
  normal return, a runtime panic, a `log.Fatal` exit, or exhaustion of the
  recursion budget of the model.
* Messages handed to `SendToRelayWithLog` are appended to `messageSender.sent`.
* Channels are queues: a send appends, a non-blocking receive pops the head;
  a send on an unbuffered channel that no goroutine reads waits for ever.
* Logging and the `timeStatistics` telemetry are left out.
* Packages that are not part of the embedded files (DC-net coder, Neff
  shuffle, slot scheduler, hashing, PCAP parsing) are fields of `Collaborators`.
-/

namespace PriFi

/-! ## Basic data -/

abbrev Bytes := List Nat

/-- A Go byte slice that may be `nil` (`none`). -/
abbrev GoSlice := Option Bytes

abbrev Point := Nat

abbrev Scalar := Nat

/-- Two's complement reduction of an integer to the `int32` range. -/
def wrapInt32 (x : Int) : Int := (x + 2147483648) % 4294967296 - 2147483648

/-- Conversion `uint64(x)`. -/
def toUint64 (x : Int) : Nat := (x % 18446744073709551616).toNat

/-- Subtraction of two `uint64` values. -/
def subUint64 (a b : Nat) : Nat :=
  ((a : Int) - (b : Int)) % 18446744073709551616 |>.toNat

/-- Conversion `byte(x)` of an `int`. -/
def toByte (x : Int) : Nat := (x % 256).toNat

/-- Conversion `uint16(x)` of an `int`. -/
def toUint16 (x : Int) : Nat := (x % 65536).toNat

/-- The slice `make([]byte, n)` for `n >= 0`. -/
def zeros (n : Int) : Bytes := List.replicate n.toNat 0

/-- Outcome of running a piece of Go code. -/
inductive Run (α : Type) where
  | done (a : α)
  | crashed (why : String)
  | exited (why : String)
  | diverged
  deriving Repr, DecidableEq

/-! ## Messages -/

/-- The message `net.REL_CLI_DOWNSTREAM_DATA`. -/
structure REL_CLI_DOWNSTREAM_DATA where
  RoundID : Int
  OwnershipID : Int
  FlagResync : Bool
  FlagOpenClosedRequest : Bool
  Data : Bytes
  deriving Repr, DecidableEq

/-- The message `net.REL_CLI_TELL_EPH_PKS_AND_TRUSTEES_SIG`. -/
structure REL_CLI_TELL_EPH_PKS_AND_TRUSTEES_SIG where
  Base : Point
  EphPks : List Point
  Signatures : List Bytes
  deriving Repr, DecidableEq

/-- Modelled from the spec: the message `net.ALL_ALL_PARAMETERS`, whose
declaration is not among the embedded files, is "a bag of named options"
that "carries the list of trustee public keys". -/
structure ALL_ALL_PARAMETERS where
  ParamsInt : List (String × Int)
  ParamsStr : List (String × String)
  ParamsBool : List (String × Bool)
  TrusteesPks : List Point
  deriving Repr, DecidableEq

/-- Modelled from the spec: `IntValueOrElse` returns the named option when the
bag holds it and the given default otherwise. -/
def ALL_ALL_PARAMETERS.IntValueOrElse (m : ALL_ALL_PARAMETERS) (key : String) (elseVal : Int) : Int :=
  (m.ParamsInt.lookup key).getD elseVal

/-- Modelled from the spec: `BoolValueOrElse`, see `IntValueOrElse`. -/
def ALL_ALL_PARAMETERS.BoolValueOrElse (m : ALL_ALL_PARAMETERS) (key : String) (elseVal : Bool) : Bool :=
  (m.ParamsBool.lookup key).getD elseVal

/-- Modelled from the spec: `StringValueOrElse`, see `IntValueOrElse`. -/
def ALL_ALL_PARAMETERS.StringValueOrElse (m : ALL_ALL_PARAMETERS) (key : String) (elseVal : String) : String :=
  (m.ParamsStr.lookup key).getD elseVal

/-- Messages a client hands to `SendToRelayWithLog`. -/
inductive RelayMessage where
  | CLI_REL_TELL_PK_AND_EPH_PK (ClientID : Int) (Pk : Point) (EphPk : Point)
  | CLI_REL_UPSTREAM_DATA (ClientID : Int) (RoundID : Int) (Data : Bytes)
  | CLI_REL_OPENCLOSED_DATA (ClientID : Int) (RoundID : Int) (OpenClosedData : Bytes)
  | CLI_REL_DISRUPTION_BLAME (BitPos : Int) (RoundID : Int) (NIZK : Bytes) (Pval : List (String × Point))
  deriving Repr, DecidableEq

def RelayMessage.isUpstreamData : RelayMessage → Bool
  | .CLI_REL_UPSTREAM_DATA _ _ _ => true
  | _ => false

def RelayMessage.isOpenClosedData : RelayMessage → Bool
  | .CLI_REL_OPENCLOSED_DATA _ _ _ => true
  | _ => false

/-! ## Client state -/

/-- One packet of a parsed capture (`utils.Packet`). -/
structure Packet where
  MsSinceBeginningOfCapture : Nat
  RealLength : Int
  Header : Bytes
  deriving Repr, DecidableEq

/-- The field `clientState.pcapReplay`. The packet cursor is a natural number:
it starts at zero and is only ever incremented. -/
structure PCAPReplayer where
  Enabled : Bool
  PCAPFolder : String
  PCAPFile : String
  Packets : List Packet
  currentPacket : Nat
  time0 : Nat
  deriving Repr, DecidableEq

/-- A pending latency test (`prifilog.LatencyTestToSend`). -/
structure LatencyTestToSend where
  CreatedAt : Int
  deriving Repr, DecidableEq

/-- The field `clientState.LatencyTest`; times are in milliseconds. -/
structure LatencyTests where
  DoLatencyTests : Bool
  LatencyTestsInterval : Int
  NextLatencyTest : Int
  LatencyTestsToSend : List LatencyTestToSend
  deriving Repr, DecidableEq

/-- The DC-net entity behind the pointer `clientState.DCNet`. -/
structure DCNetEntity where
  EntityID : Int
  DCNetPayloadSize : Int
  EquivocationProtectionEnabled : Bool
  sharedSecrets : List (Option Point)
  coderState : Nat
  deriving Repr, DecidableEq

/-- The fields of `ClientState` that `client.go` reads or writes. -/
structure ClientState where
  ID : Int
  Name : String
  MySlot : Int
  nClients : Int
  nTrustees : Int
  PayloadSize : Int
  UseUDP : Bool
  privateKey : Scalar
  PublicKey : Point
  ephemeralPrivateKey : Scalar
  EphemeralPublicKey : Point
  EphemeralPublicKeys : List Point
  TrusteePublicKey : List (Option Point)
  sharedSecrets : List (Option Point)
  RoundNo : Int
  BufferedRoundData : List (Int × REL_CLI_DOWNSTREAM_DATA)
  MessageHistory : Nat
  DCNet : Option DCNetEntity
  DisruptionProtectionEnabled : Bool
  EquivocationProtectionEnabled : Bool
  ForceDisruptionSinceRound3 : Bool
  MyLastRound : Int
  DisruptionWrongBitPosition : Int
  AllreadyDisrupted : Bool
  B_echo_last : Nat
  LastMessage : GoSlice
  HashFromPreviousMessage : Bytes
  pcapReplay : PCAPReplayer
  StartStopReceiveBroadcast : Option (List Bool)
  DataOutputEnabled : Bool
  DataFromDCNet : List Bytes
  DataForDCNet : List GoSlice
  NextDataForDCNet : Option GoSlice
  LastWantToSend : Int
  LatencyTest : LatencyTests
  deriving Repr, DecidableEq

/-- Modelled from the spec: the state machine of `prifi-lib/utils`, which is
not among the embedded files. Its alphabet is `BEFORE_INIT`, `INITIALIZING`,
`EPH_KEYS_SENT`, `READY`, `BLAMING`, `SHUTDOWN`. -/
structure StateMachine where
  entity : String
  state : String
  deriving Repr, DecidableEq

/-- The alphabet of states shared by the roles. -/
def StateMachine.alphabet : List String :=
  ["BEFORE_INIT", "INITIALIZING", "EPH_KEYS_SENT", "READY", "BLAMING", "SHUTDOWN"]

/-- Modelled from the spec: `ChangeState` moves the machine to the named state
of the alphabet; any other name leaves it where it is. -/
def StateMachine.ChangeState (s : StateMachine) (newState : String) : StateMachine :=
  if newState ∈ StateMachine.alphabet then { s with state := newState } else s

def StateMachine.SetEntity (s : StateMachine) (e : String) : StateMachine :=
  { s with entity := e }

/-- The message sender wrapper: its entity label and the log of everything
handed to `SendToRelayWithLog`, oldest first. -/
structure MessageSenderWrapper where
  entity : String
  sent : List RelayMessage
  deriving Repr, DecidableEq

def MessageSenderWrapper.SetEntity (s : MessageSenderWrapper) (e : String) : MessageSenderWrapper :=
  { s with entity := e }

def MessageSenderWrapper.SendToRelayWithLog (s : MessageSenderWrapper) (m : RelayMessage) : MessageSenderWrapper :=
  { s with sent := s.sent ++ [m] }

/-- The receiver `p *PriFiLibClientInstance`. -/
structure PriFiLibClientInstance where
  clientState : ClientState
  stateMachine : StateMachine
  messageSender : MessageSenderWrapper
  deriving Repr, DecidableEq

/-- Values the handlers read from the outside world during one call: the wall
clock (`time.Now`, in milliseconds), `MsTimeStampNow`, `rand.Intn(1000)` and
the key pair drawn by `crypto.NewKeyPair`. -/
structure Readings where
  timeNow : Int
  msTimeStampNow : Int
  randIntn : Nat
  newKeyPair : Point × Scalar
  deriving Repr, DecidableEq

/-- The functions of packages outside the embedded files. -/
structure Collaborators where
  ClientVerifySigAndRecognizeSlot :
    Scalar → List (Option Point) → Point → List Point → List Bytes → Int × Option String
  NewDCNetEntity : Int → Int → Bool → List (Option Point) → DCNetEntity
  EncodeForRound : Option DCNetEntity → Int → Bool → Bytes → (Bytes × Bytes) × Option DCNetEntity
  handlePossibleDisruption :
    PriFiLibClientInstance → REL_CLI_DOWNSTREAM_DATA → PriFiLibClientInstance
  Sum256 : Bytes → Bytes
  pointMul : Scalar → Point → Point
  basePoint : Point
  HashProve : Scalar → Point → Bytes
  xofInit : Nat
  ParsePCAP : String → Int → Nat → List Packet
  ParsePKTS : String → Int → Nat → List Packet
  LatencyMessagesToBytes :
    List LatencyTestToSend → Int → Int → Int → Bytes × List LatencyTestToSend
  OpenScheduleContribution : Int → Option Int → Bytes

/-! ## Handlers of `client.go` -/

abbrev Handled := Run (Option String × PriFiLibClientInstance)

/-- A call whose returned error the caller does not look at. -/
def dropError : Handled → Handled
  | .done (_, p) => .done (none, p)
  | .crashed w => .crashed w
  | .exited w => .exited w
  | .diverged => .diverged

/-- The handler `Received_ALL_ALL_SHUTDOWN`. -/
def Received_ALL_ALL_SHUTDOWN (p : PriFiLibClientInstance) : Handled :=
  .done (none, { p with stateMachine := p.stateMachine.ChangeState "SHUTDOWN" })

/-- The handler `Received_REL_CLI_TELL_TRUSTEES_PK`. The two `make` calls panic
on a negative `nTrustees`, the copy loop panics on the first index past
`nTrustees`. -/
def Received_REL_CLI_TELL_TRUSTEES_PK (x : Collaborators) (rd : Readings)
    (p : PriFiLibClientInstance) (trusteesPks : List Point) : Handled :=
  if trusteesPks.length < 1 then
    .done (some ("Client " ++ toString p.clientState.ID ++ " : len(msg.Pks) must be >= 1"), p)
  else if p.clientState.nTrustees < 0 then
    .crashed "makeslice: len out of range"
  else if p.clientState.nTrustees < trusteesPks.length then
    .crashed "index out of range"
  else
    let pad : List (Option Point) :=
      List.replicate (p.clientState.nTrustees.toNat - trusteesPks.length) none
    let keys := trusteesPks.map some ++ pad
    let secrets := trusteesPks.map (fun pk => some (x.pointMul p.clientState.privateKey pk)) ++ pad
    let dcnet := x.NewDCNetEntity p.clientState.ID p.clientState.PayloadSize
      p.clientState.EquivocationProtectionEnabled secrets
    let cs : ClientState :=
      { p.clientState with
        TrusteePublicKey := keys
        sharedSecrets := secrets
        DCNet := some dcnet
        EphemeralPublicKey := rd.newKeyPair.1
        ephemeralPrivateKey := rd.newKeyPair.2 }
    let toSend := RelayMessage.CLI_REL_TELL_PK_AND_EPH_PK cs.ID cs.PublicKey cs.EphemeralPublicKey
    .done (none,
      { clientState := cs
        stateMachine := p.stateMachine.ChangeState "EPH_KEYS_SENT"
        messageSender := p.messageSender.SendToRelayWithLog toSend })

/-- The block of `Received_ALL_ALL_PARAMETERS` that loads the capture to replay. -/
def loadReplay (x : Collaborators) (cs : ClientState) (clientID : Int) : ClientState :=
  if cs.pcapReplay.Enabled then
    let file := cs.pcapReplay.PCAPFolder ++ "client" ++ toString clientID ++ ".pcap"
    let packets := x.ParsePCAP file cs.PayloadSize (toUint16 clientID)
    if packets.length = 0 then
      let file2 := cs.pcapReplay.PCAPFolder ++ "client" ++ toString clientID ++ ".pkts"
      { cs with pcapReplay := { cs.pcapReplay with
          PCAPFile := file2
          Packets := x.ParsePKTS file2 cs.PayloadSize (toUint16 clientID) } }
    else
      { cs with pcapReplay := { cs.pcapReplay with PCAPFile := file, Packets := packets } }
  else cs

/-- The handler `Received_ALL_ALL_PARAMETERS`. The error of the nested
`Received_REL_CLI_TELL_TRUSTEES_PK` call is dropped, as in the source. -/
def Received_ALL_ALL_PARAMETERS (x : Collaborators) (rd : Readings)
    (p : PriFiLibClientInstance) (msg : ALL_ALL_PARAMETERS) : Handled :=
  let clientID := msg.IntValueOrElse "NextFreeClientID" (-1)
  let e := "Client " ++ toString clientID
  let p : PriFiLibClientInstance :=
    { p with
      stateMachine := p.stateMachine.SetEntity e
      messageSender := p.messageSender.SetEntity e }
  let nTrustees := msg.IntValueOrElse "NTrustees" p.clientState.nTrustees
  let nClients := msg.IntValueOrElse "NClients" p.clientState.nClients
  let payloadSize := msg.IntValueOrElse "PayloadSize" p.clientState.PayloadSize
  let useUDP := msg.BoolValueOrElse "UseUDP" p.clientState.UseUDP
  let dcNetType := msg.StringValueOrElse "DCNetType" "not initialized"
  let disruptionProtection := msg.BoolValueOrElse "DisruptionProtectionEnabled" false
  let equivProtection := msg.BoolValueOrElse "EquivocationProtectionEnabled" false
  let forceDisruption := msg.BoolValueOrElse "ForceDisruptionSinceRound3" false
  if clientID < -1 then
    .done (some "ClientID cannot be negative", p)
  else if nTrustees < 1 then
    .done (some "nTrustees cannot be smaller than 1", p)
  else if nClients < 1 then
    .done (some "nClients cannot be smaller than 1", p)
  else if payloadSize < 1 then
    .done (some "PayloadSize cannot be 0", p)
  else if dcNetType = "Verifiable" then
    .crashed "verifiable not supported yet"
  else
    let cs : ClientState :=
      { p.clientState with
        ID := clientID
        Name := "Client-" ++ toString clientID
        MySlot := -1
        nClients := nClients
        nTrustees := nTrustees
        PayloadSize := payloadSize
        UseUDP := useUDP
        TrusteePublicKey := List.replicate nTrustees.toNat none
        sharedSecrets := List.replicate nTrustees.toNat none
        RoundNo := 0
        BufferedRoundData := []
        MessageHistory := x.xofInit
        DisruptionProtectionEnabled := disruptionProtection
        EquivocationProtectionEnabled := equivProtection
        ForceDisruptionSinceRound3 := forceDisruption
        MyLastRound := -10
        DisruptionWrongBitPosition := -1
        AllreadyDisrupted := false }
    let cs := loadReplay x cs clientID
    -- the stop signal goes to the previous channel, which is then replaced
    let cs : ClientState :=
      { cs with StartStopReceiveBroadcast := some [] }
    dropError (Received_REL_CLI_TELL_TRUSTEES_PK x rd { p with clientState := cs } msg.TrusteesPks)

/-- The method `WantsToTransmit`: the answer and the state after the poll. -/
def WantsToTransmit (rd : Readings) (cs : ClientState) : Bool × ClientState :=
  let r := cs.pcapReplay
  let dueNow : Bool :=
    if r.Enabled ∧ r.Packets.length > 0 ∧ r.currentPacket < r.Packets.length then
      match r.Packets[r.currentPacket]? with
      | some currentPacket =>
        decide (currentPacket.MsSinceBeginningOfCapture ≤ subUint64 (toUint64 rd.msTimeStampNow) r.time0)
      | none => false
    else false
  if dueNow then (true, cs)
  else if cs.LatencyTest.LatencyTestsToSend.length > 0 then (true, cs)
  else if cs.NextDataForDCNet.isSome then (true, cs)
  else if rd.timeNow < cs.LastWantToSend + 1000 then (true, cs)
  else
    match cs.DataForDCNet with
    | myData :: rest =>
      (true, { cs with
        DataForDCNet := rest
        LastWantToSend := rd.timeNow
        NextDataForDCNet := some myData })
    | [] => (false, cs)

/-- The replay loop of `SendUpstreamData`: `remaining` is
`len(Packets) - 1 - cursor`, so `remaining = 0` is the failure of the first
conjunct of the loop condition. Returns the payload and the final cursor. -/
def replayLoop (packets : List Packet) (relativeNow : Nat) (actualPayloadSize : Int) :
    Nat → Nat → Packet → Bytes → Int → Bytes × Nat
  | 0, cursor, _, payload, _ => (payload, cursor)
  | remaining + 1, cursor, currentPacket, payload, payloadRealLength =>
    if currentPacket.MsSinceBeginningOfCapture ≤ relativeNow ∧
        payloadRealLength + currentPacket.RealLength ≤ actualPayloadSize then
      match packets[cursor + 1]? with
      | some next =>
        replayLoop packets relativeNow actualPayloadSize remaining (cursor + 1) next
          (payload ++ currentPacket.Header) (payloadRealLength + currentPacket.RealLength)
      | none => (payload ++ currentPacket.Header, cursor + 1)
    else (payload, cursor)

/-- The size computation at the head of `SendUpstreamData`, with its two
`log.Fatal` exits. -/
def actualPayloadSize (cs : ClientState) (slotOwner : Bool) : Run Int :=
  let a := cs.PayloadSize
  if cs.DisruptionProtectionEnabled ∧ a - 1 ≤ 0 then
    .exited "Cannot have disruption protection with less than 1 bytes payload"
  else
    let a := if cs.DisruptionProtectionEnabled then a - 1 else a
    if cs.EquivocationProtectionEnabled ∧ slotOwner = true ∧ a - 16 ≤ 0 then
      .exited "Cannot have equivocation protection with less than 16 bytes payload"
    else
      .done (if cs.EquivocationProtectionEnabled ∧ slotOwner = true then a - 16 else a)

/-- The slot owner's choice of the content of the upstream cell in
`SendUpstreamData`. -/
def selectUpstreamContent (x : Collaborators) (rd : Readings) (cs : ClientState)
    (actual : Int) : Run (GoSlice × ClientState) :=
  match cs.NextDataForDCNet with
  | some data => .done (data, { cs with NextDataForDCNet := none })
  | none =>
    let r := cs.pcapReplay
    if r.Enabled ∧ r.currentPacket < r.Packets.length then
      if (r.currentPacket : Int) ≥ (r.Packets.length : Int) - 2 then
        .done (none, { cs with pcapReplay := { r with Enabled := false } })
      else
        let relativeNow := subUint64 (toUint64 rd.msTimeStampNow) r.time0
        match r.Packets[r.currentPacket]? with
        | none => .crashed "index out of range"
        | some currentPacket =>
          let out := replayLoop r.Packets relativeNow actual
            (r.Packets.length - 1 - r.currentPacket) r.currentPacket currentPacket [] 0
          .done (some out.1, { cs with pcapReplay := { r with currentPacket := out.2 } })
    else
      match cs.DataForDCNet with
      | myData :: rest => .done (myData, { cs with DataForDCNet := rest })
      | [] =>
        if actual < 0 then .crashed "makeslice: len out of range"
        else if cs.LatencyTest.LatencyTestsToSend.length > 0 then
          let out := x.LatencyMessagesToBytes cs.LatencyTest.LatencyTestsToSend cs.ID cs.RoundNo actual
          .done (some out.1,
            { cs with LatencyTest := { cs.LatencyTest with LatencyTestsToSend := out.2 } })
        else .done (some (zeros actual), cs)

/-- The disruption-protection bookkeeping of a slot owner in
`SendUpstreamData` when equivocation protection is off: the content (with its
byte 3 overwritten by the client id) is kept as `LastMessage` together with
its hash. Writing byte 3 panics on a content of fewer than four bytes. -/
def storeCommitment (x : Collaborators) (cs : ClientState) (content : GoSlice) :
    Run (GoSlice × ClientState) :=
  match content with
  | none =>
    match cs.DCNet with
    | none => .crashed "nil pointer dereference"
    | some dcnet =>
      if dcnet.DCNetPayloadSize - 1 < 0 then .crashed "makeslice: len out of range"
      else
        let payloadToHash := zeros (dcnet.DCNetPayloadSize - 1)
        .done (none, { cs with
          LastMessage := some payloadToHash
          HashFromPreviousMessage := x.Sum256 payloadToHash })
  | some c =>
    if c.length ≤ 3 then .crashed "index out of range"
    else
      let c' := c.set 3 (toByte cs.ID)
      .done (some c', { cs with
        LastMessage := some c'
        HashFromPreviousMessage := x.Sum256 c' })

/-- The test hook at the end of `SendUpstreamData` that flips the last byte of
the cell of client 0. Incrementing the last byte panics on an empty cell. -/
def forceDisruption (cs : ClientState) (slotOwner : Bool) (upstreamCell : Bytes) :
    Run (Bytes × ClientState) :=
  if cs.ID = 0 ∧ cs.ForceDisruptionSinceRound3 = true ∧ cs.RoundNo > 3 ∧ slotOwner = false then
    if cs.AllreadyDisrupted then
      if cs.RoundNo ≠ 6 then .done (upstreamCell, { cs with AllreadyDisrupted := false })
      else .done (upstreamCell, cs)
    else
      match upstreamCell.getLast? with
      | none => .crashed "index out of range"
      | some last =>
        .done (upstreamCell.dropLast ++ [(last + 1) % 256], { cs with AllreadyDisrupted := true })
  else .done (upstreamCell, cs)

/-- The bookkeeping of `SendUpstreamData` after the encoding when both
protections are on: a slot owner that is not echoing keeps the plain payload
as `LastMessage` together with its hash. -/
def keepPlainPayload (x : Collaborators) (cs : ClientState) (slotOwner : Bool)
    (plainPayload : Bytes) : ClientState :=
  if cs.EquivocationProtectionEnabled ∧ cs.DisruptionProtectionEnabled ∧ slotOwner = true ∧
      cs.B_echo_last ≠ 1 then
    { cs with LastMessage := some plainPayload, HashFromPreviousMessage := x.Sum256 plainPayload }
  else cs

/-- The tail of `SendUpstreamData`, from the `b_echo_last` prefix to the send. -/
def encodeAndSend (x : Collaborators) (p : PriFiLibClientInstance) (cs : ClientState)
    (slotOwner : Bool) (content : GoSlice) : Handled :=
  let slice_b_echo_last : Bytes :=
    if cs.DisruptionProtectionEnabled ∧ slotOwner = true then [cs.B_echo_last] else []
  let payload := slice_b_echo_last ++ content.getD []
  let enc := x.EncodeForRound cs.DCNet cs.RoundNo slotOwner payload
  let upstreamCell := enc.1.1
  let plainPayload := enc.1.2
  let cs : ClientState := keepPlainPayload x { cs with DCNet := enc.2 } slotOwner plainPayload
  match forceDisruption cs slotOwner upstreamCell with
  | .done (cell, cs) =>
    let toSend := RelayMessage.CLI_REL_UPSTREAM_DATA cs.ID cs.RoundNo cell
    .done (none, { p with
      clientState := cs
      messageSender := p.messageSender.SendToRelayWithLog toSend })
  | .crashed w => .crashed w
  | .exited w => .exited w
  | .diverged => .diverged

/-- The blame message of `SendUpstreamData`, sent instead of an upstream cell
when a wrong bit position is pending. -/
def blameMessage (x : Collaborators) (cs : ClientState) : RelayMessage :=
  let blameRoundID := wrapInt32 (cs.RoundNo - wrapInt32 (wrapInt32 cs.nClients * 2))
  .CLI_REL_DISRUPTION_BLAME cs.DisruptionWrongBitPosition blameRoundID
    (x.HashProve cs.ephemeralPrivateKey cs.EphemeralPublicKey)
    [("B", x.basePoint), ("X", cs.EphemeralPublicKey)]

/-- The method `SendUpstreamData`. -/
def SendUpstreamData (x : Collaborators) (rd : Readings) (p : PriFiLibClientInstance)
    (ownerSlotID : Int) : Handled :=
  let slotOwner : Bool := decide (ownerSlotID = p.clientState.MySlot)
  let cs : ClientState :=
    if slotOwner then { p.clientState with MyLastRound := p.clientState.RoundNo }
    else p.clientState
  match actualPayloadSize cs slotOwner with
  | .exited w => .exited w
  | .crashed w => .crashed w
  | .diverged => .diverged
  | .done actual =>
    let chosen : Run (GoSlice × ClientState) :=
      if slotOwner then selectUpstreamContent x rd cs actual else .done (none, cs)
    match chosen with
    | .exited w => .exited w
    | .crashed w => .crashed w
    | .diverged => .diverged
    | .done (content, cs) =>
      if cs.DisruptionProtectionEnabled ∧ slotOwner = true then
        if cs.DisruptionWrongBitPosition ≠ -1 then
          .done (none, { p with
            clientState := cs
            messageSender := p.messageSender.SendToRelayWithLog (blameMessage x cs) })
        else if ¬ cs.EquivocationProtectionEnabled then
          match storeCommitment x cs content with
          | .done (content, cs) => encodeAndSend x p cs slotOwner content
          | .exited w => .exited w
          | .crashed w => .crashed w
          | .diverged => .diverged
        else encodeAndSend x p cs slotOwner content
      else encodeAndSend x p cs slotOwner content

/-- The part of `ProcessDownStreamData` that hands the downstream data to the
SOCKS/VPN channel. The latency decoding only feeds telemetry. -/
def deliverDownstream (cs : ClientState) (msg : REL_CLI_DOWNSTREAM_DATA) : ClientState :=
  if msg.Data.length > 1 ∧ cs.DataOutputEnabled = true then
    { cs with DataFromDCNet := cs.DataFromDCNet ++ [msg.Data] }
  else cs

/-- The part of `ProcessDownStreamData` that queues a new latency test. -/
def scheduleLatencyTest (rd : Readings) (cs : ClientState) : ClientState :=
  if cs.LatencyTest.DoLatencyTests = true ∧ cs.ID = 0 ∧ rd.timeNow > cs.LatencyTest.NextLatencyTest then
    { cs with LatencyTest := { cs.LatencyTest with
        LatencyTestsToSend := cs.LatencyTest.LatencyTestsToSend ++ [{ CreatedAt := rd.timeNow }]
        NextLatencyTest := rd.timeNow + cs.LatencyTest.LatencyTestsInterval + (rd.randIntn : Int) } }
  else cs

/-- The branch of `ProcessDownStreamData` taken on `FlagOpenClosedRequest`. -/
def openClosedReply (x : Collaborators) (rd : Readings) (p : PriFiLibClientInstance) :
    PriFiLibClientInstance :=
  let w := WantsToTransmit rd p.clientState
  let cs := w.2
  let contribution := x.OpenScheduleContribution cs.nClients (if w.1 then some cs.MySlot else none)
  let enc := x.EncodeForRound cs.DCNet cs.RoundNo false contribution
  let toSend := RelayMessage.CLI_REL_OPENCLOSED_DATA cs.ID cs.RoundNo enc.1.1
  { p with
    clientState := { cs with DCNet := enc.2 }
    messageSender := p.messageSender.SendToRelayWithLog toSend }

/-- Deletion of a key from a Go map kept as an association list. -/
def mapDelete (m : List (Int × REL_CLI_DOWNSTREAM_DATA)) (k : Int) :
    List (Int × REL_CLI_DOWNSTREAM_DATA) :=
  m.filter (fun e => e.1 ≠ k)

/-- The body of `Received_REL_CLI_DOWNSTREAM_DATA`, with the call of
`ProcessDownStreamData` as the parameter `process`. The clock is the stream of
readings of this call and of the nested calls after it. -/
def receivedDownstream
    (process : (Nat → Readings) → PriFiLibClientInstance → REL_CLI_DOWNSTREAM_DATA → Handled)
    (clock : Nat → Readings) (p : PriFiLibClientInstance) (msg : REL_CLI_DOWNSTREAM_DATA) :
    Handled :=
  let p : PriFiLibClientInstance :=
    if msg.RoundID = 1 then
      { p with clientState := { p.clientState with pcapReplay :=
          { p.clientState.pcapReplay with time0 := toUint64 (clock 0).msTimeStampNow } } }
    else p
  if msg.RoundID = p.clientState.RoundNo then
    process clock p msg
  else if msg.RoundID < p.clientState.RoundNo then
    .done (none, p)
  else if msg.RoundID > p.clientState.RoundNo then
    process clock { p with clientState := { p.clientState with RoundNo := msg.RoundID } } msg
  else .done (none, p)

/-- The body of `ProcessDownStreamData`, with the call of
`Received_REL_CLI_DOWNSTREAM_DATA` on a buffered message as the parameter
`nested`. The result of that call is dropped, as in the source. -/
def processDownstream (x : Collaborators)
    (nested : (Nat → Readings) → PriFiLibClientInstance → REL_CLI_DOWNSTREAM_DATA → Handled)
    (clock : Nat → Readings) (p : PriFiLibClientInstance) (msg : REL_CLI_DOWNSTREAM_DATA) :
    Handled :=
  let rd := clock 0
  let p := if p.clientState.DisruptionProtectionEnabled then x.handlePossibleDisruption p msg else p
  let p := { p with clientState := deliverDownstream p.clientState msg }
  let p := { p with clientState := scheduleLatencyTest rd p.clientState }
  if msg.FlagResync = true then
    .done (none, { p with stateMachine := p.stateMachine.ChangeState "BEFORE_INIT" })
  else
    let replied : Handled :=
      if msg.FlagOpenClosedRequest = true then .done (none, openClosedReply x rd p)
      else SendUpstreamData x rd p msg.OwnershipID
    match replied with
    | .exited w => .exited w
    | .crashed w => .crashed w
    | .diverged => .diverged
    | .done (_, p) =>
      let cs : ClientState := { p.clientState with
        BufferedRoundData := mapDelete p.clientState.BufferedRoundData (wrapInt32 (p.clientState.RoundNo - 1)) }
      let cs : ClientState := { cs with RoundNo := wrapInt32 (cs.RoundNo + 1) }
      let p := { p with clientState := cs }
      match cs.BufferedRoundData.lookup cs.RoundNo with
      | some buffered =>
        dropError (nested (fun n => clock (n + 1)) p buffered)
      | none => .done (none, p)

/-- The method `ProcessDownStreamData`; `fuel` bounds the number of buffered
messages that are processed in a row. -/
def ProcessDownStreamData (x : Collaborators) :
    Nat → (Nat → Readings) → PriFiLibClientInstance → REL_CLI_DOWNSTREAM_DATA → Handled
  | 0 => processDownstream x (fun _ _ _ => .diverged)
  | fuel + 1 => processDownstream x (receivedDownstream (ProcessDownStreamData x fuel))

/-- The handler `Received_REL_CLI_DOWNSTREAM_DATA`. -/
def Received_REL_CLI_DOWNSTREAM_DATA (x : Collaborators) (fuel : Nat) (clock : Nat → Readings)
    (p : PriFiLibClientInstance) (msg : REL_CLI_DOWNSTREAM_DATA) : Handled :=
  receivedDownstream (ProcessDownStreamData x fuel) clock p msg

/-- The assignments of `Received_REL_CLI_TELL_EPH_PKS_AND_TRUSTEES_SIG` that
prepare the client for communication. -/
def prepareForCommunication (cs : ClientState) (msg : REL_CLI_TELL_EPH_PKS_AND_TRUSTEES_SIG)
    (mySlot : Int) : ClientState :=
  { cs with
    EphemeralPublicKeys := msg.EphPks
    MySlot := mySlot
    RoundNo := 0
    BufferedRoundData := [] }

/-- The start signal to the broadcast listener (`StartStopReceiveBroadcast <- true`). -/
def startListening (cs : ClientState) : ClientState :=
  if cs.UseUDP then
    { cs with StartStopReceiveBroadcast := cs.StartStopReceiveBroadcast.map (· ++ [true]) }
  else cs

/-- The size of the blank payload of round 0: the payload size, less the 16
bytes of the equivocation protection when the client takes the first slot. -/
def roundZeroPayloadSize (cs : ClientState) : Int :=
  if cs.EquivocationProtectionEnabled = true ∧ cs.ID = 0 then cs.PayloadSize - 16
  else cs.PayloadSize

/-- The blank payload of round 0: `payloadSize` zero bytes, the first of which
is `b_echo_last` when disruption protection is on. -/
def roundZeroPayload (cs : ClientState) : Bytes :=
  if cs.DisruptionProtectionEnabled then [0] ++ zeros (roundZeroPayloadSize cs - 1)
  else zeros (roundZeroPayloadSize cs)

/-- The commitment to the blank payload that the handler stores when
disruption protection is on. -/
def blankCommitment (x : Collaborators) (cs : ClientState) : ClientState :=
  if cs.DisruptionProtectionEnabled then
    { cs with
      LastMessage := some (zeros (roundZeroPayloadSize cs - 1))
      HashFromPreviousMessage := x.Sum256 (zeros (roundZeroPayloadSize cs - 1))
      B_echo_last := 0 }
  else cs

/-- The commitment to the plain payload of round 0 that the handler stores
when both protections are on. -/
def keepRoundZeroPlain (x : Collaborators) (cs : ClientState) (plainPayload : Bytes) :
    ClientState :=
  if cs.EquivocationProtectionEnabled ∧ cs.DisruptionProtectionEnabled then
    { cs with LastMessage := some plainPayload, HashFromPreviousMessage := x.Sum256 plainPayload }
  else cs

/-- The handler `Received_REL_CLI_TELL_EPH_PKS_AND_TRUSTEES_SIG`. An error of
the slot recognition is logged and the handler goes on, as in the source. The
two `make` calls panic on a negative size. -/
def Received_REL_CLI_TELL_EPH_PKS_AND_TRUSTEES_SIG (x : Collaborators)
    (p : PriFiLibClientInstance) (msg : REL_CLI_TELL_EPH_PKS_AND_TRUSTEES_SIG) : Handled :=
  let mySlot := (x.ClientVerifySigAndRecognizeSlot p.clientState.ephemeralPrivateKey
    p.clientState.TrusteePublicKey msg.Base msg.EphPks msg.Signatures).1
  let cs := prepareForCommunication p.clientState msg mySlot
  if cs.UseUDP = true ∧ cs.StartStopReceiveBroadcast = none then
    .done (some ("Client " ++ toString cs.ID ++
      " wish to start listening with UDP, but doesn't have the appropriate helper."),
      { p with clientState := cs })
  else
    let cs := startListening cs
    let sm := p.stateMachine.ChangeState "READY"
    let slotOwner : Bool := decide (cs.ID = 0)
    if roundZeroPayloadSize cs < 0 then .crashed "makeslice: len out of range"
    else if cs.DisruptionProtectionEnabled = true ∧ roundZeroPayloadSize cs - 1 < 0 then
      .crashed "makeslice: len out of range"
    else
      let data := roundZeroPayload cs
      let cs := blankCommitment x cs
      let enc := x.EncodeForRound cs.DCNet 0 slotOwner data
      let cs := keepRoundZeroPlain x { cs with DCNet := enc.2 } enc.1.2
      let toSend := RelayMessage.CLI_REL_UPSTREAM_DATA cs.ID cs.RoundNo enc.1.1
      .done (none,
        { clientState := { cs with RoundNo := wrapInt32 (cs.RoundNo + 1) }
          stateMachine := sm
          messageSender := p.messageSender.SendToRelayWithLog toSend })

/-! ## `ReadWithTimeOut` of `net/helpers.go` -/

/-- What one connection does while `ReadWithTimeOut` waits on it: the bytes
that arrive, whether the peer then closes the connection, and whether the
timer wins the `select`. -/
structure ConnRead where
  arrived : Bytes
  closed : Bool
  timerFirst : Bool
  deriving Repr, DecidableEq

/-- The failure channels of the relay a read can report on. -/
inductive FailureChannel where
  | timedOutClients
  | deconnectedClients
  | deconnectedTrustees
  deriving Repr, DecidableEq

/-- Result of `ReadWithTimeOut`: the data (nil on failure), the error flag and
the channel the node id was pushed on, if any. -/
structure ReadResult where
  data : GoSlice
  err : Bool
  reported : Option (FailureChannel × Nat)
  deriving Repr, DecidableEq

/-- The function `ReadWithTimeOut`. The reader goroutine fills a buffer of
`length` bytes with `io.ReadFull`, which succeeds exactly when `length` bytes
arrive; short of that it reports an error once the connection is closed and
blocks otherwise, in which case only the timer can fire. -/
def ReadWithTimeOut (nodeId : Nat) (conn : ConnRead) (length : Nat)
    (chanForTimeoutNode chanForDisconnectedNode : FailureChannel) : ReadResult :=
  if conn.timerFirst then
    { data := none, err := true, reported := some (chanForTimeoutNode, nodeId) }
  else if length ≤ conn.arrived.length then
    { data := some (conn.arrived.take length), err := false, reported := none }
  else if conn.closed then
    { data := none, err := true, reported := some (chanForDisconnectedNode, nodeId) }
  else
    { data := none, err := true, reported := some (chanForTimeoutNode, nodeId) }

/-! ## `processMessageLoop` of `relay/relayLogic.go` -/

/-- A downstream cell (`prifinet.DataWithConnectionId`). -/
structure DataWithConnectionId where
  ConnectionId : Int
  Data : Bytes
  deriving Repr, DecidableEq

/-- Constants of the `relay` and `net` packages whose declarations are not
among the embedded files. -/
structure RelayConstants where
  MESSAGE_TYPE_DATA : Int
  MESSAGE_TYPE_DATA_AND_RESYNC : Int
  MESSAGE_TYPE_LAST_UPLOAD_FAILED : Int
  SOCKS_CONNECTION_ID_EMPTY : Int
  PROTOCOL_STATUS_GONNA_RESYNC : Int
  PROTOCOL_STATUS_RESYNCING : Int
  deriving Repr, DecidableEq

/-- The fields of `RelayState` the loop reads, with the two cell sizes the
cell coder reports. The counts are natural numbers: the buffers allocated
before the loop make a negative count or size panic there. -/
structure RelayState where
  nClients : Nat
  nTrustees : Nat
  PayloadLength : Int
  clientPayloadLength : Nat
  trusteePayloadLength : Nat
  MessageHistory : Nat
  deriving Repr, DecidableEq

/-- The role of a peer the relay reads from. -/
inductive Role where
  | trustee
  | client
  deriving Repr, DecidableEq

/-- What the loop does that is visible outside it, in program order. -/
inductive RelayEvent where
  | sentDownstream (message : Bytes)
  | sentLastUploadFailed (message : Bytes)
  | decodeStart (payloadLength : Int) (history : Nat)
  | read (role : Role) (index : Nat) (err : Bool)
  | signal (channel : FailureChannel) (nodeId : Nat)
  | decode (role : Role) (data : GoSlice)
  | decodeCell
  | socksOpen (connId : Int)
  | socksForward (connId : Int) (data : Bytes)
  deriving Repr, DecidableEq

/-- The loop variables of `processMessageLoop`. -/
structure LoopState where
  priorityDownStream : List DataWithConnectionId
  inflight : Int
  socksProxyConnections : List Int
  currentSetupContinues : Bool
  deriving Repr, DecidableEq

/-- The loop variables on entry of the loop. -/
def LoopState.initial : LoopState :=
  { priorityDownStream := [], inflight := 0, socksProxyConnections := [], currentSetupContinues := true }

/-- The cell window of the loop (`window := 2`). -/
def window : Int := 2

/-- What the outside world supplies to one iteration: the status waiting on
the resync channel, whether the reporting limit is reached, the cell waiting
on the SOCKS downstream channel, the behaviour of every trustee and client
connection, and the plaintext `DecodeCell` returns. -/
structure IterationInput where
  mainThreadStatus : Option Int
  reportingDone : Bool
  downstream : Option DataWithConnectionId
  trustees : List ConnRead
  clients : List ConnRead
  decoded : GoSlice
  deriving Repr, DecidableEq

/-- How an iteration ends: with `continue` (or at the end of the body), with
`break`, with a panic, or waiting for ever on a send. -/
inductive Control where
  | continue_
  | break_
  | crashed
  | blocked
  deriving Repr, DecidableEq

/-- Result of one iteration. `afterBroadcast` is the value of `inflight` right
after `inflight++`, when the iteration gets that far. -/
structure IterationResult where
  control : Control
  state : LoopState
  events : List RelayEvent
  afterBroadcast : Option Int
  deriving Repr, DecidableEq

def putUint16 (v : Nat) : Bytes := [v / 256 % 256, v % 256]

def putUint32 (v : Nat) : Bytes := [v / 16777216 % 256, v / 65536 % 256, v / 256 % 256, v % 256]

def toUint32 (x : Int) : Nat := (x % 4294967296).toNat

/-- The decoder `binary.BigEndian.Uint16` on a two-byte slice. -/
def getUint16 (b : Bytes) : Nat := b.getD 0 0 * 256 + b.getD 1 0

/-- The decoder `binary.BigEndian.Uint32` on a four-byte slice. -/
def getUint32 (b : Bytes) : Nat :=
  b.getD 0 0 * 16777216 + b.getD 1 0 * 65536 + b.getD 2 0 * 256 + b.getD 3 0

/-- The choice of the downstream cell: the head of the priority queue, else
the cell waiting on the SOCKS channel, else the empty cell. -/
def popDownstream (s : LoopState) (inp : IterationInput) : DataWithConnectionId × LoopState :=
  match s.priorityDownStream with
  | head :: rest => (head, { s with priorityDownStream := rest })
  | [] =>
    match inp.downstream with
    | some cell => (cell, s)
    | none => ({ ConnectionId := 0, Data := [] }, s)

/-- The downstream message crafted for the clients. -/
def craftDownstream (msgType : Int) (downbuffer : DataWithConnectionId) : Bytes :=
  putUint16 (toUint16 msgType) ++ putUint32 (toUint32 downbuffer.ConnectionId) ++ downbuffer.Data

/-- The call of `ReadWithTimeOut` for the peer `index` of a role: a trustee
reports both failures on `deconnectedTrustees`, a client reports a timeout on
`timedOutClients` and a disconnection on `deconnectedClients`. -/
def readPeer (role : Role) (index : Nat) (conn : ConnRead) (length : Nat) : ReadResult :=
  match role with
  | .trustee => ReadWithTimeOut index conn length .deconnectedTrustees .deconnectedTrustees
  | .client => ReadWithTimeOut index conn length .timedOutClients .deconnectedClients

/-- The collection loop over the peers of one role: `remaining` peers are
still to be read, starting at `index`. Stops after the first failed read,
whose (nil) data is still fed to the decoder. Indexing past the connected
peers panics. The result is the events, whether a read failed, and whether
the loop panicked. -/
def collectCells (role : Role) (conns : List ConnRead) (length : Nat) :
    Nat → Nat → List RelayEvent × Bool × Bool
  | 0, _ => ([], false, false)
  | remaining + 1, index =>
    match conns[index]? with
    | none => ([], false, true)
    | some conn =>
      let r := readPeer role index conn length
      let evs : List RelayEvent :=
        [.read role index r.err] ++
        (match r.reported with
          | some f => [.signal f.1 f.2]
          | none => []) ++
        [.decode role r.data]
      if r.err then (evs, true, false)
      else
        let rest := collectCells role conns length remaining (index + 1)
        (evs ++ rest.1, rest.2.1, rest.2.2)

/-- The dispatch of a decoded upstream plaintext, after `inflight--`. Slicing
the first bytes of a plaintext that is too short panics. The send on the
channel of a SOCKS connection never completes: `newSOCKSProxyHandler` makes an
unbuffered channel and starts no goroutine that reads it. -/
def dispatchUpstream (k : RelayConstants) (relayState : RelayState) (s : LoopState)
    (upstreamPlaintext : GoSlice) : Control × LoopState × List RelayEvent :=
  match upstreamPlaintext with
  | none => (.crashed, s, [])
  | some plain =>
    if plain.length < 2 then (.crashed, s, [])
    else if getUint16 (plain.take 2) = 43690 then
      (.continue_,
        { s with priorityDownStream := s.priorityDownStream ++ [{ ConnectionId := -1, Data := plain }] },
        [])
    else if (plain.length : Int) ≠ relayState.PayloadLength then (.crashed, s, [])
    else if plain.length < 6 then (.crashed, s, [])
    else
      let socksConnId : Int := getUint32 (plain.take 4)
      let socksDataLength : Int := getUint16 ((plain.drop 4).take 2)
      if socksConnId = k.SOCKS_CONNECTION_ID_EMPTY then (.continue_, s, [])
      else
        let known : Bool := decide (socksConnId ∈ s.socksProxyConnections)
        let s' : LoopState :=
          if known then s
          else { s with socksProxyConnections := s.socksProxyConnections ++ [socksConnId] }
        let opened : List RelayEvent := if known then [] else [.socksOpen socksConnId]
        if 6 + socksDataLength > relayState.PayloadLength then (.continue_, s', opened)
        else
          (.blocked, s',
            opened ++ [.socksForward socksConnId ((plain.drop 6).take socksDataLength.toNat)])

/-- The first half of an iteration: the cell popped for the downstream, the
message crafted from it and the loop variables after the broadcast. -/
structure Broadcast where
  downbuffer : DataWithConnectionId
  message : Bytes
  state : LoopState
  deriving Repr, DecidableEq

/-- The first half of an iteration, up to and including `inflight++`: the
resync request read at the top of the iteration decides the message type and
ends the setup. -/
def broadcastDownstream (k : RelayConstants) (s : LoopState) (inp : IterationInput) : Broadcast :=
  let tellClientsToResync : Bool :=
    decide (inp.mainThreadStatus = some k.PROTOCOL_STATUS_GONNA_RESYNC)
  let popped := popDownstream s inp
  let downbuffer := popped.1
  let s := popped.2
  let msgType := if tellClientsToResync then k.MESSAGE_TYPE_DATA_AND_RESYNC else k.MESSAGE_TYPE_DATA
  let s : LoopState :=
    if tellClientsToResync then { s with currentSetupContinues := false } else s
  { downbuffer := downbuffer
    message := craftDownstream msgType downbuffer
    state := { s with inflight := s.inflight + 1 } }

/-- The two collection loops of an iteration, trustees first: the events,
whether a read failed, and whether a loop panicked. After a failed trustee
read the client loop breaks at once. -/
def collectRound (relayState : RelayState) (inp : IterationInput) :
    List RelayEvent × Bool × Bool :=
  let t := collectCells .trustee inp.trustees relayState.trusteePayloadLength relayState.nTrustees 0
  if t.2.2 then (t.1, t.2.1, true)
  else if t.2.1 then (t.1, true, false)
  else
    let c := collectCells .client inp.clients relayState.clientPayloadLength relayState.nClients 0
    (t.1 ++ c.1, c.2.1, c.2.2)

/-- The message broadcast after a failed collection. -/
def craftLastUploadFailed (k : RelayConstants) (downbuffer : DataWithConnectionId) : Bytes :=
  putUint16 (toUint16 k.MESSAGE_TYPE_LAST_UPLOAD_FAILED) ++
    putUint32 (toUint32 downbuffer.ConnectionId) ++ [0, 0, 0, 0]

/-- One iteration of the `for currentSetupContinues` loop. -/
def iteration (k : RelayConstants) (relayState : RelayState) (s : LoopState)
    (inp : IterationInput) : IterationResult :=
  if inp.reportingDone then
    { control := .break_, state := s, events := [], afterBroadcast := none }
  else
    let b := broadcastDownstream k s inp
    let sent : List RelayEvent := [.sentDownstream b.message]
    if b.state.inflight < window then
      { control := .continue_, state := b.state, events := sent,
        afterBroadcast := some b.state.inflight }
    else
      let start : List RelayEvent := [.decodeStart relayState.PayloadLength relayState.MessageHistory]
      let c := collectRound relayState inp
      if c.2.2 then
        { control := .crashed, state := b.state, events := sent ++ start ++ c.1,
          afterBroadcast := some b.state.inflight }
      else if c.2.1 then
        { control := .break_, state := b.state,
          events := sent ++ start ++ c.1 ++ [.sentLastUploadFailed (craftLastUploadFailed k b.downbuffer)],
          afterBroadcast := some b.state.inflight }
      else
        let d := dispatchUpstream k relayState { b.state with inflight := b.state.inflight - 1 }
          inp.decoded
        { control := d.1, state := d.2.1,
          events := sent ++ start ++ c.1 ++ [.decodeCell] ++ d.2.2,
          afterBroadcast := some b.state.inflight }

/-- Result of running the loop on a sequence of inputs: the loop variables and
the events so far, and whether the loop is still running (more input is
needed), has left the `for` or has panicked. -/
structure LoopRun where
  state : LoopState
  events : List RelayEvent
  ended : Option Control
  deriving Repr, DecidableEq

/-- The loop `for currentSetupContinues`, one input per iteration. -/
def runLoop (k : RelayConstants) (relayState : RelayState) :
    List IterationInput → LoopState → List RelayEvent → LoopRun
  | [], s, evs =>
    { state := s, events := evs, ended := if s.currentSetupContinues then none else some .break_ }
  | inp :: rest, s, evs =>
    if s.currentSetupContinues then
      let r := iteration k relayState s inp
      match r.control with
      | .continue_ => runLoop k relayState rest r.state (evs ++ r.events)
      | c => { state := r.state, events := evs ++ r.events, ended := some c }
    else { state := s, events := evs, ended := some .break_ }

/-- The round loop of `processMessageLoop`, from its initial variables. -/
def processMessageLoop (k : RelayConstants) (relayState : RelayState)
    (inputs : List IterationInput) : LoopRun :=
  runLoop k relayState inputs LoopState.initial []

/-! ## Observations on the events of the loop -/

def RelayEvent.isSentDownstream : RelayEvent → Bool
  | .sentDownstream _ => true
  | _ => false

def RelayEvent.isDecodeCell : RelayEvent → Bool
  | .decodeCell => true
  | _ => false

def RelayEvent.isDecodeStart : RelayEvent → Bool
  | .decodeStart _ _ => true
  | _ => false

/-- The calls on the cell coder: `DecodeStart`, `DecodeTrustee`, `DecodeClient`
and `DecodeCell`. -/
def RelayEvent.isCoderCall : RelayEvent → Bool
  | .decodeStart _ _ => true
  | .decode _ _ => true
  | .decodeCell => true
  | _ => false

/-- The events of the collection loops: reads, failure signals and cells fed
to the decoder. -/
def RelayEvent.isCollection : RelayEvent → Bool
  | .read _ _ _ => true
  | .signal _ _ => true
  | .decode _ _ => true
  | _ => false

/-- The events of the SOCKS dispatch. -/
def RelayEvent.isSocks : RelayEvent → Bool
  | .socksOpen _ => true
  | .socksForward _ _ => true
  | _ => false

/-- The number of downstream broadcasts not yet matched by a decoded upstream
cell, counted on the events. -/
def outstanding (events : List RelayEvent) : Int :=
  ((events.filter RelayEvent.isSentDownstream).length : Int) -
    ((events.filter RelayEvent.isDecodeCell).length : Int)

/-- The states in which the loop `for currentSetupContinues` evaluates its
condition, with the events so far: the entry of the loop, and the end of every
iteration that ends by `continue` or by reaching the end of the body. -/
inductive LoopHead (k : RelayConstants) (relayState : RelayState) :
    LoopState → List RelayEvent → Prop where
  | entry : LoopHead k relayState LoopState.initial []
  | next (s : LoopState) (events : List RelayEvent) (inp : IterationInput) :
      LoopHead k relayState s events →
      s.currentSetupContinues = true →
      (iteration k relayState s inp).control = .continue_ →
      LoopHead k relayState (iteration k relayState s inp).state
        (events ++ (iteration k relayState s inp).events)

/-- Sample constants of the relay. -/
def sampleConstants : RelayConstants :=
  { MESSAGE_TYPE_DATA := 1, MESSAGE_TYPE_DATA_AND_RESYNC := 2, MESSAGE_TYPE_LAST_UPLOAD_FAILED := 3,
    SOCKS_CONNECTION_ID_EMPTY := 0, PROTOCOL_STATUS_GONNA_RESYNC := 1,
    PROTOCOL_STATUS_RESYNCING := 2 }

/-- A sample relay: two clients, one trustee, cells of 8 bytes. -/
def sampleRelay : RelayState :=
  { nClients := 2, nTrustees := 1, PayloadLength := 8, clientPayloadLength := 8,
    trusteePayloadLength := 8, MessageHistory := 0 }

/-- A sample connection on which the given bytes arrive in time. -/
def sampleConn (arrived : Bytes) : ConnRead :=
  { arrived := arrived, closed := false, timerFirst := false }

/-- A sample iteration input: no resync request, nothing to forward
downstream, every peer delivers its cell, and the decoded cell is empty
(SOCKS connection id 0, no data). -/
def sampleInput : IterationInput :=
  { mainThreadStatus := none, reportingDone := false, downstream := none,
    trustees := [sampleConn [1, 2, 3, 4, 5, 6, 7, 8]],
    clients := [sampleConn [1, 1, 1, 1, 1, 1, 1, 1], sampleConn [0, 3, 2, 5, 4, 7, 6, 9]],
    decoded := some [0, 0, 0, 0, 0, 0, 0, 0] }

/-- The sample loop state after the first iteration: one cell in flight. -/
def sampleFilling : LoopState :=
  { LoopState.initial with inflight := 1 }

/-! ## Frames and sample inputs -/

/-- The fields of the client state that the choice of the upstream content
leaves alone. -/
def SameRound (a b : ClientState) : Prop :=
  b.ID = a.ID ∧ b.RoundNo = a.RoundNo ∧ b.BufferedRoundData = a.BufferedRoundData ∧
  b.DisruptionProtectionEnabled = a.DisruptionProtectionEnabled ∧
  b.ForceDisruptionSinceRound3 = a.ForceDisruptionSinceRound3

/-- The configuration and round fields that the delivery of the downstream
data and the scheduling of latency tests leave alone. -/
def SameSetup (a b : ClientState) : Prop :=
  b.ID = a.ID ∧ b.RoundNo = a.RoundNo ∧ b.BufferedRoundData = a.BufferedRoundData ∧
  b.DisruptionProtectionEnabled = a.DisruptionProtectionEnabled ∧
  b.EquivocationProtectionEnabled = a.EquivocationProtectionEnabled ∧
  b.ForceDisruptionSinceRound3 = a.ForceDisruptionSinceRound3 ∧
  b.PayloadSize = a.PayloadSize

/-- The fields that decide the blank cell of round 0. -/
def SameCell (a b : ClientState) : Prop :=
  b.ID = a.ID ∧ b.PayloadSize = a.PayloadSize ∧
  b.EquivocationProtectionEnabled = a.EquivocationProtectionEnabled ∧
  b.DisruptionProtectionEnabled = a.DisruptionProtectionEnabled ∧
  b.DCNet = a.DCNet

/-- The fields the handler of the shuffle result sets before it encodes. -/
def SameStart (a b : ClientState) : Prop :=
  b.MySlot = a.MySlot ∧ b.RoundNo = a.RoundNo ∧ b.BufferedRoundData = a.BufferedRoundData

/-- The state handed to `ProcessDownStreamData` by
`Received_REL_CLI_DOWNSTREAM_DATA` for a message of a later round: the replay
clock is reset on round 1 and the round number is moved to the message's. -/
def skippedTo (clock : Nat → Readings) (p : PriFiLibClientInstance)
    (msg : REL_CLI_DOWNSTREAM_DATA) : PriFiLibClientInstance :=
  let p1 : PriFiLibClientInstance :=
    if msg.RoundID = 1 then
      { p with clientState := { p.clientState with pcapReplay :=
          { p.clientState.pcapReplay with time0 := toUint64 (clock 0).msTimeStampNow } } }
    else p
  { p1 with clientState := { p1.clientState with RoundNo := msg.RoundID } }

/-- A sample of the outside packages, to run the handlers on concrete inputs:
the slot recognition fails on an empty signature list and otherwise finds
slot 0, the coder returns the payload as cell, the hash is the identity. -/
def sampleCollaborators : Collaborators where
  ClientVerifySigAndRecognizeSlot := fun _ _ _ _ sigs =>
    if sigs = [] then (-1, some "no signature") else (0, none)
  NewDCNetEntity := fun id size equiv secrets =>
    { EntityID := id, DCNetPayloadSize := size, EquivocationProtectionEnabled := equiv,
      sharedSecrets := secrets, coderState := 0 }
  EncodeForRound := fun d _ _ payload => ((payload, payload), d)
  handlePossibleDisruption := fun p _ => p
  Sum256 := fun b => b
  pointMul := fun a b => a * b
  basePoint := 1
  HashProve := fun _ _ => []
  xofInit := 0
  ParsePCAP := fun _ _ _ => []
  ParsePKTS := fun _ _ _ => []
  LatencyMessagesToBytes := fun tests _ _ _ => ([], tests)
  OpenScheduleContribution := fun _ _ => []

/-- A sample client: id 0, two clients, one trustee, cells of 32 bytes, no
protection, in state `READY` at round 5. -/
def sampleClient : PriFiLibClientInstance where
  clientState :=
    { ID := 0, Name := "Client-0", MySlot := 0, nClients := 2, nTrustees := 1, PayloadSize := 32,
      UseUDP := false, privateKey := 3, PublicKey := 5, ephemeralPrivateKey := 7,
      EphemeralPublicKey := 11, EphemeralPublicKeys := [], TrusteePublicKey := [some 13],
      sharedSecrets := [some 39], RoundNo := 5, BufferedRoundData := [], MessageHistory := 0,
      DCNet := none, DisruptionProtectionEnabled := false, EquivocationProtectionEnabled := false,
      ForceDisruptionSinceRound3 := false, MyLastRound := -10, DisruptionWrongBitPosition := -1,
      AllreadyDisrupted := false, B_echo_last := 0, LastMessage := none,
      HashFromPreviousMessage := [],
      pcapReplay := { Enabled := false, PCAPFolder := "", PCAPFile := "", Packets := [],
                      currentPacket := 0, time0 := 0 },
      StartStopReceiveBroadcast := none, DataOutputEnabled := false, DataFromDCNet := [],
      DataForDCNet := [], NextDataForDCNet := none, LastWantToSend := 0,
      LatencyTest := { DoLatencyTests := false, LatencyTestsInterval := 0, NextLatencyTest := 0,
                       LatencyTestsToSend := [] } }
  stateMachine := { entity := "Client 0", state := "READY" }
  messageSender := { entity := "Client 0", sent := [] }

/-- The sample client waiting for the shuffle result, with the given payload
size and equivocation protection switched on or off. -/
def sampleWaitingClient (payloadSize : Int) (equivocation : Bool) : PriFiLibClientInstance :=
  { sampleClient with
    clientState := { sampleClient.clientState with
      PayloadSize := payloadSize
      EquivocationProtectionEnabled := equivocation
      RoundNo := 0 }
    stateMachine := { entity := "Client 0", state := "EPH_KEYS_SENT" } }

/-- A sample clock: every reading is taken at millisecond 1000. -/
def sampleClock : Nat → Readings := fun _ =>
  { timeNow := 1000, msTimeStampNow := 1000, randIntn := 0, newKeyPair := (17, 19) }

/-- A sample downstream message of the given round, with both flags as given
and no data. -/
def sampleDownstream (round : Int) (resync : Bool) : REL_CLI_DOWNSTREAM_DATA :=
  { RoundID := round, OwnershipID := 1, FlagResync := resync, FlagOpenClosedRequest := false,
    Data := [] }

/-- A sample shuffle result carrying the given signatures. -/
def sampleShuffleResult (signatures : List Bytes) : REL_CLI_TELL_EPH_PKS_AND_TRUSTEES_SIG :=
  { Base := 2, EphPks := [22], Signatures := signatures }

/-- A sample parameter message: two clients, one trustee, cells of 32 bytes,
the given client id option and the given trustee keys. -/
def sampleParameters (clientID : List (String × Int)) (trusteesPks : List Point) :
    ALL_ALL_PARAMETERS :=
  { ParamsInt := clientID ++ [("NClients", 2), ("NTrustees", 1), ("PayloadSize", 32)]
    ParamsStr := []
    ParamsBool := []
    TrusteesPks := trusteesPks }

/-! ## End of `processMessageLoop` and further observations -/

/-- The end of `processMessageLoop`: once the loop is left, by `break` or by
its condition, the status `PROTOCOL_STATUS_RESYNCING` is pushed on
`indicateEndOfProtocol`. A loop that panicked, that waits for ever on a send,
or that still waits for input, signals nothing. -/
def indicateEndOfProtocol (k : RelayConstants) (run : LoopRun) : Option Int :=
  match run.ended with
  | some .break_ => some k.PROTOCOL_STATUS_RESYNCING
  | _ => none

/-- The reads of the collection loops. -/
def RelayEvent.isRead : RelayEvent → Bool
  | .read _ _ _ => true
  | _ => false

/-- The message type of the downstream broadcast of an iteration. -/
def downstreamType (k : RelayConstants) (inp : IterationInput) : Int :=
  if inp.mainThreadStatus = some k.PROTOCOL_STATUS_GONNA_RESYNC then k.MESSAGE_TYPE_DATA_AND_RESYNC
  else k.MESSAGE_TYPE_DATA

/-- A sample iteration input in which the second client times out. -/
def sampleTimeoutInput : IterationInput :=
  { sampleInput with
    downstream := some { ConnectionId := 7, Data := [9, 9] }
    clients := [sampleConn [1, 1, 1, 1, 1, 1, 1, 1],
      { arrived := [], closed := false, timerFirst := true }] }

/-- A sample iteration input in which the main thread asks for a resync. -/
def sampleResyncInput : IterationInput :=
  { sampleInput with mainThreadStatus := some 1 }

/-- A sample latency-test cell: the pattern `0xAAAA`, client 0, a timestamp. -/
def sampleEchoCell : Bytes := [170, 170, 0, 0, 5, 6, 7, 8]

/-- A sample upstream cell for the SOCKS connection 258 carrying two bytes. -/
def sampleSocksCell : Bytes := [0, 0, 1, 2, 0, 2, 33, 44]


/-! ## `relayParseClientParamsAux` of relay/relayLogic.go -/

/-- The struct `prifinet.NodeRepresentation`, without the connection. -/
structure NodeRepresentation where
  Id : Int
  Connected : Bool
  PublicKey : Point
  deriving Repr, DecidableEq

/-- The scan of `relayParseClientParamsAux` under the comment "check that the
node ID is not used": one pass over `relayState.clients`, incrementing
`nextFreeId` at every client whose `Id` equals its current value. -/
def nextFreeId (clients : List NodeRepresentation) : Int :=
  clients.foldl (fun next client => if client.Id = next then next + 1 else next) 0

/-- The function `relayParseClientParamsAux`: `message` is what `ReadMessage`
returns on the connection (`none` for an error), `unmarshal` is
`UnmarshalBinary` of the suite, `udpDial` is the outcome of `net.DialUDP` when
the clients use UDP. -/
def relayParseClientParamsAux (unmarshal : Bytes → Option Point) (clients : List NodeRepresentation)
    (message : Option Bytes) (clientsUseUDP : Bool) (udpDial : Bool) : Run NodeRepresentation :=
  match message with
  | none => .crashed "Read error"
  | some bytes =>
    let nodeId := nextFreeId clients
    match unmarshal bytes with
    | none => .crashed "can't unmarshal client key"
    | some publicKey =>
      let newClient : NodeRepresentation := { Id := nodeId, Connected := true, PublicKey := publicKey }
      if clientsUseUDP && !udpDial then .crashed "panic"
      else .done newClient

/-- Three registered clients after the client with id 0 left and rejoined. -/
def sampleRejoined : List NodeRepresentation :=
  [{ Id := 1, Connected := true, PublicKey := 11 }, { Id := 2, Connected := true, PublicKey := 12 },
    { Id := 0, Connected := true, PublicKey := 10 }]

/-! ## The service of sda/services/service.go -/

/-- The roles `prifi.Relay`, `prifi.Client` and `prifi.Trustee`. -/
inductive PriFiRole where
  | Relay
  | Client
  | Trustee
  deriving Repr, DecidableEq

/-- The struct `prifi.PriFiIdentity`. -/
structure PriFiIdentity where
  Role : PriFiRole
  Id : Int
  deriving Repr, DecidableEq

/-- A `*network.ServerIdentity`: the pointer, which is the key of the maps of
the wait queue, and the `Address` field of the identity it points to. -/
structure ServerIdentity where
  pointer : Nat
  Address : String
  deriving Repr, DecidableEq

/-- The struct `waitQueue`: the key sets of its two maps (every stored value
is `true`). -/
structure WaitQueue where
  trustees : Finset Nat
  clients : Finset Nat
  deriving DecidableEq

/-- The fields of `Service` the handlers use. The wrapper is the pointer
`CreateProtocolService` returned. -/
structure Service where
  role : PriFiRole
  identityMap : List (String × PriFiIdentity)
  waitQueue : Option WaitQueue
  prifiWrapper : Option Nat
  isPrifiRunning : Bool
  deriving DecidableEq

/-- The calls a handler of the service makes on the protocol layer. -/
inductive ServiceEvent where
  | createProtocol (clients trustees : Finset Nat)
  | setConfig (wrapper : Nat)
  | start (wrapper : Nat)
  | stop (wrapper : Nat)
  deriving DecidableEq

/-- How a handler ends: it returns, `log.Fatal` ends the process, or it
panics. -/
inductive Ending where
  | returned
  | fatal
  | panicked
  deriving Repr, DecidableEq

/-- The service after a handler, the calls it made, and how it ended. -/
structure ServiceStep where
  service : Service
  events : List ServiceEvent
  ending : Ending
  deriving DecidableEq

/-- The method `stopPriFi`. -/
def stopPriFi (s : Service) : Service × List ServiceEvent :=
  if s.role ≠ .Relay then (s, [])
  else
    match s.isPrifiRunning, s.prifiWrapper with
    | true, some wrapper => ({ s with prifiWrapper := none, isPrifiRunning := false }, [.stop wrapper])
    | _, _ => (s, [])

/-- The method `startPriFi`; `created` is what `CreateProtocolService` returns
for the tree of the relay and the waiting nodes (`none` for an error). -/
def startPriFi (created : Option Nat) (s : Service) : ServiceStep :=
  if s.role ≠ .Relay then { service := s, events := [], ending := .returned }
  else
    match s.waitQueue with
    | none => { service := s, events := [], ending := .panicked }
    | some queue =>
      match created with
      | none =>
        { service := s, events := [.createProtocol queue.clients queue.trustees], ending := .fatal }
      | some wrapper =>
        { service := { s with prifiWrapper := some wrapper, isPrifiRunning := true }
          events := [.createProtocol queue.clients queue.trustees, .setConfig wrapper, .start wrapper]
          ending := .returned }

/-- The handler `HandleConnection` for a packet from `sender`. -/
def HandleConnection (created : Option Nat) (s : Service) (sender : ServerIdentity) : ServiceStep :=
  if s.role ≠ .Relay then { service := s, events := [], ending := .returned }
  else
    match s.identityMap.lookup sender.Address with
    | none => { service := s, events := [], ending := .returned }
    | some id =>
      match s.waitQueue with
      | none => { service := s, events := [], ending := .panicked }
      | some queue =>
        let queue : WaitQueue :=
          match id.Role with
          | .Client => { queue with clients := insert sender.pointer queue.clients }
          | .Trustee => { queue with trustees := insert sender.pointer queue.trustees }
          | .Relay => queue
        let s : Service := { s with waitQueue := some queue }
        if 2 ≤ queue.clients.card ∧ 1 ≤ queue.trustees.card then
          let stopped := if s.isPrifiRunning then stopPriFi s else (s, [])
          let started := startPriFi created stopped.1
          { service := started.service, events := stopped.2 ++ started.events,
            ending := started.ending }
        else { service := s, events := [], ending := .returned }

/-- The identity map of a group with one relay, two clients and one trustee. -/
def sampleIdentities : List (String × PriFiIdentity) :=
  [("relay:0", { Role := .Relay, Id := 0 }), ("client:0", { Role := .Client, Id := 0 }),
    ("client:1", { Role := .Client, Id := 1 }), ("trustee:0", { Role := .Trustee, Id := 0 })]

/-- A relay service on which one client and one trustee wait and a protocol
runs. -/
def sampleService : Service :=
  { role := .Relay, identityMap := sampleIdentities
    waitQueue := some { trustees := {40}, clients := {10} }
    prifiWrapper := some 1, isPrifiRunning := true }

/-! ## Byte slices and the codecs of net/helpers.go -/

/-- A Go byte slice seen from its first element: `store` holds the bytes of
the underlying array from the start of the slice up to its capacity, `len` is
the length of the slice. -/
structure Slice where
  store : Bytes
  len : Nat
  deriving Repr, DecidableEq

/-- A slice whose length is its capacity, as `make([]byte, n)` returns. -/
def Slice.ofBytes (b : Bytes) : Slice := { store := b, len := b.length }

/-- The elements of a slice. -/
def Slice.bytes (s : Slice) : Bytes := s.store.take s.len

/-- The slice expression `s[lo:hi]`, legal when `lo <= hi <= cap(s)`. -/
def Slice.slice (s : Slice) (lo hi : Nat) : Option Slice :=
  if lo ≤ hi ∧ hi ≤ s.store.length then some { store := s.store.drop lo, len := hi - lo } else none

/-- The buffer after `buffer := make([]byte, size); conn.Read(buffer)` when
`received` arrives: the bytes received, cut to the buffer, then the zeros the
buffer was made with. -/
def readInto (size : Nat) (received : Bytes) : Slice :=
  Slice.ofBytes (received.take size ++ List.replicate (size - received.length) 0)

/-- The methods `MarshalBinary` and `UnmarshalBinary` of the points of
`config.CryptoSuite`, and its base point. `UnmarshalBinary` gives `none` when
it returns an error. -/
structure PointCodec where
  MarshalBinary : Point → Bytes
  UnmarshalBinary : Bytes → Option Point
  Base : Point

/-- Constants of the `net` and `config` packages whose declarations are not
among the embedded files. -/
structure NetConstants where
  MESSAGE_TYPE_PUBLICKEYS : Int
  LLD_PROTOCOL_VERSION : Int
  deriving Repr, DecidableEq

/-- What a Go function with results `(values, error)` does: it returns the
values (or nil) and the error (or nil), or it panics. -/
abbrev Parsed (α : Type) := Run (Option α × Option String)

/-- The function `IntToBA`. -/
def IntToBA (x : Int) : Bytes := putUint32 (toUint32 x)

/-- One length-prefixed item: the 4-byte big-endian length, then the bytes. -/
def lengthPrefixed (b : Bytes) : Bytes := IntToBA b.length ++ b

/-- What one turn of a scanning loop finds at `currentByte`. -/
inductive ScanItem where
  | stop
  | outOfRange
  | item (content : Slice) (next : Nat)
  deriving Repr, DecidableEq

/-- The head of every scanning loop of the parsers: leave the loop when
`currentByte+4 > bound`, read the length at `s[currentByte:currentByte+4]`,
leave the loop when it is zero, else take
`s[currentByte+4:currentByte+4+length]`. -/
def readItem (s : Slice) (bound : Nat) (currentByte : Nat) : ScanItem :=
  if currentByte + 4 > bound then .stop
  else
    match s.slice currentByte (currentByte + 4) with
    | none => .outOfRange
    | some lengthBytes =>
      let length := getUint32 lengthBytes.bytes
      if length = 0 then .stop
      else
        match s.slice (currentByte + 4) (currentByte + 4 + length) with
        | none => .outOfRange
        | some content => .item content (currentByte + 4 + length)

/-- How a scanning loop ends: it leaves the loop with the items read and the
position reached, an item is refused, an index or a slice is out of range, or
the fuel of the model ran out. -/
inductive Scan (β : Type) where
  | ok (items : List β) (currentByte : Nat)
  | refused
  | outOfRange
  | noFuel
  deriving Repr, DecidableEq

/-- What the body of a scanning loop does with the bytes of an item: it keeps
a value, it returns an error, it panics, or the fuel of the model ran out. -/
inductive Converted (β : Type) where
  | value (b : β)
  | refused
  | outOfRange
  | noFuel
  deriving Repr, DecidableEq

/-- A scanning loop. `convert` is what the body does with the bytes of an
item; `limit` is the count at which the loop breaks, if it has such a test;
with `indexed` the item is stored at its index in an array of `limit`
elements, else it is appended. -/
def scan {β : Type} (convert : Slice → Converted β) (s : Slice) (bound : Nat) (limit : Option Int)
    (indexed : Bool) : Nat → Nat → List β → Scan β
  | 0, _, _ => .noFuel
  | fuel + 1, currentByte, items =>
    match readItem s bound currentByte with
    | .stop => .ok items currentByte
    | .outOfRange => .outOfRange
    | .item content next =>
      match convert content with
      | .refused => .refused
      | .outOfRange => .outOfRange
      | .noFuel => .noFuel
      | .value value =>
        if indexed && decide (limit.getD 0 ≤ (items.length : Int)) then .outOfRange
        else if limit = some ((items.length : Int) + 1) then .ok (items ++ [value]) next
        else scan convert s bound limit indexed fuel next (items ++ [value])

/-- The body step `UnmarshalBinary` of a scanning loop. -/
def unmarshalItem (c : PointCodec) (content : Slice) : Converted Point :=
  match c.UnmarshalBinary content.bytes with
  | some point => .value point
  | none => .refused

/-- The function `MarshalPublicKeyArrayToByteArray` (the marshalling of a
point is taken to succeed). -/
def MarshalPublicKeyArrayToByteArray (c : PointCodec) (k : NetConstants) (publicKeys : List Point) :
    Bytes :=
  publicKeys.foldl (fun byteArray key => byteArray ++ lengthPrefixed (c.MarshalBinary key))
    (putUint32 (toUint32 k.MESSAGE_TYPE_PUBLICKEYS))

/-- The function `UnMarshalPublicKeyArrayFromByteArray`. -/
def UnMarshalPublicKeyArrayFromByteArray (c : PointCodec) (buffer : Slice) : Parsed (List Point) :=
  match buffer.slice 0 4 with
  | none => .crashed "slice bounds out of range"
  | some typeBytes =>
    if getUint32 typeBytes.bytes ≠ 2 then .done (none, some "Wrong message type")
    else
      match scan (unmarshalItem c) buffer buffer.len none false
          (buffer.len + 1) 4 [] with
      | .ok publicKeys _ => .done (some publicKeys, none)
      | .refused => .done (none, some "UnmarshalBinary")
      | .outOfRange => .crashed "slice bounds out of range"
      | .noFuel => .diverged

/-- The buffer `TellPublicKey` hands to `conn.Write`. -/
def TellPublicKey (c : PointCodec) (LLD_PROTOCOL_VERSION : Int) (publicKey : Point) : Bytes :=
  putUint32 (toUint32 LLD_PROTOCOL_VERSION) ++
    putUint32 (toUint32 (c.MarshalBinary publicKey).length) ++ c.MarshalBinary publicKey

/-- The function `ParsePublicKeyFromConn`; `read` is what `conn.Read` gives
(an error, or the bytes received). When `UnmarshalBinary` fails the function
returns the error of the read, which is nil. -/
def ParsePublicKeyFromConn (c : PointCodec) (k : NetConstants) (read : Except String Bytes) :
    Parsed Point :=
  match read with
  | .error e => .done (none, some e)
  | .ok received =>
    let buffer := readInto 512 received
    match buffer.slice 0 4 with
    | none => .crashed "slice bounds out of range"
    | some versionBytes =>
      if (getUint32 versionBytes.bytes : Int) ≠ k.LLD_PROTOCOL_VERSION then .done (none, none)
      else
        match buffer.slice 8 12 with
        | none => .crashed "slice bounds out of range"
        | some sizeBytes =>
          let keySize := getUint32 sizeBytes.bytes
          match buffer.slice 12 (12 + keySize) with
          | none => .crashed "slice bounds out of range"
          | some keyBytes =>
            match c.UnmarshalBinary keyBytes.bytes with
            | none => .done (none, none)
            | some publicKey => .done (some publicKey, none)

/-- The message `WriteBaseAndPublicKeyToConn` hands to `conn.Write`. -/
def WriteBaseAndPublicKeyToConn (c : PointCodec) (k : NetConstants) (base : Point)
    (keys : List Point) : Bytes :=
  lengthPrefixed (c.MarshalBinary base) ++ lengthPrefixed (MarshalPublicKeyArrayToByteArray c k keys)

/-- The three length-prefixed blocks at the head of a buffer, as
`ParseBasePublicKeysAndProofFromConn` and
`ParseBasePublicKeysAndTrusteeSignaturesFromConn` slice them: the three
lengths are read first, then the three blocks are sliced. -/
def threeBlocks (buffer : Slice) : Option (Slice × Slice × Slice) :=
  match buffer.slice 0 4 with
  | none => none
  | some b0 =>
    let baseSize := getUint32 b0.bytes
    match buffer.slice (4 + baseSize) (8 + baseSize) with
    | none => none
    | some b1 =>
      let keysSize := getUint32 b1.bytes
      match buffer.slice (8 + baseSize + keysSize) (12 + baseSize + keysSize) with
      | none => none
      | some b2 =>
        let lastSize := getUint32 b2.bytes
        match buffer.slice 4 (4 + baseSize), buffer.slice (8 + baseSize) (8 + baseSize + keysSize),
          buffer.slice (12 + baseSize + keysSize) (12 + baseSize + keysSize + lastSize) with
        | some baseBytes, some keysBytes, some last => some (baseBytes, keysBytes, last)
        | _, _, _ => none

/-- The function `ParseBasePublicKeysAndProofFromConn`. -/
def ParseBasePublicKeysAndProofFromConn (c : PointCodec) (read : Except String Bytes) :
    Parsed (Point × List Point × Bytes) :=
  match read with
  | .error e => .done (none, some e)
  | .ok received =>
    match threeBlocks (readInto 1024 received) with
    | none => .crashed "slice bounds out of range"
    | some (baseBytes, keysBytes, proof) =>
      match c.UnmarshalBinary baseBytes.bytes with
      | none => .done (none, some "UnmarshalBinary")
      | some base =>
        match UnMarshalPublicKeyArrayFromByteArray c keysBytes with
        | .done (some publicKeys, _) => .done (some (base, publicKeys, proof.bytes), none)
        | .done (none, err) => .done (none, err)
        | .crashed why => .crashed why
        | .exited why => .exited why
        | .diverged => .diverged

/-- The function `ParseBasePublicKeysAndTrusteeSignaturesFromConn`. The loop
over the signatures tests `currentByte+4` against the length of the whole
buffer and slices `signaturesBytes`. -/
def ParseBasePublicKeysAndTrusteeSignaturesFromConn (c : PointCodec) (read : Except String Bytes) :
    Parsed (Point × List Point × List Bytes) :=
  match read with
  | .error e => .done (none, some e)
  | .ok received =>
    let buffer := readInto 4096 received
    match threeBlocks buffer with
    | none => .crashed "slice bounds out of range"
    | some (baseBytes, keysBytes, signaturesBytes) =>
      match c.UnmarshalBinary baseBytes.bytes with
      | none => .done (none, some "UnmarshalBinary")
      | some base =>
        match UnMarshalPublicKeyArrayFromByteArray c keysBytes with
        | .done (some publicKeys, _) =>
          match scan (fun thisSig => Converted.value thisSig.bytes) signaturesBytes buffer.len none
              false (buffer.len + 1) 0 [] with
          | .ok signatures _ => .done (some (base, publicKeys, signatures), none)
          | .refused => .done (none, none)
          | .outOfRange => .crashed "slice bounds out of range"
          | .noFuel => .diverged
        | .done (none, err) => .done (none, err)
        | .crashed why => .crashed why
        | .exited why => .exited why
        | .diverged => .diverged

/-- The results of `ParseTranscript`: the entries of the three arrays made
with `nTrustees` elements; an entry never written is nil (`none` for a point,
the empty list for a slice). -/
structure Transcript where
  G_s : List (Option Point)
  ephPublicKeys_s : List (List Point)
  proof_s : List Bytes
  deriving Repr, DecidableEq

/-- The inner loop of `ParseTranscript` over the keys of one array. -/
def scanKeyArray (c : PointCodec) (nClients : Int) (ephPublicKeysBytes : Slice) :
    Converted (List Point) :=
  match scan (unmarshalItem c) ephPublicKeysBytes ephPublicKeysBytes.len (some nClients) false
      (ephPublicKeysBytes.len + 1) 0 [] with
  | .ok keys _ => .value keys
  | .refused => .refused
  | .outOfRange => .outOfRange
  | .noFuel => .noFuel

/-- An array made with `n` elements of which the first hold `written`. -/
def padTo {α : Type} (n : Nat) (fill : α) (written : List α) : List α :=
  written ++ List.replicate (n - written.length) fill

/-- The function `ParseTranscript`. When an `UnmarshalBinary` fails it returns
the error of the read, which is nil. -/
def ParseTranscript (c : PointCodec) (read : Except String Bytes) (nClients nTrustees : Int) :
    Parsed Transcript :=
  match read with
  | .error e => .done (none, some e)
  | .ok received =>
    let buffer := readInto 4096 received
    if nTrustees < 0 then .crashed "makeslice: len out of range"
    else
      match scan (unmarshalItem c) buffer buffer.len (some nTrustees) true (buffer.len + 1) 0 [] with
      | .noFuel => .diverged
      | .outOfRange => .crashed "out of range"
      | .refused => .done (none, none)
      | .ok bases afterBases =>
        match scan (scanKeyArray c nClients) buffer buffer.len (some nTrustees) true
            (buffer.len + 1) afterBases [] with
        | .noFuel => .diverged
        | .outOfRange => .crashed "out of range"
        | .refused => .done (none, none)
        | .ok keyArrays afterKeys =>
          match scan (fun proofBytes => Converted.value proofBytes.bytes) buffer buffer.len
              (some nTrustees) true (buffer.len + 1) afterKeys [] with
          | .noFuel => .diverged
          | .outOfRange => .crashed "out of range"
          | .refused => .done (none, none)
          | .ok proofs _ =>
            .done (some { G_s := padTo nTrustees.toNat none (bases.map some)
                          ephPublicKeys_s := padTo nTrustees.toNat [] keyArrays
                          proof_s := padTo nTrustees.toNat [] proofs }, none)

/-- A sample codec: a point below 256 is encoded on 32 bytes, low byte first. -/
def samplePointCodec : PointCodec :=
  { MarshalBinary := fun point => (point % 256) :: List.replicate 31 0
    UnmarshalBinary := fun b =>
      if b.length = 32 ∧ b.tail = List.replicate 31 0 then b.head? else none
    Base := 9 }

/-- Sample constants of the `net` and `config` packages. -/
def sampleNetConstants : NetConstants := { MESSAGE_TYPE_PUBLICKEYS := 2, LLD_PROTOCOL_VERSION := 3 }

/-- The concatenation of length-prefixed items, as the packing loops build
it by appending. -/
def packItems {α : Type} (enc : α → Bytes) : List α → Bytes
  | [] => []
  | a :: later => lengthPrefixed (enc a) ++ packItems enc later

/-- The final keys of a setup with 18 clients. -/
def sampleFinalKeys : List Point := List.range 18

/-- The signatures of 50 trustees, 64 bytes each. -/
def sampleSignatures : List Bytes := List.replicate 50 (List.replicate 64 1)

/-! ## `organizeRoundScheduling` of relay/relayLogic.go -/

/-- What `prifinet.ReadMessage` returns on a connection: the buffer and the
error (nil or not). -/
structure ReadMessageResult where
  buffer : Slice
  err : Option String
  deriving Repr, DecidableEq

/-- What the connection of one trustee does during the scheduling: whether
the write of `WriteBaseAndPublicKeyToConn` fails, what `conn.Read` gives to
`ParseBasePublicKeysAndProofFromConn`, and what `ReadMessage` returns when the
relay waits for the signature. -/
structure TrusteeConn where
  writeFails : Bool
  shuffle : Except String Bytes
  signature : ReadMessageResult

/-- What the scheduling reads: for every client connection the results of the
successive calls of `ReadMessage`, and the trustee connections. -/
structure SchedulingInput where
  clients : List (List ReadMessageResult)
  trustees : List TrusteeConn

/-- What the scheduling writes, in program order. -/
inductive SchedulingEvent where
  | wroteTrustee (j : Nat) (message : Bytes)
  | sentTrustees (message : Bytes)
  | sentClients (message : Bytes)
  deriving Repr, DecidableEq

/-- The output of one trustee as it is kept in `G_s`, `ephPublicKeys_s` and
`proof_s`. -/
structure Shuffle where
  base : Point
  keys : List Point
  proof : Bytes
  deriving Repr, DecidableEq

/-- A step of the scheduling: it goes on with a value, or the function
returns the given error (which may be nil). -/
abbrev Step (α : Type) := Run (Except (Option String) α)

/-- The loop `for !pkRead` on one client connection: messages of another type
are discarded; when the key does not unmarshal the function returns the error
of `ReadMessage`. With no further message the read blocks. -/
def readEphemeralKey (c : PointCodec) (k : NetConstants) : List ReadMessageResult → Step Point
  | [] => .diverged
  | message :: later =>
    match message.buffer.slice 0 2 with
    | none => .crashed "slice bounds out of range"
    | some typeBytes =>
      if (getUint16 typeBytes.bytes : Int) = k.MESSAGE_TYPE_PUBLICKEYS then
        match message.buffer.slice 2 message.buffer.len with
        | none => .crashed "slice bounds out of range"
        | some keyBytes =>
          match c.UnmarshalBinary keyBytes.bytes with
          | none => .done (.error message.err)
          | some publicKey => .done (.ok publicKey)
      else readEphemeralKey c k later

/-- The loop collecting one ephemeral key per client, from client `i` on. -/
def collectEphemeralKeys (c : PointCodec) (k : NetConstants)
    (clients : List (List ReadMessageResult)) : Nat → Nat → Step (List Point)
  | 0, _ => .done (.ok [])
  | remaining + 1, i =>
    match clients.get? i with
    | none => .crashed "index out of range"
    | some messages =>
      match readEphemeralKey c k messages with
      | .done (.ok publicKey) =>
        match collectEphemeralKeys c k clients remaining (i + 1) with
        | .done (.ok keys) => .done (.ok (publicKey :: keys))
        | other => other
      | .done (.error e) => .done (.error e)
      | .crashed why => .crashed why
      | .exited why => .exited why
      | .diverged => .diverged

/-- The loop asking the trustees in turn to shuffle, from trustee `j` on with
the base `G` and the keys `ephPublicKeys`. A failed write makes
`WriteBaseAndPublicKeyToConn` print the text of a nil error. -/
def askTrustees (c : PointCodec) (k : NetConstants) (trustees : List TrusteeConn) :
    Nat → Nat → Point → List Point → List SchedulingEvent × Step (List Shuffle)
  | 0, _, _, _ => ([], .done (.ok []))
  | remaining + 1, j, G, ephPublicKeys =>
    match trustees.get? j with
    | none => ([], .crashed "index out of range")
    | some trustee =>
      let wrote : List SchedulingEvent :=
        [.wroteTrustee j (WriteBaseAndPublicKeyToConn c k G ephPublicKeys)]
      if trustee.writeFails then (wrote, .crashed "nil pointer dereference")
      else
        match ParseBasePublicKeysAndProofFromConn c trustee.shuffle with
        | .done (_, some err) => (wrote, .done (.error (some err)))
        | .done (none, none) => (wrote, .crashed "nil pointer dereference")
        | .done (some (base2, ephPublicKeys2, proof), none) =>
          let later := askTrustees c k trustees remaining (j + 1) base2 ephPublicKeys2
          (wrote ++ later.1,
            match later.2 with
            | .done (.ok shuffles) =>
              .done (.ok ({ base := base2, keys := ephPublicKeys2, proof := proof } :: shuffles))
            | other => other)
        | .crashed why => (wrote, .crashed why)
        | .exited why => (wrote, .exited why)
        | .diverged => (wrote, .diverged)

/-- The array of the keys of one shuffle as the transcript packs it. -/
def packKeyArray (c : PointCodec) (keys : List Point) : Bytes :=
  keys.foldl (fun pkArray key => pkArray ++ lengthPrefixed (c.MarshalBinary key)) []

/-- The transcript bytes: all bases, then all key arrays, then all proofs. -/
def packTranscript (c : PointCodec) (shuffles : List Shuffle) : Bytes :=
  let bases := shuffles.foldl
    (fun transcriptBytes s => transcriptBytes ++ lengthPrefixed (c.MarshalBinary s.base)) []
  let keys := shuffles.foldl
    (fun transcriptBytes s => transcriptBytes ++ lengthPrefixed (packKeyArray c s.keys)) bases
  shuffles.foldl (fun transcriptBytes s => transcriptBytes ++ lengthPrefixed s.proof) keys

/-- The loop waiting for the signature of every trustee, from trustee `j`
on. -/
def readSignatures (trustees : List TrusteeConn) : Nat → Nat → Step (List Bytes)
  | 0, _ => .done (.ok [])
  | remaining + 1, j =>
    match trustees.get? j with
    | none => .crashed "index out of range"
    | some trustee =>
      match trustee.signature.err with
      | some err => .done (.error (some err))
      | none =>
        match trustee.signature.buffer.slice 0 4 with
        | none => .crashed "slice bounds out of range"
        | some sizeBytes =>
          let sigSize := getUint32 sizeBytes.bytes
          match trustee.signature.buffer.slice 4 (4 + sigSize) with
          | none => .crashed "slice bounds out of range"
          | some sig =>
            match readSignatures trustees remaining (j + 1) with
            | .done (.ok signatures) => .done (.ok (sig.bytes :: signatures))
            | other => other

/-- The message for the clients: the final base, the final keys and the
signatures of the trustees. -/
def packSignatureMessage (c : PointCodec) (k : NetConstants) (base : Point) (keys : List Point)
    (signatures : List Bytes) : Bytes :=
  let packedSignatures :=
    signatures.foldl (fun packed sig => packed ++ lengthPrefixed sig) []
  lengthPrefixed (c.MarshalBinary base) ++
    lengthPrefixed (MarshalPublicKeyArrayToByteArray c k keys) ++ lengthPrefixed packedSignatures

/-- What `organizeRoundScheduling` wrote and how it ended: the error it
returns (`none` for nil), or a panic. -/
structure Scheduling where
  events : List SchedulingEvent
  result : Run (Option String)

/-- The method `organizeRoundScheduling`. -/
def organizeRoundScheduling (c : PointCodec) (k : NetConstants) (relayState : RelayState)
    (inp : SchedulingInput) : Scheduling :=
  match collectEphemeralKeys c k inp.clients relayState.nClients 0 with
  | .crashed why => { events := [], result := .crashed why }
  | .exited why => { events := [], result := .exited why }
  | .diverged => { events := [], result := .diverged }
  | .done (.error err) => { events := [], result := .done err }
  | .done (.ok ephPublicKeys) =>
    let asked := askTrustees c k inp.trustees relayState.nTrustees 0 c.Base ephPublicKeys
    match asked.2 with
    | .crashed why => { events := asked.1, result := .crashed why }
    | .exited why => { events := asked.1, result := .exited why }
    | .diverged => { events := asked.1, result := .diverged }
    | .done (.error err) => { events := asked.1, result := .done err }
    | .done (.ok shuffles) =>
      let told := asked.1 ++ [.sentTrustees (packTranscript c shuffles)]
      match readSignatures inp.trustees relayState.nTrustees 0 with
      | .crashed why => { events := told, result := .crashed why }
      | .exited why => { events := told, result := .exited why }
      | .diverged => { events := told, result := .diverged }
      | .done (.error err) => { events := told, result := .done err }
      | .done (.ok signatures) =>
        match shuffles.getLast? with
        | none => { events := told, result := .crashed "index out of range" }
        | some last =>
          { events := told ++ [.sentClients (packSignatureMessage c k last.base last.keys signatures)]
            result := .done none }

/-- The outputs of two trustees shuffling the keys of two clients. -/
def sampleShuffles : List Shuffle :=
  [{ base := 3, keys := [5, 6], proof := [1, 2, 3] }, { base := 4, keys := [6, 5], proof := [4, 5] }]

/-- The reply of a trustee to the shuffle request, as
`WriteBasePublicKeysAndProofToConn` lays it out. -/
def sampleShuffleReply (s : Shuffle) : Except String Bytes :=
  .ok (lengthPrefixed (samplePointCodec.MarshalBinary s.base) ++
    lengthPrefixed (MarshalPublicKeyArrayToByteArray samplePointCodec sampleNetConstants s.keys) ++
    lengthPrefixed s.proof)

/-- A key message of a client: the type on two bytes, then the key. -/
def sampleKeyMessage (key : Point) : ReadMessageResult :=
  { buffer := Slice.ofBytes ([0, 2] ++ samplePointCodec.MarshalBinary key), err := none }

/-- A scheduling with two clients, the first of which sends a data message
before its key, and two trustees. -/
def sampleScheduling : SchedulingInput :=
  { clients := [[{ buffer := Slice.ofBytes [0, 1, 7], err := none }, sampleKeyMessage 5],
      [sampleKeyMessage 6]]
    trustees :=
      [{ writeFails := false, shuffle := sampleShuffleReply { base := 3, keys := [5, 6], proof := [1, 2, 3] }
         signature := { buffer := Slice.ofBytes (lengthPrefixed [8, 8]), err := none } },
       { writeFails := false, shuffle := sampleShuffleReply { base := 4, keys := [6, 5], proof := [4, 5] }
         signature := { buffer := Slice.ofBytes (lengthPrefixed [9, 9]), err := none } }] }

/-- A relay state with two clients and two trustees. -/
def sampleSchedulingRelay : RelayState := { sampleRelay with nTrustees := 2 }

/-! ## Further sample inputs of the round scheduling -/

/-- A scheduling in which the key message of the second client carries three
bytes that are not the encoding of a point; `ReadMessage` reports no error. -/
def sampleBadKeyScheduling : SchedulingInput :=
  { sampleScheduling with
    clients := [[sampleKeyMessage 5], [{ buffer := Slice.ofBytes [0, 2, 1, 2, 3], err := none }]] }

/-- Trustee `i` takes the write of the relay and replies with bytes that
`ParseBasePublicKeysAndProofFromConn` parses to the shuffle `s`. -/
def TrusteeReplies (c : PointCodec) (trustees : List TrusteeConn) (i : Nat) (s : Shuffle) : Prop :=
  ∃ trustee, trustees.get? i = some trustee ∧ trustee.writeFails = false ∧
    ParseBasePublicKeysAndProofFromConn c trustee.shuffle =
      .done (some (s.base, s.keys, s.proof), none)

/-! ## Further frames and sample inputs of the client -/

/-- The fields that decide what `SendUpstreamData` commits to and encodes,
which the choice of the content and the test hook leave alone. -/
def SameCommitment (a b : ClientState) : Prop :=
  b.ID = a.ID ∧ b.RoundNo = a.RoundNo ∧ b.DCNet = a.DCNet ∧
  b.DisruptionProtectionEnabled = a.DisruptionProtectionEnabled ∧
  b.EquivocationProtectionEnabled = a.EquivocationProtectionEnabled ∧
  b.B_echo_last = a.B_echo_last ∧
  b.DisruptionWrongBitPosition = a.DisruptionWrongBitPosition ∧
  b.LastMessage = a.LastMessage ∧
  b.HashFromPreviousMessage = a.HashFromPreviousMessage ∧
  b.PayloadSize = a.PayloadSize ∧
  b.ForceDisruptionSinceRound3 = a.ForceDisruptionSinceRound3

/-- The sources of the content of a round: the data polled earlier if set,
else (no packet left to replay) the head of the queue, else (no latency test
waiting) the zero filler of the reduced payload size. -/
def ChosenData (cs : ClientState) (actual : Int) (data : Bytes) : Prop :=
  cs.NextDataForDCNet = some (some data) ∨
  (cs.NextDataForDCNet = none ∧
    ¬(cs.pcapReplay.Enabled = true ∧
      cs.pcapReplay.currentPacket < cs.pcapReplay.Packets.length) ∧
    ∃ later, cs.DataForDCNet = some data :: later) ∨
  (cs.NextDataForDCNet = none ∧
    ¬(cs.pcapReplay.Enabled = true ∧
      cs.pcapReplay.currentPacket < cs.pcapReplay.Packets.length) ∧
    cs.DataForDCNet = [] ∧ cs.LatencyTest.LatencyTestsToSend = [] ∧ data = zeros actual)

/-- The sample client with disruption protection on, the given payload size
and the given queue of data. -/
def sampleDisruptionClient (payloadSize : Int) (queue : List GoSlice) : PriFiLibClientInstance :=
  { sampleClient with
    clientState := { sampleClient.clientState with
      ID := 1
      PayloadSize := payloadSize
      DisruptionProtectionEnabled := true
      DataForDCNet := queue } }
/-! ## `BroadcastMessageToNodes` of net/helpers.go -/

/-- The struct `prifinet.NodeRepresentation` with its field `Conn`: the
connection is a handle, `none` for a nil interface value. -/
structure ConnectedNode extends NodeRepresentation where
  Conn : Option Nat
  deriving Repr, DecidableEq

/-- One call of `Conn.Write`: the index of the node, its connection and the
bytes handed over. -/
structure WriteCall where
  index : Nat
  conn : Nat
  message : Bytes
  deriving Repr, DecidableEq

/-- The loop of `BroadcastMessageToNodes` from index `i` on. `write i` is what
the write issued for `nodes[i]` returns: the count `n` and the error. A call
on a nil connection panics. -/
def broadcastLoop (write : Nat → Int × Option String) (message : Bytes) :
    Nat → List ConnectedNode → Run (List ConnectedNode × List WriteCall)
  | _, [] => .done ([], [])
  | i, node :: rest =>
    if node.Connected then
      match node.Conn with
      | none => .crashed "invalid memory address or nil pointer dereference"
      | some conn =>
        let (n, err) := write i
        let node' : ConnectedNode :=
          if n < (message.length : Int) ∨ err ≠ none then { node with Connected := false }
          else node
        match broadcastLoop write message (i + 1) rest with
        | .done (rest', calls) => .done (node' :: rest', ⟨i, conn, message⟩ :: calls)
        | .crashed w => .crashed w
        | .exited w => .exited w
        | .diverged => .diverged
    else
      match broadcastLoop write message (i + 1) rest with
      | .done (rest', calls) => .done (node :: rest', calls)
      | .crashed w => .crashed w
      | .exited w => .exited w
      | .diverged => .diverged

/-- The function `BroadcastMessageToNodes`: the nodes after the call and the
writes it issued. -/
def BroadcastMessageToNodes (write : Nat → Int × Option String) (nodes : List ConnectedNode)
    (message : Bytes) : Run (List ConnectedNode × List WriteCall) :=
  broadcastLoop write message 0 nodes

/-- Three sample nodes: the second is not connected. -/
def sampleNodes : List ConnectedNode :=
  [{ Id := 0, Connected := true, PublicKey := 10, Conn := some 100 },
   { Id := 1, Connected := false, PublicKey := 11, Conn := some 101 },
   { Id := 2, Connected := true, PublicKey := 12, Conn := some 102 }]

/-- Sample write outcomes for a message of 3 bytes: the write at index 2 is
short, the others are complete. -/
def sampleWrites : Nat → Int × Option String := fun i => if i = 2 then (1, none) else (3, none)

/-! ## `parseDescription` and `mapIdentities` of sda/services/service.go -/

/-- The fields between the occurrences of a separator character, as
`strings.Split` with a one-character separator gives them: a text with `n`
separators has `n + 1` fields, some of them possibly empty. -/
def splitFields (sep : Char) : List Char → List (List Char)
  | [] => [[]]
  | ch :: rest =>
    if ch = sep then [] :: splitFields sep rest
    else
      match splitFields sep rest with
      | first :: later => (ch :: first) :: later
      | [] => [[ch]]

/-- The call `strings.Split(description, " ")`. -/
def Split (description : String) : List String :=
  (splitFields ' ' description.data).map String.mk

/-- The function `parseDescription`; `Atoi` is `strconv.Atoi`, `none` when it
returns an error. The tests on `len(desc)` are the cases of the match. -/
def parseDescription (Atoi : String → Option Int) (description : String) :
    Option PriFiIdentity × Option String :=
  match Split description with
  | [role] =>
    if role = "relay" then (some { Role := .Relay, Id := 0 }, none)
    else (none, some "Invalid description.")
  | [role, number] =>
    match Atoi number with
    | none => (none, some "Unable to parse id:")
    | some id =>
      if role = "client" then (some { Role := .Client, Id := id }, none)
      else if role = "trustee" then (some { Role := .Trustee, Id := id }, none)
      else (none, some "Invalid role.")
  | _ => (none, some "Invalid description.")

/-- A sample of `strconv.Atoi`: it accepts the non-empty strings of decimal
digits. -/
def sampleAtoi : String → Option Int := fun w =>
  if w.data ≠ [] ∧ w.data.all Char.isDigit = true then
    some ((w.data.foldl (fun acc ch => acc * 10 + (ch.toNat - 48)) 0 : Nat) : Int)
  else none

/-- The part of `config.Group` that `mapIdentities` reads: the list of the
roster and the description of each node. -/
structure Group where
  List : List ServerIdentity
  GetDescription : ServerIdentity → String

/-- The assignment `m[key] = value` on a map held as a list of entries with
distinct keys. -/
def mapSet (m : List (String × PriFiIdentity)) (key : String) (value : PriFiIdentity) :
    List (String × PriFiIdentity) :=
  (key, value) :: m.filter (fun entry => decide (entry.1 ≠ key))

/-- The first loop of `mapIdentities`, over the nodes still to read, with the
map and the relay found so far (`none` is the zero value). -/
def identityLoop (Atoi : String → Option Int) (GetDescription : ServerIdentity → String) :
    List ServerIdentity → List (String × PriFiIdentity) × Option ServerIdentity →
      Run (List (String × PriFiIdentity) × Option ServerIdentity)
  | [], found => .done found
  | si :: rest, (m, relay) =>
    match parseDescription Atoi (GetDescription si) with
    | (_, some _) => identityLoop Atoi GetDescription rest (m, relay)
    | (none, none) => .crashed "invalid memory address or nil pointer dereference"
    | (some id, none) =>
      identityLoop Atoi GetDescription rest
        (mapSet m si.Address id, if id.Role = .Relay then some si else relay)

/-- The number of entries of the map with the given role, as the second loop
of `mapIdentities` counts them. -/
def countRole (m : List (String × PriFiIdentity)) (role : PriFiRole) : Nat :=
  (m.filter (fun entry => decide (entry.2.Role = role))).length

/-- The function `mapIdentities`. -/
def mapIdentities (Atoi : String → Option Int) (group : Group) :
    Run (List (String × PriFiIdentity) × Option ServerIdentity) :=
  match identityLoop Atoi group.GetDescription group.List ([], none) with
  | .done (m, relay) =>
    let t := countRole m .Trustee
    let c := countRole m .Client
    let r := countRole m .Relay
    if ¬(t > 0 ∧ c > 0 ∧ r = 1) then
      .exited "Config file does not contain exactly one relay and at least one trustee and client."
    else .done (m, relay)
  | .crashed w => .crashed w
  | .exited w => .exited w
  | .diverged => .diverged

/-- Whether the description of a node parses, and to the given role. -/
def parsesAs (Atoi : String → Option Int) (group : Group) (role : PriFiRole)
    (si : ServerIdentity) : Bool :=
  match parseDescription Atoi (group.GetDescription si) with
  | (some id, none) => decide (id.Role = role)
  | _ => false

/-- A roster in which two nodes that both describe themselves as the relay
share the address "A". -/
def sampleSharedAddressGroup : Group :=
  { List := [⟨1, "A"⟩, ⟨2, "A"⟩, ⟨3, "B"⟩, ⟨4, "C"⟩]
    GetDescription := fun si =>
      if si.pointer = 1 then "relay" else if si.pointer = 2 then "relay"
      else if si.pointer = 3 then "trustee 0" else "client 0" }

/-- A roster of one relay, one trustee and two clients at four addresses, with
one node whose description does not parse. -/
def sampleGroup : Group :=
  { List := [⟨1, "A"⟩, ⟨2, "B"⟩, ⟨3, "C"⟩, ⟨4, "D"⟩, ⟨5, "E"⟩]
    GetDescription := fun si =>
      if si.pointer = 1 then "relay" else if si.pointer = 2 then "trustee 0"
      else if si.pointer = 3 then "client 0" else if si.pointer = 4 then "client 1"
      else "observer" }

/-! ## `HandleDisconnection` and `StartRelay` of sda/services/service.go -/

/-- The handler `HandleDisconnection` for a packet from `sender`. -/
def HandleDisconnection (created : Option Nat) (s : Service) (sender : ServerIdentity) :
    ServiceStep :=
  if s.role ≠ .Relay then { service := s, events := [], ending := .returned }
  else
    match s.identityMap.lookup sender.Address with
    | none => { service := s, events := [], ending := .returned }
    | some id =>
      match s.waitQueue with
      | none => { service := s, events := [], ending := .panicked }
      | some queue =>
        let queue : WaitQueue :=
          match id.Role with
          | .Client => { queue with clients := queue.clients.erase sender.pointer }
          | .Trustee => { queue with trustees := queue.trustees.erase sender.pointer }
          | .Relay => queue
        let s : Service := { s with waitQueue := some queue }
        let stopped := if s.isPrifiRunning then stopPriFi s else (s, [])
        if 2 ≤ queue.clients.card ∧ 1 ≤ queue.trustees.card then
          let started := startPriFi created stopped.1
          { service := started.service, events := stopped.2 ++ started.events,
            ending := started.ending }
        else { service := stopped.1, events := stopped.2, ending := .returned }

/-- The service `newService` returns, seen through the fields of the model;
`role` is the zero value of `prifi.PriFiRole`. -/
def newService (role : PriFiRole) : Service :=
  { role := role, identityMap := [], waitQueue := none, prifiWrapper := none,
    isPrifiRunning := false }

/-- The method `StartRelay`: the role, the identities read from the group by
`readGroup`, and a fresh wait queue. -/
def StartRelay (Atoi : String → Option Int) (s : Service) (group : Group) : ServiceStep :=
  let s : Service := { s with role := .Relay }
  match mapIdentities Atoi group with
  | .done (ids, _) =>
    { service := { s with identityMap := ids, waitQueue := some { trustees := ∅, clients := ∅ } }
      events := [], ending := .returned }
  | .exited _ => { service := s, events := [], ending := .fatal }
  | .crashed _ => { service := s, events := [], ending := .panicked }
  | .diverged => { service := s, events := [], ending := .panicked }

/-- The states of the service of a relay: the state in which `StartRelay`
returns on the service `newService` made, and the states in which a call of
`HandleConnection` or `HandleDisconnection` on such a state returns. -/
inductive Reachable (Atoi : String → Option Int) : Service → Prop where
  | start (role : PriFiRole) (group : Group) :
    (StartRelay Atoi (newService role) group).ending = .returned →
    Reachable Atoi (StartRelay Atoi (newService role) group).service
  | connection (created : Option Nat) (s : Service) (sender : ServerIdentity) :
    Reachable Atoi s → (HandleConnection created s sender).ending = .returned →
    Reachable Atoi (HandleConnection created s sender).service
  | disconnection (created : Option Nat) (s : Service) (sender : ServerIdentity) :
    Reachable Atoi s → (HandleDisconnection created s sender).ending = .returned →
    Reachable Atoi (HandleDisconnection created s sender).service

/-- What holds between the flag `isPrifiRunning`, the wrapper and the wait
queue of a relay. -/
def RunningWhenEnough (s : Service) : Prop :=
  s.role = .Relay ∧
  ∃ queue, s.waitQueue = some queue ∧
    (s.isPrifiRunning = true ↔ (2 ≤ queue.clients.card ∧ 1 ≤ queue.trustees.card)) ∧
    (s.isPrifiRunning = true → s.prifiWrapper ≠ none)

/-- The relay service after `StartRelay` on the sample group. -/
def sampleStarted : Service := (StartRelay sampleAtoi (newService .Client) sampleGroup).service

/-- The started relay after the connection of the client at "C". -/
def sampleOneClient : Service := (HandleConnection (some 7) sampleStarted ⟨3, "C"⟩).service

/-- The started relay after the connections of the client at "C" and of the
trustee at "B". -/
def sampleTwoNodes : Service := (HandleConnection (some 7) sampleOneClient ⟨2, "B"⟩).service

/-- The started relay after the connections of the client at "C", of the
trustee at "B" and of the client at "D". -/
def sampleThreeNodes : Service := (HandleConnection (some 7) sampleTwoNodes ⟨4, "D"⟩).service

/-! ## `ConnectTo` and `AddPendingPeer` of coco/coconet/tcphost.go -/

/-- The state of a `sync.RWMutex`: whether a writer holds it, and the number
of readers that hold it. -/
structure RWMutex where
  writer : Bool
  readers : Nat
  deriving Repr, DecidableEq

/-- The method `Lock`: `none` when the caller has to wait. -/
def RWMutex.Lock (m : RWMutex) : Option RWMutex :=
  if m.writer = false ∧ m.readers = 0 then some { m with writer := true } else none

/-- The method `Unlock`: `none` is the runtime error "sync: Unlock of unlocked
RWMutex". -/
def RWMutex.Unlock (m : RWMutex) : Option RWMutex :=
  if m.writer = true then some { m with writer := false } else none

/-- The method `RUnlock`: `none` is the runtime error "sync: RUnlock of
unlocked RWMutex", raised when no reader holds the mutex. -/
def RWMutex.RUnlock (m : RWMutex) : Option RWMutex :=
  if 0 < m.readers then some { m with readers := m.readers - 1 } else none

/-- The fields of `TCPHost` that `PeerLock` guards. `Ready` and `PendingPeers`
are the key sets of their maps (every stored value is `true`); a peer is
mapped to the handle of its connection, `none` for a connection made by
`NewTCPConn` that is not established. -/
structure TCPHost where
  PeerLock : RWMutex
  peers : List (String × Option Nat)
  Ready : List String
  PendingPeers : List String
  deriving Repr, DecidableEq

/-- How an operation of the host ends: it returns its error (`none` for nil),
the runtime ends the program, or it waits for the lock. -/
inductive HostEnding where
  | returned (err : Option String)
  | crashed (why : String)
  | blocked
  deriving Repr, DecidableEq

/-- The host after an operation, and how the operation ended. -/
structure HostStep where
  host : TCPHost
  ending : HostEnding
  deriving Repr, DecidableEq

/-- The assignment `m[key] = value` on the peer table. -/
def setPeer (peers : List (String × Option Nat)) (key : String) (value : Option Nat) :
    List (String × Option Nat) :=
  (key, value) :: peers.filter (fun entry => decide (entry.1 ≠ key))

/-- The method `ConnectTo`. `dialed` is what the dial and the exchange of the
names and the public keys give: the error that is returned, or the connection. -/
def ConnectTo (dialed : Except String Nat) (h : TCPHost) (parent : String) : HostStep :=
  match h.PeerLock.Lock with
  | none => { host := h, ending := .blocked }
  | some locked =>
    let h : TCPHost := { h with PeerLock := locked }
    if parent ∈ h.Ready then
      match h.PeerLock.RUnlock with
      | none => { host := h, ending := .crashed "sync: RUnlock of unlocked RWMutex" }
      | some unlocked => { host := { h with PeerLock := unlocked }, ending := .returned none }
    else
      match h.PeerLock.Unlock with
      | none => { host := h, ending := .crashed "sync: Unlock of unlocked RWMutex" }
      | some unlocked =>
        let h : TCPHost := { h with PeerLock := unlocked }
        match dialed with
        | .error err => { host := h, ending := .returned (some err) }
        | .ok tp =>
          match h.PeerLock.Lock with
          | none => { host := h, ending := .blocked }
          | some locked =>
            let h : TCPHost :=
              { h with PeerLock := locked
                       Ready := if parent ∈ h.Ready then h.Ready else parent :: h.Ready
                       peers := setPeer h.peers parent (some tp) }
            match h.PeerLock.Unlock with
            | none => { host := h, ending := .crashed "sync: Unlock of unlocked RWMutex" }
            | some unlocked => { host := { h with PeerLock := unlocked }, ending := .returned none }

/-- The method `AddChildren` for one child, without the update of the views. -/
def AddChildren (h : TCPHost) (c : String) : HostStep :=
  match h.PeerLock.Lock with
  | none => { host := h, ending := .blocked }
  | some locked =>
    let h : TCPHost :=
      { h with PeerLock := locked
               peers := if (h.peers.lookup c).isSome then h.peers else setPeer h.peers c none
               PendingPeers := h.PendingPeers.filter (fun name => decide (name ≠ c)) }
    match h.PeerLock.Unlock with
    | none => { host := h, ending := .crashed "sync: Unlock of unlocked RWMutex" }
    | some unlocked => { host := { h with PeerLock := unlocked }, ending := .returned none }

/-- The method `AddPendingPeer`; the error `ConnectTo` returns is ignored. -/
def AddPendingPeer (dialed : Except String Nat) (h : TCPHost) (name : String) : HostStep :=
  match h.PeerLock.Lock with
  | none => { host := h, ending := .blocked }
  | some locked =>
    let h : TCPHost := { h with PeerLock := locked }
    if name ∉ h.PendingPeers then
      { host := h, ending := .returned (some "error adding pending peer: not in pending peers") }
    else
      let h : TCPHost :=
        { h with PendingPeers := h.PendingPeers.filter (fun key => decide (key ≠ name)) }
      match h.PeerLock.Unlock with
      | none => { host := h, ending := .crashed "sync: Unlock of unlocked RWMutex" }
      | some unlocked =>
        let connected := ConnectTo dialed { h with PeerLock := unlocked } name
        match connected.ending with
        | .returned _ => AddChildren connected.host name
        | _ => connected

/-- A host with the ready peer "n1:2000" and the pending peer "n2:2000", its
lock free. -/
def sampleHost : TCPHost :=
  { PeerLock := { writer := false, readers := 0 }
    peers := [("n1:2000", some 4)], Ready := ["n1:2000"], PendingPeers := ["n2:2000"] }

/-! ## Lemmas on the client handlers -/

theorem ChangeState_state_of_mem (s : StateMachine) (n : String) (h : n ∈ StateMachine.alphabet) :
    (s.ChangeState n).state = n := by
  simp [StateMachine.ChangeState, h]

theorem wrapInt32_succ (r : Int) (hlo : -2147483648 ≤ r) (hhi : r < 2147483647) :
    wrapInt32 (r + 1) = r + 1 := by
  unfold wrapInt32; omega

theorem deliverDownstream_frame (cs : ClientState) (msg : REL_CLI_DOWNSTREAM_DATA) :
    SameSetup cs (deliverDownstream cs msg) := by
  unfold deliverDownstream; split <;> exact ⟨rfl, rfl, rfl, rfl, rfl, rfl, rfl⟩

theorem scheduleLatencyTest_frame (rd : Readings) (cs : ClientState) :
    SameSetup cs (scheduleLatencyTest rd cs) := by
  unfold scheduleLatencyTest; split <;> exact ⟨rfl, rfl, rfl, rfl, rfl, rfl, rfl⟩

theorem ProcessDownStreamData_eq (x : Collaborators) (fuel : Nat) :
    ∃ nested, ProcessDownStreamData x fuel = processDownstream x nested := by
  cases fuel with
  | zero => exact ⟨_, rfl⟩
  | succ n => exact ⟨_, rfl⟩

theorem forceDisruption_done (cs : ClientState) (slotOwner : Bool) (cell : Bytes)
    (hcell : cs.ForceDisruptionSinceRound3 = true → cell ≠ []) :
    ∃ cell' cs', forceDisruption cs slotOwner cell = .done (cell', cs') ∧
      cs'.ID = cs.ID ∧ cs'.RoundNo = cs.RoundNo ∧
      cs'.BufferedRoundData = cs.BufferedRoundData := by
  unfold forceDisruption
  split
  · rename_i h
    split
    · split
      · exact ⟨_, _, rfl, rfl, rfl, rfl⟩
      · exact ⟨_, _, rfl, rfl, rfl, rfl⟩
    · cases hl : cell.getLast? with
      | none =>
        have : cell = [] := by simpa using hl
        exact absurd this (hcell h.2.1)
      | some last => exact ⟨_, _, rfl, rfl, rfl, rfl⟩
  · exact ⟨_, _, rfl, rfl, rfl, rfl⟩

theorem keepPlainPayload_frame (x : Collaborators) (cs : ClientState) (slotOwner : Bool)
    (plain : Bytes) :
    (keepPlainPayload x cs slotOwner plain).ID = cs.ID ∧
    (keepPlainPayload x cs slotOwner plain).RoundNo = cs.RoundNo ∧
    (keepPlainPayload x cs slotOwner plain).BufferedRoundData = cs.BufferedRoundData ∧
    (keepPlainPayload x cs slotOwner plain).ForceDisruptionSinceRound3 =
      cs.ForceDisruptionSinceRound3 := by
  unfold keepPlainPayload; split <;> exact ⟨rfl, rfl, rfl, rfl⟩

theorem encodeAndSend_done (x : Collaborators) (p : PriFiLibClientInstance) (cs : ClientState)
    (slotOwner : Bool) (content : GoSlice)
    (hcell : cs.ForceDisruptionSinceRound3 = true →
      ∀ d n o b, (x.EncodeForRound d n o b).1.1 ≠ []) :
    ∃ q cell, encodeAndSend x p cs slotOwner content = .done (none, q) ∧
      q.messageSender.sent =
        p.messageSender.sent ++ [.CLI_REL_UPSTREAM_DATA cs.ID cs.RoundNo cell] ∧
      q.stateMachine = p.stateMachine ∧
      q.clientState.RoundNo = cs.RoundNo ∧
      q.clientState.BufferedRoundData = cs.BufferedRoundData := by
  unfold encodeAndSend
  simp only []
  obtain ⟨hID, hR, hB, hF⟩ := keepPlainPayload_frame x
    { cs with DCNet := (x.EncodeForRound cs.DCNet cs.RoundNo slotOwner
      ((if cs.DisruptionProtectionEnabled = true ∧ slotOwner = true then [cs.B_echo_last] else []) ++
        content.getD [])).2 } slotOwner
    (x.EncodeForRound cs.DCNet cs.RoundNo slotOwner
      ((if cs.DisruptionProtectionEnabled = true ∧ slotOwner = true then [cs.B_echo_last] else []) ++
        content.getD [])).1.2
  obtain ⟨cell', cs', hfd, hID', hR', hB'⟩ := forceDisruption_done
    (keepPlainPayload x
      { cs with DCNet := (x.EncodeForRound cs.DCNet cs.RoundNo slotOwner
        ((if cs.DisruptionProtectionEnabled = true ∧ slotOwner = true then [cs.B_echo_last] else []) ++
          content.getD [])).2 } slotOwner
      (x.EncodeForRound cs.DCNet cs.RoundNo slotOwner
        ((if cs.DisruptionProtectionEnabled = true ∧ slotOwner = true then [cs.B_echo_last] else []) ++
          content.getD [])).1.2)
    slotOwner
    (x.EncodeForRound cs.DCNet cs.RoundNo slotOwner
      ((if cs.DisruptionProtectionEnabled = true ∧ slotOwner = true then [cs.B_echo_last] else []) ++
        content.getD [])).1.1
    (fun h => hcell (by rw [hF] at h; exact h) _ _ _ _)
  rw [hfd]
  refine ⟨_, cell', rfl, ?_, rfl, ?_, ?_⟩
  · simp [MessageSenderWrapper.SendToRelayWithLog, hID', hR', hID, hR]
  · simp [hR', hR]
  · simp [hB', hB]

theorem selectUpstreamContent_done (x : Collaborators) (rd : Readings) (cs : ClientState)
    (actual : Int) (hactual : 0 ≤ actual) :
    ∃ c cs', selectUpstreamContent x rd cs actual = .done (c, cs') ∧ SameRound cs cs' := by
  unfold selectUpstreamContent
  cases hn : cs.NextDataForDCNet with
  | some data => exact ⟨_, _, rfl, rfl, rfl, rfl, rfl, rfl⟩
  | none =>
    simp only []
    split
    · rename_i h
      split
      · exact ⟨_, _, rfl, rfl, rfl, rfl, rfl, rfl⟩
      · cases hp : cs.pcapReplay.Packets[cs.pcapReplay.currentPacket]? with
        | none =>
          have := List.getElem?_eq_none_iff.mp hp
          omega
        | some pk => exact ⟨_, _, rfl, rfl, rfl, rfl, rfl, rfl⟩
    · cases hq : cs.DataForDCNet with
      | cons d rest => exact ⟨_, _, rfl, rfl, rfl, rfl, rfl, rfl⟩
      | nil =>
        simp only []
        rw [if_neg (by omega)]
        split
        · exact ⟨_, _, rfl, rfl, rfl, rfl, rfl, rfl⟩
        · exact ⟨_, _, rfl, rfl, rfl, rfl, rfl, rfl⟩

theorem actualPayloadSize_done (cs : ClientState) (slotOwner : Bool)
    (hdis : cs.DisruptionProtectionEnabled = false)
    (hsize : 1 ≤ cs.PayloadSize)
    (hequiv : cs.EquivocationProtectionEnabled = true → 17 ≤ cs.PayloadSize) :
    ∃ a, actualPayloadSize cs slotOwner = .done a ∧ 0 ≤ a := by
  unfold actualPayloadSize
  simp only [hdis, Bool.false_eq_true, false_and, if_false]
  by_cases he : cs.EquivocationProtectionEnabled = true
  · have := hequiv he
    by_cases ho : slotOwner = true
    · rw [if_neg (by intro h; omega)]
      exact ⟨_, rfl, by simp [he, ho]; omega⟩
    · rw [if_neg (by intro h; exact ho h.2.1)]
      exact ⟨_, rfl, by simp [ho]; omega⟩
  · rw [if_neg (by intro h; exact he h.1)]
    exact ⟨_, rfl, by simp [he]; omega⟩

theorem SendUpstreamData_done (x : Collaborators) (rd : Readings) (p : PriFiLibClientInstance)
    (ownerSlotID : Int)
    (hdis : p.clientState.DisruptionProtectionEnabled = false)
    (hsize : 1 ≤ p.clientState.PayloadSize)
    (hequiv : p.clientState.EquivocationProtectionEnabled = true → 17 ≤ p.clientState.PayloadSize)
    (hcell : p.clientState.ForceDisruptionSinceRound3 = true →
      ∀ d n o b, (x.EncodeForRound d n o b).1.1 ≠ []) :
    ∃ q cell, SendUpstreamData x rd p ownerSlotID = .done (none, q) ∧
      q.messageSender.sent = p.messageSender.sent ++
        [.CLI_REL_UPSTREAM_DATA p.clientState.ID p.clientState.RoundNo cell] ∧
      q.stateMachine = p.stateMachine ∧
      q.clientState.RoundNo = p.clientState.RoundNo ∧
      q.clientState.BufferedRoundData = p.clientState.BufferedRoundData := by
  unfold SendUpstreamData
  simp only []
  generalize hcs0 : (if decide (ownerSlotID = p.clientState.MySlot) = true then
      ({ p.clientState with MyLastRound := p.clientState.RoundNo } : ClientState)
    else p.clientState) = cs0
  have h0 : SameRound p.clientState cs0 ∧ cs0.PayloadSize = p.clientState.PayloadSize ∧
      cs0.EquivocationProtectionEnabled = p.clientState.EquivocationProtectionEnabled := by
    subst hcs0; split <;> exact ⟨⟨rfl, rfl, rfl, rfl, rfl⟩, rfl, rfl⟩
  obtain ⟨⟨hID, hR, hB, hD, hF⟩, hP, hE⟩ := h0
  obtain ⟨a, ha, hapos⟩ := actualPayloadSize_done cs0 (decide (ownerSlotID = p.clientState.MySlot))
    (by rw [hD]; exact hdis) (by rw [hP]; exact hsize) (by rw [hP, hE]; exact hequiv)
  rw [ha]
  simp only []
  have hchosen : ∃ c cs1, (if decide (ownerSlotID = p.clientState.MySlot) = true then
        selectUpstreamContent x rd cs0 a else .done (none, cs0)) = .done (c, cs1) ∧
      SameRound cs0 cs1 := by
    split
    · exact selectUpstreamContent_done x rd cs0 a hapos
    · exact ⟨_, _, rfl, rfl, rfl, rfl, rfl, rfl⟩
  obtain ⟨c, cs1, hc, hID1, hR1, hB1, hD1, hF1⟩ := hchosen
  rw [hc]
  simp only []
  have hd1 : cs1.DisruptionProtectionEnabled = false := by rw [hD1, hD]; exact hdis
  rw [if_neg (by rw [hd1]; simp)]
  obtain ⟨q, cell, hq, hsent, hsm, hrn, hbuf⟩ := encodeAndSend_done x p cs1
    (decide (ownerSlotID = p.clientState.MySlot)) c
    (fun h => hcell (by rw [hF1, hF] at h; exact h))
  refine ⟨q, cell, hq, ?_, hsm, ?_, ?_⟩
  · rw [hsent, hID1, hID, hR1, hR]
  · rw [hrn, hR1, hR]
  · rw [hbuf, hB1, hB]

theorem processDownstream_reply (x : Collaborators)
    (nested : (Nat → Readings) → PriFiLibClientInstance → REL_CLI_DOWNSTREAM_DATA → Handled)
    (clock : Nat → Readings) (p : PriFiLibClientInstance) (msg : REL_CLI_DOWNSTREAM_DATA)
    (hbuf : p.clientState.BufferedRoundData = [])
    (hdis : p.clientState.DisruptionProtectionEnabled = false)
    (hsize : 1 ≤ p.clientState.PayloadSize)
    (hequiv : p.clientState.EquivocationProtectionEnabled = true → 17 ≤ p.clientState.PayloadSize)
    (hresync : msg.FlagResync = false)
    (hopen : msg.FlagOpenClosedRequest = false)
    (hcell : p.clientState.ForceDisruptionSinceRound3 = true →
      ∀ d n o b, (x.EncodeForRound d n o b).1.1 ≠ []) :
    ∃ p' cell, processDownstream x nested clock p msg = .done (none, p') ∧
      p'.messageSender.sent = p.messageSender.sent ++
        [.CLI_REL_UPSTREAM_DATA p.clientState.ID p.clientState.RoundNo cell] ∧
      p'.stateMachine = p.stateMachine ∧
      p'.clientState.RoundNo = wrapInt32 (p.clientState.RoundNo + 1) := by
  unfold processDownstream
  simp only [hdis, hresync, hopen, Bool.false_eq_true, if_false]
  obtain ⟨hID, hR, hB, hD, hE, hF, hP⟩ := deliverDownstream_frame p.clientState msg
  obtain ⟨hID', hR', hB', hD', hE', hF', hP'⟩ :=
    scheduleLatencyTest_frame (clock 0) (deliverDownstream p.clientState msg)
  obtain ⟨q, cell, hq, hsent, hsm, hrn, hqb⟩ := SendUpstreamData_done x (clock 0)
    { p with clientState := scheduleLatencyTest (clock 0) (deliverDownstream p.clientState msg) }
    msg.OwnershipID
    (by simp only []; rw [hD', hD]; exact hdis)
    (by simp only []; rw [hP', hP]; exact hsize)
    (by simp only []; rw [hP', hP, hE', hE]; exact hequiv)
    (by simp only []; rw [hF', hF]; exact hcell)
  rw [hq]
  simp only [] at hsent hsm hrn hqb ⊢
  have hempty : q.clientState.BufferedRoundData = [] := by rw [hqb, hB', hB, hbuf]
  simp only [hempty, mapDelete, List.filter_nil, List.lookup_nil]
  refine ⟨_, cell, rfl, ?_, hsm, ?_⟩
  · rw [hsent, hID', hID, hR', hR]
  · simp only []; rw [hrn, hR', hR]

theorem processDownstream_resync (x : Collaborators)
    (nested : (Nat → Readings) → PriFiLibClientInstance → REL_CLI_DOWNSTREAM_DATA → Handled)
    (clock : Nat → Readings) (p : PriFiLibClientInstance) (msg : REL_CLI_DOWNSTREAM_DATA)
    (hresync : msg.FlagResync = true) :
    ∃ q, processDownstream x nested clock p msg = .done (none, q) ∧
      q.stateMachine.state = "BEFORE_INIT" ∧
      q.messageSender =
        (if p.clientState.DisruptionProtectionEnabled then x.handlePossibleDisruption p msg
          else p).messageSender ∧
      q.clientState.RoundNo =
        (if p.clientState.DisruptionProtectionEnabled then x.handlePossibleDisruption p msg
          else p).clientState.RoundNo := by
  unfold processDownstream
  simp only [hresync, if_true]
  refine ⟨_, rfl, ?_, rfl, ?_⟩
  · exact ChangeState_state_of_mem _ _ (by decide)
  · simp [(scheduleLatencyTest_frame _ _).2.1, (deliverDownstream_frame _ _).2.1]

theorem roundZeroPayload_all_zero (cs : ClientState) :
    ∀ b ∈ roundZeroPayload cs, b = 0 := by
  intro b hb
  unfold roundZeroPayload zeros at hb
  split at hb
  · simp only [List.singleton_append, List.mem_cons, List.mem_replicate] at hb
    rcases hb with h | h
    · exact h
    · exact h.2
  · exact (List.mem_replicate.mp hb).2

theorem startListening_frame (cs : ClientState) :
    SameCell cs (startListening cs) ∧ SameStart cs (startListening cs) := by
  unfold startListening; split <;> exact ⟨⟨rfl, rfl, rfl, rfl, rfl⟩, rfl, rfl, rfl⟩

theorem blankCommitment_frame (x : Collaborators) (cs : ClientState) :
    SameCell cs (blankCommitment x cs) ∧ SameStart cs (blankCommitment x cs) := by
  unfold blankCommitment; split <;> exact ⟨⟨rfl, rfl, rfl, rfl, rfl⟩, rfl, rfl, rfl⟩

theorem keepRoundZeroPlain_frame (x : Collaborators) (cs : ClientState) (plain : Bytes) :
    SameCell cs (keepRoundZeroPlain x cs plain) ∧ SameStart cs (keepRoundZeroPlain x cs plain) := by
  unfold keepRoundZeroPlain; split <;> exact ⟨⟨rfl, rfl, rfl, rfl, rfl⟩, rfl, rfl, rfl⟩

theorem roundZeroPayloadSize_congr (a b : ClientState) (h : SameCell a b) :
    roundZeroPayloadSize b = roundZeroPayloadSize a := by
  obtain ⟨h1, h2, h3, _, _⟩ := h
  unfold roundZeroPayloadSize; rw [h1, h2, h3]

theorem roundZeroPayload_congr (a b : ClientState) (h : SameCell a b) :
    roundZeroPayload b = roundZeroPayload a := by
  unfold roundZeroPayload
  rw [roundZeroPayloadSize_congr a b h, h.2.2.2.1]

/-- Whatever the slot recognition answers, the handler of the shuffle result
goes on to `READY` and sends the blank cell of round 0, provided the UDP helper
is not missing and the payload size leaves room for the blank payload. -/
theorem tell_eph_pks_goes_on (x : Collaborators) (p : PriFiLibClientInstance)
    (msg : REL_CLI_TELL_EPH_PKS_AND_TRUSTEES_SIG)
    (hudp : p.clientState.UseUDP = false ∨ p.clientState.StartStopReceiveBroadcast ≠ none)
    (hroom : 0 ≤ roundZeroPayloadSize p.clientState)
    (hroom' : p.clientState.DisruptionProtectionEnabled = true →
      1 ≤ roundZeroPayloadSize p.clientState) :
    ∃ p', Received_REL_CLI_TELL_EPH_PKS_AND_TRUSTEES_SIG x p msg = .done (none, p') ∧
      p'.clientState.MySlot = (x.ClientVerifySigAndRecognizeSlot p.clientState.ephemeralPrivateKey
        p.clientState.TrusteePublicKey msg.Base msg.EphPks msg.Signatures).1 ∧
      p'.stateMachine.state = "READY" ∧
      p'.messageSender.sent = p.messageSender.sent ++
        [.CLI_REL_UPSTREAM_DATA p.clientState.ID 0
          (x.EncodeForRound p.clientState.DCNet 0 (decide (p.clientState.ID = 0))
            (roundZeroPayload p.clientState)).1.1] ∧
      p'.clientState.RoundNo = 1 ∧
      p'.clientState.BufferedRoundData = [] := by
  have hnot : ¬ (p.clientState.UseUDP = true ∧ p.clientState.StartStopReceiveBroadcast = none) := by
    rintro ⟨h1, h2⟩
    rcases hudp with h | h
    · rw [h] at h1; cases h1
    · exact h h2
  unfold Received_REL_CLI_TELL_EPH_PKS_AND_TRUSTEES_SIG
  simp only []
  generalize hslot : (x.ClientVerifySigAndRecognizeSlot p.clientState.ephemeralPrivateKey
        p.clientState.TrusteePublicKey msg.Base msg.EphPks msg.Signatures).1 = mySlot
  generalize hcs0 : prepareForCommunication p.clientState msg mySlot = cs0
  have h0 : SameCell p.clientState cs0 ∧ cs0.MySlot = mySlot ∧ cs0.RoundNo = 0 ∧
      cs0.BufferedRoundData = [] ∧ cs0.UseUDP = p.clientState.UseUDP ∧
      cs0.StartStopReceiveBroadcast = p.clientState.StartStopReceiveBroadcast := by
    subst hcs0; exact ⟨⟨rfl, rfl, rfl, rfl, rfl⟩, rfl, rfl, rfl, rfl, rfl⟩
  obtain ⟨hc0, hs0, hr0, hb0, hu0, hch0⟩ := h0
  rw [if_neg (by rw [hu0, hch0]; exact hnot)]
  obtain ⟨hc1, hs1, hr1, hb1⟩ := startListening_frame cs0
  have hc01 : SameCell p.clientState (startListening cs0) :=
    ⟨hc1.1.trans hc0.1, hc1.2.1.trans hc0.2.1, hc1.2.2.1.trans hc0.2.2.1,
      hc1.2.2.2.1.trans hc0.2.2.2.1, hc1.2.2.2.2.trans hc0.2.2.2.2⟩
  have hsz := roundZeroPayloadSize_congr _ _ hc01
  have hpl := roundZeroPayload_congr _ _ hc01
  rw [hsz, hpl, if_neg (by omega), hc01.2.2.2.1, hc01.1]
  rw [if_neg (by rintro ⟨h1, h2⟩; have := hroom' h1; omega)]
  obtain ⟨hc2, hs2, hr2, hb2⟩ := blankCommitment_frame x (startListening cs0)
  rw [hc2.2.2.2.2, hc01.2.2.2.2]
  generalize henc : x.EncodeForRound p.clientState.DCNet 0 (decide (p.clientState.ID = 0))
    (roundZeroPayload p.clientState) = enc
  obtain ⟨hc3, hs3, hr3, hb3⟩ := keepRoundZeroPlain_frame x
    { blankCommitment x (startListening cs0) with DCNet := enc.2 } enc.1.2
  simp only [] at hc3 hs3 hr3 hb3
  refine ⟨_, rfl, ?_, ChangeState_state_of_mem _ _ (by decide), ?_, ?_, ?_⟩
  · simp only []; rw [hs3, hs2, hs1, hs0]
  · simp only [MessageSenderWrapper.SendToRelayWithLog]
    rw [hc3.1, hr3, hc2.1, hr2, hc01.1, hr1, hr0]
  · simp only []; rw [hr3, hr2, hr1, hr0]; rfl
  · simp only []; rw [hb3, hb2, hb1, hb0]

theorem tell_trustees_pk_empty (x : Collaborators) (rd : Readings) (q : PriFiLibClientInstance) :
    Received_REL_CLI_TELL_TRUSTEES_PK x rd q [] =
      .done (some ("Client " ++ toString q.clientState.ID ++ " : len(msg.Pks) must be >= 1"), q) := by
  unfold Received_REL_CLI_TELL_TRUSTEES_PK
  rw [if_pos (by simp)]

theorem tell_trustees_pk_done (x : Collaborators) (rd : Readings) (q : PriFiLibClientInstance)
    (pks : List Point) (hone : 1 ≤ pks.length) (hfit : (pks.length : Int) ≤ q.clientState.nTrustees) :
    ∃ q', Received_REL_CLI_TELL_TRUSTEES_PK x rd q pks = .done (none, q') ∧
      q'.clientState.ID = q.clientState.ID ∧
      q'.messageSender.sent = q.messageSender.sent ++
        [.CLI_REL_TELL_PK_AND_EPH_PK q.clientState.ID q.clientState.PublicKey rd.newKeyPair.1] ∧
      q'.stateMachine.state = "EPH_KEYS_SENT" := by
  unfold Received_REL_CLI_TELL_TRUSTEES_PK
  rw [if_neg (by omega), if_neg (by omega), if_neg (by omega)]
  exact ⟨_, rfl, rfl, rfl, ChangeState_state_of_mem _ _ (by decide)⟩

theorem loadReplay_frame (x : Collaborators) (cs : ClientState) (clientID : Int) :
    (loadReplay x cs clientID).ID = cs.ID ∧ (loadReplay x cs clientID).nTrustees = cs.nTrustees ∧
    (loadReplay x cs clientID).PublicKey = cs.PublicKey := by
  unfold loadReplay
  split
  · simp only []; split <;> exact ⟨rfl, rfl, rfl⟩
  · exact ⟨rfl, rfl, rfl⟩

/-! ## Claims on the client handlers -/

/-- C1, where the code departs from the claim: when
`ClientVerifySigAndRecognizeSlot` returns an error, the handler
`Received_REL_CLI_TELL_EPH_PKS_AND_TRUSTEES_SIG` only logs it; with the UDP
helper not missing and room for the blank payload it returns nil, moves the
state machine to `READY` and sends the `CLI_REL_UPSTREAM_DATA` of round 0. -/
theorem unrecognised_slot_still_goes_ready (x : Collaborators) (p : PriFiLibClientInstance)
    (msg : REL_CLI_TELL_EPH_PKS_AND_TRUSTEES_SIG) (e : String)
    (_herr : (x.ClientVerifySigAndRecognizeSlot p.clientState.ephemeralPrivateKey
      p.clientState.TrusteePublicKey msg.Base msg.EphPks msg.Signatures).2 = some e)
    (hudp : p.clientState.UseUDP = false ∨ p.clientState.StartStopReceiveBroadcast ≠ none)
    (hroom : 0 ≤ roundZeroPayloadSize p.clientState)
    (hroom' : p.clientState.DisruptionProtectionEnabled = true →
      1 ≤ roundZeroPayloadSize p.clientState) :
    ∃ p' cell, Received_REL_CLI_TELL_EPH_PKS_AND_TRUSTEES_SIG x p msg = .done (none, p') ∧
      p'.stateMachine.state = "READY" ∧
      p'.messageSender.sent =
        p.messageSender.sent ++ [.CLI_REL_UPSTREAM_DATA p.clientState.ID 0 cell] := by
  obtain ⟨p', h, _, hst, hsent, _, _⟩ := tell_eph_pks_goes_on x p msg hudp hroom hroom'
  exact ⟨p', _, h, hst, hsent⟩

/-- Witness of C1: the sample client, waiting for the shuffle result, receives
one without signatures, which the sample slot recognition rejects. -/
theorem unrecognised_slot_still_goes_ready_witness :
    (sampleCollaborators.ClientVerifySigAndRecognizeSlot
        (sampleWaitingClient 32 false).clientState.ephemeralPrivateKey
        (sampleWaitingClient 32 false).clientState.TrusteePublicKey
        (sampleShuffleResult []).Base (sampleShuffleResult []).EphPks
        (sampleShuffleResult []).Signatures).2 = some "no signature" ∧
    ∃ p' cell, Received_REL_CLI_TELL_EPH_PKS_AND_TRUSTEES_SIG sampleCollaborators
        (sampleWaitingClient 32 false) (sampleShuffleResult []) = .done (none, p') ∧
      p'.stateMachine.state = "READY" ∧
      p'.messageSender.sent =
        (sampleWaitingClient 32 false).messageSender.sent ++
          [.CLI_REL_UPSTREAM_DATA (sampleWaitingClient 32 false).clientState.ID 0 cell] :=
  ⟨rfl, unrecognised_slot_still_goes_ready sampleCollaborators (sampleWaitingClient 32 false)
    (sampleShuffleResult []) "no signature" rfl (Or.inl rfl) (by decide) (by decide)⟩

/-- C2: a `READY` client at round `r` with an empty `BufferedRoundData`,
disruption protection off and a payload size large enough for the enabled
protections, handling a `REL_CLI_DOWNSTREAM_DATA` of round `r` with both flags
false, sends exactly one message, a `CLI_REL_UPSTREAM_DATA` with its own id and
round `r`, stays `READY` and leaves `RoundNo = r + 1` (the `int32` increment).
The cell coder is assumed to return a non-empty cell when the disruption test
hook is switched on. -/
theorem in_order_downstream_replies (x : Collaborators) (fuel : Nat) (clock : Nat → Readings)
    (p : PriFiLibClientInstance) (msg : REL_CLI_DOWNSTREAM_DATA) (r : Int)
    (hready : p.stateMachine.state = "READY")
    (hround : p.clientState.RoundNo = r)
    (hbuf : p.clientState.BufferedRoundData = [])
    (hdis : p.clientState.DisruptionProtectionEnabled = false)
    (hsize : 1 ≤ p.clientState.PayloadSize)
    (hequiv : p.clientState.EquivocationProtectionEnabled = true → 17 ≤ p.clientState.PayloadSize)
    (hid : msg.RoundID = r)
    (hresync : msg.FlagResync = false)
    (hopen : msg.FlagOpenClosedRequest = false)
    (hcell : p.clientState.ForceDisruptionSinceRound3 = true →
      ∀ d n o b, (x.EncodeForRound d n o b).1.1 ≠ []) :
    ∃ p' cell, Received_REL_CLI_DOWNSTREAM_DATA x fuel clock p msg = .done (none, p') ∧
      p'.messageSender.sent =
        p.messageSender.sent ++ [.CLI_REL_UPSTREAM_DATA p.clientState.ID r cell] ∧
      p'.stateMachine.state = "READY" ∧
      p'.clientState.RoundNo = wrapInt32 (r + 1) ∧
      (-2147483648 ≤ r → r < 2147483647 → p'.clientState.RoundNo = r + 1) := by
  obtain ⟨nested, hn⟩ := ProcessDownStreamData_eq x fuel
  unfold Received_REL_CLI_DOWNSTREAM_DATA receivedDownstream
  rw [hn]
  simp only []
  generalize hp1 : (if msg.RoundID = 1 then
      ({ p with clientState := { p.clientState with pcapReplay :=
          { p.clientState.pcapReplay with time0 := toUint64 (clock 0).msTimeStampNow } } } :
        PriFiLibClientInstance)
    else p) = p1
  have h1 : SameSetup p.clientState p1.clientState ∧ p1.messageSender = p.messageSender ∧
      p1.stateMachine = p.stateMachine := by
    subst hp1; split <;> exact ⟨⟨rfl, rfl, rfl, rfl, rfl, rfl, rfl⟩, rfl, rfl⟩
  obtain ⟨⟨hID, hR, hB, hD, hE, hF, hP⟩, hms, hsm⟩ := h1
  rw [if_pos (by rw [hR, hround, hid])]
  obtain ⟨p', cell, hp', hsent, hsm', hrn⟩ := processDownstream_reply x nested clock p1 msg
    (by rw [hB]; exact hbuf) (by rw [hD]; exact hdis) (by rw [hP]; exact hsize)
    (by rw [hP, hE]; exact hequiv) hresync hopen (by rw [hF]; exact hcell)
  refine ⟨p', cell, hp', ?_, ?_, ?_, ?_⟩
  · rw [hsent, hms, hID, hR, hround]
  · rw [hsm', hsm]; exact hready
  · rw [hrn, hR, hround]
  · intro hlo hhi
    rw [hrn, hR, hround]; exact wrapInt32_succ r hlo hhi

/-- Witness of C2: the sample client at round 5 receives the downstream
message of round 5. -/
theorem in_order_downstream_replies_witness :
    ∃ p' cell, Received_REL_CLI_DOWNSTREAM_DATA sampleCollaborators 0 sampleClock sampleClient
        (sampleDownstream 5 false) = .done (none, p') ∧
      p'.messageSender.sent =
        sampleClient.messageSender.sent ++
          [.CLI_REL_UPSTREAM_DATA sampleClient.clientState.ID 5 cell] ∧
      p'.stateMachine.state = "READY" ∧
      p'.clientState.RoundNo = wrapInt32 (5 + 1) ∧
      (-2147483648 ≤ (5 : Int) → (5 : Int) < 2147483647 → p'.clientState.RoundNo = 5 + 1) :=
  in_order_downstream_replies sampleCollaborators 0 sampleClock sampleClient
    (sampleDownstream 5 false) 5 rfl rfl rfl rfl (by decide) (by decide) rfl rfl rfl
    (fun h => absurd h (by decide))

/-- C3 fails as stated: client 0 with equivocation protection and a payload
size of 10 recognises its slot, and the handler panics on the negative size
of the blank payload instead of returning nil. -/
theorem round_zero_payload_too_small_crashes :
    (sampleCollaborators.ClientVerifySigAndRecognizeSlot
        (sampleWaitingClient 10 true).clientState.ephemeralPrivateKey
        (sampleWaitingClient 10 true).clientState.TrusteePublicKey
        (sampleShuffleResult [[1]]).Base (sampleShuffleResult [[1]]).EphPks
        (sampleShuffleResult [[1]]).Signatures) = (0, none) ∧
    (sampleWaitingClient 10 true).clientState.UseUDP = false ∧
    Received_REL_CLI_TELL_EPH_PKS_AND_TRUSTEES_SIG sampleCollaborators
        (sampleWaitingClient 10 true) (sampleShuffleResult [[1]]) =
      .crashed "makeslice: len out of range" :=
  ⟨rfl, rfl, rfl⟩

/-- C3, amended: when slot recognition succeeds, `UseUDP` is false or the
broadcast helper channel exists, and the payload size leaves room for the
blank payload (16 bytes less for client 0 under equivocation protection, and
at least one byte under disruption protection), the handler sets `MySlot` to
the recognised slot, moves to `READY`, calls `EncodeForRound` for round 0 with
an all-zero payload and `slotOwner = (ID == 0)`, sends exactly one
`CLI_REL_UPSTREAM_DATA` of round 0 carrying the resulting cell, and returns nil
with `RoundNo = 1` and an empty `BufferedRoundData`. -/
theorem recognised_slot_sends_round_zero (x : Collaborators) (p : PriFiLibClientInstance)
    (msg : REL_CLI_TELL_EPH_PKS_AND_TRUSTEES_SIG) (slot : Int)
    (hok : x.ClientVerifySigAndRecognizeSlot p.clientState.ephemeralPrivateKey
      p.clientState.TrusteePublicKey msg.Base msg.EphPks msg.Signatures = (slot, none))
    (hudp : p.clientState.UseUDP = false ∨ p.clientState.StartStopReceiveBroadcast ≠ none)
    (hroom : 0 ≤ roundZeroPayloadSize p.clientState)
    (hroom' : p.clientState.DisruptionProtectionEnabled = true →
      1 ≤ roundZeroPayloadSize p.clientState) :
    ∃ p' payload, Received_REL_CLI_TELL_EPH_PKS_AND_TRUSTEES_SIG x p msg = .done (none, p') ∧
      p'.clientState.MySlot = slot ∧
      p'.stateMachine.state = "READY" ∧
      (∀ b ∈ payload, b = 0) ∧
      p'.messageSender.sent = p.messageSender.sent ++
        [.CLI_REL_UPSTREAM_DATA p.clientState.ID 0
          (x.EncodeForRound p.clientState.DCNet 0 (decide (p.clientState.ID = 0)) payload).1.1] ∧
      p'.clientState.RoundNo = 1 ∧
      p'.clientState.BufferedRoundData = [] := by
  obtain ⟨p', h, hslot, hst, hsent, hr, hb⟩ := tell_eph_pks_goes_on x p msg hudp hroom hroom'
  refine ⟨p', roundZeroPayload p.clientState, h, ?_, hst, roundZeroPayload_all_zero _, hsent, hr, hb⟩
  rw [hslot, hok]

/-- Witness of C3: the sample client, waiting with a payload size of 32,
receives a signed shuffle result. -/
theorem recognised_slot_sends_round_zero_witness :
    ∃ p' payload, Received_REL_CLI_TELL_EPH_PKS_AND_TRUSTEES_SIG sampleCollaborators
        (sampleWaitingClient 32 true) (sampleShuffleResult [[1]]) = .done (none, p') ∧
      p'.clientState.MySlot = 0 ∧
      p'.stateMachine.state = "READY" ∧
      (∀ b ∈ payload, b = 0) ∧
      p'.messageSender.sent = (sampleWaitingClient 32 true).messageSender.sent ++
        [.CLI_REL_UPSTREAM_DATA (sampleWaitingClient 32 true).clientState.ID 0
          (sampleCollaborators.EncodeForRound (sampleWaitingClient 32 true).clientState.DCNet 0
            (decide ((sampleWaitingClient 32 true).clientState.ID = 0)) payload).1.1] ∧
      p'.clientState.RoundNo = 1 ∧
      p'.clientState.BufferedRoundData = [] :=
  recognised_slot_sends_round_zero sampleCollaborators (sampleWaitingClient 32 true)
    (sampleShuffleResult [[1]]) 0 rfl (Or.inl rfl) (by decide) (fun h => absurd h (by decide))

/-- C4, where the code departs from the claim: on a parameter message that
passes the sanity checks but carries no trustee key,
`Received_ALL_ALL_PARAMETERS` drops the error of
`Received_REL_CLI_TELL_TRUSTEES_PK` and returns nil although nothing was sent
and the state machine has not moved. -/
theorem parameters_without_trustee_keys_return_nil (x : Collaborators) (rd : Readings)
    (p : PriFiLibClientInstance) (msg : ALL_ALL_PARAMETERS)
    (hid : -1 ≤ msg.IntValueOrElse "NextFreeClientID" (-1))
    (hnt : 1 ≤ msg.IntValueOrElse "NTrustees" p.clientState.nTrustees)
    (hnc : 1 ≤ msg.IntValueOrElse "NClients" p.clientState.nClients)
    (hps : 1 ≤ msg.IntValueOrElse "PayloadSize" p.clientState.PayloadSize)
    (hty : msg.StringValueOrElse "DCNetType" "not initialized" ≠ "Verifiable")
    (hpk : msg.TrusteesPks = []) :
    ∃ p', Received_ALL_ALL_PARAMETERS x rd p msg = .done (none, p') ∧
      p'.messageSender.sent = p.messageSender.sent ∧
      p'.stateMachine.state = p.stateMachine.state := by
  unfold Received_ALL_ALL_PARAMETERS
  simp only []
  rw [if_neg (by omega), if_neg (by omega), if_neg (by omega), if_neg (by omega), if_neg hty, hpk]
  rw [tell_trustees_pk_empty]
  exact ⟨_, rfl, rfl, rfl⟩

/-- Witness of C4: the sample client receives the sample parameters for client
3 without any trustee key. -/
theorem parameters_without_trustee_keys_return_nil_witness :
    ∃ p', Received_ALL_ALL_PARAMETERS sampleCollaborators (sampleClock 0) sampleClient
        (sampleParameters [("NextFreeClientID", 3)] []) = .done (none, p') ∧
      p'.messageSender.sent = sampleClient.messageSender.sent ∧
      p'.stateMachine.state = sampleClient.stateMachine.state :=
  parameters_without_trustee_keys_return_nil sampleCollaborators (sampleClock 0) sampleClient
    (sampleParameters [("NextFreeClientID", 3)] []) (by decide) (by decide) (by decide)
    (by decide) (by decide) rfl

/-- C5, where the code departs from the claim: a resolved client id of -1,
which is what a message without `NextFreeClientID` resolves to, passes the
check `clientID < -1`; with the other parameters valid the handler returns nil
with the client set up under the id -1. -/
theorem client_id_minus_one_accepted (x : Collaborators) (rd : Readings)
    (p : PriFiLibClientInstance) (msg : ALL_ALL_PARAMETERS)
    (hid : msg.IntValueOrElse "NextFreeClientID" (-1) = -1)
    (hnt : 1 ≤ msg.IntValueOrElse "NTrustees" p.clientState.nTrustees)
    (hnc : 1 ≤ msg.IntValueOrElse "NClients" p.clientState.nClients)
    (hps : 1 ≤ msg.IntValueOrElse "PayloadSize" p.clientState.PayloadSize)
    (hty : msg.StringValueOrElse "DCNetType" "not initialized" ≠ "Verifiable")
    (hone : 1 ≤ msg.TrusteesPks.length)
    (hfit : (msg.TrusteesPks.length : Int) ≤ msg.IntValueOrElse "NTrustees" p.clientState.nTrustees) :
    ∃ p', Received_ALL_ALL_PARAMETERS x rd p msg = .done (none, p') ∧
      p'.clientState.ID = -1 ∧
      p'.messageSender.sent = p.messageSender.sent ++
        [.CLI_REL_TELL_PK_AND_EPH_PK (-1) p.clientState.PublicKey rd.newKeyPair.1] ∧
      p'.stateMachine.state = "EPH_KEYS_SENT" := by
  unfold Received_ALL_ALL_PARAMETERS
  simp only []
  rw [if_neg (by omega), if_neg (by omega), if_neg (by omega), if_neg (by omega), if_neg hty]
  generalize hQ : PriFiLibClientInstance.mk _ _ _ = Q
  have hq : Q.clientState.ID = -1 ∧
      Q.clientState.nTrustees = msg.IntValueOrElse "NTrustees" p.clientState.nTrustees ∧
      Q.clientState.PublicKey = p.clientState.PublicKey ∧
      Q.messageSender.sent = p.messageSender.sent := by
    subst hQ
    simp only []
    refine ⟨?_, ?_, ?_, rfl⟩
    · rw [(loadReplay_frame x _ _).1]; exact hid
    · rw [(loadReplay_frame x _ _).2.1]
    · rw [(loadReplay_frame x _ _).2.2]
  obtain ⟨h1, h2, h3, h4⟩ := hq
  obtain ⟨q', hq', hID, hsent, hst⟩ := tell_trustees_pk_done x rd Q msg.TrusteesPks hone
    (by rw [h2]; exact hfit)
  rw [hq']
  refine ⟨q', rfl, by rw [hID, h1], ?_, hst⟩
  rw [hsent, h1, h3, h4]

/-- Witness of C5: the sample client receives the sample parameters without a
`NextFreeClientID` and with one trustee key. -/
theorem client_id_minus_one_accepted_witness :
    ∃ p', Received_ALL_ALL_PARAMETERS sampleCollaborators (sampleClock 0) sampleClient
        (sampleParameters [] [13]) = .done (none, p') ∧
      p'.clientState.ID = -1 ∧
      p'.messageSender.sent = sampleClient.messageSender.sent ++
        [.CLI_REL_TELL_PK_AND_EPH_PK (-1) sampleClient.clientState.PublicKey
          (sampleClock 0).newKeyPair.1] ∧
      p'.stateMachine.state = "EPH_KEYS_SENT" :=
  client_id_minus_one_accepted sampleCollaborators (sampleClock 0) sampleClient
    (sampleParameters [] [13]) rfl (by decide) (by decide) (by decide) (by decide)
    (by decide) (by decide)

/-- C6 fails as stated: the sample client at round 5 receives a stale message
of round 1; the handler returns nil, but the replay clock `pcapReplay.time0`
has moved from 0 to the current timestamp. -/
theorem stale_round_one_resets_replay_clock :
    (sampleDownstream 1 false).RoundID < sampleClient.clientState.RoundNo ∧
    sampleClient.clientState.pcapReplay.time0 = 0 ∧
    ∃ p', Received_REL_CLI_DOWNSTREAM_DATA sampleCollaborators 0 sampleClock sampleClient
        (sampleDownstream 1 false) = .done (none, p') ∧
      p'.clientState.pcapReplay.time0 = 1000 :=
  ⟨by decide, rfl, _, rfl, rfl⟩

/-- C6, amended: for every client state and every `REL_CLI_DOWNSTREAM_DATA`
whose `RoundID` is strictly less than the client's `RoundNo`, the handler
returns nil, sends no message and leaves every field of the client state
unchanged, except that a message with `RoundID = 1` sets the replay clock
`pcapReplay.time0` to the current timestamp. -/
theorem stale_downstream_discarded (x : Collaborators) (fuel : Nat) (clock : Nat → Readings)
    (p : PriFiLibClientInstance) (msg : REL_CLI_DOWNSTREAM_DATA)
    (hstale : msg.RoundID < p.clientState.RoundNo) :
    Received_REL_CLI_DOWNSTREAM_DATA x fuel clock p msg =
      .done (none,
        if msg.RoundID = 1 then
          { p with clientState := { p.clientState with pcapReplay :=
              { p.clientState.pcapReplay with time0 := toUint64 (clock 0).msTimeStampNow } } }
        else p) := by
  unfold Received_REL_CLI_DOWNSTREAM_DATA receivedDownstream
  by_cases h1 : msg.RoundID = 1
  · have hne : ¬ msg.RoundID = p.clientState.RoundNo := by omega
    simp [h1] at hne hstale ⊢
    simp [hne, hstale]
  · have hne : ¬ msg.RoundID = p.clientState.RoundNo := by omega
    simp [h1, hne, hstale]

/-- Witness of C6: the sample client at round 5 receives the message of
round 3 and is left exactly as it was. -/
theorem stale_downstream_discarded_witness :
    Received_REL_CLI_DOWNSTREAM_DATA sampleCollaborators 0 sampleClock sampleClient
        (sampleDownstream 3 false) =
      .done (none,
        if (sampleDownstream 3 false).RoundID = 1 then
          { sampleClient with clientState := { sampleClient.clientState with pcapReplay :=
              { sampleClient.clientState.pcapReplay with
                time0 := toUint64 (sampleClock 0).msTimeStampNow } } }
        else sampleClient) :=
  stale_downstream_discarded sampleCollaborators 0 sampleClock sampleClient
    (sampleDownstream 3 false) (by decide)

/-- C7 fails as stated: the sample client at round 5, with an empty buffer,
receives the message of round 8; the state handed to the processing has an
empty `BufferedRoundData`, and after the handler nothing is stored under key 8
although the round number has moved on to 9. -/
theorem ahead_downstream_not_buffered :
    sampleClient.clientState.RoundNo = 5 ∧ (sampleDownstream 8 false).RoundID = 5 + 3 ∧
    (skippedTo sampleClock sampleClient (sampleDownstream 8 false)).clientState.BufferedRoundData
      = [] ∧
    Received_REL_CLI_DOWNSTREAM_DATA sampleCollaborators 0 sampleClock sampleClient
        (sampleDownstream 8 false) =
      ProcessDownStreamData sampleCollaborators 0 sampleClock
        (skippedTo sampleClock sampleClient (sampleDownstream 8 false)) (sampleDownstream 8 false) ∧
    ∃ p', Received_REL_CLI_DOWNSTREAM_DATA sampleCollaborators 0 sampleClock sampleClient
        (sampleDownstream 8 false) = .done (none, p') ∧
      p'.clientState.BufferedRoundData.lookup 8 = none ∧
      p'.clientState.RoundNo = 9 :=
  ⟨rfl, rfl, rfl, rfl, _, rfl, rfl, rfl⟩

/-- C7, amended: for every client with `RoundNo = r` and every
`REL_CLI_DOWNSTREAM_DATA` with `RoundID = r + k`, `k > 0`, the handler advances
`RoundNo` to `r + k` and then processes the message; it does not store the
message: `BufferedRoundData` is handed to the processing as it was. -/
theorem ahead_downstream_skips (x : Collaborators) (fuel : Nat) (clock : Nat → Readings)
    (p : PriFiLibClientInstance) (msg : REL_CLI_DOWNSTREAM_DATA) (r k : Int)
    (hround : p.clientState.RoundNo = r) (hk : 0 < k) (hid : msg.RoundID = r + k) :
    Received_REL_CLI_DOWNSTREAM_DATA x fuel clock p msg =
      ProcessDownStreamData x fuel clock (skippedTo clock p msg) msg ∧
    (skippedTo clock p msg).clientState.RoundNo = r + k ∧
    (skippedTo clock p msg).clientState.BufferedRoundData = p.clientState.BufferedRoundData ∧
    (skippedTo clock p msg).messageSender = p.messageSender := by
  unfold Received_REL_CLI_DOWNSTREAM_DATA receivedDownstream skippedTo
  simp only []
  generalize hp1 : (if msg.RoundID = 1 then
      ({ p with clientState := { p.clientState with pcapReplay :=
          { p.clientState.pcapReplay with time0 := toUint64 (clock 0).msTimeStampNow } } } :
        PriFiLibClientInstance)
    else p) = p1
  have h1 : p1.clientState.RoundNo = p.clientState.RoundNo ∧
      p1.clientState.BufferedRoundData = p.clientState.BufferedRoundData ∧
      p1.messageSender = p.messageSender := by
    subst hp1; split <;> exact ⟨rfl, rfl, rfl⟩
  obtain ⟨hR, hB, hM⟩ := h1
  rw [if_neg (by omega), if_neg (by omega), if_pos (by omega)]
  exact ⟨rfl, hid, hB, hM⟩

/-- Witness of C7: the sample client at round 5 receives the message of
round 8. -/
theorem ahead_downstream_skips_witness :
    Received_REL_CLI_DOWNSTREAM_DATA sampleCollaborators 0 sampleClock sampleClient
        (sampleDownstream 8 false) =
      ProcessDownStreamData sampleCollaborators 0 sampleClock
        (skippedTo sampleClock sampleClient (sampleDownstream 8 false)) (sampleDownstream 8 false) ∧
    (skippedTo sampleClock sampleClient (sampleDownstream 8 false)).clientState.RoundNo = 5 + 3 ∧
    (skippedTo sampleClock sampleClient (sampleDownstream 8 false)).clientState.BufferedRoundData =
      sampleClient.clientState.BufferedRoundData ∧
    (skippedTo sampleClock sampleClient (sampleDownstream 8 false)).messageSender =
      sampleClient.messageSender :=
  ahead_downstream_skips sampleCollaborators 0 sampleClock sampleClient
    (sampleDownstream 8 false) 5 3 rfl (by decide) rfl

/-- C8: for every client and every `REL_CLI_DOWNSTREAM_DATA` with
`RoundID >= RoundNo` and `FlagResync = true`, whatever `FlagOpenClosedRequest`
is, the handler moves the state machine to `BEFORE_INIT`, returns nil, sends
nothing (so neither a `CLI_REL_UPSTREAM_DATA` nor a `CLI_REL_OPENCLOSED_DATA`)
and leaves the round number at the message's `RoundID`. The disruption check
`handlePossibleDisruption`, which is outside the embedded file, is assumed
neither to send nor to change the round number. -/
theorem resync_downstream_before_init (x : Collaborators) (fuel : Nat) (clock : Nat → Readings)
    (p : PriFiLibClientInstance) (msg : REL_CLI_DOWNSTREAM_DATA)
    (hround : p.clientState.RoundNo ≤ msg.RoundID)
    (hresync : msg.FlagResync = true)
    (hhelper : ∀ q m, (x.handlePossibleDisruption q m).messageSender.sent = q.messageSender.sent ∧
      (x.handlePossibleDisruption q m).clientState.RoundNo = q.clientState.RoundNo) :
    ∃ p', Received_REL_CLI_DOWNSTREAM_DATA x fuel clock p msg = .done (none, p') ∧
      p'.stateMachine.state = "BEFORE_INIT" ∧
      p'.messageSender.sent = p.messageSender.sent ∧
      p'.clientState.RoundNo = msg.RoundID := by
  obtain ⟨nested, hn⟩ := ProcessDownStreamData_eq x fuel
  unfold Received_REL_CLI_DOWNSTREAM_DATA receivedDownstream
  rw [hn]
  simp only []
  generalize hp1 : (if msg.RoundID = 1 then
      ({ p with clientState := { p.clientState with pcapReplay :=
          { p.clientState.pcapReplay with time0 := toUint64 (clock 0).msTimeStampNow } } } :
        PriFiLibClientInstance)
    else p) = p1
  have hr1 : p1.clientState.RoundNo = p.clientState.RoundNo := by
    subst hp1; split <;> rfl
  have hs1 : p1.messageSender = p.messageSender := by
    subst hp1; split <;> rfl
  by_cases heq : msg.RoundID = p1.clientState.RoundNo
  · rw [if_pos heq]
    obtain ⟨q, hq, hst, hms, hrn⟩ := processDownstream_resync x nested clock p1 msg hresync
    refine ⟨q, hq, hst, ?_, ?_⟩
    · rw [hms, ← hs1]; split
      · exact (hhelper p1 msg).1
      · rfl
    · rw [hrn, heq]; split
      · exact (hhelper p1 msg).2
      · rfl
  · have hlt : ¬ msg.RoundID < p1.clientState.RoundNo := by omega
    have hgt : msg.RoundID > p1.clientState.RoundNo := by omega
    rw [if_neg heq, if_neg hlt, if_pos hgt]
    obtain ⟨q, hq, hst, hms, hrn⟩ := processDownstream_resync x nested clock
      { p1 with clientState := { p1.clientState with RoundNo := msg.RoundID } } msg hresync
    refine ⟨q, hq, hst, ?_, ?_⟩
    · rw [hms, ← hs1]; split
      · exact (hhelper _ msg).1
      · rfl
    · rw [hrn]; split
      · exact (hhelper _ msg).2
      · rfl

/-- Witness of C8: the sample client at round 5 receives the message of
round 7 with the resync flag. -/
theorem resync_downstream_before_init_witness :
    ∃ p', Received_REL_CLI_DOWNSTREAM_DATA sampleCollaborators 0 sampleClock sampleClient
        (sampleDownstream 7 true) = .done (none, p') ∧
      p'.stateMachine.state = "BEFORE_INIT" ∧
      p'.messageSender.sent = sampleClient.messageSender.sent ∧
      p'.clientState.RoundNo = (sampleDownstream 7 true).RoundID :=
  resync_downstream_before_init sampleCollaborators 0 sampleClock sampleClient
    (sampleDownstream 7 true) (by decide) rfl (fun _ _ => ⟨rfl, rfl⟩)

/-! ## Lemmas on the relay loop -/

theorem ReadWithTimeOut_ok (nodeId : Nat) (conn : ConnRead) (length : Nat)
    (cT cD : FailureChannel) (h : (ReadWithTimeOut nodeId conn length cT cD).err = false) :
    ∃ c, ReadWithTimeOut nodeId conn length cT cD = { data := some c, err := false, reported := none } ∧
      c.length = length := by
  unfold ReadWithTimeOut at h ⊢
  split at h
  · cases h
  · split at h
    · rename_i h1 h2
      rw [if_neg h1, if_pos h2]
      exact ⟨_, rfl, by simp [List.length_take]; omega⟩
    · split at h <;> cases h

theorem readPeer_ok (role : Role) (index : Nat) (conn : ConnRead) (length : Nat)
    (h : (readPeer role index conn length).err = false) :
    ∃ c, readPeer role index conn length = { data := some c, err := false, reported := none } ∧
      c.length = length := by
  cases role <;> exact ReadWithTimeOut_ok _ _ _ _ _ h

theorem collectCells_isCollection (role : Role) (conns : List ConnRead) (length : Nat) :
    ∀ (n i : Nat), ∀ e ∈ (collectCells role conns length n i).1, e.isCollection = true := by
  intro n
  induction n with
  | zero => intro i e he; simp [collectCells] at he
  | succ n ih =>
    intro i e he
    unfold collectCells at he
    cases hc : conns[i]? with
    | none => simp [hc] at he
    | some conn =>
      simp only [hc] at he
      split at he
      · simp only [List.mem_append, List.mem_singleton] at he
        rcases he with (he | he) | he
        · subst he; rfl
        · split at he
          · simp only [List.mem_singleton] at he; subst he; rfl
          · cases he
        · subst he; rfl
      · simp only [List.mem_append, List.mem_singleton] at he
        rcases he with ((he | he) | he) | he
        · subst he; rfl
        · split at he
          · simp only [List.mem_singleton] at he; subst he; rfl
          · cases he
        · subst he; rfl
        · exact ih _ e he

/-- A collection loop that ends without failure and without panic has read
every peer in index order, every read succeeded with a cell of the expected
length, and exactly these cells were fed to the decoder. -/
theorem collectCells_complete (role : Role) (conns : List ConnRead) (length : Nat) :
    ∀ (n i : Nat), (collectCells role conns length n i).2 = (false, false) →
      ∃ cells : List Bytes, cells.length = n ∧
        (∀ c ∈ cells, c.length = length) ∧
        (∀ j c, cells[j]? = some c → ∃ conn, conns[i + j]? = some conn ∧
          readPeer role (i + j) conn length = { data := some c, err := false, reported := none }) ∧
        (collectCells role conns length n i).1.filter RelayEvent.isCoderCall =
          cells.map (fun c => RelayEvent.decode role (some c)) ∧
        (∀ r j, RelayEvent.read r j true ∉ (collectCells role conns length n i).1) := by
  intro n
  induction n with
  | zero =>
    intro i _
    exact ⟨[], rfl, by simp, by simp, by simp [collectCells], by simp [collectCells]⟩
  | succ n ih =>
    intro i h
    unfold collectCells at h ⊢
    cases hc : conns[i]? with
    | none => simp [hc] at h
    | some conn =>
      simp only [hc] at h ⊢
      by_cases herr : (readPeer role i conn length).err = true
      · simp [herr] at h
      · have herr' : (readPeer role i conn length).err = false := by
          cases hb : (readPeer role i conn length).err
          · rfl
          · exact absurd hb herr
        obtain ⟨c, hread, hlen⟩ := readPeer_ok role i conn length herr'
        rw [hread] at h ⊢
        simp only [Bool.false_eq_true, if_false] at h ⊢
        obtain ⟨cells, hcl, hlens, hreads, hfilter, hnofail⟩ := ih (i + 1) (by
          cases hr : (collectCells role conns length n (i + 1)).2 with
          | mk a b =>
            rw [hr] at h
            simpa using h)
        refine ⟨c :: cells, by simp [hcl], ?_, ?_, ?_, ?_⟩
        · intro c' hc'
          rcases List.mem_cons.mp hc' with h1 | h1
          · rw [h1]; exact hlen
          · exact hlens c' h1
        · intro j c' hj
          cases j with
          | zero =>
            simp only [List.getElem?_cons_zero, Option.some.injEq] at hj
            subst hj
            exact ⟨conn, by simpa using hc, by simpa using hread⟩
          | succ j =>
            simp only [List.getElem?_cons_succ] at hj
            obtain ⟨conn', h1, h2⟩ := hreads j c' hj
            exact ⟨conn', by rw [← h1]; congr 1; omega, by rw [← h2]; congr 1; omega⟩
        · simp [List.filter_append, List.filter_cons, RelayEvent.isCoderCall, hfilter]
        · intro r j hmem
          simp only [List.mem_append, List.mem_singleton, List.mem_cons] at hmem
          rcases hmem with h1 | h1
          · simp at h1
          · exact hnofail r j h1

theorem dispatchUpstream_isSocks (k : RelayConstants) (relayState : RelayState) (s : LoopState)
    (plain : GoSlice) : ∀ e ∈ (dispatchUpstream k relayState s plain).2.2, e.isSocks = true := by
  intro e he
  unfold dispatchUpstream at he
  cases plain with
  | none => simp at he
  | some plain =>
    simp only [] at he
    repeat' split at he
    all_goals first
      | (simp at he; done)
      | (simp only [List.mem_append, List.mem_singleton, List.mem_nil_iff, or_false, false_or] at he
         rcases he with he | he <;> subst he <;> rfl)
      | (simp only [List.mem_append, List.mem_singleton, List.mem_nil_iff, or_false, false_or] at he
         subst he; rfl)

theorem dispatchUpstream_inflight (k : RelayConstants) (relayState : RelayState) (s : LoopState)
    (plain : GoSlice) : (dispatchUpstream k relayState s plain).2.1.inflight = s.inflight := by
  unfold dispatchUpstream
  cases plain with
  | none => rfl
  | some plain =>
    simp only []
    repeat' split
    all_goals rfl

theorem popDownstream_inflight (s : LoopState) (inp : IterationInput) :
    (popDownstream s inp).2.inflight = s.inflight := by
  unfold popDownstream
  repeat' split
  all_goals rfl

theorem broadcastDownstream_inflight (k : RelayConstants) (s : LoopState) (inp : IterationInput) :
    (broadcastDownstream k s inp).state.inflight = s.inflight + 1 := by
  unfold broadcastDownstream
  simp only []
  split <;> simp [popDownstream_inflight]

theorem collectRound_isCollection (relayState : RelayState) (inp : IterationInput) :
    ∀ e ∈ (collectRound relayState inp).1, e.isCollection = true := by
  intro e he
  unfold collectRound at he
  simp only [] at he
  split at he
  · exact collectCells_isCollection _ _ _ _ _ e he
  · split at he
    · exact collectCells_isCollection _ _ _ _ _ e he
    · rcases List.mem_append.mp he with h | h
      · exact collectCells_isCollection _ _ _ _ _ e h
      · exact collectCells_isCollection _ _ _ _ _ e h

theorem collectRound_complete (relayState : RelayState) (inp : IterationInput)
    (hcrash : (collectRound relayState inp).2.2 = false)
    (herr : (collectRound relayState inp).2.1 = false) :
    (collectCells .trustee inp.trustees relayState.trusteePayloadLength relayState.nTrustees 0).2 =
      (false, false) ∧
    (collectCells .client inp.clients relayState.clientPayloadLength relayState.nClients 0).2 =
      (false, false) ∧
    (collectRound relayState inp).1 =
      (collectCells .trustee inp.trustees relayState.trusteePayloadLength relayState.nTrustees 0).1 ++
      (collectCells .client inp.clients relayState.clientPayloadLength relayState.nClients 0).1 := by
  unfold collectRound at hcrash herr ⊢
  simp only [] at hcrash herr ⊢
  generalize collectCells .trustee inp.trustees relayState.trusteePayloadLength
    relayState.nTrustees 0 = t at hcrash herr ⊢
  generalize collectCells .client inp.clients relayState.clientPayloadLength
    relayState.nClients 0 = c at hcrash herr ⊢
  obtain ⟨tev, terr, tcrash⟩ := t
  obtain ⟨cev, cerr, ccrash⟩ := c
  cases tcrash <;> cases terr <;> simp at hcrash herr ⊢
  exact ⟨herr, hcrash⟩

/-- The shape of an iteration that reaches `DecodeCell`. -/
theorem iteration_decodeCell (k : RelayConstants) (relayState : RelayState) (s : LoopState)
    (inp : IterationInput)
    (h : RelayEvent.decodeCell ∈ (iteration k relayState s inp).events) :
    (collectRound relayState inp).2.2 = false ∧ (collectRound relayState inp).2.1 = false ∧
    ∃ d, (iteration k relayState s inp).events =
        [.sentDownstream (broadcastDownstream k s inp).message,
          .decodeStart relayState.PayloadLength relayState.MessageHistory] ++
        (collectRound relayState inp).1 ++ [.decodeCell] ++ d ∧
      (∀ e ∈ d, e.isSocks = true) := by
  have hC := collectRound_isCollection relayState inp
  have hn : RelayEvent.decodeCell ∉ (collectRound relayState inp).1 :=
    fun hm => absurd (hC _ hm) (by decide)
  unfold iteration at h ⊢
  simp only [] at h ⊢
  by_cases h1 : inp.reportingDone = true
  · simp [h1] at h
  · rw [if_neg h1] at h ⊢
    by_cases h2 : (broadcastDownstream k s inp).state.inflight < window
    · simp [h2] at h
    · rw [if_neg h2] at h ⊢
      by_cases h3 : (collectRound relayState inp).2.2 = true
      · simp [h3, hn] at h
      · rw [if_neg h3] at h ⊢
        by_cases h4 : (collectRound relayState inp).2.1 = true
        · simp [h4, hn] at h
        · rw [if_neg h4]
          refine ⟨by simpa using h3, by simpa using h4,
            (dispatchUpstream k relayState
              { (broadcastDownstream k s inp).state with
                inflight := (broadcastDownstream k s inp).state.inflight - 1 } inp.decoded).2.2,
            ?_, dispatchUpstream_isSocks _ _ _ _⟩
          simp

theorem outstanding_append (a b : List RelayEvent) :
    outstanding (a ++ b) = outstanding a + outstanding b := by
  unfold outstanding
  simp only [List.filter_append, List.length_append, Nat.cast_add]
  ring

theorem filter_eq_nil_of_forall (p : RelayEvent → Bool) (l : List RelayEvent)
    (h : ∀ e ∈ l, p e = false) : l.filter p = [] := by
  rw [List.filter_eq_nil_iff]
  intro e he
  rw [h e he]
  simp

theorem outstanding_of_isCollection (l : List RelayEvent)
    (h : ∀ e ∈ l, e.isCollection = true) : outstanding l = 0 := by
  unfold outstanding
  rw [filter_eq_nil_of_forall _ l, filter_eq_nil_of_forall _ l]
  · simp
  · intro e he
    have := h e he
    cases e <;> simp_all [RelayEvent.isCollection, RelayEvent.isDecodeCell]
  · intro e he
    have := h e he
    cases e <;> simp_all [RelayEvent.isCollection, RelayEvent.isSentDownstream]

theorem outstanding_of_isSocks (l : List RelayEvent)
    (h : ∀ e ∈ l, e.isSocks = true) : outstanding l = 0 := by
  unfold outstanding
  rw [filter_eq_nil_of_forall _ l, filter_eq_nil_of_forall _ l]
  · simp
  · intro e he
    have := h e he
    cases e <;> simp_all [RelayEvent.isSocks, RelayEvent.isDecodeCell]
  · intro e he
    have := h e he
    cases e <;> simp_all [RelayEvent.isSocks, RelayEvent.isSentDownstream]

theorem no_decodeStart_of_isCollection (l : List RelayEvent)
    (h : ∀ e ∈ l, e.isCollection = true) : ∀ e ∈ l, e.isDecodeStart = false := by
  intro e he
  have := h e he
  cases e <;> simp_all [RelayEvent.isCollection, RelayEvent.isDecodeStart]

/-- What one iteration does to the in-flight counter, from a loop head where
the counter is 0 or 1 and equals the number of outstanding broadcasts. -/
theorem iteration_inflight (k : RelayConstants) (relayState : RelayState) (s : LoopState)
    (events : List RelayEvent) (inp : IterationInput)
    (hs : s.inflight = 0 ∨ s.inflight = 1) (hout : s.inflight = outstanding events) :
    (0 ≤ (iteration k relayState s inp).state.inflight ∧
      (iteration k relayState s inp).state.inflight ≤ window) ∧
    (iteration k relayState s inp).state.inflight =
      outstanding (events ++ (iteration k relayState s inp).events) ∧
    (∀ m, (iteration k relayState s inp).afterBroadcast = some m → 0 ≤ m ∧ m ≤ window) ∧
    ((∃ e ∈ (iteration k relayState s inp).events, e.isDecodeStart = true) ↔
      (iteration k relayState s inp).afterBroadcast = some window) ∧
    ((iteration k relayState s inp).control = .continue_ →
      (iteration k relayState s inp).state.inflight = 0 ∨
      (iteration k relayState s inp).state.inflight = 1) := by
  have hb := broadcastDownstream_inflight k s inp
  have hC := collectRound_isCollection relayState inp
  have hD := dispatchUpstream_isSocks k relayState
    { (broadcastDownstream k s inp).state with
      inflight := (broadcastDownstream k s inp).state.inflight - 1 } inp.decoded
  have hDi := dispatchUpstream_inflight k relayState
    { (broadcastDownstream k s inp).state with
      inflight := (broadcastDownstream k s inp).state.inflight - 1 } inp.decoded
  have hoC := outstanding_of_isCollection _ hC
  have hoD := outstanding_of_isSocks _ hD
  have hnC := no_decodeStart_of_isCollection _ hC
  have hsent : ∀ m, outstanding [RelayEvent.sentDownstream m] = 1 := fun m => rfl
  have hstart : ∀ a b, outstanding [RelayEvent.decodeStart a b] = 0 := fun a b => rfl
  have hcell : outstanding [RelayEvent.decodeCell] = -1 := rfl
  have hfail : ∀ m, outstanding [RelayEvent.sentLastUploadFailed m] = 0 := fun m => rfl
  unfold iteration
  simp only []
  unfold window at *
  by_cases h1 : inp.reportingDone = true
  · rw [if_pos h1]
    simp only [List.append_nil, List.not_mem_nil, false_and, exists_false, false_iff]
    refine ⟨by omega, hout, by simp, by simp, fun _ => hs⟩
  · rw [if_neg h1]
    by_cases h2 : (broadcastDownstream k s inp).state.inflight < 2
    · rw [if_pos h2]
      simp only [outstanding_append, hsent]
      refine ⟨by omega, by omega, ?_, ?_, fun _ => by omega⟩
      · intro m hm; simp only [Option.some.injEq] at hm; omega
      · constructor
        · rintro ⟨e, he, hd⟩
          simp only [List.mem_singleton] at he
          subst he; cases hd
        · intro h; simp only [Option.some.injEq] at h; omega
    · rw [if_neg h2]
      have h22 : (broadcastDownstream k s inp).state.inflight = 2 := by omega
      have hcollected : ∀ (l : List RelayEvent),
          ∃ e ∈ [RelayEvent.sentDownstream (broadcastDownstream k s inp).message] ++
            [RelayEvent.decodeStart relayState.PayloadLength relayState.MessageHistory] ++ l,
            e.isDecodeStart = true :=
        fun l => ⟨.decodeStart relayState.PayloadLength relayState.MessageHistory, by simp, rfl⟩
      by_cases h3 : (collectRound relayState inp).2.2 = true
      · rw [if_pos h3]
        simp only [outstanding_append, hsent, hstart, hoC]
        refine ⟨by omega, by omega, ?_, ?_, fun h => by cases h⟩
        · intro m hm; simp only [Option.some.injEq] at hm; omega
        · exact ⟨fun _ => by rw [h22], fun _ => hcollected _⟩
      · rw [if_neg h3]
        by_cases h4 : (collectRound relayState inp).2.1 = true
        · rw [if_pos h4]
          simp only [outstanding_append, hsent, hstart, hoC, hfail]
          refine ⟨by omega, by omega, ?_, ?_, fun h => by cases h⟩
          · intro m hm; simp only [Option.some.injEq] at hm; omega
          · refine ⟨fun _ => by rw [h22], fun _ => ?_⟩
            simp only [List.append_assoc]
            exact ⟨.decodeStart relayState.PayloadLength relayState.MessageHistory, by simp, rfl⟩
        · rw [if_neg h4]
          simp only [outstanding_append, hsent, hstart, hoC, hcell, hoD, hDi]
          refine ⟨by omega, by omega, ?_, ?_, fun _ => by omega⟩
          · intro m hm; simp only [Option.some.injEq] at hm; omega
          · refine ⟨fun _ => by rw [h22], fun _ => ?_⟩
            simp only [List.append_assoc]
            exact ⟨.decodeStart relayState.PayloadLength relayState.MessageHistory, by simp, rfl⟩

theorem LoopHead_inflight (k : RelayConstants) (relayState : RelayState) (s : LoopState)
    (events : List RelayEvent) (h : LoopHead k relayState s events) :
    (s.inflight = 0 ∨ s.inflight = 1) ∧ s.inflight = outstanding events := by
  induction h with
  | entry => exact ⟨Or.inl rfl, rfl⟩
  | next s events inp _ _ hc ih =>
    obtain ⟨_, hout, _, _, hnext⟩ := iteration_inflight k relayState s events inp ih.1 ih.2
    exact ⟨hnext hc, hout⟩

/-- The states the loop function passes through while it needs more input are
loop heads. -/
theorem runLoop_loopHead (k : RelayConstants) (relayState : RelayState) :
    ∀ (inputs : List IterationInput) (s : LoopState) (events : List RelayEvent),
      LoopHead k relayState s events →
      (runLoop k relayState inputs s events).ended = none →
      LoopHead k relayState (runLoop k relayState inputs s events).state
        (runLoop k relayState inputs s events).events := by
  intro inputs
  induction inputs with
  | nil => intro s events h _; exact h
  | cons inp rest ih =>
    intro s events h hend
    unfold runLoop at hend ⊢
    by_cases hc : s.currentSetupContinues = true
    · rw [if_pos hc] at hend ⊢
      simp only [] at hend ⊢
      cases hctl : (iteration k relayState s inp).control with
      | continue_ =>
        rw [hctl] at hend
        exact ih _ _ (LoopHead.next s events inp h hc hctl) hend
      | break_ => rw [hctl] at hend; simp at hend
      | crashed => rw [hctl] at hend; simp at hend
      | blocked => rw [hctl] at hend; simp at hend
    · rw [if_neg hc] at hend; cases hend

/-! ## Claims on the relay loop -/

/-- C9: at every loop head of `processMessageLoop` and at every point of the
iteration that starts there, the in-flight counter satisfies
`0 <= inflight <= window` with `window = 2`; the counter is the number of
downstream broadcasts not yet matched by a decoded upstream cell; and the
iteration performs a collection step (`DecodeStart` and the reads) exactly
when `inflight` has reached the window after the broadcast. -/
theorem inflight_within_window (k : RelayConstants) (relayState : RelayState) (s : LoopState)
    (events : List RelayEvent) (h : LoopHead k relayState s events) :
    window = 2 ∧
    (0 ≤ s.inflight ∧ s.inflight ≤ window) ∧
    s.inflight = outstanding events ∧
    ∀ inp : IterationInput,
      (∀ m, (iteration k relayState s inp).afterBroadcast = some m → 0 ≤ m ∧ m ≤ window) ∧
      (0 ≤ (iteration k relayState s inp).state.inflight ∧
        (iteration k relayState s inp).state.inflight ≤ window) ∧
      (iteration k relayState s inp).state.inflight =
        outstanding (events ++ (iteration k relayState s inp).events) ∧
      ((∃ e ∈ (iteration k relayState s inp).events, e.isDecodeStart = true) ↔
        (iteration k relayState s inp).afterBroadcast = some window) := by
  obtain ⟨hs, hout⟩ := LoopHead_inflight k relayState s events h
  refine ⟨rfl, ?_, hout, ?_⟩
  · unfold window; omega
  · intro inp
    obtain ⟨h1, h2, h3, h4, _⟩ := iteration_inflight k relayState s events inp hs hout
    exact ⟨h3, h1, h2, h4⟩

/-- Witness of C9: the loop head reached from the entry of the loop by one
iteration on the sample input. -/
theorem inflight_within_window_witness :
    window = 2 ∧
    (0 ≤ (iteration sampleConstants sampleRelay LoopState.initial sampleInput).state.inflight ∧
      (iteration sampleConstants sampleRelay LoopState.initial sampleInput).state.inflight ≤
        window) ∧
    (iteration sampleConstants sampleRelay LoopState.initial sampleInput).state.inflight =
      outstanding ([] ++ (iteration sampleConstants sampleRelay LoopState.initial sampleInput).events) ∧
    ∀ inp : IterationInput,
      (∀ m, (iteration sampleConstants sampleRelay
          (iteration sampleConstants sampleRelay LoopState.initial sampleInput).state
          inp).afterBroadcast = some m → 0 ≤ m ∧ m ≤ window) ∧
      (0 ≤ (iteration sampleConstants sampleRelay
          (iteration sampleConstants sampleRelay LoopState.initial sampleInput).state
          inp).state.inflight ∧
        (iteration sampleConstants sampleRelay
          (iteration sampleConstants sampleRelay LoopState.initial sampleInput).state
          inp).state.inflight ≤ window) ∧
      (iteration sampleConstants sampleRelay
          (iteration sampleConstants sampleRelay LoopState.initial sampleInput).state
          inp).state.inflight =
        outstanding (([] ++ (iteration sampleConstants sampleRelay LoopState.initial
            sampleInput).events) ++
          (iteration sampleConstants sampleRelay
            (iteration sampleConstants sampleRelay LoopState.initial sampleInput).state
            inp).events) ∧
      ((∃ e ∈ (iteration sampleConstants sampleRelay
          (iteration sampleConstants sampleRelay LoopState.initial sampleInput).state
          inp).events, e.isDecodeStart = true) ↔
        (iteration sampleConstants sampleRelay
          (iteration sampleConstants sampleRelay LoopState.initial sampleInput).state
          inp).afterBroadcast = some window) :=
  inflight_within_window sampleConstants sampleRelay _ _
    (LoopHead.next LoopState.initial [] sampleInput LoopHead.entry rfl rfl)

/-- C10: in every iteration of `processMessageLoop` that reaches `DecodeCell`,
the decoder has been fed since `DecodeStart` exactly one cell per trustee
(`nTrustees` cells of `trusteePayloadLength` bytes, in index order) followed
by exactly one cell per client (`nClients` cells of `clientPayloadLength`
bytes, in index order), each returned by a `ReadWithTimeOut` that reported no
error; no read of that iteration failed. -/
theorem decode_cell_after_full_collection (k : RelayConstants) (relayState : RelayState)
    (s : LoopState) (inp : IterationInput)
    (h : RelayEvent.decodeCell ∈ (iteration k relayState s inp).events) :
    ∃ tcells ccells : List Bytes,
      tcells.length = relayState.nTrustees ∧ ccells.length = relayState.nClients ∧
      (∀ c ∈ tcells, c.length = relayState.trusteePayloadLength) ∧
      (∀ c ∈ ccells, c.length = relayState.clientPayloadLength) ∧
      (∀ j c, tcells[j]? = some c → ∃ conn, inp.trustees[j]? = some conn ∧
        ReadWithTimeOut j conn relayState.trusteePayloadLength
          .deconnectedTrustees .deconnectedTrustees =
            { data := some c, err := false, reported := none }) ∧
      (∀ j c, ccells[j]? = some c → ∃ conn, inp.clients[j]? = some conn ∧
        ReadWithTimeOut j conn relayState.clientPayloadLength
          .timedOutClients .deconnectedClients =
            { data := some c, err := false, reported := none }) ∧
      (iteration k relayState s inp).events.filter RelayEvent.isCoderCall =
        [.decodeStart relayState.PayloadLength relayState.MessageHistory] ++
        tcells.map (fun c => RelayEvent.decode .trustee (some c)) ++
        ccells.map (fun c => RelayEvent.decode .client (some c)) ++ [.decodeCell] ∧
      (∀ r j, RelayEvent.read r j true ∉ (iteration k relayState s inp).events) := by
  obtain ⟨hcrash, herr, d, hev, hd⟩ := iteration_decodeCell k relayState s inp h
  obtain ⟨ht, hc, hround⟩ := collectRound_complete relayState inp hcrash herr
  obtain ⟨tcells, htl, htlen, htread, htf, htno⟩ := collectCells_complete .trustee inp.trustees
    relayState.trusteePayloadLength relayState.nTrustees 0 ht
  obtain ⟨ccells, hcl, hclen, hcread, hcf, hcno⟩ := collectCells_complete .client inp.clients
    relayState.clientPayloadLength relayState.nClients 0 hc
  have hdf : d.filter RelayEvent.isCoderCall = [] := by
    apply filter_eq_nil_of_forall
    intro e he
    have := hd e he
    cases e <;> simp_all [RelayEvent.isSocks, RelayEvent.isCoderCall]
  refine ⟨tcells, ccells, htl, hcl, htlen, hclen, ?_, ?_, ?_, ?_⟩
  · intro j c hj
    obtain ⟨conn, h1, h2⟩ := htread j c hj
    exact ⟨conn, by simpa using h1, by simpa [readPeer] using h2⟩
  · intro j c hj
    obtain ⟨conn, h1, h2⟩ := hcread j c hj
    exact ⟨conn, by simpa using h1, by simpa [readPeer] using h2⟩
  · rw [hev, hround]
    simp only [List.filter_append, htf, hcf, hdf, List.append_nil]
    simp [List.filter_cons, RelayEvent.isCoderCall]
  · intro r j hmem
    rw [hev, hround] at hmem
    simp only [List.mem_append, List.mem_cons, List.mem_singleton, List.not_mem_nil,
      or_false] at hmem
    rcases hmem with (((h1 | h1) | h1 | h1) | h1) | h1
    · cases h1
    · cases h1
    · exact htno r j h1
    · exact hcno r j h1
    · cases h1
    · have := hd _ h1
      cases this

/-- Witness of C10: the second iteration of the sample relay, in which every
peer delivers its cell. -/
theorem decode_cell_after_full_collection_witness :
    ∃ tcells ccells : List Bytes,
      tcells.length = sampleRelay.nTrustees ∧ ccells.length = sampleRelay.nClients ∧
      (∀ c ∈ tcells, c.length = sampleRelay.trusteePayloadLength) ∧
      (∀ c ∈ ccells, c.length = sampleRelay.clientPayloadLength) ∧
      (∀ j c, tcells[j]? = some c → ∃ conn, sampleInput.trustees[j]? = some conn ∧
        ReadWithTimeOut j conn sampleRelay.trusteePayloadLength
          .deconnectedTrustees .deconnectedTrustees =
            { data := some c, err := false, reported := none }) ∧
      (∀ j c, ccells[j]? = some c → ∃ conn, sampleInput.clients[j]? = some conn ∧
        ReadWithTimeOut j conn sampleRelay.clientPayloadLength
          .timedOutClients .deconnectedClients =
            { data := some c, err := false, reported := none }) ∧
      (iteration sampleConstants sampleRelay sampleFilling sampleInput).events.filter
          RelayEvent.isCoderCall =
        [.decodeStart sampleRelay.PayloadLength sampleRelay.MessageHistory] ++
        tcells.map (fun c => RelayEvent.decode .trustee (some c)) ++
        ccells.map (fun c => RelayEvent.decode .client (some c)) ++ [.decodeCell] ∧
      (∀ r j, RelayEvent.read r j true ∉
        (iteration sampleConstants sampleRelay sampleFilling sampleInput).events) :=
  decode_cell_after_full_collection sampleConstants sampleRelay sampleFilling sampleInput
    (by decide)

/-! ## Further lemmas on the relay loop -/

theorem shape_prepend (X l : List RelayEvent) (e : RelayEvent)
    (h : ∃ before tail, l = before ++ [e] ++ tail ∧ (∀ x ∈ tail, x.isRead = false)) :
    ∃ before tail, X ++ l = before ++ [e] ++ tail ∧ (∀ x ∈ tail, x.isRead = false) := by
  obtain ⟨before, tail, heq, htail⟩ := h
  exact ⟨X ++ before, tail, by rw [heq]; simp only [List.append_assoc], htail⟩

theorem collectCells_failed_read (role : Role) (conns : List ConnRead) (length : Nat) :
    ∀ (n i : Nat) (r : Role) (j : Nat),
      RelayEvent.read r j true ∈ (collectCells role conns length n i).1 →
      (collectCells role conns length n i).2 = (true, false) ∧
      ∃ before tail, (collectCells role conns length n i).1 =
          before ++ [RelayEvent.read r j true] ++ tail ∧
        (∀ e ∈ tail, e.isRead = false) := by
  intro n
  induction n with
  | zero => intro i r j h; simp [collectCells] at h
  | succ n ih =>
    intro i r j h
    unfold collectCells at h ⊢
    cases hc : conns[i]? with
    | none => simp [hc] at h
    | some conn =>
      simp only [hc] at h ⊢
      by_cases herr : (readPeer role i conn length).err = true
      · rw [if_pos herr] at h ⊢
        refine ⟨rfl, ?_⟩
        simp only [herr, List.mem_append, List.mem_singleton] at h ⊢
        rcases h with (h | h) | h
        · injection h with h1 h2 h3
          subst h1 h2
          refine ⟨[], (match (readPeer r j conn length).reported with
            | some f => [RelayEvent.signal f.1 f.2]
            | none => []) ++ [RelayEvent.decode r (readPeer r j conn length).data],
            by cases (readPeer r j conn length).reported <;> simp, ?_⟩
          intro e he
          simp only [List.mem_append, List.mem_singleton] at he
          rcases he with he | he
          · split at he
            · simp only [List.mem_singleton] at he; subst he; rfl
            · cases he
          · subst he; rfl
        · split at h
          · simp at h
          · cases h
        · cases h
      · rw [if_neg herr] at h ⊢
        have herr' : (readPeer role i conn length).err = false := by
          cases hb : (readPeer role i conn length).err
          · rfl
          · exact absurd hb herr
        simp only [herr', List.mem_append, List.mem_singleton] at h
        rcases h with ((h | h) | h) | h
        · cases h
        · split at h
          · simp at h
          · cases h
        · cases h
        · obtain ⟨h2, before, tail, heq, htail⟩ := ih (i + 1) r j h
          refine ⟨?_, shape_prepend _ _ _ ⟨before, tail, heq, htail⟩⟩
          rw [Prod.ext_iff] at h2 ⊢
          exact h2

theorem collectRound_failed_read (relayState : RelayState) (inp : IterationInput)
    (r : Role) (j : Nat)
    (h : RelayEvent.read r j true ∈ (collectRound relayState inp).1) :
    (collectRound relayState inp).2 = (true, false) ∧
    ∃ before tail, (collectRound relayState inp).1 =
        before ++ [RelayEvent.read r j true] ++ tail ∧
      (∀ e ∈ tail, e.isRead = false) := by
  have hT := collectCells_failed_read .trustee inp.trustees relayState.trusteePayloadLength
    relayState.nTrustees 0 r j
  have hC := collectCells_failed_read .client inp.clients relayState.clientPayloadLength
    relayState.nClients 0 r j
  unfold collectRound at h ⊢
  simp only [] at h ⊢
  generalize collectCells .trustee inp.trustees relayState.trusteePayloadLength
    relayState.nTrustees 0 = t at hT h ⊢
  generalize collectCells .client inp.clients relayState.clientPayloadLength
    relayState.nClients 0 = c at hC h ⊢
  obtain ⟨tev, terr, tcrash⟩ := t
  obtain ⟨cev, cerr, ccrash⟩ := c
  simp only [] at hT hC h ⊢
  by_cases h1 : tcrash = true
  · rw [if_pos h1] at h
    have := (hT h).1
    simp only [Prod.mk.injEq] at this
    rw [this.2] at h1; cases h1
  · rw [if_neg h1] at h ⊢
    by_cases h2 : terr = true
    · rw [if_pos h2] at h ⊢
      exact ⟨rfl, (hT h).2⟩
    · rw [if_neg h2] at h ⊢
      rcases List.mem_append.mp h with h3 | h3
      · have := (hT h3).1
        simp only [Prod.mk.injEq] at this
        exact absurd this.1 h2
      · obtain ⟨hflags, hshape⟩ := hC h3
        simp only [Prod.mk.injEq] at hflags
        refine ⟨by simp [hflags.1, hflags.2], shape_prepend _ _ _ hshape⟩

theorem broadcastDownstream_cell (k : RelayConstants) (s : LoopState) (inp : IterationInput) :
    (broadcastDownstream k s inp).downbuffer = (popDownstream s inp).1 ∧
    (broadcastDownstream k s inp).message =
      craftDownstream (downstreamType k inp) (popDownstream s inp).1 := by
  unfold broadcastDownstream downstreamType
  refine ⟨rfl, ?_⟩
  simp only [decide_eq_true_eq]

theorem popDownstream_continues (s : LoopState) (inp : IterationInput) :
    (popDownstream s inp).2.currentSetupContinues = s.currentSetupContinues := by
  unfold popDownstream
  repeat' split
  all_goals rfl

theorem broadcastDownstream_continues (k : RelayConstants) (s : LoopState) (inp : IterationInput) :
    (broadcastDownstream k s inp).state.currentSetupContinues =
      (if inp.mainThreadStatus = some k.PROTOCOL_STATUS_GONNA_RESYNC then false
        else s.currentSetupContinues) := by
  unfold broadcastDownstream
  simp only [decide_eq_true_eq]
  split <;> simp [popDownstream_continues]

theorem dispatchUpstream_continues (k : RelayConstants) (relayState : RelayState) (s : LoopState)
    (plain : GoSlice) :
    (dispatchUpstream k relayState s plain).2.1.currentSetupContinues =
      s.currentSetupContinues := by
  unfold dispatchUpstream
  cases plain with
  | none => rfl
  | some plain =>
    simp only []
    repeat' split
    all_goals rfl

/-- An iteration that broadcasts leaves `currentSetupContinues` false when the
resync request was read, and as it was otherwise. -/
theorem iteration_continues (k : RelayConstants) (relayState : RelayState) (s : LoopState)
    (inp : IterationInput) (hrep : inp.reportingDone = false) :
    (iteration k relayState s inp).state.currentSetupContinues =
      (if inp.mainThreadStatus = some k.PROTOCOL_STATUS_GONNA_RESYNC then false
        else s.currentSetupContinues) := by
  have hb := broadcastDownstream_continues k s inp
  unfold iteration
  simp only [hrep, Bool.false_eq_true, if_false]
  split
  · exact hb
  · split
    · exact hb
    · split
      · exact hb
      · simp only []
        rw [dispatchUpstream_continues]
        exact hb

/-- The loop stops after an iteration that does not end by `continue` or that
leaves `currentSetupContinues` false: the remaining inputs are not consumed. -/
theorem runLoop_stops (k : RelayConstants) (relayState : RelayState) (s : LoopState)
    (inp : IterationInput) (rest : List IterationInput) (events : List RelayEvent)
    (hs : s.currentSetupContinues = true)
    (hstop : (iteration k relayState s inp).control ≠ .continue_ ∨
      (iteration k relayState s inp).state.currentSetupContinues = false) :
    (runLoop k relayState (inp :: rest) s events).state = (iteration k relayState s inp).state ∧
    (runLoop k relayState (inp :: rest) s events).events =
      events ++ (iteration k relayState s inp).events ∧
    ∃ c, (runLoop k relayState (inp :: rest) s events).ended = some c := by
  unfold runLoop
  rw [if_pos hs]
  simp only []
  cases hctl : (iteration k relayState s inp).control with
  | continue_ =>
    simp only []
    have hfalse : (iteration k relayState s inp).state.currentSetupContinues = false := by
      rcases hstop with h | h
      · exact absurd hctl h
      · exact h
    cases rest with
    | nil =>
      unfold runLoop
      simp [hfalse]
    | cons a l =>
      unfold runLoop
      simp [hfalse]
  | break_ => exact ⟨rfl, rfl, _, rfl⟩
  | crashed => exact ⟨rfl, rfl, _, rfl⟩
  | blocked => exact ⟨rfl, rfl, _, rfl⟩

theorem runLoop_break (k : RelayConstants) (relayState : RelayState) (s : LoopState)
    (inp : IterationInput) (rest : List IterationInput) (events : List RelayEvent)
    (hs : s.currentSetupContinues = true)
    (hbreak : (iteration k relayState s inp).control = .break_) :
    runLoop k relayState (inp :: rest) s events =
      { state := (iteration k relayState s inp).state
        events := events ++ (iteration k relayState s inp).events
        ended := some .break_ } := by
  unfold runLoop
  rw [if_pos hs]
  simp only [hbreak]

/-! ## Claims on the error path, the broadcast and the upstream dispatch -/

/-- C11: in an iteration of `processMessageLoop` in which a trustee or client
read reports a timeout or disconnection, no further peer is read; the events
of the iteration end with the broadcast of the 10-byte message made of the
big-endian `MESSAGE_TYPE_LAST_UPLOAD_FAILED`, the big-endian connection id of
the downstream cell sent in this iteration and four zero bytes; the iteration
ends by `break`, so the loop consumes no further input (no further data
broadcast), and only then `PROTOCOL_STATUS_RESYNCING` is signalled. -/
theorem failed_read_broadcasts_and_exits (k : RelayConstants) (relayState : RelayState)
    (s : LoopState) (inp : IterationInput) (role : Role) (i : Nat)
    (hfail : RelayEvent.read role i true ∈ (iteration k relayState s inp).events) :
    (∃ before tail, (iteration k relayState s inp).events =
        before ++ [RelayEvent.read role i true] ++ tail ++
          [.sentLastUploadFailed (craftLastUploadFailed k (popDownstream s inp).1)] ∧
      (∀ e ∈ tail, e.isRead = false)) ∧
    craftLastUploadFailed k (popDownstream s inp).1 =
      putUint16 (toUint16 k.MESSAGE_TYPE_LAST_UPLOAD_FAILED) ++
        putUint32 (toUint32 (popDownstream s inp).1.ConnectionId) ++ [0, 0, 0, 0] ∧
    (craftLastUploadFailed k (popDownstream s inp).1).length = 10 ∧
    RelayEvent.sentDownstream (putUint16 (toUint16 (downstreamType k inp)) ++
        putUint32 (toUint32 (popDownstream s inp).1.ConnectionId) ++ (popDownstream s inp).1.Data)
      ∈ (iteration k relayState s inp).events ∧
    (iteration k relayState s inp).control = .break_ ∧
    (∀ rest events, s.currentSetupContinues = true →
      runLoop k relayState (inp :: rest) s events =
        { state := (iteration k relayState s inp).state
          events := events ++ (iteration k relayState s inp).events
          ended := some .break_ } ∧
      indicateEndOfProtocol k (runLoop k relayState (inp :: rest) s events) =
        some k.PROTOCOL_STATUS_RESYNCING) := by
  obtain ⟨hcell, hmsg⟩ := broadcastDownstream_cell k s inp
  have hD := dispatchUpstream_isSocks k relayState
    { (broadcastDownstream k s inp).state with
      inflight := (broadcastDownstream k s inp).state.inflight - 1 } inp.decoded
  have hC := collectRound_failed_read relayState inp role i
  have hshape : (iteration k relayState s inp).control = .break_ ∧
      ∃ before tail, (iteration k relayState s inp).events =
        [RelayEvent.sentDownstream (broadcastDownstream k s inp).message] ++
        (before ++ [RelayEvent.read role i true] ++ tail ++
          [.sentLastUploadFailed (craftLastUploadFailed k (popDownstream s inp).1)]) ∧
      (∀ e ∈ tail, e.isRead = false) := by
    unfold iteration at hfail ⊢
    simp only [] at hfail ⊢
    by_cases h1 : inp.reportingDone = true
    · simp [h1] at hfail
    · rw [if_neg h1] at hfail ⊢
      by_cases h2 : (broadcastDownstream k s inp).state.inflight < window
      · simp [h2] at hfail
      · rw [if_neg h2] at hfail ⊢
        have hin : RelayEvent.read role i true ∈ (collectRound relayState inp).1 := by
          by_cases h3 : (collectRound relayState inp).2.2 = true
          · rw [if_pos h3] at hfail
            simpa using hfail
          · rw [if_neg h3] at hfail
            by_cases h4 : (collectRound relayState inp).2.1 = true
            · rw [if_pos h4] at hfail
              simpa using hfail
            · rw [if_neg h4] at hfail
              simp only [List.mem_append, List.mem_singleton, List.mem_cons, List.not_mem_nil,
                or_false] at hfail
              rcases hfail with (((h | h) | h) | h) | h
              · cases h
              · cases h
              · exact h
              · cases h
              · have := hD _ h
                cases this
        obtain ⟨hflags, before, tail, heq, htail⟩ := hC hin
        rw [Prod.ext_iff] at hflags
        simp only at hflags
        rw [if_neg (by rw [hflags.2]; simp), if_pos hflags.1]
        refine ⟨rfl, [.decodeStart relayState.PayloadLength relayState.MessageHistory] ++ before,
          tail, ?_, htail⟩
        simp only [heq, hcell, List.append_assoc]
  obtain ⟨hbreak, before, tail, heq, htail⟩ := hshape
  refine ⟨⟨[RelayEvent.sentDownstream (broadcastDownstream k s inp).message] ++ before, tail,
    ?_, htail⟩, rfl, ?_, ?_, hbreak, ?_⟩
  · rw [heq]; simp only [List.append_assoc]
  · simp [craftLastUploadFailed, putUint16, putUint32]
  · rw [heq, hmsg]
    simp [craftDownstream]
  · intro rest events hs
    have hrun := runLoop_break k relayState s inp rest events hs hbreak
    refine ⟨hrun, ?_⟩
    rw [hrun]
    rfl

/-- Witness of C11: the second iteration of the sample relay, in which the
second client times out. -/
theorem failed_read_broadcasts_and_exits_witness :
    (∃ before tail, (iteration sampleConstants sampleRelay sampleFilling sampleTimeoutInput).events =
        before ++ [RelayEvent.read .client 1 true] ++ tail ++
          [.sentLastUploadFailed
            (craftLastUploadFailed sampleConstants (popDownstream sampleFilling sampleTimeoutInput).1)] ∧
      (∀ e ∈ tail, e.isRead = false)) ∧
    craftLastUploadFailed sampleConstants (popDownstream sampleFilling sampleTimeoutInput).1 =
      putUint16 (toUint16 sampleConstants.MESSAGE_TYPE_LAST_UPLOAD_FAILED) ++
        putUint32 (toUint32 (popDownstream sampleFilling sampleTimeoutInput).1.ConnectionId) ++
        [0, 0, 0, 0] ∧
    (craftLastUploadFailed sampleConstants
      (popDownstream sampleFilling sampleTimeoutInput).1).length = 10 ∧
    RelayEvent.sentDownstream
        (putUint16 (toUint16 (downstreamType sampleConstants sampleTimeoutInput)) ++
          putUint32 (toUint32 (popDownstream sampleFilling sampleTimeoutInput).1.ConnectionId) ++
          (popDownstream sampleFilling sampleTimeoutInput).1.Data)
      ∈ (iteration sampleConstants sampleRelay sampleFilling sampleTimeoutInput).events ∧
    (iteration sampleConstants sampleRelay sampleFilling sampleTimeoutInput).control = .break_ ∧
    (∀ rest events, sampleFilling.currentSetupContinues = true →
      runLoop sampleConstants sampleRelay (sampleTimeoutInput :: rest) sampleFilling events =
        { state := (iteration sampleConstants sampleRelay sampleFilling sampleTimeoutInput).state
          events := events ++
            (iteration sampleConstants sampleRelay sampleFilling sampleTimeoutInput).events
          ended := some .break_ } ∧
      indicateEndOfProtocol sampleConstants
          (runLoop sampleConstants sampleRelay (sampleTimeoutInput :: rest) sampleFilling events) =
        some sampleConstants.PROTOCOL_STATUS_RESYNCING) :=
  failed_read_broadcasts_and_exits sampleConstants sampleRelay sampleFilling sampleTimeoutInput
    .client 1 (by decide)

/-- The events of an iteration are empty, or start with the downstream
broadcast, which is the only one of the iteration. -/
theorem iteration_one_broadcast (k : RelayConstants) (relayState : RelayState) (s : LoopState)
    (inp : IterationInput) :
    (iteration k relayState s inp).events = [] ∨
    ∃ tail, (iteration k relayState s inp).events =
        RelayEvent.sentDownstream (broadcastDownstream k s inp).message :: tail ∧
      ∀ e ∈ tail, e.isSentDownstream = false := by
  have hC := collectRound_isCollection relayState inp
  have hD := dispatchUpstream_isSocks k relayState
    { (broadcastDownstream k s inp).state with
      inflight := (broadcastDownstream k s inp).state.inflight - 1 } inp.decoded
  have hcol : ∀ e ∈ (collectRound relayState inp).1, e.isSentDownstream = false := by
    intro e he
    have := hC e he
    cases e <;> simp_all [RelayEvent.isCollection, RelayEvent.isSentDownstream]
  have hsocks : ∀ e ∈ (dispatchUpstream k relayState
      { (broadcastDownstream k s inp).state with
        inflight := (broadcastDownstream k s inp).state.inflight - 1 } inp.decoded).2.2,
      e.isSentDownstream = false := by
    intro e he
    have := hD e he
    cases e <;> simp_all [RelayEvent.isSocks, RelayEvent.isSentDownstream]
  unfold iteration
  simp only []
  by_cases h1 : inp.reportingDone = true
  · left
    rw [if_pos h1]
  · right
    rw [if_neg h1]
    by_cases h2 : (broadcastDownstream k s inp).state.inflight < window
    · rw [if_pos h2]
      exact ⟨[], rfl, by simp⟩
    · rw [if_neg h2]
      by_cases h3 : (collectRound relayState inp).2.2 = true
      · rw [if_pos h3]
        refine ⟨[.decodeStart relayState.PayloadLength relayState.MessageHistory] ++
          (collectRound relayState inp).1, by simp, ?_⟩
        intro e he
        simp only [List.mem_append, List.mem_singleton] at he
        rcases he with h | h
        · rw [h]; rfl
        · exact hcol e h
      · rw [if_neg h3]
        by_cases h4 : (collectRound relayState inp).2.1 = true
        · rw [if_pos h4]
          refine ⟨[.decodeStart relayState.PayloadLength relayState.MessageHistory] ++
            (collectRound relayState inp).1 ++
            [.sentLastUploadFailed (craftLastUploadFailed k (broadcastDownstream k s inp).downbuffer)],
            by simp, ?_⟩
          intro e he
          simp only [List.mem_append, List.mem_singleton] at he
          rcases he with (h | h) | h
          · rw [h]; rfl
          · exact hcol e h
          · rw [h]; rfl
        · rw [if_neg h4]
          refine ⟨[.decodeStart relayState.PayloadLength relayState.MessageHistory] ++
            (collectRound relayState inp).1 ++ [.decodeCell] ++
            (dispatchUpstream k relayState
              { (broadcastDownstream k s inp).state with
                inflight := (broadcastDownstream k s inp).state.inflight - 1 } inp.decoded).2.2,
            by simp, ?_⟩
          intro e he
          simp only [List.mem_append, List.mem_singleton] at he
          rcases he with ((h | h) | h) | h
          · rw [h]; rfl
          · exact hcol e h
          · rw [h]; rfl
          · exact hsocks e h

/-- The events of a run of the loop extend the events it starts with. -/
theorem runLoop_events_extend (k : RelayConstants) (relayState : RelayState) :
    ∀ (inputs : List IterationInput) (s : LoopState) (events : List RelayEvent),
      ∃ more, (runLoop k relayState inputs s events).events = events ++ more := by
  intro inputs
  induction inputs with
  | nil => intro s events; exact ⟨[], by simp [runLoop]⟩
  | cons inp rest ih =>
    intro s events
    unfold runLoop
    by_cases hc : s.currentSetupContinues = true
    · rw [if_pos hc]
      simp only []
      cases hctl : (iteration k relayState s inp).control with
      | continue_ =>
        simp only []
        obtain ⟨more, hmore⟩ := ih (iteration k relayState s inp).state
          (events ++ (iteration k relayState s inp).events)
        exact ⟨(iteration k relayState s inp).events ++ more, by
          rw [hmore, List.append_assoc]⟩
      | break_ => exact ⟨_, rfl⟩
      | crashed => exact ⟨_, rfl⟩
      | blocked => exact ⟨_, rfl⟩
    · rw [if_neg hc]
      exact ⟨[], by simp⟩

/-- C12: an iteration of `processMessageLoop` that passes the test of the
reporting limit broadcasts one downstream message, before anything else: the
2-byte big-endian message type, the 4-byte big-endian connection id and the
payload of the popped cell, with the type `MESSAGE_TYPE_DATA_AND_RESYNC` when
`PROTOCOL_STATUS_GONNA_RESYNC` was drained from the channel at the start of the
iteration and `MESSAGE_TYPE_DATA` otherwise; the loop appends this broadcast to
its trace; an iteration stopped by the reporting limit breaks without an
event. So every downstream broadcast of an iteration has this layout, the type
is `MESSAGE_TYPE_DATA_AND_RESYNC` exactly when the status was drained, an
iteration broadcasts at most once, and after an iteration that drained
`PROTOCOL_STATUS_GONNA_RESYNC` the loop ends without consuming further input,
so that broadcast is the last one. -/
theorem downstream_broadcast_layout_and_resync (k : RelayConstants) (relayState : RelayState)
    (s : LoopState) (inp : IterationInput)
    (hk : k.MESSAGE_TYPE_DATA ≠ k.MESSAGE_TYPE_DATA_AND_RESYNC) :
    (inp.reportingDone = false →
      ∃ tail, (iteration k relayState s inp).events =
          RelayEvent.sentDownstream
            (putUint16 (toUint16 (if inp.mainThreadStatus = some k.PROTOCOL_STATUS_GONNA_RESYNC
                then k.MESSAGE_TYPE_DATA_AND_RESYNC else k.MESSAGE_TYPE_DATA)) ++
              putUint32 (toUint32 (popDownstream s inp).1.ConnectionId) ++
              (popDownstream s inp).1.Data) :: tail ∧
        ∀ e ∈ tail, e.isSentDownstream = false) ∧
    (inp.reportingDone = false → s.currentSetupContinues = true →
      ∀ rest events, ∃ later,
        (runLoop k relayState (inp :: rest) s events).events =
          events ++ RelayEvent.sentDownstream
            (putUint16 (toUint16 (if inp.mainThreadStatus = some k.PROTOCOL_STATUS_GONNA_RESYNC
                then k.MESSAGE_TYPE_DATA_AND_RESYNC else k.MESSAGE_TYPE_DATA)) ++
              putUint32 (toUint32 (popDownstream s inp).1.ConnectionId) ++
              (popDownstream s inp).1.Data) :: later) ∧
    (inp.reportingDone = true →
      (iteration k relayState s inp).events = [] ∧
      (iteration k relayState s inp).control = .break_) ∧
    (∀ m, RelayEvent.sentDownstream m ∈ (iteration k relayState s inp).events →
      m = putUint16 (toUint16 (downstreamType k inp)) ++
        putUint32 (toUint32 (popDownstream s inp).1.ConnectionId) ++ (popDownstream s inp).1.Data) ∧
    (downstreamType k inp = k.MESSAGE_TYPE_DATA_AND_RESYNC ↔
      inp.mainThreadStatus = some k.PROTOCOL_STATUS_GONNA_RESYNC) ∧
    (downstreamType k inp = k.MESSAGE_TYPE_DATA ↔
      inp.mainThreadStatus ≠ some k.PROTOCOL_STATUS_GONNA_RESYNC) ∧
    ((iteration k relayState s inp).events.filter RelayEvent.isSentDownstream).length ≤ 1 ∧
    (inp.mainThreadStatus = some k.PROTOCOL_STATUS_GONNA_RESYNC → s.currentSetupContinues = true →
      ∀ rest events,
        (runLoop k relayState (inp :: rest) s events).events =
          events ++ (iteration k relayState s inp).events ∧
        ∃ c, (runLoop k relayState (inp :: rest) s events).ended = some c) := by
  obtain ⟨_, hmsg⟩ := broadcastDownstream_cell k s inp
  have hshape := iteration_one_broadcast k relayState s inp
  have hsent : inp.reportingDone = false →
      ∃ tail, (iteration k relayState s inp).events =
          RelayEvent.sentDownstream
            (putUint16 (toUint16 (if inp.mainThreadStatus = some k.PROTOCOL_STATUS_GONNA_RESYNC
                then k.MESSAGE_TYPE_DATA_AND_RESYNC else k.MESSAGE_TYPE_DATA)) ++
              putUint32 (toUint32 (popDownstream s inp).1.ConnectionId) ++
              (popDownstream s inp).1.Data) :: tail ∧
        ∀ e ∈ tail, e.isSentDownstream = false := by
    intro hrep
    rcases hshape with h | ⟨tail, h, htail⟩
    · have hne : (iteration k relayState s inp).events ≠ [] := by
        unfold iteration
        rw [if_neg (by rw [hrep]; simp)]
        simp only []
        repeat' split
        all_goals simp
      exact absurd h hne
    · refine ⟨tail, ?_, htail⟩
      rw [h, hmsg]
      rfl
  refine ⟨hsent, ?_, ?_, ?_, ?_, ?_, ?_, ?_⟩
  · intro hrep hs rest events
    obtain ⟨tail, htail, _⟩ := hsent hrep
    obtain ⟨more, hmore⟩ := runLoop_events_extend k relayState rest
      (iteration k relayState s inp).state (events ++ (iteration k relayState s inp).events)
    unfold runLoop
    rw [if_pos hs]
    simp only []
    cases hctl : (iteration k relayState s inp).control with
    | continue_ =>
      simp only []
      exact ⟨tail ++ more, by rw [hmore, htail, List.append_assoc, List.cons_append]⟩
    | break_ => exact ⟨tail, by simp only []; rw [htail]⟩
    | crashed => exact ⟨tail, by simp only []; rw [htail]⟩
    | blocked => exact ⟨tail, by simp only []; rw [htail]⟩
  · intro hrep
    unfold iteration
    rw [if_pos hrep]
    exact ⟨rfl, rfl⟩
  · intro m hm
    rcases hshape with h | ⟨tail, h, htail⟩
    · rw [h] at hm
      cases hm
    · rw [h] at hm
      rcases List.mem_cons.mp hm with h1 | h1
      · cases h1
        rw [hmsg]
        simp [craftDownstream]
      · have := htail _ h1
        cases this
  · unfold downstreamType
    by_cases h : inp.mainThreadStatus = some k.PROTOCOL_STATUS_GONNA_RESYNC
    · simp [h]
    · simp [h, hk]
  · unfold downstreamType
    by_cases h : inp.mainThreadStatus = some k.PROTOCOL_STATUS_GONNA_RESYNC
    · simp [h, Ne.symm hk]
    · simp [h]
  · rcases hshape with h | ⟨tail, h, htail⟩
    · rw [h]
      simp
    · rw [h, List.filter_cons, filter_eq_nil_of_forall _ _ htail]
      split <;> simp
  · intro hdrained hs rest events
    have hstop : (iteration k relayState s inp).control ≠ .continue_ ∨
        (iteration k relayState s inp).state.currentSetupContinues = false := by
      by_cases hrep : inp.reportingDone = true
      · left
        unfold iteration
        rw [if_pos hrep]
        simp
      · right
        have := iteration_continues k relayState s inp (by simpa using hrep)
        rw [this, if_pos hdrained]
    obtain ⟨_, h2, h3⟩ := runLoop_stops k relayState s inp rest events hs hstop
    exact ⟨h2, h3⟩

/-- Witness of C12: the sample relay draining `PROTOCOL_STATUS_GONNA_RESYNC`
broadcasts the message of type 2 with the empty cell, and the loop ends
there. -/
theorem downstream_broadcast_layout_and_resync_witness :
    ((1 : Int) ≠ 2) ∧
    (iteration sampleConstants sampleRelay LoopState.initial sampleResyncInput).events =
      [.sentDownstream [0, 2, 0, 0, 0, 0]] ∧
    (∃ tail,
      (iteration sampleConstants sampleRelay LoopState.initial sampleResyncInput).events =
        RelayEvent.sentDownstream [0, 2, 0, 0, 0, 0] :: tail ∧
      ∀ e ∈ tail, e.isSentDownstream = false) ∧
    (∀ rest events,
      (runLoop sampleConstants sampleRelay (sampleResyncInput :: rest) LoopState.initial
          events).events =
        events ++ (iteration sampleConstants sampleRelay LoopState.initial sampleResyncInput).events ∧
      ∃ c, (runLoop sampleConstants sampleRelay (sampleResyncInput :: rest) LoopState.initial
          events).ended = some c) :=
  ⟨by decide, by decide,
    (downstream_broadcast_layout_and_resync sampleConstants sampleRelay LoopState.initial
      sampleResyncInput (by decide)).1 rfl,
    (downstream_broadcast_layout_and_resync sampleConstants sampleRelay LoopState.initial
      sampleResyncInput (by decide)).2.2.2.2.2.2.2 rfl rfl⟩

/-- The downstream pop leaves an empty priority queue empty. -/
theorem broadcastDownstream_empty_queue (k : RelayConstants) (s : LoopState) (inp : IterationInput)
    (h : s.priorityDownStream = []) :
    (broadcastDownstream k s inp).state.priorityDownStream = [] := by
  unfold broadcastDownstream popDownstream
  simp only [h]
  cases inp.downstream <;> simp only [] <;> split <;> exact h

/-- C13: a decoded upstream plaintext whose first two bytes are 0xAA 0xAA is
appended whole, with connection id -1, to the tail of the priority-downstream
queue and nothing is forwarded to a SOCKS connection; the downstream pop takes
the head of a non-empty priority queue whatever waits on the SOCKS channel; so
when the priority queue was empty at the start of the iteration that decoded
the cell, the next iteration that broadcasts sends first a message whose
payload (after the six header bytes) is exactly that cell. -/
theorem latency_cell_echoed_first (k : RelayConstants) (relayState : RelayState) (s : LoopState)
    (cell rest : Bytes) (hcell : cell = 170 :: 170 :: rest) :
    dispatchUpstream k relayState s (some cell) =
      (.continue_,
        { s with priorityDownStream := s.priorityDownStream ++ [{ ConnectionId := -1, Data := cell }] },
        []) ∧
    (∀ (t : LoopState) (inp : IterationInput) (head : DataWithConnectionId)
        (queue : List DataWithConnectionId), t.priorityDownStream = head :: queue →
      popDownstream t inp = (head, { t with priorityDownStream := queue })) ∧
    (∀ (inp next : IterationInput), s.priorityDownStream = [] → inp.decoded = some cell →
      RelayEvent.decodeCell ∈ (iteration k relayState s inp).events →
      next.reportingDone = false →
      (iteration k relayState s inp).control = .continue_ ∧
      (iteration k relayState s inp).state.priorityDownStream = [{ ConnectionId := -1, Data := cell }] ∧
      ∃ message tail,
        (iteration k relayState (iteration k relayState s inp).state next).events =
          RelayEvent.sentDownstream message :: tail ∧
        message.take 6 = putUint16 (toUint16 (downstreamType k next)) ++ putUint32 (toUint32 (-1)) ∧
        message.drop 6 = cell) := by
  have hdisp : ∀ t : LoopState, dispatchUpstream k relayState t (some cell) =
      (.continue_,
        { t with priorityDownStream := t.priorityDownStream ++ [{ ConnectionId := -1, Data := cell }] },
        []) := by
    intro t
    subst hcell
    unfold dispatchUpstream
    simp [getUint16]
  refine ⟨hdisp s, ?_, ?_⟩
  · intro t inp head queue ht
    unfold popDownstream
    rw [ht]
  · intro inp next hempty hdec hcellEv hnext
    have hstate : (iteration k relayState s inp).control = .continue_ ∧
        (iteration k relayState s inp).state.priorityDownStream =
          [{ ConnectionId := -1, Data := cell }] := by
      have hq := broadcastDownstream_empty_queue k s inp hempty
      have hC := collectRound_isCollection relayState inp
      have hn : RelayEvent.decodeCell ∉ (collectRound relayState inp).1 :=
        fun hm => absurd (hC _ hm) (by decide)
      unfold iteration at hcellEv ⊢
      simp only [] at hcellEv ⊢
      by_cases h1 : inp.reportingDone = true
      · simp [h1] at hcellEv
      · rw [if_neg h1] at hcellEv ⊢
        by_cases h2 : (broadcastDownstream k s inp).state.inflight < window
        · simp [h2] at hcellEv
        · rw [if_neg h2] at hcellEv ⊢
          by_cases h3 : (collectRound relayState inp).2.2 = true
          · simp [h3, hn] at hcellEv
          · rw [if_neg h3] at hcellEv ⊢
            by_cases h4 : (collectRound relayState inp).2.1 = true
            · simp [h4, hn] at hcellEv
            · rw [if_neg h4]
              simp only [hdec, hdisp, hq, List.nil_append, and_self]
    obtain ⟨hctl, hqueue⟩ := hstate
    refine ⟨hctl, hqueue, ?_⟩
    obtain ⟨_, hmsg⟩ := broadcastDownstream_cell k (iteration k relayState s inp).state next
    have hpop : (popDownstream (iteration k relayState s inp).state next).1 =
        { ConnectionId := -1, Data := cell } := by
      unfold popDownstream
      rw [hqueue]
    rcases iteration_one_broadcast k relayState (iteration k relayState s inp).state next with
      h | ⟨tail, h, _⟩
    · exfalso
      unfold iteration at h
      rw [hnext] at h
      simp only [Bool.false_eq_true, if_false] at h
      repeat' split at h
      all_goals simp at h
    · refine ⟨_, tail, h, ?_, ?_⟩
      · rw [hmsg, hpop]
        simp [craftDownstream, putUint16, putUint32]
      · rw [hmsg, hpop]
        simp [craftDownstream, putUint16, putUint32]

/-- Witness of C13: the sample relay decodes a latency cell in its second
iteration. -/
theorem latency_cell_echoed_first_witness :
    sampleEchoCell = 170 :: 170 :: [0, 0, 5, 6, 7, 8] ∧
    sampleFilling.priorityDownStream = [] ∧
    RelayEvent.decodeCell ∈
      (iteration sampleConstants sampleRelay sampleFilling
        { sampleInput with decoded := some sampleEchoCell }).events ∧
    ∃ message tail,
      (iteration sampleConstants sampleRelay
          (iteration sampleConstants sampleRelay sampleFilling
            { sampleInput with decoded := some sampleEchoCell }).state sampleInput).events =
        RelayEvent.sentDownstream message :: tail ∧
      message.take 6 = putUint16 (toUint16 (downstreamType sampleConstants sampleInput)) ++
        putUint32 (toUint32 (-1)) ∧
      message.drop 6 = sampleEchoCell :=
  ⟨rfl, rfl, by decide,
    ((latency_cell_echoed_first sampleConstants sampleRelay sampleFilling sampleEchoCell
      [0, 0, 5, 6, 7, 8] rfl).2.2 { sampleInput with decoded := some sampleEchoCell } sampleInput
      rfl rfl (by decide) rfl).2.2⟩

/-- C14: for a decoded upstream plaintext `p` of length `PayloadLength >= 6`
that does not carry the latency pattern, with `connId` the big-endian u32 of
`p[0..4]` and `dataLen` the big-endian u16 of `p[4..6]`: when `connId` is not
`SOCKS_CONNECTION_ID_EMPTY` and `6 + dataLen <= PayloadLength`, the only send
is of the bytes `p[6 .. 6+dataLen]` on the channel of `connId`, and a channel
is registered for `connId` first exactly when none was; when
`6 + dataLen > PayloadLength` nothing is sent; when `connId` is the empty id
nothing is sent and the registered channels are unchanged. -/
theorem socks_dispatch_forwards_payload (k : RelayConstants) (relayState : RelayState)
    (s : LoopState) (p : Bytes)
    (hlen : (p.length : Int) = relayState.PayloadLength) (hsix : 6 ≤ p.length)
    (hpattern : getUint16 (p.take 2) ≠ 43690) :
    (((getUint32 (p.take 4) : Nat) : Int) ≠ k.SOCKS_CONNECTION_ID_EMPTY →
      6 + ((getUint16 ((p.drop 4).take 2) : Nat) : Int) ≤ relayState.PayloadLength →
      (dispatchUpstream k relayState s (some p)).2.2.filter
          (fun e => !decide (e = RelayEvent.socksOpen (getUint32 (p.take 4)))) =
        [.socksForward (getUint32 (p.take 4)) ((p.drop 6).take (getUint16 ((p.drop 4).take 2)))] ∧
      (RelayEvent.socksOpen (getUint32 (p.take 4)) ∈ (dispatchUpstream k relayState s (some p)).2.2 ↔
        ((getUint32 (p.take 4) : Nat) : Int) ∉ s.socksProxyConnections) ∧
      (dispatchUpstream k relayState s (some p)).2.2.head? =
        (if ((getUint32 (p.take 4) : Nat) : Int) ∈ s.socksProxyConnections then
          some (.socksForward (getUint32 (p.take 4))
            ((p.drop 6).take (getUint16 ((p.drop 4).take 2))))
        else some (.socksOpen (getUint32 (p.take 4)))) ∧
      (dispatchUpstream k relayState s (some p)).2.1.socksProxyConnections =
        (if ((getUint32 (p.take 4) : Nat) : Int) ∈ s.socksProxyConnections then
          s.socksProxyConnections
        else s.socksProxyConnections ++ [((getUint32 (p.take 4) : Nat) : Int)])) ∧
    (((getUint32 (p.take 4) : Nat) : Int) ≠ k.SOCKS_CONNECTION_ID_EMPTY →
      6 + ((getUint16 ((p.drop 4).take 2) : Nat) : Int) > relayState.PayloadLength →
      ∀ c d, RelayEvent.socksForward c d ∉ (dispatchUpstream k relayState s (some p)).2.2) ∧
    (((getUint32 (p.take 4) : Nat) : Int) = k.SOCKS_CONNECTION_ID_EMPTY →
      (dispatchUpstream k relayState s (some p)).2.2 = [] ∧
      (dispatchUpstream k relayState s (some p)).2.1 = s) := by
  have h2 : ¬ p.length < 2 := by omega
  have h6 : ¬ p.length < 6 := by omega
  have hl : ¬ (p.length : Int) ≠ relayState.PayloadLength := by simpa using hlen
  refine ⟨?_, ?_, ?_⟩
  · intro hid hfit
    have hfit' : ¬ 6 + ((getUint16 ((p.drop 4).take 2) : Nat) : Int) > relayState.PayloadLength := by
      omega
    unfold dispatchUpstream
    simp only []
    rw [if_neg h2, if_neg hpattern, if_neg hl, if_neg h6, if_neg hid, if_neg hfit']
    by_cases hknown : ((getUint32 (p.take 4) : Nat) : Int) ∈ s.socksProxyConnections
    · simp [hknown]
    · simp [hknown]
  · intro hid hbig c d
    unfold dispatchUpstream
    simp only []
    rw [if_neg h2, if_neg hpattern, if_neg hl, if_neg h6, if_neg hid, if_pos hbig]
    by_cases hknown : ((getUint32 (p.take 4) : Nat) : Int) ∈ s.socksProxyConnections
    · simp [hknown]
    · simp [hknown]
  · intro hid
    unfold dispatchUpstream
    simp only []
    rw [if_neg h2, if_neg hpattern, if_neg hl, if_neg h6, if_pos hid]
    exact ⟨rfl, rfl⟩

/-- Witness of C14: the sample relay dispatches a cell for connection 258
carrying two bytes. -/
theorem socks_dispatch_forwards_payload_witness :
    ((sampleSocksCell.length : Int) = sampleRelay.PayloadLength ∧ 6 ≤ sampleSocksCell.length ∧
      getUint16 (sampleSocksCell.take 2) ≠ 43690) ∧
    (dispatchUpstream sampleConstants sampleRelay LoopState.initial (some sampleSocksCell)).2.2 =
      [.socksOpen 258, .socksForward 258 [33, 44]] ∧
    (dispatchUpstream sampleConstants sampleRelay LoopState.initial
        (some sampleSocksCell)).2.2.filter
        (fun e => !decide (e = RelayEvent.socksOpen (getUint32 (sampleSocksCell.take 4)))) =
      [.socksForward (getUint32 (sampleSocksCell.take 4))
        ((sampleSocksCell.drop 6).take (getUint16 ((sampleSocksCell.drop 4).take 2)))] :=
  ⟨by decide, by decide,
    ((socks_dispatch_forwards_payload sampleConstants sampleRelay LoopState.initial sampleSocksCell
      (by decide) (by decide) (by decide)).1 (by decide) (by decide)).1⟩

/-! ## Claims on joining: node ids and the wait queue -/

/-- C19, at a concrete list: with the registered clients holding the ids 1, 2
and 0 in this order, the scan of `relayParseClientParamsAux` stops at 1 and the
new client gets the id 1, which the first registered client already has. -/
theorem next_free_id_collides :
    relayParseClientParamsAux (fun bytes => bytes.head?) sampleRejoined (some [5]) false false =
      .done { Id := 1, Connected := true, PublicKey := 5 } ∧
    (1 : Int) ∈ sampleRejoined.map NodeRepresentation.Id := by
  decide

/-- C20: a connection request on a node that is not the relay, or from a
sender absent from the identity map, leaves the service unchanged and makes no
call. On the relay, for a sender of the identity map, the sender is inserted in
the key set of its role (the other set is unchanged, and nothing changes when
it was present); then `CreateProtocolService` is called, on the updated sets,
exactly when they hold at least 2 clients and 1 trustee; the running wrapper
is stopped, before that call, exactly when moreover a protocol was running;
and when the creation succeeds the service runs the new wrapper. -/
theorem handle_connection_queues_and_starts (created : Option Nat) (s : Service)
    (sender : ServerIdentity) :
    ((s.role ≠ .Relay ∨ s.identityMap.lookup sender.Address = none) →
      HandleConnection created s sender = { service := s, events := [], ending := .returned }) ∧
    (∀ id queue, s.role = .Relay → s.identityMap.lookup sender.Address = some id →
      s.waitQueue = some queue →
      ∃ after stops starts,
        (HandleConnection created s sender).service.waitQueue = some after ∧
        after.clients =
          (if id.Role = .Client then insert sender.pointer queue.clients else queue.clients) ∧
        after.trustees =
          (if id.Role = .Trustee then insert sender.pointer queue.trustees else queue.trustees) ∧
        ((sender.pointer ∈ queue.clients ∧ id.Role = .Client ∨
          sender.pointer ∈ queue.trustees ∧ id.Role = .Trustee) → after = queue) ∧
        (HandleConnection created s sender).events = stops ++ starts ∧
        (starts = (if 2 ≤ after.clients.card ∧ 1 ≤ after.trustees.card then
            ServiceEvent.createProtocol after.clients after.trustees ::
              (match created with
                | some wrapper => [.setConfig wrapper, .start wrapper]
                | none => [])
          else [])) ∧
        (stops = (if 2 ≤ after.clients.card ∧ 1 ≤ after.trustees.card ∧ s.isPrifiRunning = true then
            (match s.prifiWrapper with
              | some wrapper => [ServiceEvent.stop wrapper]
              | none => [])
          else [])) ∧
        (∀ wrapper, created = some wrapper → 2 ≤ after.clients.card ∧ 1 ≤ after.trustees.card →
          (HandleConnection created s sender).service.isPrifiRunning = true ∧
          (HandleConnection created s sender).service.prifiWrapper = some wrapper ∧
          (HandleConnection created s sender).ending = .returned) ∧
        (¬ (2 ≤ after.clients.card ∧ 1 ≤ after.trustees.card) →
          (HandleConnection created s sender).service = { s with waitQueue := some after } ∧
          (HandleConnection created s sender).ending = .returned)) := by
  refine ⟨?_, ?_⟩
  · intro h
    unfold HandleConnection
    by_cases hr : s.role ≠ .Relay
    · rw [if_pos hr]
    · rw [if_neg hr]
      rcases h with h | h
      · exact absurd h hr
      · rw [h]
  · intro id queue hrole hid hq
    have hr : ¬ s.role ≠ .Relay := by simp [hrole]
    unfold HandleConnection
    rw [if_neg hr, hid]
    simp only [hq]
    generalize hafter : (match id.Role with
      | .Client => ({ queue with clients := insert sender.pointer queue.clients } : WaitQueue)
      | .Trustee => { queue with trustees := insert sender.pointer queue.trustees }
      | .Relay => queue) = after
    have hc : after.clients =
        (if id.Role = .Client then insert sender.pointer queue.clients else queue.clients) := by
      rw [← hafter]
      cases id.Role <;> simp
    have ht : after.trustees =
        (if id.Role = .Trustee then insert sender.pointer queue.trustees else queue.trustees) := by
      rw [← hafter]
      cases id.Role <;> simp
    have hsame : (sender.pointer ∈ queue.clients ∧ id.Role = .Client ∨
        sender.pointer ∈ queue.trustees ∧ id.Role = .Trustee) → after = queue := by
      rw [← hafter]
      rintro (⟨hm, hro⟩ | ⟨hm, hro⟩)
      · rw [hro]
        simp [Finset.insert_eq_of_mem hm]
      · rw [hro]
        simp [Finset.insert_eq_of_mem hm]
    have hstopped : ∀ t : Service, t.role = .Relay → t.waitQueue = some after →
        (if t.isPrifiRunning = true then stopPriFi t else (t, [])).1.role = .Relay ∧
        (if t.isPrifiRunning = true then stopPriFi t else (t, [])).1.waitQueue = some after ∧
        (if t.isPrifiRunning = true then stopPriFi t else (t, [])).2 =
          (if t.isPrifiRunning = true then
            (match t.prifiWrapper with
              | some wrapper => [ServiceEvent.stop wrapper]
              | none => [])
          else []) := by
      intro t htr htq
      unfold stopPriFi
      cases hrun : t.isPrifiRunning <;> cases hw : t.prifiWrapper <;> simp [htr, htq]
    have hstarted : ∀ t : Service, t.role = .Relay → t.waitQueue = some after →
        (startPriFi created t).events =
          ServiceEvent.createProtocol after.clients after.trustees ::
            (match created with
              | some wrapper => [.setConfig wrapper, .start wrapper]
              | none => []) ∧
        (∀ wrapper, created = some wrapper →
          (startPriFi created t).service.isPrifiRunning = true ∧
          (startPriFi created t).service.prifiWrapper = some wrapper ∧
          (startPriFi created t).service.waitQueue = some after ∧
          (startPriFi created t).ending = .returned) ∧
        (created = none → (startPriFi created t).service.waitQueue = some after) := by
      intro t htr htq
      unfold startPriFi
      cases created <;> simp [htr, htq]
    by_cases henough : 2 ≤ after.clients.card ∧ 1 ≤ after.trustees.card
    · rw [if_pos henough]
      obtain ⟨h1, h2, h3⟩ := hstopped { s with waitQueue := some after } hrole rfl
      obtain ⟨h4, h5, h6⟩ := hstarted _ h1 h2
      refine ⟨after, _, _, ?_, hc, ht, hsame, rfl, ?_, ?_, ?_, ?_⟩
      · cases created with
        | none => exact h6 rfl
        | some wrapper => exact (h5 wrapper rfl).2.2.1
      · rw [if_pos henough]
        exact h4
      · rw [h3]
        simp [henough]
      · intro wrapper hcr _
        exact ⟨(h5 wrapper hcr).1, (h5 wrapper hcr).2.1, (h5 wrapper hcr).2.2.2⟩
      · intro hne
        exact absurd henough hne
    · rw [if_neg henough]
      refine ⟨after, [], [], rfl, hc, ht, hsame, rfl, ?_, ?_, ?_, ?_⟩
      · rw [if_neg henough]
      · rw [if_neg (fun h => henough ⟨h.1, h.2.1⟩)]
      · intro wrapper _ h
        exact absurd h henough
      · intro _
        exact ⟨rfl, rfl⟩

/-- Witness of C20: on the sample relay a second client joins while a protocol
runs. -/
theorem handle_connection_queues_and_starts_witness :
    ∃ after stops starts,
      (HandleConnection (some 2) sampleService
        { pointer := 11, Address := "client:1" }).service.waitQueue = some after ∧
      after.clients = insert 11 {10} ∧ after.trustees = {40} ∧
      (HandleConnection (some 2) sampleService { pointer := 11, Address := "client:1" }).events =
        stops ++ starts ∧
      starts = [.createProtocol after.clients after.trustees, .setConfig 2, .start 2] ∧
      stops = [.stop 1] := by
  obtain ⟨after, stops, starts, h1, h2, h3, _, h5, h6, h7, _, _⟩ :=
    (handle_connection_queues_and_starts (some 2) sampleService
      { pointer := 11, Address := "client:1" }).2
      { Role := .Client, Id := 1 } { trustees := {40}, clients := {10} } rfl (by decide) rfl
  have hc : after.clients = insert 11 {10} := by simpa using h2
  have ht : after.trustees = {40} := by simpa using h3
  have henough : 2 ≤ after.clients.card ∧ 1 ≤ after.trustees.card := by
    rw [hc, ht]
    decide
  refine ⟨after, stops, starts, h1, hc, ht, h5, ?_, ?_⟩
  · rw [h6, if_pos henough]
  · rw [h7, if_pos ⟨henough.1, henough.2, rfl⟩]
    rfl

/-! ## Lemmas on byte slices and scanning loops -/

theorem getUint32_putUint32 (n : Nat) (h : n < 4294967296) : getUint32 (putUint32 n) = n := by
  unfold getUint32 putUint32
  simp only [List.getD_cons_zero, List.getD_cons_succ]
  omega

theorem toUint32_natCast (n : Nat) (h : n < 4294967296) : toUint32 (n : Int) = n := by
  unfold toUint32
  omega

theorem putUint32_length (n : Nat) : (putUint32 n).length = 4 := rfl

theorem lengthPrefixed_length (b : Bytes) : (lengthPrefixed b).length = 4 + b.length := by
  unfold lengthPrefixed IntToBA
  rw [List.length_append, putUint32_length]

theorem readInto_store (size : Nat) (received : Bytes) (h : received.length ≤ size) :
    (readInto size received).store = received ++ List.replicate (size - received.length) 0 := by
  unfold readInto Slice.ofBytes
  simp only [List.take_of_length_le h]

theorem readInto_len (size : Nat) (received : Bytes) : (readInto size received).len = size := by
  unfold readInto Slice.ofBytes
  simp only [List.length_append, List.length_take, List.length_replicate]
  omega

theorem readInto_store_length (size : Nat) (received : Bytes) :
    (readInto size received).store.length = size := by
  unfold readInto Slice.ofBytes
  simp only [List.length_append, List.length_take, List.length_replicate]
  omega

/-- Zero bytes after the bytes received are what the buffer holds anyway. -/
theorem readInto_zeros (size : Nat) (received : Bytes) (zeros : Nat) (h : received.length ≤ size) :
    readInto size (received ++ List.replicate zeros 0) = readInto size received := by
  unfold readInto Slice.ofBytes
  have hstore : (received ++ List.replicate zeros 0).take size ++
      List.replicate (size - (received ++ List.replicate zeros 0).length) 0 =
      received.take size ++ List.replicate (size - received.length) 0 := by
    rw [List.take_of_length_le h, List.take_append_eq_append_take, List.take_of_length_le h,
      List.take_replicate, List.append_assoc, List.append_replicate_replicate]
    congr 2
    simp only [List.length_append, List.length_replicate]
    omega
  rw [hstore]

/-- The slice expression at a position inside the store. -/
theorem slice_inside (s : Slice) (lo hi : Nat) (h1 : lo ≤ hi) (h2 : hi ≤ s.store.length) :
    s.slice lo hi = some { store := s.store.drop lo, len := hi - lo } := by
  unfold Slice.slice
  rw [if_pos ⟨h1, h2⟩]

theorem slice_outside (s : Slice) (lo hi : Nat) (h : s.store.length < hi) : s.slice lo hi = none := by
  unfold Slice.slice
  rw [if_neg (fun hh => absurd hh.2 (by omega))]

/-- The turn of a scanning loop at a length-prefixed item. -/
theorem readItem_item (s : Slice) (bound currentByte : Nat) (before e after : Bytes)
    (hstore : s.store = before ++ (lengthPrefixed e ++ after)) (hcur : before.length = currentByte)
    (hpos : 0 < e.length) (hsmall : e.length < 4294967296) (hbound : currentByte + 4 ≤ bound) :
    readItem s bound currentByte =
      .item { store := e ++ after, len := e.length } (currentByte + 4 + e.length) := by
  have hdrop : s.store.drop currentByte = lengthPrefixed e ++ after := by
    rw [hstore, ← hcur, List.drop_left]
  have hlen : s.store.length = currentByte + (4 + e.length + after.length) := by
    rw [hstore, List.length_append, List.length_append, lengthPrefixed_length, hcur]
  have hword4 : ({ store := s.store.drop currentByte, len := currentByte + 4 - currentByte } :
      Slice).bytes = putUint32 e.length := by
    unfold Slice.bytes
    simp only [hdrop, Nat.add_sub_cancel_left]
    unfold lengthPrefixed IntToBA
    rw [toUint32_natCast _ hsmall, List.append_assoc]
    exact List.take_left' (putUint32_length _)
  have hcontent : s.store.drop (currentByte + 4) = e ++ after := by
    rw [← List.drop_drop, hdrop]
    unfold lengthPrefixed IntToBA
    rw [List.append_assoc]
    exact List.drop_left' (putUint32_length _)
  unfold readItem
  rw [if_neg (by omega), slice_inside s currentByte (currentByte + 4) (by omega) (by omega)]
  simp only [hword4, getUint32_putUint32 _ hsmall]
  rw [if_neg (by omega), slice_inside s (currentByte + 4) (currentByte + 4 + e.length) (by omega)
    (by omega)]
  simp only [hcontent, Nat.add_sub_cancel_left]

theorem foldl_pack {α : Type} (enc : α → Bytes) (items : List α) :
    ∀ init : Bytes, items.foldl (fun packed a => packed ++ lengthPrefixed (enc a)) init =
      init ++ packItems enc items := by
  induction items with
  | nil => intro init; simp [packItems]
  | cons a later ih =>
    intro init
    rw [List.foldl_cons, ih, packItems, List.append_assoc]

theorem packItems_append {α : Type} (enc : α → Bytes) (l1 l2 : List α) :
    packItems enc (l1 ++ l2) = packItems enc l1 ++ packItems enc l2 := by
  induction l1 with
  | nil => simp [packItems]
  | cons a later ih => rw [List.cons_append, packItems, packItems, ih, List.append_assoc]

/-- A scanning loop with a count test, started at the first of as many items
as the count still allows, leaves the loop after the last one. -/
theorem scan_limit {α β : Type} (convert : Slice → Converted β) (enc : α → Bytes) (g : α → β)
    (s : Slice) (bound : Nat) (indexed : Bool) (hbound : bound < 4294967296) :
    ∀ (items : List α) (fuel currentByte : Nat) (acc : List β) (before after : Bytes) (n : Int),
      items ≠ [] →
      s.store = before ++ (packItems enc items ++ after) → before.length = currentByte →
      (∀ a ∈ items, 0 < (enc a).length) →
      currentByte + (packItems enc items).length ≤ bound →
      (∀ a ∈ items, ∀ rest, convert { store := enc a ++ rest, len := (enc a).length } = .value (g a)) →
      n = (acc.length : Int) + items.length → items.length ≤ fuel →
      scan convert s bound (some n) indexed fuel currentByte acc =
        .ok (acc ++ items.map g) (currentByte + (packItems enc items).length) := by
  intro items
  induction items with
  | nil => intro _ _ _ _ _ _ h; exact absurd rfl h
  | cons a later ih =>
    intro fuel currentByte acc before after n _ hstore hcur hpos hfit hconv hn hfuel
    cases fuel with
    | zero => simp at hfuel
    | succ fuel =>
      have hlenPack : (packItems enc (a :: later)).length =
          4 + (enc a).length + (packItems enc later).length := by
        rw [packItems, List.length_append, lengthPrefixed_length]
      have hstore' : s.store = before ++ (lengthPrefixed (enc a) ++ (packItems enc later ++ after)) := by
        rw [hstore, packItems, List.append_assoc]
      have hitem := readItem_item s bound currentByte before (enc a) (packItems enc later ++ after)
        hstore' hcur (hpos a (List.mem_cons_self _ _)) (by omega) (by omega)
      unfold scan
      rw [hitem]
      simp only [hconv a (List.mem_cons_self _ _)]
      have hidx : ¬ ((indexed && decide ((some n).getD 0 ≤ (acc.length : Int))) = true) := by
        simp only [Option.getD_some, Bool.and_eq_true, decide_eq_true_eq, not_and, not_le]
        intro _
        rw [hn]
        simp only [List.length_cons]
        omega
      rw [if_neg hidx]
      cases later with
      | nil =>
        have hlast : some n = some ((acc.length : Int) + 1) := by
          rw [hn]; simp
        rw [if_pos hlast]
        simp [packItems, lengthPrefixed_length]
        omega
      | cons b more =>
        have hnot : ¬ some n = some ((acc.length : Int) + 1) := by
          rw [hn]
          simp only [List.length_cons, Option.some.injEq]
          omega
        rw [if_neg hnot]
        have hstore2 : s.store = (before ++ lengthPrefixed (enc a)) ++
            (packItems enc (b :: more) ++ after) := by
          rw [hstore', List.append_assoc]
        have := ih fuel (currentByte + 4 + (enc a).length) (acc ++ [g a])
          (before ++ lengthPrefixed (enc a)) after n (by simp) hstore2
          (by rw [List.length_append, lengthPrefixed_length, hcur]; omega)
          (fun x hx => hpos x (List.mem_cons_of_mem _ hx))
          (by rw [hlenPack] at hfit; omega)
          (fun x hx => hconv x (List.mem_cons_of_mem _ hx))
          (by rw [hn]; simp only [List.length_cons, List.length_append, List.length_nil]
              push_cast; omega)
          (by simp only [List.length_cons] at hfuel ⊢; omega)
        rw [this, hlenPack]
        simp only [List.map_cons, List.append_assoc, List.singleton_append]
        congr 1
        omega

/-- A scanning loop without a count test passes over length-prefixed items. -/
theorem scan_free {α β : Type} (convert : Slice → Converted β) (enc : α → Bytes) (g : α → β)
    (s : Slice) (bound : Nat) (hbound : bound < 4294967296) :
    ∀ (items : List α) (fuel currentByte : Nat) (acc : List β) (before after : Bytes),
      s.store = before ++ (packItems enc items ++ after) → before.length = currentByte →
      (∀ a ∈ items, 0 < (enc a).length) →
      currentByte + (packItems enc items).length ≤ bound →
      (∀ a ∈ items, ∀ rest, convert { store := enc a ++ rest, len := (enc a).length } = .value (g a)) →
      scan convert s bound none false (fuel + items.length) currentByte acc =
        scan convert s bound none false fuel (currentByte + (packItems enc items).length)
          (acc ++ items.map g) := by
  intro items
  induction items with
  | nil => intro fuel currentByte acc _ _ _ _ _ _ _; simp [packItems]
  | cons a later ih =>
    intro fuel currentByte acc before after hstore hcur hpos hfit hconv
    have hlenPack : (packItems enc (a :: later)).length =
        4 + (enc a).length + (packItems enc later).length := by
      rw [packItems, List.length_append, lengthPrefixed_length]
    have hstore' : s.store = before ++ (lengthPrefixed (enc a) ++ (packItems enc later ++ after)) := by
      rw [hstore, packItems, List.append_assoc]
    have hitem := readItem_item s bound currentByte before (enc a) (packItems enc later ++ after)
      hstore' hcur (hpos a (List.mem_cons_self _ _)) (by omega) (by omega)
    have hfuel : fuel + (a :: later).length = (fuel + later.length) + 1 := by
      simp only [List.length_cons]; omega
    rw [hfuel]
    conv => lhs; unfold scan
    rw [hitem]
    simp only [hconv a (List.mem_cons_self _ _), Bool.false_and, Bool.false_eq_true, if_false,
      reduceCtorEq]
    have hstore2 : s.store = (before ++ lengthPrefixed (enc a)) ++ (packItems enc later ++ after) := by
      rw [hstore', List.append_assoc]
    rw [ih fuel (currentByte + 4 + (enc a).length) (acc ++ [g a])
      (before ++ lengthPrefixed (enc a)) after hstore2
      (by rw [List.length_append, lengthPrefixed_length, hcur]; omega)
      (fun x hx => hpos x (List.mem_cons_of_mem _ hx))
      (by rw [hlenPack] at hfit; omega)
      (fun x hx => hconv x (List.mem_cons_of_mem _ hx)), hlenPack]
    simp only [List.map_cons, List.append_assoc, List.singleton_append]
    congr 1
    omega

theorem scan_stop_guard {β : Type} (convert : Slice → Converted β) (s : Slice) (bound : Nat)
    (limit : Option Int) (indexed : Bool) (fuel currentByte : Nat) (acc : List β)
    (h : currentByte + 4 > bound) :
    scan convert s bound limit indexed (fuel + 1) currentByte acc = .ok acc currentByte := by
  unfold scan readItem
  rw [if_pos h]

theorem scan_out_of_range {β : Type} (convert : Slice → Converted β) (s : Slice) (bound : Nat)
    (limit : Option Int) (indexed : Bool) (fuel currentByte : Nat) (acc : List β)
    (hguard : currentByte + 4 ≤ bound) (h : s.store.length < currentByte + 4) :
    scan convert s bound limit indexed (fuel + 1) currentByte acc = .outOfRange := by
  unfold scan readItem
  rw [if_neg (by omega), slice_outside s _ _ h]

theorem packItems_length_ge {α : Type} (enc : α → Bytes) (items : List α) :
    4 * items.length ≤ (packItems enc items).length := by
  induction items with
  | nil => simp [packItems]
  | cons a later ih =>
    rw [packItems, List.length_append, lengthPrefixed_length, List.length_cons]
    omega

/-- The number a slice expression reads at a 4-byte length. -/
theorem slice_length_word (s : Slice) (lo n : Nat) (before after : Bytes)
    (hstore : s.store = before ++ (putUint32 n ++ after)) (hlo : before.length = lo)
    (hn : n < 4294967296) :
    ∃ word, s.slice lo (lo + 4) = some word ∧ getUint32 word.bytes = n := by
  have hlen : lo + 4 ≤ s.store.length := by
    rw [hstore, List.length_append, List.length_append, putUint32_length, hlo]
    omega
  refine ⟨_, slice_inside s lo (lo + 4) (by omega) hlen, ?_⟩
  unfold Slice.bytes
  simp only [Nat.add_sub_cancel_left]
  rw [hstore, ← hlo, List.drop_left, List.take_left' (putUint32_length _),
    getUint32_putUint32 _ hn]

/-- The slice expression at the bytes of an item. -/
theorem slice_content (s : Slice) (lo : Nat) (before e after : Bytes)
    (hstore : s.store = before ++ (e ++ after)) (hlo : before.length = lo) :
    s.slice lo (lo + e.length) = some { store := e ++ after, len := e.length } := by
  have hlen : lo + e.length ≤ s.store.length := by
    rw [hstore, List.length_append, List.length_append, hlo]
    omega
  rw [slice_inside s lo (lo + e.length) (by omega) hlen, hstore, ← hlo, List.drop_left]
  simp

theorem bytes_of_content (e after : Bytes) : (Slice.mk (e ++ after) e.length).bytes = e := by
  unfold Slice.bytes
  exact List.take_left' rfl

/-- The three blocks of a buffer that starts with three length-prefixed
blocks. -/
theorem threeBlocks_packed (buffer : Slice) (a b d after : Bytes)
    (hstore : buffer.store = lengthPrefixed a ++ (lengthPrefixed b ++ (lengthPrefixed d ++ after)))
    (hsmall : buffer.store.length < 4294967296) :
    threeBlocks buffer =
      some ({ store := a ++ (lengthPrefixed b ++ (lengthPrefixed d ++ after)), len := a.length },
        { store := b ++ (lengthPrefixed d ++ after), len := b.length },
        { store := d ++ after, len := d.length }) := by
  have hlen : buffer.store.length =
      4 + a.length + (4 + b.length + (4 + d.length + after.length)) := by
    rw [hstore]
    simp only [List.length_append, lengthPrefixed_length]
  have ha : toUint32 (a.length : Int) = a.length := toUint32_natCast _ (by omega)
  have hb : toUint32 (b.length : Int) = b.length := toUint32_natCast _ (by omega)
  have hd : toUint32 (d.length : Int) = d.length := toUint32_natCast _ (by omega)
  obtain ⟨w0, hw0, hn0⟩ := slice_length_word buffer 0 a.length []
    (a ++ (lengthPrefixed b ++ (lengthPrefixed d ++ after)))
    (by rw [hstore]; simp [lengthPrefixed, IntToBA, ha]) rfl (by omega)
  obtain ⟨w1, hw1, hn1⟩ := slice_length_word buffer (4 + a.length) b.length (lengthPrefixed a)
    (b ++ (lengthPrefixed d ++ after))
    (by rw [hstore]; simp [lengthPrefixed, IntToBA, hb]) (lengthPrefixed_length a) (by omega)
  obtain ⟨w2, hw2, hn2⟩ := slice_length_word buffer (8 + a.length + b.length) d.length
    (lengthPrefixed a ++ lengthPrefixed b) (d ++ after)
    (by rw [hstore]; simp [lengthPrefixed, IntToBA, hd])
    (by rw [List.length_append, lengthPrefixed_length, lengthPrefixed_length]; omega) (by omega)
  have hc0 := slice_content buffer 4 (putUint32 a.length) a
    (lengthPrefixed b ++ (lengthPrefixed d ++ after))
    (by rw [hstore]; simp [lengthPrefixed, IntToBA, ha]) rfl
  have hc1 := slice_content buffer (8 + a.length) (lengthPrefixed a ++ putUint32 b.length) b
    (lengthPrefixed d ++ after)
    (by rw [hstore]; simp [lengthPrefixed, IntToBA, hb])
    (by rw [List.length_append, lengthPrefixed_length, putUint32_length]; omega)
  have hc2 := slice_content buffer (12 + a.length + b.length)
    (lengthPrefixed a ++ lengthPrefixed b ++ putUint32 d.length) d after
    (by rw [hstore]; simp [lengthPrefixed, IntToBA, hd])
    (by simp only [List.length_append, lengthPrefixed_length, putUint32_length]; omega)
  unfold threeBlocks
  rw [show (4 : Nat) = 0 + 4 from rfl, hw0]
  simp only [hn0, Nat.zero_add]
  rw [show 8 + a.length = 4 + a.length + 4 by omega, hw1]
  simp only [hn1]
  rw [show 12 + a.length + b.length = 8 + a.length + b.length + 4 by omega,
    show 4 + a.length + 4 + b.length = 8 + a.length + b.length by omega, hw2]
  simp only [hn2]
  rw [hc0, show 4 + a.length + 4 = 8 + a.length by omega, hc1,
    show 8 + a.length + b.length + 4 = 12 + a.length + b.length by omega, hc2]

theorem unmarshalItem_packed (c : PointCodec) (key : Point)
    (h : c.UnmarshalBinary (c.MarshalBinary key) = some key) (after : Bytes) :
    unmarshalItem c { store := c.MarshalBinary key ++ after, len := (c.MarshalBinary key).length } =
      .value key := by
  unfold unmarshalItem
  rw [bytes_of_content, h]

theorem MarshalPublicKeyArray_packed (c : PointCodec) (k : NetConstants) (keys : List Point) :
    MarshalPublicKeyArrayToByteArray c k keys =
      putUint32 (toUint32 k.MESSAGE_TYPE_PUBLICKEYS) ++ packItems c.MarshalBinary keys := by
  unfold MarshalPublicKeyArrayToByteArray
  exact foldl_pack c.MarshalBinary keys _

/-- The key array written by `MarshalPublicKeyArrayToByteArray` with the type
word 2 is read back by `UnMarshalPublicKeyArrayFromByteArray` from a slice of
exactly these bytes, whatever follows in the underlying array. -/
theorem UnMarshalPublicKeyArray_packed (c : PointCodec) (k : NetConstants) (keys : List Point)
    (after : Bytes) (hk : k.MESSAGE_TYPE_PUBLICKEYS = 2)
    (hkeys : ∀ key ∈ keys, c.UnmarshalBinary (c.MarshalBinary key) = some key ∧
      0 < (c.MarshalBinary key).length)
    (hsmall : (MarshalPublicKeyArrayToByteArray c k keys).length < 4294967295) :
    UnMarshalPublicKeyArrayFromByteArray c
      { store := MarshalPublicKeyArrayToByteArray c k keys ++ after,
        len := (MarshalPublicKeyArrayToByteArray c k keys).length } = .done (some keys, none) := by
  have hpacked := MarshalPublicKeyArray_packed c k keys
  have htype : toUint32 k.MESSAGE_TYPE_PUBLICKEYS = 2 := by rw [hk]; rfl
  rw [htype] at hpacked
  have hlen : (MarshalPublicKeyArrayToByteArray c k keys).length =
      4 + (packItems c.MarshalBinary keys).length := by
    rw [hpacked, List.length_append, putUint32_length]
  have hcount := packItems_length_ge c.MarshalBinary keys
  obtain ⟨word, hword, hn⟩ := slice_length_word
    { store := MarshalPublicKeyArrayToByteArray c k keys ++ after,
      len := (MarshalPublicKeyArrayToByteArray c k keys).length } 0 2 []
    (packItems c.MarshalBinary keys ++ after) (by simp [hpacked]) rfl (by omega)
  unfold UnMarshalPublicKeyArrayFromByteArray
  rw [show (4 : Nat) = 0 + 4 from rfl, hword]
  simp only [hn, ne_eq, not_true_eq_false, if_false, Nat.zero_add]
  have hfuel : (MarshalPublicKeyArrayToByteArray c k keys).length + 1 =
      ((MarshalPublicKeyArrayToByteArray c k keys).length - keys.length) + 1 + keys.length := by
    omega
  rw [hfuel, scan_free (unmarshalItem c) c.MarshalBinary id _ _ (by omega) keys _ 4 []
    (putUint32 2) after (by simp [hpacked]) rfl (fun key hkey => (hkeys key hkey).2)
    (by omega) (fun key hkey rest => unmarshalItem_packed c key (hkeys key hkey).1 rest),
    scan_stop_guard _ _ _ _ _ _ _ _ (by omega)]
  simp

/-- The length of the message for the clients. -/
theorem packSignatureMessage_eq (c : PointCodec) (k : NetConstants) (base : Point)
    (keys : List Point) (signatures : List Bytes) :
    packSignatureMessage c k base keys signatures =
      lengthPrefixed (c.MarshalBinary base) ++
        (lengthPrefixed (MarshalPublicKeyArrayToByteArray c k keys) ++
          (lengthPrefixed (packItems id signatures) ++ [])) := by
  unfold packSignatureMessage
  simp only [List.append_nil, List.append_assoc]
  congr 3
  exact foldl_pack id signatures []

theorem packItems_length {α : Type} (enc : α → Bytes) (items : List α) :
    (packItems enc items).length = (items.map (fun a => 4 + (enc a).length)).sum := by
  induction items with
  | nil => simp [packItems]
  | cons a later ih =>
    rw [packItems, List.length_append, lengthPrefixed_length, ih, List.map_cons, List.sum_cons]

theorem packSignatureMessage_length (c : PointCodec) (k : NetConstants) (base : Point)
    (keys : List Point) (signatures : List Bytes) :
    (packSignatureMessage c k base keys signatures).length =
      16 + (c.MarshalBinary base).length +
        (keys.map (fun key => 4 + (c.MarshalBinary key).length)).sum +
        (signatures.map (fun sig => 4 + sig.length)).sum := by
  rw [packSignatureMessage_eq, MarshalPublicKeyArray_packed]
  simp only [List.length_append, lengthPrefixed_length, putUint32_length, packItems_length,
    List.length_nil, id]
  omega

theorem packItems_mem_length {α : Type} (enc : α → Bytes) (items : List α) (a : α)
    (h : a ∈ items) : 4 + (enc a).length ≤ (packItems enc items).length := by
  induction items with
  | nil => cases h
  | cons b later ih =>
    rw [packItems, List.length_append, lengthPrefixed_length]
    rcases List.mem_cons.mp h with h1 | h1
    · subst h1
      omega
    · have := ih h1
      omega

theorem packKeyArray_eq (c : PointCodec) (keys : List Point) :
    packKeyArray c keys = packItems c.MarshalBinary keys := by
  unfold packKeyArray
  rw [foldl_pack, List.nil_append]

theorem packTranscript_eq (c : PointCodec) (shuffles : List Shuffle) :
    packTranscript c shuffles =
      packItems (fun s => c.MarshalBinary s.base) shuffles ++
        (packItems (fun s => packKeyArray c s.keys) shuffles ++
          packItems (fun s => s.proof) shuffles) := by
  unfold packTranscript
  simp only [foldl_pack, List.nil_append, List.append_assoc]

theorem padTo_full {α : Type} (n : Nat) (fill : α) (written : List α) (h : written.length = n) :
    padTo n fill written = written := by
  unfold padTo
  rw [h, Nat.sub_self, List.replicate_zero, List.append_nil]

/-- The inner loop of `ParseTranscript` on the key array of one shuffle. -/
theorem scanKeyArray_packed (c : PointCodec) (keys : List Point) (after : Bytes)
    (hne : keys ≠ [])
    (hkeys : ∀ key ∈ keys, c.UnmarshalBinary (c.MarshalBinary key) = some key ∧
      0 < (c.MarshalBinary key).length)
    (hsmall : (packKeyArray c keys).length < 4294967296) :
    scanKeyArray c (keys.length : Int)
      { store := packKeyArray c keys ++ after, len := (packKeyArray c keys).length } =
      .value keys := by
  have hcount := packItems_length_ge c.MarshalBinary keys
  rw [← packKeyArray_eq] at hcount
  unfold scanKeyArray
  simp only []
  rw [scan_limit (unmarshalItem c) c.MarshalBinary id _ _ false hsmall keys _ 0 [] [] after
    (keys.length : Int) hne (by simp [packKeyArray_eq]) rfl (fun key hkey => (hkeys key hkey).2)
    (by rw [← packKeyArray_eq]; omega)
    (fun key hkey rest => unmarshalItem_packed c key (hkeys key hkey).1 rest) (by simp)
    (by omega)]
  simp

/-! ## Lemmas on the round scheduling -/

/-- The keys collected from the clients: one per client, each read on the
connection of its client. -/
theorem collectEphemeralKeys_ok (c : PointCodec) (k : NetConstants)
    (clients : List (List ReadMessageResult)) :
    ∀ (remaining i : Nat) (keys : List Point),
      collectEphemeralKeys c k clients remaining i = .done (.ok keys) →
      keys.length = remaining ∧
      ∀ n key, keys.get? n = some key →
        ∃ messages, clients.get? (i + n) = some messages ∧
          readEphemeralKey c k messages = .done (.ok key) := by
  intro remaining
  induction remaining with
  | zero =>
    intro i keys h
    unfold collectEphemeralKeys at h
    cases h
    exact ⟨rfl, fun n key hn => by simp at hn⟩
  | succ remaining ih =>
    intro i keys h
    unfold collectEphemeralKeys at h
    cases hget : clients.get? i with
    | none => rw [hget] at h; cases h
    | some messages =>
      rw [hget] at h
      simp only [] at h
      cases hread : readEphemeralKey c k messages with
      | crashed why => rw [hread] at h; cases h
      | exited why => rw [hread] at h; cases h
      | diverged => rw [hread] at h; cases h
      | done r =>
        rw [hread] at h
        cases r with
        | error e => cases h
        | ok publicKey =>
          simp only [] at h
          cases hrest : collectEphemeralKeys c k clients remaining (i + 1) with
          | crashed why => rw [hrest] at h; cases h
          | exited why => rw [hrest] at h; cases h
          | diverged => rw [hrest] at h; cases h
          | done r2 =>
            rw [hrest] at h
            cases r2 with
            | error e => cases h
            | ok later =>
              simp only [Run.done.injEq, Except.ok.injEq] at h
              subst h
              obtain ⟨hlen, hkeys⟩ := ih (i + 1) later hrest
              refine ⟨by simp [hlen], ?_⟩
              intro n key hn
              cases n with
              | zero =>
                simp only [List.get?_cons_zero, Option.some.injEq] at hn
                subst hn
                exact ⟨messages, hget, hread⟩
              | succ n =>
                simp only [List.get?_cons_succ] at hn
                obtain ⟨ms, h1, h2⟩ := hkeys n key hn
                exact ⟨ms, by rw [show i + (n + 1) = i + 1 + n by omega]; exact h1, h2⟩

/-- The writes of the shuffle loop: trustee `j` gets the base and keys the
loop starts with, every later trustee the base and keys parsed from the reply
of the trustee before it. -/
theorem askTrustees_writes (c : PointCodec) (k : NetConstants) (trustees : List TrusteeConn) :
    ∀ (remaining j : Nat) (G : Point) (keys : List Point) (e : SchedulingEvent),
      e ∈ (askTrustees c k trustees remaining j G keys).1 →
      ∃ i m, e = .wroteTrustee i m ∧ j ≤ i ∧ i < j + remaining ∧
        (i = j → m = WriteBaseAndPublicKeyToConn c k G keys) ∧
        (j < i → ∃ trustee base2 keys2 proof, trustees.get? (i - 1) = some trustee ∧
          ParseBasePublicKeysAndProofFromConn c trustee.shuffle =
            .done (some (base2, keys2, proof), none) ∧
          m = WriteBaseAndPublicKeyToConn c k base2 keys2) := by
  intro remaining
  induction remaining with
  | zero =>
    intro j G keys e he
    unfold askTrustees at he
    cases he
  | succ remaining ih =>
    intro j G keys e he
    have hfirst : ∀ e', e' ∈ [SchedulingEvent.wroteTrustee j (WriteBaseAndPublicKeyToConn c k G keys)] →
        ∃ i m, e' = .wroteTrustee i m ∧ j ≤ i ∧ i < j + (remaining + 1) ∧
          (i = j → m = WriteBaseAndPublicKeyToConn c k G keys) ∧
          (j < i → ∃ trustee base2 keys2 proof, trustees.get? (i - 1) = some trustee ∧
            ParseBasePublicKeysAndProofFromConn c trustee.shuffle =
              .done (some (base2, keys2, proof), none) ∧
            m = WriteBaseAndPublicKeyToConn c k base2 keys2) := by
      intro e' he'
      rw [List.mem_singleton] at he'
      exact ⟨j, _, he', le_refl _, by omega, fun _ => rfl, fun h => absurd h (lt_irrefl _)⟩
    unfold askTrustees at he
    cases hget : trustees.get? j with
    | none => rw [hget] at he; cases he
    | some trustee =>
      rw [hget] at he
      simp only [] at he
      by_cases hw : trustee.writeFails = true
      · rw [if_pos hw] at he
        exact hfirst e he
      · rw [if_neg hw] at he
        cases hparse : ParseBasePublicKeysAndProofFromConn c trustee.shuffle with
        | crashed why => rw [hparse] at he; exact hfirst e he
        | exited why => rw [hparse] at he; exact hfirst e he
        | diverged => rw [hparse] at he; exact hfirst e he
        | done r =>
          rw [hparse] at he
          obtain ⟨values, err⟩ := r
          cases err with
          | some err => exact hfirst e (by simpa using he)
          | none =>
            cases values with
            | none => exact hfirst e (by simpa using he)
            | some v =>
              obtain ⟨base2, keys2, proof⟩ := v
              simp only [List.mem_append] at he
              rcases he with he | he
              · exact hfirst e he
              · obtain ⟨i, m, heq, h1, h2, h3, h4⟩ := ih (j + 1) base2 keys2 e he
                refine ⟨i, m, heq, by omega, by omega, fun h => by omega, ?_⟩
                intro _
                by_cases hi : i = j + 1
                · refine ⟨trustee, base2, keys2, proof, ?_, hparse, h3 hi⟩
                  rw [hi]
                  exact hget
                · exact h4 (by omega)

theorem askTrustees_step (c : PointCodec) (k : NetConstants) (trustees : List TrusteeConn)
    (remaining j : Nat) (G : Point) (keys : List Point) (trustee : TrusteeConn) (base2 : Point)
    (keys2 : List Point) (proof : Bytes) (hget : trustees.get? j = some trustee)
    (hw : ¬ trustee.writeFails = true)
    (hparse : ParseBasePublicKeysAndProofFromConn c trustee.shuffle =
      .done (some (base2, keys2, proof), none)) :
    askTrustees c k trustees (remaining + 1) j G keys =
      ([.wroteTrustee j (WriteBaseAndPublicKeyToConn c k G keys)] ++
          (askTrustees c k trustees remaining (j + 1) base2 keys2).1,
        match (askTrustees c k trustees remaining (j + 1) base2 keys2).2 with
        | .done (.ok shuffles) =>
          .done (.ok ({ base := base2, keys := keys2, proof := proof } :: shuffles))
        | other => other) := by
  conv => lhs; unfold askTrustees
  simp only [hget, hparse]
  rw [if_neg hw]
  try rfl

/-- When the shuffle loop ends normally, every trustee was written to and the
shuffles kept are the replies of the trustees, in order. -/
theorem askTrustees_ok (c : PointCodec) (k : NetConstants) (trustees : List TrusteeConn) :
    ∀ (remaining j : Nat) (G : Point) (keys : List Point) (shuffles : List Shuffle),
      (askTrustees c k trustees remaining j G keys).2 = .done (.ok shuffles) →
      shuffles.length = remaining ∧
      (∀ n, n < remaining → ∃ m,
        SchedulingEvent.wroteTrustee (j + n) m ∈ (askTrustees c k trustees remaining j G keys).1) ∧
      (∀ n s, shuffles.get? n = some s → ∃ trustee, trustees.get? (j + n) = some trustee ∧
        ParseBasePublicKeysAndProofFromConn c trustee.shuffle =
          .done (some (s.base, s.keys, s.proof), none)) := by
  intro remaining
  induction remaining with
  | zero =>
    intro j G keys shuffles h
    unfold askTrustees at h
    cases h
    exact ⟨rfl, fun n hn => absurd hn (Nat.not_lt_zero _), fun n s hs => by simp at hs⟩
  | succ remaining ih =>
    intro j G keys shuffles h
    have h0 := h
    unfold askTrustees at h
    cases hget : trustees.get? j with
    | none => rw [hget] at h; cases h
    | some trustee =>
      rw [hget] at h
      simp only [] at h
      by_cases hw : trustee.writeFails = true
      · rw [if_pos hw] at h; cases h
      · rw [if_neg hw] at h
        cases hparse : ParseBasePublicKeysAndProofFromConn c trustee.shuffle with
        | crashed why => rw [hparse] at h; cases h
        | exited why => rw [hparse] at h; cases h
        | diverged => rw [hparse] at h; cases h
        | done r =>
          rw [hparse] at h
          obtain ⟨values, err⟩ := r
          cases err with
          | some err => simp at h
          | none =>
            cases values with
            | none => simp at h
            | some v =>
              obtain ⟨base2, keys2, proof⟩ := v
              simp only [] at h
              rw [askTrustees_step c k trustees remaining j G keys trustee base2 keys2 proof hget
                hw hparse]
              cases hlater : (askTrustees c k trustees remaining (j + 1) base2 keys2).2 with
              | crashed why => rw [hlater] at h; cases h
              | exited why => rw [hlater] at h; cases h
              | diverged => rw [hlater] at h; cases h
              | done r2 =>
                rw [hlater] at h
                cases r2 with
                | error e => cases h
                | ok later =>
                  simp only [Run.done.injEq, Except.ok.injEq] at h
                  subst h
                  obtain ⟨hlen, hall, hshuffles⟩ := ih (j + 1) base2 keys2 later hlater
                  refine ⟨by simp [hlen], ?_, ?_⟩
                  · intro n hn
                    cases n with
                    | zero =>
                      exact ⟨WriteBaseAndPublicKeyToConn c k G keys,
                        List.mem_append_left _ (List.mem_singleton.mpr rfl)⟩
                    | succ n =>
                      obtain ⟨m, hm⟩ := hall n (by omega)
                      refine ⟨m, ?_⟩
                      rw [show j + (n + 1) = j + 1 + n by omega]
                      exact List.mem_append_right _ hm
                  · intro n s hs
                    cases n with
                    | zero =>
                      simp only [List.get?_cons_zero, Option.some.injEq] at hs
                      subst hs
                      exact ⟨trustee, hget, hparse⟩
                    | succ n =>
                      simp only [List.get?_cons_succ] at hs
                      obtain ⟨t, h1, h2⟩ := hshuffles n s hs
                      exact ⟨t, by rw [show j + (n + 1) = j + 1 + n by omega]; exact h1, h2⟩

/-! ## Claims on the codecs and the round scheduling -/

/-- The first event of the shuffle loop is the write to its first trustee. -/
theorem askTrustees_first (c : PointCodec) (k : NetConstants) (trustees : List TrusteeConn)
    (remaining j : Nat) (G : Point) (keys : List Point) (trustee : TrusteeConn)
    (hget : trustees.get? j = some trustee) :
    ∃ tail, (askTrustees c k trustees (remaining + 1) j G keys).1 =
      .wroteTrustee j (WriteBaseAndPublicKeyToConn c k G keys) :: tail := by
  unfold askTrustees
  simp only [hget]
  split
  · exact ⟨[], rfl⟩
  · split <;> first | exact ⟨[], rfl⟩ | exact ⟨_, rfl⟩

/-- The write to trustee `j + n` of the shuffle loop, when the trustees before
it replied: it carries the base and the keys of the reply of trustee
`j + n - 1`, or those the loop starts with. -/
theorem askTrustees_chain (c : PointCodec) (k : NetConstants) (trustees : List TrusteeConn) :
    ∀ (remaining j : Nat) (G : Point) (keys : List Point) (reply : Nat → Shuffle) (n : Nat)
      (trustee : TrusteeConn),
      n < remaining → (∀ i, i < n → TrusteeReplies c trustees (j + i) (reply i)) →
      trustees.get? (j + n) = some trustee →
      SchedulingEvent.wroteTrustee (j + n)
          (WriteBaseAndPublicKeyToConn c k (if n = 0 then G else (reply (n - 1)).base)
            (if n = 0 then keys else (reply (n - 1)).keys)) ∈
        (askTrustees c k trustees remaining j G keys).1 := by
  intro remaining
  induction remaining with
  | zero => intro j G keys reply n trustee hn; exact absurd hn (Nat.not_lt_zero _)
  | succ remaining ih =>
    intro j G keys reply n trustee hn hgood hget
    cases n with
    | zero =>
      obtain ⟨tail, h⟩ := askTrustees_first c k trustees remaining j G keys trustee hget
      rw [h]
      exact List.mem_cons_self _ _
    | succ m =>
      obtain ⟨t0, hget0, hw0, hparse0⟩ := hgood 0 (by omega)
      rw [Nat.add_zero] at hget0
      rw [askTrustees_step c k trustees remaining j G keys t0 (reply 0).base (reply 0).keys
        (reply 0).proof hget0 (by rw [hw0]; simp) hparse0]
      apply List.mem_append_right
      have := ih (j + 1) (reply 0).base (reply 0).keys (fun i => reply (i + 1)) m trustee
        (by omega)
        (fun i hi => by
          have := hgood (i + 1) (by omega)
          rw [show j + 1 + i = j + (i + 1) by omega]
          exact this)
        (by rw [show j + 1 + m = j + (m + 1) by omega]; exact hget)
      rw [show j + (m + 1) = j + 1 + m by omega]
      cases m with
      | zero => exact this
      | succ m' => exact this

/-- When every trustee replies, the shuffle loop ends normally with the
replies in order. -/
theorem askTrustees_all (c : PointCodec) (k : NetConstants) (trustees : List TrusteeConn) :
    ∀ (remaining j : Nat) (G : Point) (keys : List Point) (reply : Nat → Shuffle),
      (∀ i, i < remaining → TrusteeReplies c trustees (j + i) (reply i)) →
      (askTrustees c k trustees remaining j G keys).2 =
        .done (.ok ((List.range remaining).map reply)) := by
  intro remaining
  induction remaining with
  | zero => intro j G keys reply _; rfl
  | succ remaining ih =>
    intro j G keys reply hgood
    obtain ⟨t0, hget0, hw0, hparse0⟩ := hgood 0 (by omega)
    rw [Nat.add_zero] at hget0
    rw [askTrustees_step c k trustees remaining j G keys t0 (reply 0).base (reply 0).keys
      (reply 0).proof hget0 (by rw [hw0]; simp) hparse0]
    simp only []
    rw [ih (j + 1) (reply 0).base (reply 0).keys (fun i => reply (i + 1))
      (fun i hi => by
        have := hgood (i + 1) (by omega)
        rw [show j + 1 + i = j + (i + 1) by omega]
        exact this)]
    simp only [List.range_succ_eq_map, List.map_cons, List.map_map]
    rfl

theorem getLast_map_range {α : Type} (f : Nat → α) (n : Nat) :
    ((List.range (n + 1)).map f).getLast? = some (f n) := by
  rw [List.range_succ, List.map_append, List.map_singleton, List.getLast?_append]
  rfl

/-- C15: once the ephemeral keys of the clients are collected (one per client,
each read on the connection of its client, in client order),
`organizeRoundScheduling` with at least one trustee first writes to trustee 0
the standard base point and those keys; when the trustees `0..j` reply, it
writes to trustee `j+1` the base and the keys parsed from the reply of trustee
`j`; when all `M` trustees reply and their signatures are read, its last
event is the message for the clients, which packs the base and the keys parsed
from the reply of trustee `M-1`, and it returns nil. No other write to a
trustee and no other message for the clients is in the trace. -/
theorem shuffle_chain_feeds_next_trustee (c : PointCodec) (k : NetConstants)
    (relayState : RelayState) (inp : SchedulingInput) (clientKeys : List Point)
    (hcollect : collectEphemeralKeys c k inp.clients relayState.nClients 0 =
      .done (.ok clientKeys)) :
    (clientKeys.length = relayState.nClients ∧
      ∀ n key, clientKeys.get? n = some key →
        ∃ messages, inp.clients.get? n = some messages ∧
          readEphemeralKey c k messages = .done (.ok key)) ∧
    (∀ trustee, 1 ≤ relayState.nTrustees → inp.trustees.get? 0 = some trustee →
      ∃ tail, (organizeRoundScheduling c k relayState inp).events =
        .wroteTrustee 0 (WriteBaseAndPublicKeyToConn c k c.Base clientKeys) :: tail) ∧
    (∀ (reply : Nat → Shuffle) j trustee, j + 1 < relayState.nTrustees →
      (∀ i, i ≤ j → TrusteeReplies c inp.trustees i (reply i)) →
      inp.trustees.get? (j + 1) = some trustee →
      SchedulingEvent.wroteTrustee (j + 1)
          (WriteBaseAndPublicKeyToConn c k (reply j).base (reply j).keys) ∈
        (organizeRoundScheduling c k relayState inp).events) ∧
    (∀ (reply : Nat → Shuffle) signatures, 1 ≤ relayState.nTrustees →
      (∀ i, i < relayState.nTrustees → TrusteeReplies c inp.trustees i (reply i)) →
      readSignatures inp.trustees relayState.nTrustees 0 = .done (.ok signatures) →
      (organizeRoundScheduling c k relayState inp).events.getLast? =
        some (.sentClients (packSignatureMessage c k (reply (relayState.nTrustees - 1)).base
          (reply (relayState.nTrustees - 1)).keys signatures)) ∧
      (organizeRoundScheduling c k relayState inp).result = .done none) ∧
    (∀ m, SchedulingEvent.wroteTrustee 0 m ∈ (organizeRoundScheduling c k relayState inp).events →
      m = WriteBaseAndPublicKeyToConn c k c.Base clientKeys) ∧
    (∀ j m,
      SchedulingEvent.wroteTrustee (j + 1) m ∈ (organizeRoundScheduling c k relayState inp).events →
      ∃ trustee base2 keys2 proof, inp.trustees.get? j = some trustee ∧
        ParseBasePublicKeysAndProofFromConn c trustee.shuffle =
          .done (some (base2, keys2, proof), none) ∧
        m = WriteBaseAndPublicKeyToConn c k base2 keys2) ∧
    (∀ m, SchedulingEvent.sentClients m ∈ (organizeRoundScheduling c k relayState inp).events →
      1 ≤ relayState.nTrustees ∧
      (∃ trustee base keys proof signatures,
        inp.trustees.get? (relayState.nTrustees - 1) = some trustee ∧
        ParseBasePublicKeysAndProofFromConn c trustee.shuffle =
          .done (some (base, keys, proof), none) ∧
        m = packSignatureMessage c k base keys signatures) ∧
      (∀ j, j < relayState.nTrustees → ∃ w,
        SchedulingEvent.wroteTrustee j w ∈ (organizeRoundScheduling c k relayState inp).events) ∧
      (organizeRoundScheduling c k relayState inp).result = .done none) := by
  have hkeys := collectEphemeralKeys_ok c k inp.clients relayState.nClients 0 clientKeys hcollect
  have hwrites := askTrustees_writes c k inp.trustees relayState.nTrustees 0 c.Base clientKeys
  have hfirst := askTrustees_first c k inp.trustees (relayState.nTrustees - 1) 0 c.Base clientKeys
  have hchain := askTrustees_chain c k inp.trustees relayState.nTrustees 0 c.Base clientKeys
  have hall := askTrustees_all c k inp.trustees relayState.nTrustees 0 c.Base clientKeys
  have hok := askTrustees_ok c k inp.trustees relayState.nTrustees 0 c.Base clientKeys
  generalize hasked : askTrustees c k inp.trustees relayState.nTrustees 0 c.Base clientKeys = asked
    at hwrites hok hchain hall
  have hshape : ((organizeRoundScheduling c k relayState inp).events = asked.1 ∨
      ∃ shuffles, asked.2 = .done (.ok shuffles) ∧
        (organizeRoundScheduling c k relayState inp).events =
          asked.1 ++ [.sentTrustees (packTranscript c shuffles)]) ∨
      ∃ shuffles signatures last, asked.2 = .done (.ok shuffles) ∧
        shuffles.getLast? = some last ∧
        (organizeRoundScheduling c k relayState inp).events =
          asked.1 ++ [.sentTrustees (packTranscript c shuffles)] ++
            [.sentClients (packSignatureMessage c k last.base last.keys signatures)] ∧
        (organizeRoundScheduling c k relayState inp).result = .done none := by
    unfold organizeRoundScheduling
    rw [hcollect]
    simp only [hasked]
    cases h2 : asked.2 with
    | crashed why => left; left; rfl
    | exited why => left; left; rfl
    | diverged => left; left; rfl
    | done r =>
      cases r with
      | error err => left; left; rfl
      | ok shuffles =>
        simp only []
        cases readSignatures inp.trustees relayState.nTrustees 0 with
        | crashed why => left; right; exact ⟨shuffles, rfl, rfl⟩
        | exited why => left; right; exact ⟨shuffles, rfl, rfl⟩
        | diverged => left; right; exact ⟨shuffles, rfl, rfl⟩
        | done r2 =>
          cases r2 with
          | error err => left; right; exact ⟨shuffles, rfl, rfl⟩
          | ok signatures =>
            simp only []
            cases hlast : shuffles.getLast? with
            | none => left; right; exact ⟨shuffles, rfl, rfl⟩
            | some last => right; exact ⟨shuffles, signatures, last, rfl, hlast, rfl, rfl⟩
  have hwrote : ∀ i m,
      SchedulingEvent.wroteTrustee i m ∈ (organizeRoundScheduling c k relayState inp).events →
      SchedulingEvent.wroteTrustee i m ∈ asked.1 := by
    intro i m hm
    rcases hshape with (h | ⟨_, _, h⟩) | ⟨_, _, _, _, _, h, _⟩
    · rw [h] at hm; exact hm
    · rw [h] at hm
      simpa using hm
    · rw [h] at hm
      simpa using hm
  have hmore : ∃ more, (organizeRoundScheduling c k relayState inp).events = asked.1 ++ more := by
    rcases hshape with (h | ⟨_, _, h⟩) | ⟨_, _, _, _, _, h, _⟩
    · exact ⟨[], by rw [h, List.append_nil]⟩
    · exact ⟨_, h⟩
    · exact ⟨_, by rw [h, List.append_assoc]⟩
  refine ⟨⟨hkeys.1, fun n key hn => by simpa using hkeys.2 n key hn⟩, ?_, ?_, ?_, ?_, ?_, ?_⟩
  · intro trustee hM hget
    obtain ⟨more, hmore⟩ := hmore
    obtain ⟨tail, htail⟩ := hfirst trustee hget
    rw [show relayState.nTrustees - 1 + 1 = relayState.nTrustees by omega, hasked] at htail
    exact ⟨tail ++ more, by rw [hmore, htail, List.cons_append]⟩
  · intro reply j trustee hj hgood hget
    obtain ⟨more, hmore⟩ := hmore
    have := hchain reply (j + 1) trustee hj
      (fun i hi => by rw [Nat.zero_add]; exact hgood i (by omega))
      (by rw [Nat.zero_add]; exact hget)
    rw [Nat.zero_add, if_neg (by omega), if_neg (by omega), Nat.add_sub_cancel] at this
    rw [hmore]
    exact List.mem_append_left _ this
  · intro reply signatures hM hgood hsig
    have h2 := hall reply (fun i hi => by rw [Nat.zero_add]; exact hgood i hi)
    have hlast : ((List.range relayState.nTrustees).map reply).getLast? =
        some (reply (relayState.nTrustees - 1)) := by
      obtain ⟨n, hn⟩ : ∃ n, relayState.nTrustees = n + 1 := ⟨relayState.nTrustees - 1, by omega⟩
      rw [hn, Nat.add_sub_cancel]
      exact getLast_map_range reply n
    unfold organizeRoundScheduling
    rw [hcollect]
    simp only [hasked, h2, hsig, hlast]
    exact ⟨by simp, trivial⟩
  · intro m hm
    obtain ⟨i, m', heq, _, _, h3, _⟩ := hwrites _ (hwrote 0 m hm)
    cases heq
    exact h3 rfl
  · intro j m hm
    obtain ⟨i, m', heq, _, _, _, h4⟩ := hwrites _ (hwrote (j + 1) m hm)
    cases heq
    simpa using h4 (by omega)
  · intro m hm
    rcases hshape with (h | ⟨_, _, h⟩) | ⟨shuffles, signatures, last, h2, hlast, h, hres⟩
    · rw [h] at hm
      obtain ⟨i, m', heq, _⟩ := hwrites _ hm
      cases heq
    · rw [h] at hm
      simp only [List.mem_append, List.mem_singleton, reduceCtorEq, or_false] at hm
      obtain ⟨i, m', heq, _⟩ := hwrites _ hm
      cases heq
    · obtain ⟨hlen, hall, hsh⟩ := hok shuffles h2
      have hm' : m = packSignatureMessage c k last.base last.keys signatures := by
        rw [h] at hm
        simp only [List.mem_append, List.mem_singleton, reduceCtorEq, or_false,
          SchedulingEvent.sentClients.injEq] at hm
        rcases hm with hm | hm
        · obtain ⟨i, m', heq, _⟩ := hwrites _ hm
          cases heq
        · exact hm
      have hpos : 1 ≤ relayState.nTrustees := by
        cases shuffles with
        | nil => simp at hlast
        | cons s rest => rw [← hlen]; simp
      have hget : shuffles.get? (relayState.nTrustees - 1) = some last := by
        rw [← hlen, List.get?_eq_getElem?, ← List.getLast?_eq_getElem?]
        exact hlast
      obtain ⟨trustee, ht, hp⟩ := hsh _ last hget
      refine ⟨hpos, ⟨trustee, last.base, last.keys, last.proof, signatures,
        by simpa using ht, hp, hm'⟩, ?_, hres⟩
      intro j hj
      obtain ⟨w, hw⟩ := hall j hj
      refine ⟨w, ?_⟩
      rw [h]
      simp only [Nat.zero_add] at hw
      exact List.mem_append_left _ (List.mem_append_left _ hw)

set_option maxRecDepth 100000 in
/-- Witness of C15: the sample scheduling with two clients and two trustees;
the keys 5 and 6 are collected, trustee 0 is sent the base point and these
keys, trustee 1 the base 3 and the keys of the reply of trustee 0, and the
run ends normally. -/
theorem shuffle_chain_feeds_next_trustee_witness :
    (organizeRoundScheduling samplePointCodec sampleNetConstants sampleSchedulingRelay
      sampleScheduling).result = .done none ∧
    (∃ tail, (organizeRoundScheduling samplePointCodec sampleNetConstants sampleSchedulingRelay
        sampleScheduling).events =
      .wroteTrustee 0 (WriteBaseAndPublicKeyToConn samplePointCodec sampleNetConstants
        samplePointCodec.Base [5, 6]) :: tail) ∧
    SchedulingEvent.wroteTrustee 1
        (WriteBaseAndPublicKeyToConn samplePointCodec sampleNetConstants 3 [5, 6]) ∈
      (organizeRoundScheduling samplePointCodec sampleNetConstants sampleSchedulingRelay
        sampleScheduling).events ∧
    (organizeRoundScheduling samplePointCodec sampleNetConstants sampleSchedulingRelay
        sampleScheduling).events.getLast? =
      some (.sentClients (packSignatureMessage samplePointCodec sampleNetConstants 4 [6, 5]
        [[8, 8], [9, 9]])) ∧
    (∀ j m, SchedulingEvent.wroteTrustee (j + 1) m ∈ (organizeRoundScheduling samplePointCodec
        sampleNetConstants sampleSchedulingRelay sampleScheduling).events →
      ∃ trustee base2 keys2 proof, sampleScheduling.trustees.get? j = some trustee ∧
        ParseBasePublicKeysAndProofFromConn samplePointCodec trustee.shuffle =
          .done (some (base2, keys2, proof), none) ∧
        m = WriteBaseAndPublicKeyToConn samplePointCodec sampleNetConstants base2 keys2) :=
  ⟨by decide,
    (shuffle_chain_feeds_next_trustee samplePointCodec sampleNetConstants sampleSchedulingRelay
      sampleScheduling [5, 6] rfl).2.1 _ (by decide) rfl,
    (shuffle_chain_feeds_next_trustee samplePointCodec sampleNetConstants sampleSchedulingRelay
      sampleScheduling [5, 6] rfl).2.2.1 (fun i => sampleShuffles.getD i ⟨0, [], []⟩) 0 _
      (by decide)
      (fun i hi => by
        have : i = 0 := by omega
        subst this
        exact ⟨_, rfl, rfl, rfl⟩) rfl,
    ((shuffle_chain_feeds_next_trustee samplePointCodec sampleNetConstants sampleSchedulingRelay
      sampleScheduling [5, 6] rfl).2.2.2.1 (fun i => sampleShuffles.getD i ⟨0, [], []⟩)
      [[8, 8], [9, 9]] (by decide)
      (fun i hi => by
        have : i = 0 ∨ i = 1 := by
          have : i < 2 := hi
          omega
        rcases this with h | h
        · subst h
          exact ⟨_, rfl, rfl, rfl⟩
        · subst h
          exact ⟨_, rfl, rfl, rfl⟩) rfl).1,
    (shuffle_chain_feeds_next_trustee samplePointCodec sampleNetConstants sampleSchedulingRelay
      sampleScheduling [5, 6] rfl).2.2.2.2.2.1⟩

/-- C16: transcript round trip. For at least one shuffle, each with the same
number `N >= 1` of keys and a non-empty proof, over points whose encodings are
non-empty and unmarshal to the point, when the transcript bytes packed by
`organizeRoundScheduling` fit in the 4096-byte buffer, `ParseTranscript` with
`nClients = N` and `nTrustees = M` on those bytes followed by zero bytes
returns the same bases, key lists and proofs, in order, and a nil error. -/
theorem transcript_round_trip (c : PointCodec) (shuffles : List Shuffle) (N zeros : Nat)
    (hM : shuffles ≠ []) (hN : 1 ≤ N)
    (hcount : ∀ s ∈ shuffles, s.keys.length = N)
    (hproof : ∀ s ∈ shuffles, 0 < s.proof.length)
    (hbase : ∀ s ∈ shuffles, c.UnmarshalBinary (c.MarshalBinary s.base) = some s.base ∧
      0 < (c.MarshalBinary s.base).length)
    (hkeys : ∀ s ∈ shuffles, ∀ key ∈ s.keys,
      c.UnmarshalBinary (c.MarshalBinary key) = some key ∧ 0 < (c.MarshalBinary key).length)
    (hfit : (packTranscript c shuffles).length ≤ 4096) :
    ParseTranscript c (.ok (packTranscript c shuffles ++ List.replicate zeros 0)) N
        shuffles.length =
      .done (some { G_s := shuffles.map (fun s => some s.base)
                    ephPublicKeys_s := shuffles.map (fun s => s.keys)
                    proof_s := shuffles.map (fun s => s.proof) }, none) := by
  have hT := packTranscript_eq c shuffles
  have hstore := readInto_store 4096 _ hfit
  have hbuflen := readInto_len 4096 (packTranscript c shuffles)
  generalize hz : List.replicate (4096 - (packTranscript c shuffles).length) 0 = padding at hstore
  have hlenT : (packTranscript c shuffles).length =
      (packItems (fun s => c.MarshalBinary s.base) shuffles).length +
        ((packItems (fun s => packKeyArray c s.keys) shuffles).length +
          (packItems (fun s => s.proof) shuffles).length) := by
    rw [hT]
    simp only [List.length_append]
  have hnum := packItems_length_ge (fun s : Shuffle => c.MarshalBinary s.base) shuffles
  have hnotneg : ¬ ((shuffles.length : Int) < 0) := by omega
  have hconvKeys : ∀ s ∈ shuffles, ∀ rest,
      scanKeyArray c (N : Int)
        { store := packKeyArray c s.keys ++ rest, len := (packKeyArray c s.keys).length } =
        .value s.keys := by
    intro s hs rest
    have hsize : 4 + (packKeyArray c s.keys).length ≤
        (packItems (fun s : Shuffle => packKeyArray c s.keys) shuffles).length :=
      packItems_mem_length (fun s : Shuffle => packKeyArray c s.keys) shuffles s hs
    have hne : s.keys ≠ [] := by
      intro h
      have := hcount s hs
      rw [h] at this
      simp at this
      omega
    have := scanKeyArray_packed c s.keys rest hne (hkeys s hs) (by omega)
    rw [hcount s hs] at this
    exact this
  have hkeyArrayPos : ∀ s ∈ shuffles, 0 < (packKeyArray c s.keys).length := by
    intro s hs
    have h1 := packItems_length_ge c.MarshalBinary s.keys
    rw [← packKeyArray_eq, hcount s hs] at h1
    omega
  unfold ParseTranscript
  simp only [readInto_zeros 4096 _ zeros hfit, hbuflen]
  rw [if_neg hnotneg]
  rw [scan_limit (unmarshalItem c) (fun s : Shuffle => c.MarshalBinary s.base)
    (fun s : Shuffle => s.base) _ 4096 true (by omega) shuffles _ 0 [] []
    (packItems (fun s => packKeyArray c s.keys) shuffles ++
      packItems (fun s => s.proof) shuffles ++ padding) (shuffles.length : Int) hM
    (by rw [hstore, hT]; simp only [List.append_assoc, List.nil_append]) rfl
    (fun s hs => (hbase s hs).2) (by omega)
    (fun s hs rest => unmarshalItem_packed c s.base (hbase s hs).1 rest) (by simp) (by omega)]
  simp only []
  rw [scan_limit (scanKeyArray c (N : Int)) (fun s : Shuffle => packKeyArray c s.keys)
    (fun s : Shuffle => s.keys) _ 4096 true (by omega) shuffles _ _ []
    (packItems (fun s => c.MarshalBinary s.base) shuffles)
    (packItems (fun s => s.proof) shuffles ++ padding) (shuffles.length : Int) hM
    (by rw [hstore, hT]; simp only [List.append_assoc]) (by simp)
    hkeyArrayPos (by omega) hconvKeys (by simp) (by omega)]
  simp only []
  rw [scan_limit (fun proofBytes => Converted.value proofBytes.bytes) (fun s : Shuffle => s.proof)
    (fun s : Shuffle => s.proof) _ 4096 true (by omega) shuffles _ _ []
    (packItems (fun s => c.MarshalBinary s.base) shuffles ++
      packItems (fun s => packKeyArray c s.keys) shuffles)
    padding (shuffles.length : Int) hM
    (by rw [hstore, hT]; simp only [List.append_assoc]) (by simp)
    hproof (by simp only [Nat.zero_add]; omega)
    (fun s _ rest => by simp only [bytes_of_content]) (by simp) (by omega)]
  simp only [List.nil_append, Int.toNat_ofNat]
  rw [padTo_full _ _ _ (by simp), padTo_full _ _ _ (by simp), padTo_full _ _ _ (by simp)]
  simp

/-- Witness of C16: the transcript of two trustees and two clients, followed
by seven zero bytes. -/
theorem transcript_round_trip_witness :
    ParseTranscript samplePointCodec
        (.ok (packTranscript samplePointCodec sampleShuffles ++ List.replicate 7 0)) 2
        sampleShuffles.length =
      .done (some { G_s := [some 3, some 4], ephPublicKeys_s := [[5, 6], [6, 5]],
                    proof_s := [[1, 2, 3], [4, 5]] }, none) :=
  transcript_round_trip samplePointCodec sampleShuffles 2 7 (by decide) (by decide) (by decide)
    (by decide) (by decide) (by decide)
    (by rw [packTranscript_eq]; simp only [List.length_append, packItems_length]; decide)

/-- C17: when the signature message packed by `organizeRoundScheduling` has
between 4093 and 4096 bytes, `ParseBasePublicKeysAndTrusteeSignaturesFromConn`
reads the base, the keys and every signature, then tests `currentByte+4`
against the length of the whole buffer instead of that of `signaturesBytes`,
slices `signaturesBytes` past the end of the buffer and panics instead of
returning the signatures. -/
theorem signature_loop_reads_past_buffer (c : PointCodec) (k : NetConstants) (base : Point)
    (keys : List Point) (signatures : List Bytes) (hk : k.MESSAGE_TYPE_PUBLICKEYS = 2)
    (hbase : c.UnmarshalBinary (c.MarshalBinary base) = some base)
    (hkeys : ∀ key ∈ keys, c.UnmarshalBinary (c.MarshalBinary key) = some key ∧
      0 < (c.MarshalBinary key).length)
    (hsigs : ∀ sig ∈ signatures, 0 < sig.length)
    (hlen : 4092 < (packSignatureMessage c k base keys signatures).length ∧
      (packSignatureMessage c k base keys signatures).length ≤ 4096) :
    ParseBasePublicKeysAndTrusteeSignaturesFromConn c
      (.ok (packSignatureMessage c k base keys signatures)) =
      .crashed "slice bounds out of range" := by
  have hmsg := packSignatureMessage_eq c k base keys signatures
  have hstore := readInto_store 4096 _ hlen.2
  have hlen4096 := readInto_store_length 4096 (packSignatureMessage c k base keys signatures)
  have hbuflen := readInto_len 4096 (packSignatureMessage c k base keys signatures)
  have htotal : (packSignatureMessage c k base keys signatures).length =
      4 + (c.MarshalBinary base).length + (4 + (MarshalPublicKeyArrayToByteArray c k keys).length +
        (4 + (packItems id signatures).length)) := by
    rw [hmsg]
    simp only [List.length_append, lengthPrefixed_length, List.length_nil]
    omega
  have hcount := packItems_length_ge id signatures
  generalize hz : List.replicate (4096 - (packSignatureMessage c k base keys signatures).length) 0 =
    zeros at hstore
  have hzlen : zeros.length = 4096 - (packSignatureMessage c k base keys signatures).length := by
    rw [← hz, List.length_replicate]
  have hblocks := threeBlocks_packed (readInto 4096 (packSignatureMessage c k base keys signatures))
    (c.MarshalBinary base) (MarshalPublicKeyArrayToByteArray c k keys) (packItems id signatures)
    zeros (by rw [hstore, hmsg]; simp only [List.append_assoc, List.nil_append]) (by omega)
  unfold ParseBasePublicKeysAndTrusteeSignaturesFromConn
  simp only [hblocks, bytes_of_content, hbase]
  rw [UnMarshalPublicKeyArray_packed c k keys _ hk hkeys (by omega)]
  simp only [hbuflen]
  rw [show 4096 + 1 = (4096 - signatures.length) + 1 + signatures.length by omega,
    scan_free (fun thisSig => Converted.value thisSig.bytes) id id _ _ (by omega) signatures _ 0 []
      [] zeros (by simp) rfl (fun sig hsig => hsigs sig hsig) (by simp only [Nat.zero_add]; omega)
      (fun sig _ rest => by simp only [id, bytes_of_content]),
    scan_out_of_range _ _ _ _ _ _ _ _ (by simp only [Nat.zero_add]; omega)
      (by simp only [List.length_append, Nat.zero_add]; omega)]

/-- Witness of C17: with 18 clients and 50 trustees signing on 64 bytes the
signature message has 4096 bytes. -/
theorem signature_loop_reads_past_buffer_witness :
    (packSignatureMessage samplePointCodec sampleNetConstants 9 sampleFinalKeys
      sampleSignatures).length = 4096 ∧
    ParseBasePublicKeysAndTrusteeSignaturesFromConn samplePointCodec
      (.ok (packSignatureMessage samplePointCodec sampleNetConstants 9 sampleFinalKeys
        sampleSignatures)) = .crashed "slice bounds out of range" :=
  ⟨by rw [packSignatureMessage_length]; decide,
    signature_loop_reads_past_buffer samplePointCodec sampleNetConstants 9
      sampleFinalKeys sampleSignatures rfl (by decide) (by decide) (by decide)
      (by rw [packSignatureMessage_length]; decide)⟩

/-- C18: `TellPublicKey` writes the key size at bytes 4..8 and the key from
byte 8 on, while `ParsePublicKeyFromConn` reads the key size at bytes 8..12 and
the key from byte 12 on: the size it uses is the number held by the first four
bytes of the key, and for a key whose first four bytes hold more than 500 the
slice of the 512-byte buffer is out of range and the parser panics instead of
returning the key. -/
theorem public_key_announcement_misread (c : PointCodec) (k : NetConstants) (key : Point)
    (hversion : 0 ≤ k.LLD_PROTOCOL_VERSION ∧ k.LLD_PROTOCOL_VERSION < 4294967296)
    (hlen : 4 ≤ (c.MarshalBinary key).length ∧ (c.MarshalBinary key).length ≤ 504)
    (hbig : 500 < getUint32 ((c.MarshalBinary key).take 4)) :
    ParsePublicKeyFromConn c k (.ok (TellPublicKey c k.LLD_PROTOCOL_VERSION key)) =
      .crashed "slice bounds out of range" := by
  have hmsg : (TellPublicKey c k.LLD_PROTOCOL_VERSION key).length ≤ 512 := by
    unfold TellPublicKey
    simp only [List.length_append, putUint32_length]
    omega
  have hstore := readInto_store 512 _ hmsg
  have hlen512 := readInto_store_length 512 (TellPublicKey c k.LLD_PROTOCOL_VERSION key)
  have hv : ((toUint32 k.LLD_PROTOCOL_VERSION : Nat) : Int) = k.LLD_PROTOCOL_VERSION := by
    unfold toUint32
    omega
  have hv32 : toUint32 k.LLD_PROTOCOL_VERSION < 4294967296 := by
    unfold toUint32
    omega
  have h04 : (Slice.mk ((readInto 512 (TellPublicKey c k.LLD_PROTOCOL_VERSION key)).store.drop 0)
      (4 - 0)).bytes = putUint32 (toUint32 k.LLD_PROTOCOL_VERSION) := by
    unfold Slice.bytes
    simp only [List.drop_zero, hstore, Nat.sub_zero]
    unfold TellPublicKey
    rw [List.append_assoc, List.append_assoc]
    exact List.take_left' (putUint32_length _)
  have h812 : (Slice.mk ((readInto 512 (TellPublicKey c k.LLD_PROTOCOL_VERSION key)).store.drop 8)
      (12 - 8)).bytes = (c.MarshalBinary key).take 4 := by
    unfold Slice.bytes
    simp only [hstore]
    unfold TellPublicKey
    have hdrop : (putUint32 (toUint32 k.LLD_PROTOCOL_VERSION) ++
        putUint32 (toUint32 ((c.MarshalBinary key).length : Int)) ++ c.MarshalBinary key ++
        List.replicate (512 - (putUint32 (toUint32 k.LLD_PROTOCOL_VERSION) ++
          putUint32 (toUint32 ((c.MarshalBinary key).length : Int)) ++
          c.MarshalBinary key).length) 0).drop 8 =
        c.MarshalBinary key ++ List.replicate (512 - (putUint32 (toUint32 k.LLD_PROTOCOL_VERSION) ++
          putUint32 (toUint32 ((c.MarshalBinary key).length : Int)) ++
          c.MarshalBinary key).length) 0 := by
      rw [List.append_assoc]
      exact List.drop_left' (by simp [putUint32_length])
    rw [hdrop]
    exact List.take_append_of_le_length (by omega)
  unfold ParsePublicKeyFromConn
  simp only []
  rw [slice_inside _ 0 4 (by omega) (by omega)]
  simp only [h04, getUint32_putUint32 _ hv32, hv, ne_eq, not_true_eq_false, if_false]
  rw [slice_inside _ 8 12 (by omega) (by omega)]
  simp only [h812]
  rw [slice_outside _ 12 _ (by omega)]

/-- Witness of C18: the sample codec encodes the key 7 with first byte 7. -/
theorem public_key_announcement_misread_witness :
    (samplePointCodec.UnmarshalBinary (samplePointCodec.MarshalBinary 7) = some 7) ∧
    ParsePublicKeyFromConn samplePointCodec sampleNetConstants
        (.ok (TellPublicKey samplePointCodec sampleNetConstants.LLD_PROTOCOL_VERSION 7)) =
      .crashed "slice bounds out of range" :=
  ⟨by decide, public_key_announcement_misread samplePointCodec sampleNetConstants 7
    (by decide) (by decide) (by decide)⟩

/-! ## Claims on the errors of the round scheduling -/

/-- The key collection stops at the first client whose read returns. -/
theorem collectEphemeralKeys_error (c : PointCodec) (k : NetConstants)
    (clients : List (List ReadMessageResult)) (e : Option String) :
    ∀ (remaining start i : Nat) (messages : List ReadMessageResult),
      start ≤ i → i < start + remaining →
      (∀ j, start ≤ j → j < i → ∃ ms key, clients.get? j = some ms ∧
        readEphemeralKey c k ms = .done (.ok key)) →
      clients.get? i = some messages → readEphemeralKey c k messages = .done (.error e) →
      collectEphemeralKeys c k clients remaining start = .done (.error e) := by
  intro remaining
  induction remaining with
  | zero => intro start i messages h1 h2; omega
  | succ remaining ih =>
    intro start i messages h1 h2 hbefore hget hread
    unfold collectEphemeralKeys
    by_cases hi : i = start
    · subst hi
      rw [hget]
      simp only [hread]
    · obtain ⟨ms, key, hms, hkey⟩ := hbefore start (le_refl _) (by omega)
      rw [hms]
      simp only [hkey]
      rw [ih (start + 1) i messages (by omega) (by omega)
        (fun j hj1 hj2 => hbefore j (by omega) hj2) hget hread]

/-- C29: `organizeRoundScheduling` hands back the error of `ReadMessage`, not
that of `UnmarshalBinary`, when the key of a client does not unmarshal: when
the first message of client `i` has the type of a key message, was read
without error and does not unmarshal, and the keys of the clients before it
were read, the function returns nil although it has written nothing to any
trustee or client. -/
theorem unmarshal_failure_returns_nil (c : PointCodec) (k : NetConstants)
    (relayState : RelayState) (inp : SchedulingInput) (i : Nat) (first : ReadMessageResult)
    (later : List ReadMessageResult) (typeBytes keyBytes : Slice)
    (hi : i < relayState.nClients)
    (hbefore : ∀ j, j < i → ∃ ms key, inp.clients.get? j = some ms ∧
      readEphemeralKey c k ms = .done (.ok key))
    (hget : inp.clients.get? i = some (first :: later))
    (htype : first.buffer.slice 0 2 = some typeBytes)
    (hkeyType : (getUint16 typeBytes.bytes : Int) = k.MESSAGE_TYPE_PUBLICKEYS)
    (hkey : first.buffer.slice 2 first.buffer.len = some keyBytes)
    (hbad : c.UnmarshalBinary keyBytes.bytes = none)
    (herr : first.err = none) :
    (organizeRoundScheduling c k relayState inp).result = .done none ∧
    (organizeRoundScheduling c k relayState inp).events = [] := by
  have hread : readEphemeralKey c k (first :: later) = .done (.error none) := by
    unfold readEphemeralKey
    simp only [htype, hkeyType, if_true, hkey, hbad, herr]
  have hcollect := collectEphemeralKeys_error c k inp.clients none relayState.nClients 0 i
    (first :: later) (Nat.zero_le _) (by omega) (fun j _ hj => hbefore j hj) hget hread
  unfold organizeRoundScheduling
  rw [hcollect]
  exact ⟨rfl, rfl⟩

/-- Witness of C29: the key message of the second client of the sample
scheduling does not unmarshal. -/
theorem unmarshal_failure_returns_nil_witness :
    samplePointCodec.UnmarshalBinary [1, 2, 3] = none ∧
    (organizeRoundScheduling samplePointCodec sampleNetConstants sampleSchedulingRelay
      sampleBadKeyScheduling).result = .done none ∧
    (organizeRoundScheduling samplePointCodec sampleNetConstants sampleSchedulingRelay
      sampleBadKeyScheduling).events = [] :=
  ⟨by decide, unmarshal_failure_returns_nil samplePointCodec sampleNetConstants
    sampleSchedulingRelay sampleBadKeyScheduling 1
    { buffer := Slice.ofBytes [0, 2, 1, 2, 3], err := none } []
    { store := [0, 2, 1, 2, 3], len := 2 } { store := [1, 2, 3], len := 3 }
    (by decide) (fun j hj => ⟨[sampleKeyMessage 5], 5, by
      have : j = 0 := by omega
      subst this
      rfl, rfl⟩) rfl rfl (by decide) rfl (by decide) rfl⟩

/-! ## Claims on the commitment and the payload of the upstream cell -/

theorem storeCommitment_short (x : Collaborators) (cs : ClientState) (content : Bytes)
    (h : content.length ≤ 3) :
    storeCommitment x cs (some content) = .crashed "index out of range" := by
  unfold storeCommitment
  simp only []
  rw [if_pos h]

theorem actualPayloadSize_disruption_only (cs : ClientState) (slotOwner : Bool)
    (hdis : cs.DisruptionProtectionEnabled = true)
    (hequiv : cs.EquivocationProtectionEnabled = false) (hsize : 2 ≤ cs.PayloadSize) :
    actualPayloadSize cs slotOwner = .done (cs.PayloadSize - 1) := by
  unfold actualPayloadSize
  simp only [hdis, hequiv, true_and, Bool.false_eq_true, false_and, if_false, if_true]
  rw [if_neg (by omega)]

theorem selectUpstreamContent_filler (x : Collaborators) (rd : Readings) (cs : ClientState)
    (actual : Int) (hactual : 0 ≤ actual) (hnext : cs.NextDataForDCNet = none)
    (hpcap : ¬(cs.pcapReplay.Enabled = true ∧
      cs.pcapReplay.currentPacket < cs.pcapReplay.Packets.length))
    (hqueue : cs.DataForDCNet = [])
    (hlat : cs.LatencyTest.LatencyTestsToSend = []) :
    selectUpstreamContent x rd cs actual = .done (some (zeros actual), cs) := by
  unfold selectUpstreamContent
  simp only [hnext]
  rw [if_neg hpcap]
  simp only [hqueue, hlat, List.length_nil, gt_iff_lt, lt_self_iff_false, if_false]
  rw [if_neg (by omega)]

theorem selectUpstreamContent_queued (x : Collaborators) (rd : Readings) (cs : ClientState)
    (actual : Int) (data : GoSlice) (later : List GoSlice) (hnext : cs.NextDataForDCNet = none)
    (hpcap : ¬(cs.pcapReplay.Enabled = true ∧
      cs.pcapReplay.currentPacket < cs.pcapReplay.Packets.length))
    (hqueue : cs.DataForDCNet = data :: later) :
    selectUpstreamContent x rd cs actual = .done (data, { cs with DataForDCNet := later }) := by
  unfold selectUpstreamContent
  simp only [hnext]
  rw [if_neg hpcap]
  simp only [hqueue]

theorem selectUpstreamContent_next (x : Collaborators) (rd : Readings) (cs : ClientState)
    (actual : Int) (data : GoSlice) (hnext : cs.NextDataForDCNet = some data) :
    selectUpstreamContent x rd cs actual = .done (data, { cs with NextDataForDCNet := none }) := by
  unfold selectUpstreamContent
  simp only [hnext]

/-- C30: with disruption protection on and equivocation protection off, a
slot owner with no blame pending writes the client id at index 3 of the
content chosen for the round without testing that it fits: with nothing
queued and a payload size from 2 to 4 the zero filler has at most three bytes,
and so may the data taken from the queue; in both cases `SendUpstreamData`
panics on the index. -/
theorem short_content_index_out_of_range (x : Collaborators) (rd : Readings)
    (p : PriFiLibClientInstance) (ownerSlotID : Int)
    (hdis : p.clientState.DisruptionProtectionEnabled = true)
    (hequiv : p.clientState.EquivocationProtectionEnabled = false)
    (hsize : 2 ≤ p.clientState.PayloadSize)
    (howner : ownerSlotID = p.clientState.MySlot)
    (hblame : p.clientState.DisruptionWrongBitPosition = -1)
    (hnext : p.clientState.NextDataForDCNet = none)
    (hpcap : p.clientState.pcapReplay.Enabled = false) :
    (p.clientState.DataForDCNet = [] → p.clientState.LatencyTest.LatencyTestsToSend = [] →
      p.clientState.PayloadSize ≤ 4 →
      SendUpstreamData x rd p ownerSlotID = .crashed "index out of range") ∧
    (∀ data later, p.clientState.DataForDCNet = some data :: later → data.length ≤ 3 →
      SendUpstreamData x rd p ownerSlotID = .crashed "index out of range") := by
  unfold SendUpstreamData
  simp only [howner, decide_True, if_true]
  generalize hcs0 : ({ p.clientState with MyLastRound := p.clientState.RoundNo } : ClientState) = cs0
  have hf : cs0.DisruptionProtectionEnabled = true ∧ cs0.EquivocationProtectionEnabled = false ∧
      cs0.PayloadSize = p.clientState.PayloadSize ∧ cs0.DisruptionWrongBitPosition = -1 ∧
      cs0.NextDataForDCNet = none ∧ cs0.pcapReplay.Enabled = false ∧
      cs0.DataForDCNet = p.clientState.DataForDCNet ∧
      cs0.LatencyTest = p.clientState.LatencyTest := by
    subst hcs0
    exact ⟨hdis, hequiv, rfl, hblame, hnext, hpcap, rfl, rfl⟩
  obtain ⟨h1, h2, h3, h4, h5, h6, h7, h8⟩ := hf
  rw [actualPayloadSize_disruption_only cs0 true h1 h2 (by omega)]
  simp only []
  refine ⟨?_, ?_⟩
  · intro hqueue hlat hsmall
    rw [selectUpstreamContent_filler x rd cs0 _ (by omega) h5 (by rw [h6]; simp)
      (by rw [h7]; exact hqueue) (by rw [h8]; exact hlat)]
    simp only [h1, h2, h4, true_and, ne_eq, not_true_eq_false, if_false, Bool.false_eq_true,
      not_false_eq_true, if_true]
    rw [storeCommitment_short x _ _ (by unfold zeros; simp only [List.length_replicate]; omega)]
  · intro data later hqueue hshort
    rw [selectUpstreamContent_queued x rd cs0 _ (some data) later h5 (by rw [h6]; simp)
      (by rw [h7]; exact hqueue)]
    simp only [h1, h2, h4, true_and, ne_eq, not_true_eq_false, if_false, Bool.false_eq_true,
      not_false_eq_true, if_true]
    rw [storeCommitment_short x _ _ hshort]

theorem SameCommitment_refl (a : ClientState) : SameCommitment a a :=
  ⟨rfl, rfl, rfl, rfl, rfl, rfl, rfl, rfl, rfl, rfl, rfl⟩

theorem SameCommitment_trans {a b c : ClientState} (h1 : SameCommitment a b)
    (h2 : SameCommitment b c) : SameCommitment a c := by
  obtain ⟨a1, a2, a3, a4, a5, a6, a7, a8, a9, a10, a11⟩ := h1
  obtain ⟨b1, b2, b3, b4, b5, b6, b7, b8, b9, b10, b11⟩ := h2
  exact ⟨b1.trans a1, b2.trans a2, b3.trans a3, b4.trans a4, b5.trans a5, b6.trans a6,
    b7.trans a7, b8.trans a8, b9.trans a9, b10.trans a10, b11.trans a11⟩

theorem selectUpstreamContent_commitment (x : Collaborators) (rd : Readings) (cs : ClientState)
    (actual : Int) (content : GoSlice) (cs' : ClientState)
    (h : selectUpstreamContent x rd cs actual = .done (content, cs')) : SameCommitment cs cs' := by
  unfold selectUpstreamContent at h
  cases hn : cs.NextDataForDCNet with
  | some data =>
    rw [hn] at h
    simp only [Run.done.injEq, Prod.mk.injEq] at h
    rw [← h.2]
    exact ⟨rfl, rfl, rfl, rfl, rfl, rfl, rfl, rfl, rfl, rfl, rfl⟩
  | none =>
    rw [hn] at h
    simp only [] at h
    split at h
    · split at h
      · simp only [Run.done.injEq, Prod.mk.injEq] at h
        rw [← h.2]
        exact ⟨rfl, rfl, rfl, rfl, rfl, rfl, rfl, rfl, rfl, rfl, rfl⟩
      · split at h
        · cases h
        · simp only [Run.done.injEq, Prod.mk.injEq] at h
          rw [← h.2]
          exact ⟨rfl, rfl, rfl, rfl, rfl, rfl, rfl, rfl, rfl, rfl, rfl⟩
    · split at h
      · simp only [Run.done.injEq, Prod.mk.injEq] at h
        rw [← h.2]
        exact ⟨rfl, rfl, rfl, rfl, rfl, rfl, rfl, rfl, rfl, rfl, rfl⟩
      · split at h
        · cases h
        · split at h
          · simp only [Run.done.injEq, Prod.mk.injEq] at h
            rw [← h.2]
            exact ⟨rfl, rfl, rfl, rfl, rfl, rfl, rfl, rfl, rfl, rfl, rfl⟩
          · simp only [Run.done.injEq, Prod.mk.injEq] at h
            rw [← h.2]
            exact SameCommitment_refl cs

theorem forceDisruption_commitment (cs : ClientState) (slotOwner : Bool) (cell cell' : Bytes)
    (cs' : ClientState) (h : forceDisruption cs slotOwner cell = .done (cell', cs')) :
    SameCommitment cs cs' ∧ (slotOwner = true → cell' = cell) := by
  unfold forceDisruption at h
  split at h
  · rename_i hc
    split at h
    · split at h
      all_goals
        simp only [Run.done.injEq, Prod.mk.injEq] at h
        rw [← h.2]
        exact ⟨⟨rfl, rfl, rfl, rfl, rfl, rfl, rfl, rfl, rfl, rfl, rfl⟩,
          fun ho => by rw [ho] at hc; exact absurd hc.2.2.2 (by decide)⟩
    · split at h
      · cases h
      · simp only [Run.done.injEq, Prod.mk.injEq] at h
        rw [← h.2]
        exact ⟨⟨rfl, rfl, rfl, rfl, rfl, rfl, rfl, rfl, rfl, rfl, rfl⟩,
          fun ho => by rw [ho] at hc; exact absurd hc.2.2.2 (by decide)⟩
  · simp only [Run.done.injEq, Prod.mk.injEq] at h
    rw [← h.2, ← h.1]
    exact ⟨SameCommitment_refl cs, fun _ => rfl⟩

/-- The payload `SendUpstreamData` hands to `EncodeForRound` is the echo flag
of a slot owner under disruption protection, then the content; the cell of
the message sent is the cell returned, which only the test hook of a client
that is not the slot owner changes. -/
theorem encodeAndSend_result (x : Collaborators) (p : PriFiLibClientInstance) (cs : ClientState)
    (slotOwner : Bool) (content : GoSlice) (payload : Bytes) (err : Option String)
    (q : PriFiLibClientInstance)
    (hpayload : payload =
      (if cs.DisruptionProtectionEnabled = true ∧ slotOwner = true then [cs.B_echo_last] else []) ++
        content.getD [])
    (h : encodeAndSend x p cs slotOwner content = .done (err, q)) :
    err = none ∧
    (∃ cell, q.messageSender.sent =
        p.messageSender.sent ++ [.CLI_REL_UPSTREAM_DATA cs.ID cs.RoundNo cell] ∧
      ((slotOwner = true ∨ cs.ForceDisruptionSinceRound3 = false) →
        cell = (x.EncodeForRound cs.DCNet cs.RoundNo slotOwner payload).1.1)) ∧
    q.clientState.DCNet = (x.EncodeForRound cs.DCNet cs.RoundNo slotOwner payload).2 ∧
    (if cs.EquivocationProtectionEnabled = true ∧ cs.DisruptionProtectionEnabled = true ∧
        slotOwner = true ∧ cs.B_echo_last ≠ 1 then
      q.clientState.LastMessage =
        some (x.EncodeForRound cs.DCNet cs.RoundNo slotOwner payload).1.2 ∧
      q.clientState.HashFromPreviousMessage =
        x.Sum256 (x.EncodeForRound cs.DCNet cs.RoundNo slotOwner payload).1.2
    else
      q.clientState.LastMessage = cs.LastMessage ∧
      q.clientState.HashFromPreviousMessage = cs.HashFromPreviousMessage) := by
  unfold encodeAndSend at h
  simp only [] at h
  rw [← hpayload] at h
  generalize henc : x.EncodeForRound cs.DCNet cs.RoundNo slotOwner payload = enc at h ⊢
  generalize hks : keepPlainPayload x { cs with DCNet := enc.2 } slotOwner enc.1.2 = ks at h
  have hkeep : ks.ID = cs.ID ∧ ks.RoundNo = cs.RoundNo ∧ ks.DCNet = enc.2 ∧
      ks.ForceDisruptionSinceRound3 = cs.ForceDisruptionSinceRound3 ∧
      (if cs.EquivocationProtectionEnabled = true ∧ cs.DisruptionProtectionEnabled = true ∧
          slotOwner = true ∧ cs.B_echo_last ≠ 1 then
        ks.LastMessage = some enc.1.2 ∧ ks.HashFromPreviousMessage = x.Sum256 enc.1.2
      else
        ks.LastMessage = cs.LastMessage ∧
        ks.HashFromPreviousMessage = cs.HashFromPreviousMessage) := by
    rw [← hks]
    unfold keepPlainPayload
    simp only []
    by_cases hc : cs.EquivocationProtectionEnabled = true ∧ cs.DisruptionProtectionEnabled = true ∧
        slotOwner = true ∧ cs.B_echo_last ≠ 1
    · rw [if_pos hc, if_pos hc]
      exact ⟨rfl, rfl, rfl, rfl, rfl, rfl⟩
    · rw [if_neg hc, if_neg hc]
      exact ⟨rfl, rfl, rfl, rfl, rfl, rfl⟩
  obtain ⟨k1, k2, k3, k4, k5⟩ := hkeep
  cases hfd : forceDisruption ks slotOwner enc.1.1 with
  | crashed w => rw [hfd] at h; cases h
  | exited w => rw [hfd] at h; cases h
  | diverged => rw [hfd] at h; cases h
  | done r =>
    rw [hfd] at h
    obtain ⟨cell, cs'⟩ := r
    simp only [Run.done.injEq, Prod.mk.injEq] at h
    obtain ⟨herr, hq⟩ := h
    obtain ⟨⟨f1, f2, f3, _, _, _, _, f8, f9, _, _⟩, fcell⟩ :=
      forceDisruption_commitment ks slotOwner enc.1.1 cell cs' hfd
    have hhook : cs.ForceDisruptionSinceRound3 = false → cell = enc.1.1 := by
      intro hoff
      unfold forceDisruption at hfd
      rw [if_neg (by rw [k4, hoff]; simp)] at hfd
      simp only [Run.done.injEq, Prod.mk.injEq] at hfd
      exact hfd.1.symm
    rw [← hq]
    simp only []
    refine ⟨herr.symm, ⟨cell, by rw [f1, f2, k1, k2]; rfl, ?_⟩, by rw [f3, k3], ?_⟩
    · rintro (ho | hoff)
      · exact fcell ho
      · exact hhook hoff
    · rw [f8, f9]
      exact k5

theorem storeCommitment_result (x : Collaborators) (cs : ClientState) (content content' : GoSlice)
    (cs' : ClientState) (h : storeCommitment x cs content = .done (content', cs')) :
    (∃ m, cs'.LastMessage = some m ∧ cs'.HashFromPreviousMessage = x.Sum256 m) ∧
    cs'.ID = cs.ID ∧ cs'.RoundNo = cs.RoundNo ∧ cs'.DCNet = cs.DCNet ∧
    cs'.DisruptionProtectionEnabled = cs.DisruptionProtectionEnabled ∧
    cs'.EquivocationProtectionEnabled = cs.EquivocationProtectionEnabled ∧
    cs'.B_echo_last = cs.B_echo_last ∧
    cs'.ForceDisruptionSinceRound3 = cs.ForceDisruptionSinceRound3 ∧
    (∀ data, content = some data →
      4 ≤ data.length ∧ content' = some (data.set 3 (toByte cs.ID))) := by
  unfold storeCommitment at h
  cases content with
  | none =>
    simp only [] at h
    cases hd : cs.DCNet with
    | none => rw [hd] at h; cases h
    | some dcnet =>
      rw [hd] at h
      simp only [] at h
      split at h
      · cases h
      · simp only [Run.done.injEq, Prod.mk.injEq] at h
        rw [← h.2]
        exact ⟨⟨_, rfl, rfl⟩, rfl, rfl, hd.symm ▸ rfl, rfl, rfl, rfl, rfl,
          fun data hdata => by cases hdata⟩
  | some c =>
    simp only [] at h
    split at h
    · cases h
    · rename_i hlen
      simp only [Run.done.injEq, Prod.mk.injEq] at h
      rw [← h.2, ← h.1]
      refine ⟨⟨_, rfl, rfl⟩, rfl, rfl, rfl, rfl, rfl, rfl, rfl, ?_⟩
      intro data hdata
      cases hdata
      exact ⟨by omega, rfl⟩

/-- The paths of `SendUpstreamData` that return: the blame message, the
commitment of a slot owner without equivocation protection followed by the
encoding, or the encoding alone. -/
theorem SendUpstreamData_cases (x : Collaborators) (rd : Readings) (p : PriFiLibClientInstance)
    (ownerSlotID : Int) (err : Option String) (q : PriFiLibClientInstance)
    (h : SendUpstreamData x rd p ownerSlotID = .done (err, q)) :
    ∃ cs1 content, SameCommitment p.clientState cs1 ∧
      ((cs1.DisruptionProtectionEnabled = true ∧ ownerSlotID = p.clientState.MySlot ∧
          cs1.DisruptionWrongBitPosition ≠ -1 ∧ q.clientState = cs1) ∨
        (cs1.DisruptionProtectionEnabled = true ∧ ownerSlotID = p.clientState.MySlot ∧
          cs1.DisruptionWrongBitPosition = -1 ∧ cs1.EquivocationProtectionEnabled = false ∧
          ∃ content' cs2, storeCommitment x cs1 content = .done (content', cs2) ∧
            encodeAndSend x p cs2 true content' = .done (err, q)) ∨
        (¬ (cs1.DisruptionProtectionEnabled = true ∧ ownerSlotID = p.clientState.MySlot ∧
            cs1.EquivocationProtectionEnabled = false) ∧
          (cs1.DisruptionProtectionEnabled = true ∧ ownerSlotID = p.clientState.MySlot →
            cs1.DisruptionWrongBitPosition = -1) ∧
          encodeAndSend x p cs1 (decide (ownerSlotID = p.clientState.MySlot)) content =
            .done (err, q))) := by
  unfold SendUpstreamData at h
  simp only [] at h
  generalize hcs0 : (if decide (ownerSlotID = p.clientState.MySlot) = true then
      ({ p.clientState with MyLastRound := p.clientState.RoundNo } : ClientState)
    else p.clientState) = cs0 at h
  have h0 : SameCommitment p.clientState cs0 := by
    subst hcs0
    split
    · exact ⟨rfl, rfl, rfl, rfl, rfl, rfl, rfl, rfl, rfl, rfl, rfl⟩
    · exact SameCommitment_refl _
  cases ha : actualPayloadSize cs0 (decide (ownerSlotID = p.clientState.MySlot)) with
  | exited w => rw [ha] at h; cases h
  | crashed w => rw [ha] at h; cases h
  | diverged => rw [ha] at h; cases h
  | done actual =>
    rw [ha] at h
    simp only [] at h
    generalize hchosen : (if decide (ownerSlotID = p.clientState.MySlot) = true then
        selectUpstreamContent x rd cs0 actual else Run.done (none, cs0)) = chosen at h
    cases chosen with
    | exited w => cases h
    | crashed w => cases h
    | diverged => cases h
    | done r =>
      obtain ⟨content, cs1⟩ := r
      simp only [] at h
      have h1 : SameCommitment cs0 cs1 := by
        by_cases ho : decide (ownerSlotID = p.clientState.MySlot) = true
        · rw [if_pos ho] at hchosen
          exact selectUpstreamContent_commitment x rd cs0 actual content cs1 hchosen
        · rw [if_neg ho] at hchosen
          simp only [Run.done.injEq, Prod.mk.injEq] at hchosen
          rw [← hchosen.2]
          exact SameCommitment_refl _
      refine ⟨cs1, content, SameCommitment_trans h0 h1, ?_⟩
      by_cases hd : cs1.DisruptionProtectionEnabled = true ∧
          decide (ownerSlotID = p.clientState.MySlot) = true
      · rw [if_pos hd] at h
        have ho : ownerSlotID = p.clientState.MySlot := by simpa using hd.2
        by_cases hb : cs1.DisruptionWrongBitPosition ≠ -1
        · rw [if_pos hb] at h
          simp only [Run.done.injEq, Prod.mk.injEq] at h
          left
          exact ⟨hd.1, ho, hb, by rw [← h.2]⟩
        · rw [if_neg hb] at h
          have hb' : cs1.DisruptionWrongBitPosition = -1 := by simpa using hb
          by_cases he : ¬ cs1.EquivocationProtectionEnabled = true
          · rw [if_pos he] at h
            right; left
            refine ⟨hd.1, ho, hb', by simpa using he, ?_⟩
            cases hs : storeCommitment x cs1 content with
            | exited w => rw [hs] at h; cases h
            | crashed w => rw [hs] at h; cases h
            | diverged => rw [hs] at h; cases h
            | done r2 =>
              rw [hs] at h
              obtain ⟨content', cs2⟩ := r2
              simp only [] at h
              have hdec : decide (ownerSlotID = p.clientState.MySlot) = true := hd.2
              rw [hdec] at h
              exact ⟨content', cs2, rfl, h⟩
          · rw [if_neg he] at h
            right; right
            refine ⟨fun hc => he (by rw [hc.2.2]; decide), fun _ => hb', h⟩
      · rw [if_neg hd] at h
        right; right
        refine ⟨fun hc => hd ⟨hc.1, by simpa using hc.2.1⟩,
          fun hc => absurd ⟨hc.1, by simpa using hc.2⟩ hd, h⟩

/-- C23: hash commitment. A call of `SendUpstreamData` that returns has
stored both `LastMessage` and `HashFromPreviousMessage`, the second being the
SHA-256 of the first, when disruption protection is on, the client owns the
slot, no blame is pending and equivocation protection is off or the client is
not echoing; otherwise it has left both as they were. A call of
`Received_REL_CLI_TELL_EPH_PKS_AND_TRUSTEES_SIG` that returns nil has stored
both in the same way when disruption protection is on; otherwise, and when it
returns an error, it has left both as they were. -/
theorem commitment_stored_with_hash (x : Collaborators) (rd : Readings)
    (p : PriFiLibClientInstance) (ownerSlotID : Int)
    (msg : REL_CLI_TELL_EPH_PKS_AND_TRUSTEES_SIG) :
    (∀ err q, SendUpstreamData x rd p ownerSlotID = .done (err, q) →
      (p.clientState.DisruptionProtectionEnabled = true ∧ ownerSlotID = p.clientState.MySlot ∧
          p.clientState.DisruptionWrongBitPosition = -1 ∧
          (p.clientState.EquivocationProtectionEnabled = false ∨ p.clientState.B_echo_last ≠ 1) →
        ∃ m, q.clientState.LastMessage = some m ∧
          q.clientState.HashFromPreviousMessage = x.Sum256 m) ∧
      (¬ (p.clientState.DisruptionProtectionEnabled = true ∧
          ownerSlotID = p.clientState.MySlot ∧ p.clientState.DisruptionWrongBitPosition = -1 ∧
          (p.clientState.EquivocationProtectionEnabled = false ∨
            p.clientState.B_echo_last ≠ 1)) →
        q.clientState.LastMessage = p.clientState.LastMessage ∧
        q.clientState.HashFromPreviousMessage = p.clientState.HashFromPreviousMessage)) ∧
    (∀ err q, Received_REL_CLI_TELL_EPH_PKS_AND_TRUSTEES_SIG x p msg = .done (err, q) →
      (err = none ∧ p.clientState.DisruptionProtectionEnabled = true →
        ∃ m, q.clientState.LastMessage = some m ∧
          q.clientState.HashFromPreviousMessage = x.Sum256 m) ∧
      (¬ (err = none ∧ p.clientState.DisruptionProtectionEnabled = true) →
        q.clientState.LastMessage = p.clientState.LastMessage ∧
        q.clientState.HashFromPreviousMessage = p.clientState.HashFromPreviousMessage)) := by
  refine ⟨?_, ?_⟩
  · intro err q h
    obtain ⟨cs1, content, ⟨_, _, _, s4, s5, s6, s7, s8, s9, _, _⟩, hcase⟩ :=
      SendUpstreamData_cases x rd p ownerSlotID err q h
    rcases hcase with ⟨hd, ho, hb, hq⟩ | ⟨hd, ho, hb, he, content', cs2, hs, henc⟩ |
      ⟨hno, hb, henc⟩
    · refine ⟨fun hc => absurd (s7.symm ▸ hc.2.2.1) hb, fun _ => ?_⟩
      rw [hq]
      exact ⟨s8, s9⟩
    · obtain ⟨⟨m, hm1, hm2⟩, _, _, _, _, he2, _, _, _⟩ :=
        storeCommitment_result x cs1 content content' cs2 hs
      obtain ⟨_, _, _, hlast⟩ := encodeAndSend_result x p cs2 true content' _ err q rfl henc
      rw [if_neg (by rw [he2, he]; simp)] at hlast
      refine ⟨fun _ => ⟨m, by rw [hlast.1, hm1], by rw [hlast.2, hm2]⟩, fun hc => ?_⟩
      exact absurd ⟨s4 ▸ hd, ho, s7 ▸ hb, Or.inl (s5 ▸ he)⟩ hc
    · obtain ⟨_, _, _, hlast⟩ := encodeAndSend_result x p cs1
        (decide (ownerSlotID = p.clientState.MySlot)) content _ err q rfl henc
      by_cases hc : cs1.EquivocationProtectionEnabled = true ∧
          cs1.DisruptionProtectionEnabled = true ∧
          decide (ownerSlotID = p.clientState.MySlot) = true ∧ cs1.B_echo_last ≠ 1
      · rw [if_pos hc] at hlast
        refine ⟨fun _ => ⟨_, hlast.1, hlast.2⟩, fun hn => ?_⟩
        have ho : ownerSlotID = p.clientState.MySlot := by simpa using hc.2.2.1
        exact absurd ⟨s4 ▸ hc.2.1, ho, s7 ▸ hb ⟨hc.2.1, ho⟩, Or.inr (s6 ▸ hc.2.2.2)⟩ hn
      · rw [if_neg hc] at hlast
        refine ⟨fun hs => ?_, fun _ => ⟨hlast.1.trans s8, hlast.2.trans s9⟩⟩
        exfalso
        obtain ⟨hd, ho, _, hor⟩ := hs
        rw [← s4] at hd
        rcases hor with he | hbe
        · exact hno ⟨hd, ho, s5.symm ▸ he⟩
        · apply hc
          refine ⟨?_, hd, by simpa using ho, s6.symm ▸ hbe⟩
          by_contra hne
          exact hno ⟨hd, ho, by simpa using hne⟩
  · intro err q h
    unfold Received_REL_CLI_TELL_EPH_PKS_AND_TRUSTEES_SIG at h
    simp only [] at h
    generalize hcs : prepareForCommunication p.clientState msg _ = cs at h
    have hprep : cs.DisruptionProtectionEnabled = p.clientState.DisruptionProtectionEnabled ∧
        cs.LastMessage = p.clientState.LastMessage ∧
        cs.HashFromPreviousMessage = p.clientState.HashFromPreviousMessage := by
      rw [← hcs]
      exact ⟨rfl, rfl, rfl⟩
    obtain ⟨p1, p2, p3⟩ := hprep
    split at h
    · simp only [Run.done.injEq, Prod.mk.injEq] at h
      obtain ⟨herr, hq⟩ := h
      refine ⟨fun hc => ?_, fun _ => ?_⟩
      · rw [← herr] at hc
        cases hc.1
      · rw [← hq]
        exact ⟨p2, p3⟩
    · split at h
      · cases h
      · split at h
        · cases h
        · simp only [Run.done.injEq, Prod.mk.injEq] at h
          obtain ⟨herr, hq⟩ := h
          generalize hsl : startListening cs = sl at hq
          have hsl' : sl.DisruptionProtectionEnabled = cs.DisruptionProtectionEnabled ∧
              sl.LastMessage = cs.LastMessage ∧
              sl.HashFromPreviousMessage = cs.HashFromPreviousMessage := by
            rw [← hsl]
            unfold startListening
            split <;> exact ⟨rfl, rfl, rfl⟩
          obtain ⟨l1, l2, l3⟩ := hsl'
          generalize hbc : blankCommitment x sl = bc at hq
          have hbc' : bc.DisruptionProtectionEnabled = sl.DisruptionProtectionEnabled ∧
              (if sl.DisruptionProtectionEnabled = true then
                ∃ m, bc.LastMessage = some m ∧ bc.HashFromPreviousMessage = x.Sum256 m
              else bc.LastMessage = sl.LastMessage ∧
                bc.HashFromPreviousMessage = sl.HashFromPreviousMessage) := by
            rw [← hbc]
            unfold blankCommitment
            by_cases hd : sl.DisruptionProtectionEnabled = true
            · rw [if_pos hd, if_pos hd]
              exact ⟨rfl, _, rfl, rfl⟩
            · rw [if_neg hd, if_neg hd]
              exact ⟨rfl, rfl, rfl⟩
          obtain ⟨b1, b2⟩ := hbc'
          generalize henc : x.EncodeForRound bc.DCNet 0 (decide (sl.ID = 0)) (roundZeroPayload sl) =
            enc at hq
          generalize hkp : keepRoundZeroPlain x { bc with DCNet := enc.2 } enc.1.2 = kp at hq
          have hkp' : (if bc.DisruptionProtectionEnabled = true then
                ∃ m, kp.LastMessage = some m ∧ kp.HashFromPreviousMessage = x.Sum256 m
              else kp.LastMessage = bc.LastMessage ∧
                kp.HashFromPreviousMessage = bc.HashFromPreviousMessage) := by
            rw [← hkp]
            unfold keepRoundZeroPlain
            simp only []
            by_cases hc : bc.EquivocationProtectionEnabled = true ∧
                bc.DisruptionProtectionEnabled = true
            · rw [if_pos hc, if_pos hc.2]
              exact ⟨_, rfl, rfl⟩
            · rw [if_neg hc]
              by_cases hd : bc.DisruptionProtectionEnabled = true
              · rw [if_pos hd]
                rw [if_pos (b1 ▸ hd)] at b2
                exact b2
              · rw [if_neg hd]
                exact ⟨rfl, rfl⟩
          rw [← hq]
          simp only []
          by_cases hd : p.clientState.DisruptionProtectionEnabled = true
          · have hbd : bc.DisruptionProtectionEnabled = true := by rw [b1, l1, p1]; exact hd
            rw [if_pos hbd] at hkp'
            exact ⟨fun _ => hkp', fun hc => absurd ⟨herr.symm, hd⟩ hc⟩
          · have hbd : ¬ bc.DisruptionProtectionEnabled = true := by rw [b1, l1, p1]; exact hd
            have hsd : ¬ sl.DisruptionProtectionEnabled = true := by rw [l1, p1]; exact hd
            rw [if_neg hbd] at hkp'
            rw [if_neg hsd] at b2
            refine ⟨fun hc => absurd hc.2 hd, fun _ => ?_⟩
            exact ⟨hkp'.1.trans (b2.1.trans (l2.trans p2)), hkp'.2.trans (b2.2.trans (l3.trans p3))⟩

theorem actualPayloadSize_congr (a b : ClientState) (slotOwner : Bool)
    (h1 : b.PayloadSize = a.PayloadSize)
    (h2 : b.DisruptionProtectionEnabled = a.DisruptionProtectionEnabled)
    (h3 : b.EquivocationProtectionEnabled = a.EquivocationProtectionEnabled) :
    actualPayloadSize b slotOwner = actualPayloadSize a slotOwner := by
  unfold actualPayloadSize
  rw [h1, h2, h3]

theorem actualPayloadSize_pos (cs : ClientState) (slotOwner : Bool) (actual : Int)
    (h : actualPayloadSize cs slotOwner = .done actual)
    (hdis : cs.DisruptionProtectionEnabled = true) : 0 < actual := by
  unfold actualPayloadSize at h
  simp only [hdis, true_and, if_true] at h
  by_cases h1 : cs.PayloadSize - 1 ≤ 0
  · rw [if_pos h1] at h
    cases h
  · rw [if_neg h1] at h
    by_cases h2 : cs.EquivocationProtectionEnabled = true ∧ slotOwner = true ∧
        cs.PayloadSize - 1 - 16 ≤ 0
    · rw [if_pos h2] at h
      cases h
    · rw [if_neg h2] at h
      simp only [Run.done.injEq] at h
      rw [← h]
      by_cases h3 : cs.EquivocationProtectionEnabled = true ∧ slotOwner = true
      · rw [if_pos h3]
        have : ¬ cs.PayloadSize - 1 - 16 ≤ 0 := fun h4 => h2 ⟨h3.1, h3.2, h4⟩
        omega
      · rw [if_neg h3]
        omega

theorem storeCommitment_long (x : Collaborators) (cs : ClientState) (data : Bytes)
    (h : 4 ≤ data.length) :
    ∃ cs', storeCommitment x cs (some data) = .done (some (data.set 3 (toByte cs.ID)), cs') := by
  unfold storeCommitment
  simp only []
  rw [if_neg (by omega)]
  exact ⟨_, rfl⟩

theorem encodeAndSend_owner_done (x : Collaborators) (p : PriFiLibClientInstance)
    (cs : ClientState) (content : GoSlice) :
    ∃ q, encodeAndSend x p cs true content = .done (none, q) := by
  unfold encodeAndSend
  simp only []
  unfold forceDisruption
  rw [if_neg (by simp)]
  exact ⟨_, rfl⟩

/-- C24: for a slot owner under disruption protection with no blame pending,
whose content for the round is the data polled earlier, else (no packet left
to replay) the head of the queue, else (no latency test waiting) the zero
filler of the reduced payload size, the call returns and
the message sent carries the cell that `EncodeForRound` returns for the
payload made of `B_echo_last` followed by that content, unmodified under
equivocation protection and with the byte at index 3 replaced by the low byte
of the client id without it (for a content of at least four bytes). For a
client that is not the slot owner the payload handed to `EncodeForRound` is
empty and `slotOwner` is false. -/
theorem upstream_payload_echo_flag_then_content (x : Collaborators) (rd : Readings)
    (p : PriFiLibClientInstance) (ownerSlotID actual : Int)
    (hactual : actualPayloadSize p.clientState (decide (ownerSlotID = p.clientState.MySlot)) =
      .done actual) :
    (ownerSlotID = p.clientState.MySlot → p.clientState.DisruptionProtectionEnabled = true →
      p.clientState.DisruptionWrongBitPosition = -1 →
      ∀ data, ChosenData p.clientState actual data →
      (p.clientState.EquivocationProtectionEnabled = true ∨ 4 ≤ data.length) →
      ∃ q, SendUpstreamData x rd p ownerSlotID = .done (none, q) ∧
        q.messageSender.sent = p.messageSender.sent ++
          [.CLI_REL_UPSTREAM_DATA p.clientState.ID p.clientState.RoundNo
            (x.EncodeForRound p.clientState.DCNet p.clientState.RoundNo true
              (p.clientState.B_echo_last ::
                (if p.clientState.EquivocationProtectionEnabled = true then data
                  else data.set 3 (toByte p.clientState.ID)))).1.1] ∧
        q.clientState.DCNet =
          (x.EncodeForRound p.clientState.DCNet p.clientState.RoundNo true
            (p.clientState.B_echo_last ::
              (if p.clientState.EquivocationProtectionEnabled = true then data
                else data.set 3 (toByte p.clientState.ID)))).2) ∧
    (ownerSlotID ≠ p.clientState.MySlot →
      (∀ err q, SendUpstreamData x rd p ownerSlotID = .done (err, q) →
        q.clientState.DCNet =
          (x.EncodeForRound p.clientState.DCNet p.clientState.RoundNo false []).2 ∧
        ∃ cell, q.messageSender.sent = p.messageSender.sent ++
            [.CLI_REL_UPSTREAM_DATA p.clientState.ID p.clientState.RoundNo cell] ∧
          (p.clientState.ForceDisruptionSinceRound3 = false →
            cell = (x.EncodeForRound p.clientState.DCNet p.clientState.RoundNo false []).1.1)) ∧
      (p.clientState.ForceDisruptionSinceRound3 = false →
        ∃ q, SendUpstreamData x rd p ownerSlotID = .done (none, q))) := by
  refine ⟨?_, ?_⟩
  · intro howner hdis hblame data hchosen hfits
    have hdec : decide (ownerSlotID = p.clientState.MySlot) = true := by simpa using howner
    rw [hdec] at hactual
    have hpos := actualPayloadSize_pos _ _ _ hactual hdis
    unfold SendUpstreamData
    simp only [hdec, if_true]
    generalize hcs0 : ({ p.clientState with MyLastRound := p.clientState.RoundNo } : ClientState) =
      cs0
    have hf : SameCommitment p.clientState cs0 ∧
        cs0.NextDataForDCNet = p.clientState.NextDataForDCNet ∧
        cs0.pcapReplay = p.clientState.pcapReplay ∧
        cs0.DataForDCNet = p.clientState.DataForDCNet ∧
        cs0.LatencyTest = p.clientState.LatencyTest := by
      subst hcs0
      exact ⟨⟨rfl, rfl, rfl, rfl, rfl, rfl, rfl, rfl, rfl, rfl, rfl⟩, rfl, rfl, rfl, rfl⟩
    obtain ⟨hsame0, n1, n2, n3, n4⟩ := hf
    rw [actualPayloadSize_congr p.clientState cs0 true hsame0.2.2.2.2.2.2.2.2.2.1
      hsame0.2.2.2.1 hsame0.2.2.2.2.1, hactual]
    simp only []
    have hsel : ∃ cs1, selectUpstreamContent x rd cs0 actual = .done (some data, cs1) := by
      rcases hchosen with h | ⟨h1, h2, later, h3⟩ | ⟨h1, h2, h3, h4, h5⟩
      · exact ⟨_, selectUpstreamContent_next x rd cs0 actual (some data) (n1.trans h)⟩
      · exact ⟨_, selectUpstreamContent_queued x rd cs0 actual (some data) later (n1.trans h1)
          (by rw [n2]; exact h2) (n3.trans h3)⟩
      · rw [h5]
        exact ⟨_, selectUpstreamContent_filler x rd cs0 actual (by omega) (n1.trans h1)
          (by rw [n2]; exact h2) (n3.trans h3) (by rw [n4]; exact h4)⟩
    obtain ⟨cs1, hsel⟩ := hsel
    have hsame1 := SameCommitment_trans hsame0
      (selectUpstreamContent_commitment x rd cs0 actual _ cs1 hsel)
    obtain ⟨s1, s2, s3, s4, s5, s6, s7, _, _, _, _⟩ := hsame1
    rw [hsel]
    simp only []
    rw [if_pos ⟨s4.trans hdis, trivial⟩, if_neg (by rw [s7, hblame]; simp)]
    by_cases he : p.clientState.EquivocationProtectionEnabled = true
    · rw [if_neg (by rw [s5, he]; simp), if_pos he]
      obtain ⟨q, hq⟩ := encodeAndSend_owner_done x p cs1 (some data)
      obtain ⟨_, ⟨cell, hsent, hcell⟩, hdc, _⟩ := encodeAndSend_result x p cs1 true (some data)
        (p.clientState.B_echo_last :: data) none q
        (by rw [if_pos ⟨s4.trans hdis, rfl⟩, s6]; rfl) hq
      refine ⟨q, hq, ?_, ?_⟩
      · rw [hsent, hcell (Or.inl rfl), s1, s2, s3]
      · rw [hdc, s2, s3]
    · rw [if_pos (by rw [s5]; exact he), if_neg he]
      have hlen : 4 ≤ data.length := by
        rcases hfits with h | h
        · exact absurd h he
        · exact h
      obtain ⟨cs2, hstore⟩ := storeCommitment_long x cs1 data hlen
      obtain ⟨_, t1, t2, t3, t4, _, t6, _, _⟩ := storeCommitment_result x cs1 _ _ cs2 hstore
      rw [hstore]
      simp only []
      obtain ⟨q, hq⟩ := encodeAndSend_owner_done x p cs2 (some (data.set 3 (toByte cs1.ID)))
      obtain ⟨_, ⟨cell, hsent, hcell⟩, hdc, _⟩ := encodeAndSend_result x p cs2 true
        (some (data.set 3 (toByte cs1.ID)))
        (p.clientState.B_echo_last :: data.set 3 (toByte p.clientState.ID)) none q
        (by rw [if_pos ⟨(t4.trans s4).trans hdis, rfl⟩, t6, s6, s1]; rfl) hq
      refine ⟨q, hq, ?_, ?_⟩
      · rw [hsent, hcell (Or.inl rfl), t1, t2, t3, s1, s2, s3]
      · rw [hdc, t2, t3, s2, s3]
  · intro hnot
    have hdec : decide (ownerSlotID = p.clientState.MySlot) = false := by simpa using hnot
    rw [hdec] at hactual
    have hshape : SendUpstreamData x rd p ownerSlotID =
        encodeAndSend x p p.clientState false none := by
      unfold SendUpstreamData
      simp only [hdec, Bool.false_eq_true, if_false, hactual, and_false]
    rw [hshape]
    refine ⟨?_, ?_⟩
    · intro err q h
      obtain ⟨_, ⟨cell, hsent, hcell⟩, hdc, _⟩ := encodeAndSend_result x p p.clientState false none
        [] err q (by simp) h
      exact ⟨hdc, cell, hsent, fun hoff => hcell (Or.inr hoff)⟩
    · intro hoff
      obtain ⟨q, _, hq, _⟩ := encodeAndSend_done x p p.clientState false none
        (fun hon => by rw [hoff] at hon; cases hon)
      exact ⟨q, hq⟩

/-- Witness for C30: the sample client with disruption protection and cells of
2 bytes, owner of slot 0 with nothing to send, ends in the index panic. -/
theorem short_content_index_out_of_range_witness :
    SendUpstreamData sampleCollaborators (sampleClock 0) (sampleDisruptionClient 2 []) 0 =
      .crashed "index out of range" :=
  (short_content_index_out_of_range sampleCollaborators (sampleClock 0)
    (sampleDisruptionClient 2 []) 0 rfl rfl (by decide) rfl rfl rfl rfl).1 rfl rfl (by decide)

/-- Witness for C23: the sample client with disruption protection, owner of
slot 0 with five bytes queued, returns with a stored message and its hash. -/
theorem commitment_stored_with_hash_witness :
    ∃ q m, SendUpstreamData sampleCollaborators (sampleClock 0)
        (sampleDisruptionClient 32 [some [9, 9, 9, 9, 9]]) 0 = .done (none, q) ∧
      q.clientState.LastMessage = some m ∧
      q.clientState.HashFromPreviousMessage = sampleCollaborators.Sum256 m := by
  obtain ⟨q, hq⟩ : ∃ q, SendUpstreamData sampleCollaborators (sampleClock 0)
      (sampleDisruptionClient 32 [some [9, 9, 9, 9, 9]]) 0 = .done (none, q) := ⟨_, rfl⟩
  obtain ⟨m, h1, h2⟩ := ((commitment_stored_with_hash sampleCollaborators (sampleClock 0)
    (sampleDisruptionClient 32 [some [9, 9, 9, 9, 9]]) 0
    (sampleShuffleResult []) ).1 none q hq).1 ⟨rfl, rfl, rfl, Or.inl rfl⟩
  exact ⟨q, m, hq, h1, h2⟩

/-- Counterexample for C24: the sample client with disruption protection and
no equivocation protection, id 1, owner of slot 0 with the five bytes
`9 9 9 9 9` queued, sends the cell encoded from `0 9 9 9 1 9`: the byte at
index 3 of the content has become the client id, so the payload is not
`B_echo_last` followed by the unmodified content. -/
theorem owner_payload_byte_three_overwritten :
    ∃ q, SendUpstreamData sampleCollaborators (sampleClock 0)
        (sampleDisruptionClient 32 [some [9, 9, 9, 9, 9]]) 0 = .done (none, q) ∧
      q.messageSender.sent = [.CLI_REL_UPSTREAM_DATA 1 5 [0, 9, 9, 9, 1, 9]] ∧
      q.messageSender.sent ≠ [.CLI_REL_UPSTREAM_DATA 1 5
        (sampleCollaborators.EncodeForRound none 5 true ([0] ++ [9, 9, 9, 9, 9])).1.1] :=
  ⟨_, rfl, rfl, by decide⟩

/-- Witness for C24: the sample client of the counterexample sends the cell
encoded from `B_echo_last` and the content stamped with its id. -/
theorem upstream_payload_echo_flag_then_content_witness :
    ∃ q, SendUpstreamData sampleCollaborators (sampleClock 0)
        (sampleDisruptionClient 32 [some [9, 9, 9, 9, 9]]) 0 = .done (none, q) ∧
      q.messageSender.sent = [.CLI_REL_UPSTREAM_DATA 1 5 [0, 9, 9, 9, 1, 9]] := by
  obtain ⟨q, hq, hsent, _⟩ := (upstream_payload_echo_flag_then_content sampleCollaborators
    (sampleClock 0) (sampleDisruptionClient 32 [some [9, 9, 9, 9, 9]]) 0 31 rfl).1 rfl rfl rfl
    [9, 9, 9, 9, 9] (Or.inr (Or.inl ⟨rfl, by decide, [], rfl⟩)) (Or.inr (by decide))
  exact ⟨q, hq, hsent⟩

/-! ## Claims on the broadcast to the nodes -/

theorem broadcastLoop_spec (write : Nat → Int × Option String) (message : Bytes) :
    ∀ (nodes : List ConnectedNode) (start : Nat) (nodes' : List ConnectedNode)
      (calls : List WriteCall),
      broadcastLoop write message start nodes = .done (nodes', calls) →
      nodes'.length = nodes.length ∧
      (∀ i node, nodes.get? i = some node → ∃ node', nodes'.get? i = some node' ∧
        (node'.Connected = true ↔ (node.Connected = true ∧
          (message.length : Int) ≤ (write (start + i)).1 ∧ (write (start + i)).2 = none)) ∧
        (node.Connected = true → ∃ conn, node.Conn = some conn ∧
          (⟨start + i, conn, message⟩ : WriteCall) ∈ calls) ∧
        node'.Id = node.Id ∧ node'.Conn = node.Conn ∧ node'.PublicKey = node.PublicKey) ∧
      (∀ call, call ∈ calls → start ≤ call.index ∧ call.message = message ∧
        ∃ node, nodes.get? (call.index - start) = some node ∧ node.Connected = true ∧
          node.Conn = some call.conn) := by
  intro nodes
  induction nodes with
  | nil =>
    intro start nodes' calls h
    simp only [broadcastLoop, Run.done.injEq, Prod.mk.injEq] at h
    obtain ⟨h1, h2⟩ := h
    subst h1 h2
    exact ⟨rfl, fun i node hi => by simp at hi, fun call hc => by simp at hc⟩
  | cons node rest ih =>
    intro start nodes' calls h
    unfold broadcastLoop at h
    by_cases hcon : node.Connected = true
    · rw [if_pos hcon] at h
      cases hconn : node.Conn with
      | none => rw [hconn] at h; cases h
      | some conn =>
        rw [hconn] at h
        simp only [] at h
        cases hrest : broadcastLoop write message (start + 1) rest with
        | crashed w => rw [hrest] at h; cases h
        | exited w => rw [hrest] at h; cases h
        | diverged => rw [hrest] at h; cases h
        | done r =>
          obtain ⟨rest', calls'⟩ := r
          rw [hrest] at h
          simp only [Run.done.injEq, Prod.mk.injEq] at h
          obtain ⟨h1, h2⟩ := h
          obtain ⟨ilen, inodes, icalls⟩ := ih (start + 1) rest' calls' hrest
          subst h1 h2
          refine ⟨by simp [ilen], ?_, ?_⟩
          · intro i nd hi
            cases i with
            | zero =>
              simp only [List.get?_cons_zero, Option.some.injEq] at hi
              subst hi
              refine ⟨_, rfl, ?_, fun _ => ⟨conn, hconn, by simp⟩, ?_⟩
              · by_cases hw : (write start).1 < (message.length : Int) ∨ (write start).2 ≠ none
                · rw [Nat.add_zero, if_pos hw]
                  constructor
                  · intro hc; cases hc
                  · rintro ⟨_, h3, h4⟩
                    rcases hw with hw | hw
                    · omega
                    · exact absurd h4 hw
                · rw [Nat.add_zero, if_neg hw]
                  constructor
                  · intro _
                    refine ⟨hcon, ?_, ?_⟩
                    · by_contra h5; exact hw (Or.inl (by omega))
                    · by_contra h5; exact hw (Or.inr h5)
                  · intro _; exact hcon
              · split <;> first | exact ⟨rfl, rfl, rfl⟩ | exact ⟨rfl, hconn.symm, rfl⟩
            | succ j =>
              simp only [List.get?_cons_succ] at hi
              obtain ⟨nd', g1, g2, g3, g4⟩ := inodes j nd hi
              refine ⟨nd', by simpa using g1, ?_, ?_, g4⟩
              · rw [show start + (j + 1) = start + 1 + j by omega]; exact g2
              · intro hc
                obtain ⟨cn, c1, c2⟩ := g3 hc
                rw [show start + (j + 1) = start + 1 + j by omega]
                exact ⟨cn, c1, List.mem_cons_of_mem _ c2⟩
          · intro call hc
            rcases List.mem_cons.mp hc with hc | hc
            · subst hc
              exact ⟨Nat.le_refl _, rfl, node, by simp, hcon, hconn⟩
            · obtain ⟨c1, c2, nd, c3, c4, c5⟩ := icalls call hc
              refine ⟨by omega, c2, nd, ?_, c4, c5⟩
              rw [show call.index - start = (call.index - (start + 1)) + 1 by omega]
              simpa using c3
    · rw [if_neg hcon] at h
      cases hrest : broadcastLoop write message (start + 1) rest with
      | crashed w => rw [hrest] at h; cases h
      | exited w => rw [hrest] at h; cases h
      | diverged => rw [hrest] at h; cases h
      | done r =>
        obtain ⟨rest', calls'⟩ := r
        rw [hrest] at h
        simp only [Run.done.injEq, Prod.mk.injEq] at h
        obtain ⟨h1, h2⟩ := h
        obtain ⟨ilen, inodes, icalls⟩ := ih (start + 1) rest' calls' hrest
        subst h1 h2
        refine ⟨by simp [ilen], ?_, ?_⟩
        · intro i nd hi
          cases i with
          | zero =>
            simp only [List.get?_cons_zero, Option.some.injEq] at hi
            subst hi
            refine ⟨_, rfl, ?_, fun hc => absurd hc hcon, rfl, rfl, rfl⟩
            constructor
            · intro hc; exact absurd hc hcon
            · intro hc; exact absurd hc.1 hcon
          | succ j =>
            simp only [List.get?_cons_succ] at hi
            obtain ⟨nd', g1, g2, g3, g4⟩ := inodes j nd hi
            refine ⟨nd', by simpa using g1, ?_, ?_, g4⟩
            · rw [show start + (j + 1) = start + 1 + j by omega]; exact g2
            · intro hc
              obtain ⟨cn, c1, c2⟩ := g3 hc
              rw [show start + (j + 1) = start + 1 + j by omega]
              exact ⟨cn, c1, c2⟩
        · intro call hc
          obtain ⟨c1, c2, nd, c3, c4, c5⟩ := icalls call hc
          refine ⟨by omega, c2, nd, ?_, c4, c5⟩
          rw [show call.index - start = (call.index - (start + 1)) + 1 by omega]
          simpa using c3

theorem broadcastLoop_returns (write : Nat → Int × Option String) (message : Bytes) :
    ∀ (nodes : List ConnectedNode) (start : Nat),
      (∀ node, node ∈ nodes → node.Connected = true → node.Conn ≠ none) →
      ∃ r, broadcastLoop write message start nodes = .done r := by
  intro nodes
  induction nodes with
  | nil => intro start _; exact ⟨_, rfl⟩
  | cons node rest ih =>
    intro start hconn
    obtain ⟨r, hr⟩ := ih (start + 1) (fun nd hn => hconn nd (List.mem_cons_of_mem _ hn))
    unfold broadcastLoop
    rw [hr]
    by_cases hcon : node.Connected = true
    · rw [if_pos hcon]
      cases hc : node.Conn with
      | none => exact absurd hc (hconn node (List.mem_cons_self _ _) hcon)
      | some conn => exact ⟨_, rfl⟩
    · rw [if_neg hcon]
      exact ⟨_, rfl⟩

/-- C25: when every connected node has a connection, `BroadcastMessageToNodes`
returns; after it, the node at every index is connected exactly when it was
connected before and its write returned at least `len(message)` bytes and no
error; every write issued went to a node that was connected before, with the
message; and `Id`, `Conn` and `PublicKey` of every node are as before. -/
theorem broadcast_marks_failed_writes (write : Nat → Int × Option String)
    (nodes : List ConnectedNode) (message : Bytes)
    (hconn : ∀ node, node ∈ nodes → node.Connected = true → node.Conn ≠ none) :
    ∃ nodes' calls, BroadcastMessageToNodes write nodes message = .done (nodes', calls) ∧
      nodes'.length = nodes.length ∧
      (∀ i node, nodes.get? i = some node → ∃ node', nodes'.get? i = some node' ∧
        (node'.Connected = true ↔ (node.Connected = true ∧
          (message.length : Int) ≤ (write i).1 ∧ (write i).2 = none)) ∧
        node'.Id = node.Id ∧ node'.Conn = node.Conn ∧ node'.PublicKey = node.PublicKey) ∧
      (∀ call, call ∈ calls → call.message = message ∧
        ∃ node, nodes.get? call.index = some node ∧ node.Connected = true ∧
          node.Conn = some call.conn) := by
  obtain ⟨⟨nodes', calls⟩, hr⟩ := broadcastLoop_returns write message nodes 0 hconn
  obtain ⟨h1, h2, h3⟩ := broadcastLoop_spec write message nodes 0 nodes' calls hr
  refine ⟨nodes', calls, hr, h1, ?_, ?_⟩
  · intro i node hi
    obtain ⟨node', g1, g2, _, g4⟩ := h2 i node hi
    rw [Nat.zero_add] at g2
    exact ⟨node', g1, g2, g4⟩
  · intro call hc
    obtain ⟨_, c2, c3⟩ := h3 call hc
    exact ⟨c2, c3⟩

/-- Witness for C25: on the sample nodes, whose connected nodes all have a
connection, the broadcast of three bytes returns, writes to the nodes 0 and 2
only and leaves node 0 alone connected. -/
theorem broadcast_marks_failed_writes_witness :
    (∃ nodes' calls, BroadcastMessageToNodes sampleWrites sampleNodes [7, 8, 9] =
        .done (nodes', calls) ∧ nodes'.length = sampleNodes.length) ∧
      BroadcastMessageToNodes sampleWrites sampleNodes [7, 8, 9] =
        .done ([{ Id := 0, Connected := true, PublicKey := 10, Conn := some 100 },
                { Id := 1, Connected := false, PublicKey := 11, Conn := some 101 },
                { Id := 2, Connected := false, PublicKey := 12, Conn := some 102 }],
               [⟨0, 100, [7, 8, 9]⟩, ⟨2, 102, [7, 8, 9]⟩]) := by
  refine ⟨?_, by decide⟩
  obtain ⟨nodes', calls, h, hlen, _⟩ := broadcast_marks_failed_writes sampleWrites sampleNodes
    [7, 8, 9] (by decide)
  exact ⟨nodes', calls, h, hlen⟩

/-! ## Claims on the round trip of a key array -/

/-- A scanning loop leaves the loop at a length word that is zero. -/
theorem scan_stop_zero {β : Type} (convert : Slice → Converted β) (s : Slice) (bound : Nat)
    (limit : Option Int) (indexed : Bool) (fuel currentByte : Nat) (acc : List β)
    (before after : Bytes) (hstore : s.store = before ++ (putUint32 0 ++ after))
    (hcur : before.length = currentByte) :
    scan convert s bound limit indexed (fuel + 1) currentByte acc = .ok acc currentByte := by
  obtain ⟨word, hword, hn⟩ := slice_length_word s currentByte 0 before after hstore hcur
    (by omega)
  unfold scan readItem
  by_cases hg : currentByte + 4 > bound
  · rw [if_pos hg]
  · rw [if_neg hg, hword]
    simp only [hn, if_true]

theorem replicate_zero_word (zeros : Nat) (h : 4 ≤ zeros) :
    List.replicate zeros 0 = putUint32 0 ++ List.replicate (zeros - 4) 0 := by
  obtain ⟨m, rfl⟩ : ∃ m, zeros = 4 + m := ⟨zeros - 4, by omega⟩
  rw [List.replicate_add, Nat.add_sub_cancel_left]
  rfl

/-- C26: for keys whose encodings are non-empty and round-trip through
`MarshalBinary`/`UnmarshalBinary`, `UnMarshalPublicKeyArrayFromByteArray`
applied to the bytes of `MarshalPublicKeyArrayToByteArray` followed by any
number of zero bytes returns the keys in order, provided the type word
`MESSAGE_TYPE_PUBLICKEYS` is 2; with any other type word it returns the error
"Wrong message type". Buffers are shorter than 2^32 bytes. -/
theorem public_key_array_round_trip (c : PointCodec) (k : NetConstants) (keys : List Point)
    (zeros : Nat) (after : Bytes)
    (hkeys : ∀ key ∈ keys, c.UnmarshalBinary (c.MarshalBinary key) = some key ∧
      0 < (c.MarshalBinary key).length)
    (hsmall : (MarshalPublicKeyArrayToByteArray c k keys).length + zeros < 4294967296)
    (hword : 0 ≤ k.MESSAGE_TYPE_PUBLICKEYS ∧ k.MESSAGE_TYPE_PUBLICKEYS < 4294967296) :
    (k.MESSAGE_TYPE_PUBLICKEYS = 2 →
      UnMarshalPublicKeyArrayFromByteArray c
        { store := MarshalPublicKeyArrayToByteArray c k keys ++ List.replicate zeros 0 ++ after,
          len := (MarshalPublicKeyArrayToByteArray c k keys).length + zeros } =
        .done (some keys, none)) ∧
    (k.MESSAGE_TYPE_PUBLICKEYS ≠ 2 →
      UnMarshalPublicKeyArrayFromByteArray c
        { store := MarshalPublicKeyArrayToByteArray c k keys ++ List.replicate zeros 0 ++ after,
          len := (MarshalPublicKeyArrayToByteArray c k keys).length + zeros } =
        .done (none, some "Wrong message type")) := by
  have hpacked := MarshalPublicKeyArray_packed c k keys
  have hlen : (MarshalPublicKeyArrayToByteArray c k keys).length =
      4 + (packItems c.MarshalBinary keys).length := by
    rw [hpacked, List.length_append, putUint32_length]
  have htype : toUint32 k.MESSAGE_TYPE_PUBLICKEYS < 4294967296 := by
    unfold toUint32
    omega
  obtain ⟨word, hw, hn⟩ := slice_length_word
    { store := MarshalPublicKeyArrayToByteArray c k keys ++ List.replicate zeros 0 ++ after,
      len := (MarshalPublicKeyArrayToByteArray c k keys).length + zeros } 0
    (toUint32 k.MESSAGE_TYPE_PUBLICKEYS) []
    (packItems c.MarshalBinary keys ++ List.replicate zeros 0 ++ after)
    (by simp [hpacked]) rfl htype
  refine ⟨?_, ?_⟩
  · intro hk
    have h2 : toUint32 k.MESSAGE_TYPE_PUBLICKEYS = 2 := by rw [hk]; rfl
    rw [h2] at hn
    have hcount := packItems_length_ge c.MarshalBinary keys
    unfold UnMarshalPublicKeyArrayFromByteArray
    rw [show (4 : Nat) = 0 + 4 from rfl, hw]
    simp only [hn, ne_eq, not_true_eq_false, if_false, Nat.zero_add]
    have hfuel : (MarshalPublicKeyArrayToByteArray c k keys).length + zeros + 1 =
        ((MarshalPublicKeyArrayToByteArray c k keys).length + zeros - keys.length) + 1 +
          keys.length := by
      omega
    rw [hfuel, scan_free (unmarshalItem c) c.MarshalBinary id _ _ (by omega) keys _ 4 []
      (putUint32 2) (List.replicate zeros 0 ++ after) (by simp [hpacked, h2]) rfl
      (fun key hkey => (hkeys key hkey).2)
      (by omega)
      (fun key hkey rest => unmarshalItem_packed c key (hkeys key hkey).1 rest)]
    by_cases hz : 4 ≤ zeros
    · rw [scan_stop_zero _ _ _ _ _ _ _ _
        (putUint32 2 ++ packItems c.MarshalBinary keys) (List.replicate (zeros - 4) 0 ++ after)
        (by simp only [hpacked, h2]
            rw [replicate_zero_word zeros hz]
            simp only [List.append_assoc])
        (by rw [List.length_append, putUint32_length])]
      simp
    · rw [scan_stop_guard _ _ _ _ _ _ _ _ (by omega)]
      simp
  · intro hk
    have h2 : toUint32 k.MESSAGE_TYPE_PUBLICKEYS ≠ 2 := by
      unfold toUint32
      omega
    unfold UnMarshalPublicKeyArrayFromByteArray
    rw [show (4 : Nat) = 0 + 4 from rfl, hw]
    simp only [hn]
    rw [if_pos h2]

/-- Witness for C26: three sample keys followed by five zero bytes are read
back. -/
theorem public_key_array_round_trip_witness :
    UnMarshalPublicKeyArrayFromByteArray samplePointCodec
      { store := MarshalPublicKeyArrayToByteArray samplePointCodec sampleNetConstants [5, 6, 7] ++
          List.replicate 5 0 ++ [1, 2, 3],
        len := (MarshalPublicKeyArrayToByteArray samplePointCodec sampleNetConstants
          [5, 6, 7]).length + 5 } = .done (some [5, 6, 7], none) :=
  (public_key_array_round_trip samplePointCodec sampleNetConstants [5, 6, 7] 5 [1, 2, 3]
    (by decide) (by decide) (by decide)).1 rfl

/-! ## Claims on the descriptions of the group file -/

theorem splitFields_ne_nil (sep : Char) (l : List Char) : splitFields sep l ≠ [] := by
  cases l with
  | nil => simp [splitFields]
  | cons ch rest =>
    unfold splitFields
    split
    · simp
    · split <;> simp

theorem splitFields_free (sep : Char) : ∀ l : List Char, sep ∉ l → splitFields sep l = [l] := by
  intro l
  induction l with
  | nil => intro _; rfl
  | cons ch rest ih =>
    intro h
    have h1 : ch ≠ sep := fun e => h (by rw [e]; exact List.mem_cons_self _ _)
    have h2 : sep ∉ rest := fun e => h (List.mem_cons_of_mem _ e)
    unfold splitFields
    rw [if_neg h1, ih h2]

theorem splitFields_append (sep : Char) (b : List Char) :
    ∀ a : List Char, sep ∉ a → splitFields sep (a ++ sep :: b) = a :: splitFields sep b := by
  intro a
  induction a with
  | nil =>
    intro _
    rw [List.nil_append, splitFields, if_pos rfl]
  | cons ch rest ih =>
    intro h
    have h1 : ch ≠ sep := fun e => h (by rw [e]; exact List.mem_cons_self _ _)
    have h2 : sep ∉ rest := fun e => h (List.mem_cons_of_mem _ e)
    rw [List.cons_append, splitFields, if_neg h1, ih h2]

/-- A text with one field has no separator; a text with two fields is the
first field, the separator and the second field. -/
theorem splitFields_shape (sep : Char) :
    ∀ l : List Char,
      (∀ a, splitFields sep l = [a] → l = a) ∧
      (∀ a b, splitFields sep l = [a, b] → l = a ++ sep :: b) := by
  intro l
  induction l with
  | nil =>
    refine ⟨?_, ?_⟩
    · intro a h
      simp only [splitFields, List.cons.injEq, and_true] at h
      exact h
    · intro a b h
      simp [splitFields] at h
  | cons ch rest ih =>
    obtain ⟨ih1, ih2⟩ := ih
    by_cases hc : ch = sep
    · refine ⟨?_, ?_⟩
      · intro a h
        rw [splitFields, if_pos hc] at h
        simp only [List.cons.injEq] at h
        exact absurd h.2 (splitFields_ne_nil sep rest)
      · intro a b h
        rw [splitFields, if_pos hc] at h
        simp only [List.cons.injEq] at h
        obtain ⟨h1, h2⟩ := h
        subst h1
        rw [ih1 b h2, hc]
        rfl
    · cases hrest : splitFields sep rest with
      | nil => exact absurd hrest (splitFields_ne_nil sep rest)
      | cons first later =>
        refine ⟨?_, ?_⟩
        · intro a h
          rw [splitFields, if_neg hc, hrest] at h
          simp only [List.cons.injEq] at h
          obtain ⟨h1, h2⟩ := h
          subst h1 h2
          rw [ih1 first hrest]
        · intro a b h
          rw [splitFields, if_neg hc, hrest] at h
          simp only [List.cons.injEq] at h
          obtain ⟨h1, h2⟩ := h
          subst h1 h2
          rw [ih2 first b hrest]
          rfl

theorem Split_one (description role : String) (h : Split description = [role]) :
    description = role := by
  unfold Split at h
  cases hs : splitFields ' ' description.data with
  | nil => exact absurd hs (splitFields_ne_nil _ _)
  | cons a rest =>
    rw [hs] at h
    cases rest with
    | cons b later => simp at h
    | nil =>
      simp only [List.map_cons, List.map_nil, List.cons.injEq, and_true] at h
      rw [← h]
      exact String.ext ((splitFields_shape ' ' description.data).1 a hs)

theorem Split_two (description role number : String) (h : Split description = [role, number]) :
    description = role ++ " " ++ number := by
  unfold Split at h
  cases hs : splitFields ' ' description.data with
  | nil => exact absurd hs (splitFields_ne_nil _ _)
  | cons a rest =>
    rw [hs] at h
    cases rest with
    | nil => simp at h
    | cons b later =>
      cases later with
      | cons _ _ => simp at h
      | nil =>
        simp only [List.map_cons, List.map_nil, List.cons.injEq, and_true] at h
        obtain ⟨h1, h2⟩ := h
        rw [← h1, ← h2]
        apply String.ext
        rw [(splitFields_shape ' ' description.data).2 a b hs]
        simp only [String.data_append]
        rw [List.append_assoc]
        rfl

theorem Split_role_number (role number : String) (h1 : ' ' ∉ role.data)
    (h2 : ' ' ∉ number.data) : Split (role ++ " " ++ number) = [role, number] := by
  unfold Split
  have hdata : (role ++ " " ++ number).data = role.data ++ ' ' :: number.data := by
    simp only [String.data_append]
    rw [List.append_assoc]
    rfl
  rw [hdata, splitFields_append ' ' number.data role.data h1, splitFields_free ' ' _ h2]
  rfl

/-- C22: with `strconv.Atoi` accepting no string that contains a space,
`parseDescription` gives role Relay and id 0 on "relay", role Client
(Trustee) and id `n` on "client " ("trustee ") followed by a string that
`Atoi` converts to `n`, and on every other string a nil identity and an
error. -/
theorem parseDescription_accepts_exactly (Atoi : String → Option Int)
    (hAtoi : ∀ w n, Atoi w = some n → ' ' ∉ w.data) :
    parseDescription Atoi "relay" = (some { Role := .Relay, Id := 0 }, none) ∧
    (∀ w n, Atoi w = some n →
      parseDescription Atoi ("client" ++ " " ++ w) = (some { Role := .Client, Id := n }, none) ∧
      parseDescription Atoi ("trustee" ++ " " ++ w) =
        (some { Role := .Trustee, Id := n }, none)) ∧
    (∀ d, d ≠ "relay" →
      (∀ w n, Atoi w = some n → d ≠ "client" ++ " " ++ w ∧ d ≠ "trustee" ++ " " ++ w) →
      ∃ e, parseDescription Atoi d = (none, some e)) := by
  refine ⟨rfl, ?_, ?_⟩
  · intro w n hw
    have hfree := hAtoi w n hw
    refine ⟨?_, ?_⟩
    · unfold parseDescription
      rw [Split_role_number "client" w (by decide) hfree]
      simp only [hw, if_true]
    · unfold parseDescription
      rw [Split_role_number "trustee" w (by decide) hfree]
      simp only [hw]
      rw [if_neg (by decide)]
      simp only [if_true]
  · intro d hrelay hother
    unfold parseDescription
    split
    · rename_i role hsplit
      have hd := Split_one d role hsplit
      rw [if_neg (by rw [← hd]; exact hrelay)]
      exact ⟨_, rfl⟩
    · rename_i role number hsplit
      have hd := Split_two d role number hsplit
      cases hn : Atoi number with
      | none => exact ⟨_, rfl⟩
      | some n =>
        simp only []
        obtain ⟨hc, ht⟩ := hother number n hn
        rw [if_neg (fun e => hc (by rw [hd, e])), if_neg (fun e => ht (by rw [hd, e]))]
        exact ⟨_, rfl⟩
    · exact ⟨_, rfl⟩

/-- Witness for C22: the sample `Atoi` accepts no string with a space, and
"client 12" parses to the client 12. -/
theorem parseDescription_accepts_exactly_witness :
    parseDescription sampleAtoi ("client" ++ " " ++ "12") =
      (some { Role := .Client, Id := 12 }, none) :=
  ((parseDescription_accepts_exactly sampleAtoi (by
    intro w n h hmem
    unfold sampleAtoi at h
    split at h
    · rename_i hd
      have := List.all_eq_true.mp hd.2 ' ' hmem
      exact absurd this (by decide)
    · cases h)).2.1 "12" 12 (by decide)).1

/-! ## Claims on the identities of the group file -/

theorem parseDescription_total (Atoi : String → Option Int) (d : String) :
    (∃ id, parseDescription Atoi d = (some id, none)) ∨
      (∃ e, parseDescription Atoi d = (none, some e)) := by
  unfold parseDescription
  split
  · split
    · exact Or.inl ⟨_, rfl⟩
    · exact Or.inr ⟨_, rfl⟩
  · split
    · exact Or.inr ⟨_, rfl⟩
    · split
      · exact Or.inl ⟨_, rfl⟩
      · split
        · exact Or.inl ⟨_, rfl⟩
        · exact Or.inr ⟨_, rfl⟩
  · exact Or.inr ⟨_, rfl⟩

theorem mapSet_fresh (m : List (String × PriFiIdentity)) (key : String) (value : PriFiIdentity)
    (h : ∀ e ∈ m, e.1 ≠ key) : mapSet m key value = (key, value) :: m := by
  unfold mapSet
  rw [List.filter_eq_self.mpr (fun e he => by simpa using h e he)]

theorem countRole_cons (m : List (String × PriFiIdentity)) (key : String) (value : PriFiIdentity)
    (role : PriFiRole) :
    countRole ((key, value) :: m) role =
      countRole m role + (if value.Role = role then 1 else 0) := by
  unfold countRole
  by_cases h : value.Role = role
  · rw [List.filter_cons_of_pos (by simpa using h), if_pos h, List.length_cons]
  · rw [List.filter_cons_of_neg (by simpa using h), if_neg h, Nat.add_zero]

/-- The first loop of `mapIdentities` on nodes with distinct addresses, none
of them a key of the map yet. -/
theorem identityLoop_spec (Atoi : String → Option Int) (group : Group) :
    ∀ (nodes : List ServerIdentity) (m : List (String × PriFiIdentity))
      (relay : Option ServerIdentity),
      (nodes.map (fun si => si.Address)).Nodup →
      (∀ si ∈ nodes, ∀ e ∈ m, e.1 ≠ si.Address) →
      ∃ m' relay', identityLoop Atoi group.GetDescription nodes (m, relay) = .done (m', relay') ∧
        (∀ address id, (address, id) ∈ m' ↔ ((address, id) ∈ m ∨ ∃ si ∈ nodes,
          si.Address = address ∧
            parseDescription Atoi (group.GetDescription si) = (some id, none))) ∧
        (∀ role, countRole m' role =
          countRole m role + (nodes.filter (parsesAs Atoi group role)).length) ∧
        ((relay' = relay ∧ ∀ si ∈ nodes, parsesAs Atoi group .Relay si = false) ∨
          (∃ si ∈ nodes, relay' = some si ∧ parsesAs Atoi group .Relay si = true)) := by
  intro nodes
  induction nodes with
  | nil =>
    intro m relay _ _
    refine ⟨m, relay, rfl, ?_, ?_, Or.inl ⟨rfl, fun si h => by cases h⟩⟩
    · intro address id
      simp
    · intro role
      simp
  | cons si rest ih =>
    intro m relay hnodup hfresh
    rw [List.map_cons, List.nodup_cons] at hnodup
    obtain ⟨hsi, hrest⟩ := hnodup
    rcases parseDescription_total Atoi (group.GetDescription si) with ⟨id, hp⟩ | ⟨e, hp⟩
    · have hset := mapSet_fresh m si.Address id (hfresh si (List.mem_cons_self _ _))
      have hfresh' : ∀ sj ∈ rest, ∀ e ∈ (si.Address, id) :: m, e.1 ≠ sj.Address := by
        intro sj hsj e he
        rcases List.mem_cons.mp he with he | he
        · rw [he]
          intro heq
          exact hsi (List.mem_map.mpr ⟨sj, hsj, heq.symm⟩)
        · exact hfresh sj (List.mem_cons_of_mem _ hsj) e he
      obtain ⟨m', relay', hloop, hmem, hcount, hrelay⟩ := ih ((si.Address, id) :: m)
        (if id.Role = .Relay then some si else relay) hrest hfresh'
      have hpa : ∀ role, parsesAs Atoi group role si = decide (id.Role = role) := by
        intro role
        unfold parsesAs
        rw [hp]
      refine ⟨m', relay', ?_, ?_, ?_, ?_⟩
      · unfold identityLoop
        rw [hp]
        simp only []
        rw [hset]
        exact hloop
      · intro address id'
        rw [hmem address id']
        constructor
        · rintro (h | ⟨sj, hsj, h1, h2⟩)
          · rcases List.mem_cons.mp h with h | h
            · simp only [Prod.mk.injEq] at h
              exact Or.inr ⟨si, List.mem_cons_self _ _, h.1.symm, by rw [hp, h.2]⟩
            · exact Or.inl h
          · exact Or.inr ⟨sj, List.mem_cons_of_mem _ hsj, h1, h2⟩
        · rintro (h | ⟨sj, hsj, h1, h2⟩)
          · exact Or.inl (List.mem_cons_of_mem _ h)
          · rcases List.mem_cons.mp hsj with hsj | hsj
            · subst hsj
              rw [hp] at h2
              simp only [Prod.mk.injEq, Option.some.injEq, and_true] at h2
              exact Or.inl (by rw [← h1, ← h2]; exact List.mem_cons_self _ _)
            · exact Or.inr ⟨sj, hsj, h1, h2⟩
      · intro role
        rw [hcount role, countRole_cons]
        by_cases hr : id.Role = role
        · rw [if_pos hr, List.filter_cons_of_pos (by rw [hpa]; simpa using hr), List.length_cons]
          omega
        · rw [if_neg hr, List.filter_cons_of_neg (by rw [hpa]; simpa using hr)]
          omega
      · rcases hrelay with ⟨h1, h2⟩ | ⟨sj, hsj, h1, h2⟩
        · by_cases hr : id.Role = .Relay
          · rw [if_pos hr] at h1
            exact Or.inr ⟨si, List.mem_cons_self _ _, h1, by rw [hpa]; simpa using hr⟩
          · rw [if_neg hr] at h1
            refine Or.inl ⟨h1, ?_⟩
            intro sj hsj
            rcases List.mem_cons.mp hsj with hsj | hsj
            · rw [hsj, hpa]
              simpa using hr
            · exact h2 sj hsj
        · exact Or.inr ⟨sj, List.mem_cons_of_mem _ hsj, h1, h2⟩
    · obtain ⟨m', relay', hloop, hmem, hcount, hrelay⟩ := ih m relay hrest
        (fun sj hsj => hfresh sj (List.mem_cons_of_mem _ hsj))
      have hpa : ∀ role, parsesAs Atoi group role si = false := by
        intro role
        unfold parsesAs
        rw [hp]
      refine ⟨m', relay', ?_, ?_, ?_, ?_⟩
      · unfold identityLoop
        rw [hp]
        exact hloop
      · intro address id'
        rw [hmem address id']
        constructor
        · rintro (h | ⟨sj, hsj, h1, h2⟩)
          · exact Or.inl h
          · exact Or.inr ⟨sj, List.mem_cons_of_mem _ hsj, h1, h2⟩
        · rintro (h | ⟨sj, hsj, h1, h2⟩)
          · exact Or.inl h
          · rcases List.mem_cons.mp hsj with hsj | hsj
            · subst hsj
              rw [hp] at h2
              simp at h2
            · exact Or.inr ⟨sj, hsj, h1, h2⟩
      · intro role
        rw [hcount role, List.filter_cons_of_neg (by rw [hpa]; simp)]
      · rcases hrelay with ⟨h1, h2⟩ | ⟨sj, hsj, h1, h2⟩
        · refine Or.inl ⟨h1, ?_⟩
          intro sj hsj
          rcases List.mem_cons.mp hsj with hsj | hsj
          · rw [hsj, hpa]
          · exact h2 sj hsj
        · exact Or.inr ⟨sj, List.mem_cons_of_mem _ hsj, h1, h2⟩

/-- Counterexample for C21: in the sample roster two nodes describe themselves
as the relay and share one address; `mapIdentities` returns normally, with a
map of three entries. -/
theorem shared_address_two_relays_accepted :
    mapIdentities sampleAtoi sampleSharedAddressGroup =
        .done ([("C", ⟨.Client, 0⟩), ("B", ⟨.Trustee, 0⟩), ("A", ⟨.Relay, 0⟩)], some ⟨2, "A"⟩) ∧
      (sampleSharedAddressGroup.List.filter
        (parsesAs sampleAtoi sampleSharedAddressGroup .Relay)).length = 2 :=
  ⟨by decide, by decide⟩

/-- C21: for a roster in which no two nodes share an address, `mapIdentities`
returns normally exactly when one node parses as the relay, at least one as a
trustee and at least one as a client, and reaches `log.Fatal` otherwise; on
return the map holds exactly the nodes whose description parsed, each under
its address with its parsed identity, and the relay returned is the one node
mapped to role Relay. -/
theorem mapIdentities_distinct_addresses (Atoi : String → Option Int) (group : Group)
    (hnodup : (group.List.map (fun si => si.Address)).Nodup) :
    ((∃ r, mapIdentities Atoi group = .done r) ↔
      ((group.List.filter (parsesAs Atoi group .Relay)).length = 1 ∧
        0 < (group.List.filter (parsesAs Atoi group .Trustee)).length ∧
        0 < (group.List.filter (parsesAs Atoi group .Client)).length)) ∧
    ((∀ r, mapIdentities Atoi group ≠ .done r) → mapIdentities Atoi group = .exited
      "Config file does not contain exactly one relay and at least one trustee and client.") ∧
    (∀ m relay, mapIdentities Atoi group = .done (m, relay) →
      (∀ address id, (address, id) ∈ m ↔ ∃ si ∈ group.List, si.Address = address ∧
        parseDescription Atoi (group.GetDescription si) = (some id, none)) ∧
      ∃ si ∈ group.List, relay = some si ∧ parsesAs Atoi group .Relay si = true ∧
        ∃ id, id.Role = .Relay ∧ (si.Address, id) ∈ m ∧
          ∀ e ∈ m, e.2.Role = .Relay → e = (si.Address, id)) := by
  obtain ⟨m', relay', hloop, hmem, hcount, hrelay⟩ := identityLoop_spec Atoi group group.List []
    none hnodup (fun _ _ e he => by cases he)
  have hzero : ∀ role, countRole ([] : List (String × PriFiIdentity)) role = 0 := fun _ => rfl
  have hshape : mapIdentities Atoi group =
      if ¬(countRole m' .Trustee > 0 ∧ countRole m' .Client > 0 ∧ countRole m' .Relay = 1) then
        .exited
          "Config file does not contain exactly one relay and at least one trustee and client."
      else .done (m', relay') := by
    unfold mapIdentities
    rw [hloop]
  have ht := hcount .Trustee
  have hc := hcount .Client
  have hr := hcount .Relay
  rw [hzero, Nat.zero_add] at ht hc hr
  rw [ht, hc, hr] at hshape
  by_cases hcond : (group.List.filter (parsesAs Atoi group .Trustee)).length > 0 ∧
      (group.List.filter (parsesAs Atoi group .Client)).length > 0 ∧
      (group.List.filter (parsesAs Atoi group .Relay)).length = 1
  · rw [if_neg (not_not.mpr hcond)] at hshape
    refine ⟨⟨fun _ => ⟨hcond.2.2, hcond.1, hcond.2.1⟩, fun _ => ⟨_, hshape⟩⟩, ?_, ?_⟩
    · intro hnot
      exact absurd hshape (hnot _)
    · intro m relay hdone
      rw [hshape] at hdone
      simp only [Run.done.injEq, Prod.mk.injEq] at hdone
      obtain ⟨hm, hrel⟩ := hdone
      subst hm hrel
      refine ⟨?_, ?_⟩
      · intro address id
        rw [hmem address id]
        simp
      · rcases hrelay with ⟨_, hnone⟩ | ⟨si, hsi, h1, h2⟩
        · have : group.List.filter (parsesAs Atoi group .Relay) = [] :=
            List.filter_eq_nil_iff.mpr (fun si hsi => by rw [hnone si hsi]; simp)
          rw [this] at hcond
          simp at hcond
        · refine ⟨si, hsi, h1, h2, ?_⟩
          have hparse : ∃ id, parseDescription Atoi (group.GetDescription si) = (some id, none) ∧
              id.Role = .Relay := by
            unfold parsesAs at h2
            split at h2
            · rename_i id heq
              exact ⟨id, heq, by simpa using h2⟩
            · cases h2
          obtain ⟨id, hp, hrole⟩ := hparse
          have hin : (si.Address, id) ∈ m' := (hmem _ _).mpr (Or.inr ⟨si, hsi, rfl, hp⟩)
          refine ⟨id, hrole, hin, ?_⟩
          have hone : countRole m' .Relay = 1 := by rw [hr]; exact hcond.2.2
          unfold countRole at hone
          obtain ⟨a, ha⟩ := List.length_eq_one.mp hone
          have hfirst : (si.Address, id) ∈ m'.filter (fun entry => decide (entry.2.Role = .Relay)) :=
            List.mem_filter.mpr ⟨hin, by simpa using hrole⟩
          rw [ha, List.mem_singleton] at hfirst
          intro e he hre
          have hsecond : e ∈ m'.filter (fun entry => decide (entry.2.Role = .Relay)) :=
            List.mem_filter.mpr ⟨he, by simpa using hre⟩
          rw [ha, List.mem_singleton] at hsecond
          rw [hsecond, hfirst]
  · rw [if_pos hcond] at hshape
    refine ⟨⟨?_, fun h => absurd ⟨h.2.1, h.2.2, h.1⟩ hcond⟩, fun _ => hshape, ?_⟩
    · rintro ⟨r, hdone⟩
      rw [hshape] at hdone
      cases hdone
    · intro m relay hdone
      rw [hshape] at hdone
      cases hdone

/-- Witness for C21: the sample roster has five distinct addresses; the call
returns the relay at address "A". -/
theorem mapIdentities_distinct_addresses_witness :
    ∃ r, mapIdentities sampleAtoi sampleGroup = .done r :=
  (mapIdentities_distinct_addresses sampleAtoi sampleGroup (by decide)).1.mpr
    ⟨by decide, by decide, by decide⟩

/-! ## Claims on the running flag of the relay service -/

theorem stopPriFi_running (s : Service) (wrapper : Nat) (hrole : s.role = .Relay)
    (hrun : s.isPrifiRunning = true) (hw : s.prifiWrapper = some wrapper) :
    stopPriFi s = ({ s with prifiWrapper := none, isPrifiRunning := false }, [.stop wrapper]) := by
  unfold stopPriFi
  rw [if_neg (by rw [hrole]; simp), hrun, hw]

/-- After the queue is set, a stop when the protocol runs and a start when the
queue is long enough, the flag says whether the queue is long enough. -/
theorem restart_keeps (created : Option Nat) (s : Service) (queue : WaitQueue)
    (hrole : s.role = .Relay) (hw : s.isPrifiRunning = true → s.prifiWrapper ≠ none)
    (hend : (startPriFi created
      (if s.isPrifiRunning = true then stopPriFi { s with waitQueue := some queue }
        else ({ s with waitQueue := some queue }, [])).1).ending = .returned)
    (henough : 2 ≤ queue.clients.card ∧ 1 ≤ queue.trustees.card) :
    RunningWhenEnough (startPriFi created
      (if s.isPrifiRunning = true then stopPriFi { s with waitQueue := some queue }
        else ({ s with waitQueue := some queue }, [])).1).service := by
  have hstopped : ∃ t : Service, (if s.isPrifiRunning = true then
        stopPriFi { s with waitQueue := some queue }
      else ({ s with waitQueue := some queue }, [])).1 = t ∧ t.role = .Relay ∧
      t.waitQueue = some queue := by
    by_cases hrun : s.isPrifiRunning = true
    · rw [if_pos hrun]
      obtain ⟨wrapper, hwr⟩ := Option.ne_none_iff_exists'.mp (hw hrun)
      rw [stopPriFi_running { s with waitQueue := some queue } wrapper hrole hrun hwr]
      exact ⟨_, rfl, hrole, rfl⟩
    · rw [if_neg hrun]
      exact ⟨_, rfl, hrole, rfl⟩
  obtain ⟨t, ht, trole, tqueue⟩ := hstopped
  rw [ht] at hend ⊢
  unfold startPriFi at hend ⊢
  rw [if_neg (by rw [trole]; simp), tqueue] at hend ⊢
  cases created with
  | none => cases hend
  | some wrapper =>
    exact ⟨trole, queue, rfl, ⟨fun _ => henough, fun _ => rfl⟩, fun _ => by simp⟩

/-- The part of `HandleConnection` after the queue is set. -/
theorem connection_tail_keeps (created : Option Nat) (s : Service) (queue queue' : WaitQueue)
    (hrole : s.role = .Relay)
    (hiff : s.isPrifiRunning = true ↔ 2 ≤ queue.clients.card ∧ 1 ≤ queue.trustees.card)
    (hw : s.isPrifiRunning = true → s.prifiWrapper ≠ none)
    (hmono : queue.clients.card ≤ queue'.clients.card ∧
      queue.trustees.card ≤ queue'.trustees.card)
    (hend : (if 2 ≤ queue'.clients.card ∧ 1 ≤ queue'.trustees.card then
        ({ service := (startPriFi created
            (if s.isPrifiRunning = true then stopPriFi { s with waitQueue := some queue' }
              else ({ s with waitQueue := some queue' }, [])).1).service,
           events := (if s.isPrifiRunning = true then stopPriFi { s with waitQueue := some queue' }
              else ({ s with waitQueue := some queue' }, [])).2 ++
            (startPriFi created
              (if s.isPrifiRunning = true then stopPriFi { s with waitQueue := some queue' }
                else ({ s with waitQueue := some queue' }, [])).1).events,
           ending := (startPriFi created
            (if s.isPrifiRunning = true then stopPriFi { s with waitQueue := some queue' }
              else ({ s with waitQueue := some queue' }, [])).1).ending } : ServiceStep)
      else { service := { s with waitQueue := some queue' }, events := [],
             ending := .returned }).ending = .returned) :
    RunningWhenEnough (if 2 ≤ queue'.clients.card ∧ 1 ≤ queue'.trustees.card then
        ({ service := (startPriFi created
            (if s.isPrifiRunning = true then stopPriFi { s with waitQueue := some queue' }
              else ({ s with waitQueue := some queue' }, [])).1).service,
           events := (if s.isPrifiRunning = true then stopPriFi { s with waitQueue := some queue' }
              else ({ s with waitQueue := some queue' }, [])).2 ++
            (startPriFi created
              (if s.isPrifiRunning = true then stopPriFi { s with waitQueue := some queue' }
                else ({ s with waitQueue := some queue' }, [])).1).events,
           ending := (startPriFi created
            (if s.isPrifiRunning = true then stopPriFi { s with waitQueue := some queue' }
              else ({ s with waitQueue := some queue' }, [])).1).ending } : ServiceStep)
      else { service := { s with waitQueue := some queue' }, events := [],
             ending := .returned }).service := by
  by_cases henough : 2 ≤ queue'.clients.card ∧ 1 ≤ queue'.trustees.card
  · rw [if_pos henough] at hend ⊢
    exact restart_keeps created s queue' hrole hw hend henough
  · rw [if_neg henough]
    refine ⟨hrole, queue', rfl, ⟨fun hrun => ?_, fun he => absurd he henough⟩, hw⟩
    have := hiff.mp hrun
    exact absurd ⟨by omega, by omega⟩ henough

/-- The part of `HandleDisconnection` after the queue is set. -/
theorem disconnection_tail_keeps (created : Option Nat) (s : Service) (queue' : WaitQueue)
    (hrole : s.role = .Relay) (hw : s.isPrifiRunning = true → s.prifiWrapper ≠ none)
    (hend : (if 2 ≤ queue'.clients.card ∧ 1 ≤ queue'.trustees.card then
        ({ service := (startPriFi created
            (if s.isPrifiRunning = true then stopPriFi { s with waitQueue := some queue' }
              else ({ s with waitQueue := some queue' }, [])).1).service,
           events := (if s.isPrifiRunning = true then stopPriFi { s with waitQueue := some queue' }
              else ({ s with waitQueue := some queue' }, [])).2 ++
            (startPriFi created
              (if s.isPrifiRunning = true then stopPriFi { s with waitQueue := some queue' }
                else ({ s with waitQueue := some queue' }, [])).1).events,
           ending := (startPriFi created
            (if s.isPrifiRunning = true then stopPriFi { s with waitQueue := some queue' }
              else ({ s with waitQueue := some queue' }, [])).1).ending } : ServiceStep)
      else { service := (if s.isPrifiRunning = true then
              stopPriFi { s with waitQueue := some queue' }
            else ({ s with waitQueue := some queue' }, [])).1,
             events := (if s.isPrifiRunning = true then
              stopPriFi { s with waitQueue := some queue' }
            else ({ s with waitQueue := some queue' }, [])).2,
             ending := .returned }).ending = .returned) :
    RunningWhenEnough (if 2 ≤ queue'.clients.card ∧ 1 ≤ queue'.trustees.card then
        ({ service := (startPriFi created
            (if s.isPrifiRunning = true then stopPriFi { s with waitQueue := some queue' }
              else ({ s with waitQueue := some queue' }, [])).1).service,
           events := (if s.isPrifiRunning = true then stopPriFi { s with waitQueue := some queue' }
              else ({ s with waitQueue := some queue' }, [])).2 ++
            (startPriFi created
              (if s.isPrifiRunning = true then stopPriFi { s with waitQueue := some queue' }
                else ({ s with waitQueue := some queue' }, [])).1).events,
           ending := (startPriFi created
            (if s.isPrifiRunning = true then stopPriFi { s with waitQueue := some queue' }
              else ({ s with waitQueue := some queue' }, [])).1).ending } : ServiceStep)
      else { service := (if s.isPrifiRunning = true then
              stopPriFi { s with waitQueue := some queue' }
            else ({ s with waitQueue := some queue' }, [])).1,
             events := (if s.isPrifiRunning = true then
              stopPriFi { s with waitQueue := some queue' }
            else ({ s with waitQueue := some queue' }, [])).2,
             ending := .returned }).service := by
  by_cases henough : 2 ≤ queue'.clients.card ∧ 1 ≤ queue'.trustees.card
  · rw [if_pos henough] at hend ⊢
    exact restart_keeps created s queue' hrole hw hend henough
  · rw [if_neg henough]
    by_cases hrun : s.isPrifiRunning = true
    · rw [if_pos hrun]
      obtain ⟨wrapper, hwr⟩ := Option.ne_none_iff_exists'.mp (hw hrun)
      rw [stopPriFi_running { s with waitQueue := some queue' } wrapper hrole hrun hwr]
      exact ⟨hrole, queue', rfl, ⟨fun he => Bool.noConfusion he, fun he => absurd he henough⟩,
        fun he => Bool.noConfusion he⟩
    · rw [if_neg hrun]
      exact ⟨hrole, queue', rfl, ⟨fun he => absurd he hrun, fun he => absurd he henough⟩, hw⟩

theorem HandleConnection_keeps (created : Option Nat) (s : Service) (sender : ServerIdentity)
    (h : RunningWhenEnough s) (hend : (HandleConnection created s sender).ending = .returned) :
    RunningWhenEnough (HandleConnection created s sender).service := by
  obtain ⟨hrole, queue, hq, hiff, hw⟩ := h
  unfold HandleConnection at hend ⊢
  rw [if_neg (by rw [hrole]; simp)] at hend ⊢
  cases hlook : s.identityMap.lookup sender.Address with
  | none => exact ⟨hrole, queue, hq, hiff, hw⟩
  | some id =>
    rw [hlook] at hend
    simp only [hq] at hend ⊢
    revert hend
    cases id.Role with
    | Relay =>
      intro hend
      exact connection_tail_keeps created s queue queue hrole hiff hw
        ⟨Nat.le_refl _, Nat.le_refl _⟩ hend
    | Client =>
      intro hend
      exact connection_tail_keeps created s queue
        { queue with clients := insert sender.pointer queue.clients } hrole hiff hw
        ⟨Finset.card_le_card (Finset.subset_insert _ _), Nat.le_refl _⟩ hend
    | Trustee =>
      intro hend
      exact connection_tail_keeps created s queue
        { queue with trustees := insert sender.pointer queue.trustees } hrole hiff hw
        ⟨Nat.le_refl _, Finset.card_le_card (Finset.subset_insert _ _)⟩ hend

theorem HandleDisconnection_keeps (created : Option Nat) (s : Service)
    (sender : ServerIdentity) (h : RunningWhenEnough s)
    (hend : (HandleDisconnection created s sender).ending = .returned) :
    RunningWhenEnough (HandleDisconnection created s sender).service := by
  obtain ⟨hrole, queue, hq, hiff, hw⟩ := h
  unfold HandleDisconnection at hend ⊢
  rw [if_neg (by rw [hrole]; simp)] at hend ⊢
  cases hlook : s.identityMap.lookup sender.Address with
  | none => exact ⟨hrole, queue, hq, hiff, hw⟩
  | some id =>
    rw [hlook] at hend
    simp only [hq] at hend ⊢
    revert hend
    cases id.Role with
    | Relay =>
      intro hend
      exact disconnection_tail_keeps created s queue hrole hw hend
    | Client =>
      intro hend
      exact disconnection_tail_keeps created s
        { queue with clients := queue.clients.erase sender.pointer } hrole hw hend
    | Trustee =>
      intro hend
      exact disconnection_tail_keeps created s
        { queue with trustees := queue.trustees.erase sender.pointer } hrole hw hend

theorem StartRelay_keeps (Atoi : String → Option Int) (role : PriFiRole) (group : Group)
    (hend : (StartRelay Atoi (newService role) group).ending = .returned) :
    RunningWhenEnough (StartRelay Atoi (newService role) group).service := by
  unfold StartRelay at hend ⊢
  cases hm : mapIdentities Atoi group with
  | done r =>
    refine ⟨rfl, ⟨∅, ∅⟩, rfl, ⟨fun he => Bool.noConfusion he, fun he => ?_⟩,
      fun he => Bool.noConfusion he⟩
    simp at he
  | crashed w => rw [hm] at hend; cases hend
  | exited w => rw [hm] at hend; cases hend
  | diverged => rw [hm] at hend; cases hend

/-- C28: in every state of the service reached from the return of
`StartRelay` on a new service by returning calls of `HandleConnection` and
`HandleDisconnection`, `isPrifiRunning` holds exactly when the wait queue has
at least 2 clients and at least 1 trustee, and when it holds `prifiWrapper`
is not nil. -/
theorem running_iff_enough_participants (Atoi : String → Option Int) (s : Service)
    (h : Reachable Atoi s) :
    ∃ queue, s.waitQueue = some queue ∧
      (s.isPrifiRunning = true ↔ (2 ≤ queue.clients.card ∧ 1 ≤ queue.trustees.card)) ∧
      (s.isPrifiRunning = true → s.prifiWrapper ≠ none) := by
  have hinv : RunningWhenEnough s := by
    induction h with
    | start role group hend => exact StartRelay_keeps Atoi role group hend
    | connection created s sender _ hend ih => exact HandleConnection_keeps created s sender ih hend
    | disconnection created s sender _ hend ih =>
      exact HandleDisconnection_keeps created s sender ih hend
  exact hinv.2

/-- Witness for C28: the relay started on the sample group, after the
connections of a client, of a trustee and of a second client, is a reachable
state in which the protocol runs; the property holds of it. -/
theorem running_iff_enough_participants_witness :
    sampleThreeNodes.isPrifiRunning = true ∧
    ∃ queue, sampleThreeNodes.waitQueue = some queue ∧
      (sampleThreeNodes.isPrifiRunning = true ↔
        (2 ≤ queue.clients.card ∧ 1 ≤ queue.trustees.card)) ∧
      (sampleThreeNodes.isPrifiRunning = true → sampleThreeNodes.prifiWrapper ≠ none) :=
  ⟨by decide, running_iff_enough_participants sampleAtoi sampleThreeNodes
    (Reachable.connection (some 7) sampleTwoNodes ⟨4, "D"⟩
      (Reachable.connection (some 7) sampleOneClient ⟨2, "B"⟩
        (Reachable.connection (some 7) sampleStarted ⟨3, "C"⟩
          (Reachable.start .Client sampleGroup (by decide)) (by decide)) (by decide))
      (by decide))⟩

/-! ## Claims on the lock of the peer table -/

/-- C27: on a host whose `PeerLock` is free, `ConnectTo` on a peer marked
ready takes the write lock and releases a read lock: the runtime ends the
program with "sync: RUnlock of unlocked RWMutex" and the write lock is still
held; `AddPendingPeer` on a name that is not pending returns its error with
the write lock still held, so that the next `Lock` waits; the maps are
unchanged in both. -/
theorem peer_lock_left_held (dialed : Except String Nat) (h : TCPHost) (parent name : String)
    (hfree : h.PeerLock = { writer := false, readers := 0 }) :
    (parent ∈ h.Ready →
      ConnectTo dialed h parent =
        { host := { h with PeerLock := { writer := true, readers := 0 } },
          ending := .crashed "sync: RUnlock of unlocked RWMutex" }) ∧
    (name ∉ h.PendingPeers →
      AddPendingPeer dialed h name =
        { host := { h with PeerLock := { writer := true, readers := 0 } },
          ending := .returned (some "error adding pending peer: not in pending peers") } ∧
      (AddPendingPeer dialed h name).host.PeerLock.Lock = none) := by
  refine ⟨?_, ?_⟩
  · intro hready
    unfold ConnectTo
    rw [hfree]
    simp only [RWMutex.Lock, RWMutex.RUnlock, and_self, if_true]
    rw [if_pos hready]
    simp
  · intro hpending
    have hcall : AddPendingPeer dialed h name =
        { host := { h with PeerLock := { writer := true, readers := 0 } },
          ending := .returned (some "error adding pending peer: not in pending peers") } := by
      unfold AddPendingPeer
      rw [hfree]
      simp only [RWMutex.Lock, and_self, if_true]
      rw [if_pos hpending]
    rw [hcall]
    exact ⟨rfl, rfl⟩

/-- Witness for C27: on the sample host, `ConnectTo` on the ready peer ends in
the runtime error, and `AddPendingPeer` on a name that is not pending returns
its error with the write lock held. -/
theorem peer_lock_left_held_witness :
    ConnectTo (.ok 9) sampleHost "n1:2000" =
        { host := { sampleHost with PeerLock := { writer := true, readers := 0 } },
          ending := .crashed "sync: RUnlock of unlocked RWMutex" } ∧
      (AddPendingPeer (.ok 9) sampleHost "n3:2000").host.PeerLock =
        { writer := true, readers := 0 } := by
  have h := peer_lock_left_held (.ok 9) sampleHost "n1:2000" "n3:2000" rfl
  refine ⟨h.1 (by decide), ?_⟩
  rw [(h.2 (by decide)).1]

end PriFi
